import Mathlib

/-!
# GFXReconstruct D3D12 replay core: shallow embedding and verified properties

Two parts of the replay engine are embedded:

* `Dx12ReplayConsumerBase` (framework/decode/dx12_replay_consumer_base.cpp): the object table,
  the address maps and the overrides that maintain them;
* `PreloadFileProcessor` (framework/decode/preload_file_processor.cpp): the block loop with its
  preload buffer.

Conventions of the embedding.

* Machine integers are natural numbers; a subtraction that can wrap is written with an explicit
  `% 2 ^ 64`.
* A pointer is a natural number, `0` standing for `nullptr`. A `DxObjectInfo*` argument is the
  capture id of the table entry it points to (every info lives in the object table); an id that
  is not in the table plays the role of the null pointer.
* An `assert` that fails, and a `reinterpret_cast` to a type the payload does not have, make the
  operation return `none`.
* Results of driver calls are extra arguments of the override that makes the call.
-/

set_option linter.unusedVariables false

namespace gfxrecon
namespace decode

/-- One byte of trace data or of host memory. -/
abbrev Byte := Fin 256

/-! ## Associative containers

`std::map` and `std::unordered_map` with integer keys are association lists. `find`, `assign`
(`operator[] =`) and `erase` follow the standard container semantics; no operation depends on
the iteration order. -/

namespace Map

/-- Lookup: `m.find(k)`, `none` standing for `m.end()`. -/
def find {β : Type} : List (Nat × β) → Nat → Option β
  | [], _ => none
  | (k', v) :: m, k => if k' = k then some v else find m k

/-- Assignment: `m[k] = v`: overwrite the entry with key `k`, or add one. -/
def assign {β : Type} : List (Nat × β) → Nat → β → List (Nat × β)
  | [], k, v => [(k, v)]
  | (k', v') :: m, k, v => if k' = k then (k, v) :: m else (k', v') :: assign m k v

/-- Removal: `m.erase(k)`: remove the entry with key `k`, if any. -/
def erase {β : Type} (m : List (Nat × β)) (k : Nat) : List (Nat × β) :=
  m.filter (fun e => decide (e.1 ≠ k))

/-- Membership of a key: `m.find(k) != m.end()`. -/
def contains {β : Type} (m : List (Nat × β)) (k : Nat) : Bool :=
  (find m k).isSome

end Map

/-! ## Data model of the replay consumer (decode/dx12_object_info.h, not part of the sources at
hand: the fields are the ones the overrides read and write) -/

/-- The type `format::HandleId`: a 64-bit capture id. -/
abbrev HandleId := Nat

/-- The type `HRESULT`; `SUCCEEDED(hr)` is `0 ≤ hr`. -/
abbrev HRESULT := Int

/-- The macro `SUCCEEDED`. -/
def SUCCEEDED (hr : HRESULT) : Bool := decide (0 ≤ hr)

/-- The constant `E_FAIL` (0x80004005 as a signed 32-bit value). -/
def E_FAIL : HRESULT := -2147467259

/-- The tag `DxObjectInfoType` of the extra info attached to an object. -/
inductive DxObjectInfoType
  | kUnused
  | kID3D12ResourceInfo
  | kID3D12DescriptorHeapInfo
  | kID3D12DeviceInfo
  | kIDxgiSwapchainInfo
  deriving DecidableEq, Repr

/-- Modelled from the spec: `MappedMemoryInfo`, the per-subresource record `{memory_id,
map_count}` of section 3 (its declaration is in dx12_object_info.h). The spec gives the counter
no width, so it is a natural number. -/
structure MappedMemoryInfo where
  count : Nat := 0
  memory_id : Nat := 0
  deriving DecidableEq, Repr

/-- Modelled from the spec: `D3D12ResourceInfo`, `{capture_va, replay_va, subresource ->
{memory_id, map_count}}`. -/
structure D3D12ResourceInfo where
  mapped_memory_info : List (Nat × MappedMemoryInfo) := []
  capture_address_ : Nat := 0
  replay_address_ : Nat := 0
  deriving DecidableEq, Repr

/-- Modelled from the spec: `D3D12DescriptorHeapInfo`, `{type, count, capture_cpu_begin,
replay_cpu_begin, capture_gpu_begin, replay_gpu_begin}` and "pointers into the shared increment
tables". A pointer to a shared table is the address of the table in the consumer's store
`increment_tables_`, `none` standing for the null pointer. -/
structure D3D12DescriptorHeapInfo where
  descriptor_type : Nat := 0
  descriptor_count : Nat := 0
  capture_increments : Option Nat := none
  replay_increments : Option Nat := none
  capture_cpu_addr_begin : Nat := 0
  replay_cpu_addr_begin : Nat := 0
  capture_gpu_addr_begin : Nat := 0
  replay_gpu_addr_begin : Nat := 0
  deriving DecidableEq, Repr

/-- Modelled from the spec: `D3D12DeviceInfo`, the two mappings `descriptor_heap_type ->
byte_increment` (capture time and replay time), "shared by reference with every descriptor-heap
extra-info that the device creates": the device info holds pointers to the two tables, which
live in the consumer's store `increment_tables_`. -/
structure D3D12DeviceInfo where
  capture_increments : Option Nat := none
  replay_increments : Option Nat := none
  deriving DecidableEq, Repr

/-- Modelled from the spec: `DxgiSwapchainInfo`, the owning `Window` handle. -/
structure DxgiSwapchainInfo where
  window : Nat := 0
  deriving DecidableEq, Repr

/-- The object behind the untyped `extra_info` pointer: what was allocated with `new`. -/
inductive ExtraInfo
  | resource (resource_info : D3D12ResourceInfo)
  | heap (heap_info : D3D12DescriptorHeapInfo)
  | device (device_info : D3D12DeviceInfo)
  | swapchain (swapchain_info : DxgiSwapchainInfo)
  deriving DecidableEq, Repr

/-- Modelled from the spec: `DxObjectInfo`, `{capture_id, object, ref_count, extra_info_type,
extra_info}`. `extra_info = none` is the null pointer. -/
structure DxObjectInfo where
  capture_id : HandleId := 0
  object : Nat := 0
  ref_count : Nat := 0
  extra_info_type : DxObjectInfoType := DxObjectInfoType.kUnused
  extra_info : Option ExtraInfo := none
  deriving DecidableEq, Repr

/-- The cast `reinterpret_cast<D3D12ResourceInfo*>(extra_info)` of a non-null pointer. -/
def ExtraInfo.asResource : ExtraInfo → Option D3D12ResourceInfo
  | ExtraInfo.resource r => some r
  | _ => none

/-- The cast `reinterpret_cast<D3D12DescriptorHeapInfo*>(extra_info)` of a non-null pointer. -/
def ExtraInfo.asHeap : ExtraInfo → Option D3D12DescriptorHeapInfo
  | ExtraInfo.heap h => some h
  | _ => none

/-- The cast `reinterpret_cast<D3D12DeviceInfo*>(extra_info)` of a non-null pointer. -/
def ExtraInfo.asDevice : ExtraInfo → Option D3D12DeviceInfo
  | ExtraInfo.device d => some d
  | _ => none

/-- The cast `reinterpret_cast<DxgiSwapchainInfo*>(extra_info)` of a non-null pointer. -/
def ExtraInfo.asSwapchain : ExtraInfo → Option DxgiSwapchainInfo
  | ExtraInfo.swapchain w => some w
  | _ => none

/-- The tag that goes with a payload. -/
def ExtraInfo.tag : ExtraInfo → DxObjectInfoType
  | ExtraInfo.resource _ => DxObjectInfoType.kID3D12ResourceInfo
  | ExtraInfo.heap _ => DxObjectInfoType.kID3D12DescriptorHeapInfo
  | ExtraInfo.device _ => DxObjectInfoType.kID3D12DeviceInfo
  | ExtraInfo.swapchain _ => DxObjectInfoType.kIDxgiSwapchainInfo

/-- Tag and payload agree, the way every override sets them (together): no payload goes with
`kUnused`, a payload goes with its own tag. -/
def DxObjectInfo.Consistent (info : DxObjectInfo) : Prop :=
  match info.extra_info with
  | none => info.extra_info_type = DxObjectInfoType.kUnused
  | some e => info.extra_info_type = e.tag

instance (info : DxObjectInfo) : Decidable info.Consistent := by
  unfold DxObjectInfo.Consistent
  cases info.extra_info <;> exact inferInstance

/-- Modelled from the spec: the object info table of section 4.D, `capture_id -> DxObjectInfo`
(class `Dx12ObjectInfoTable` is not part of the sources at hand). Every record is stored under
its own `capture_id`. -/
abbrev Dx12ObjectInfoTable := List DxObjectInfo

namespace Dx12ObjectInfoTable

/-- Modelled from the spec: lookup by capture id. -/
def find : Dx12ObjectInfoTable → HandleId → Option DxObjectInfo
  | [], _ => none
  | info :: t, id => if info.capture_id = id then some info else find t id

/-- Modelled from the spec: remove the record of a capture id. -/
def erase (t : Dx12ObjectInfoTable) (id : HandleId) : Dx12ObjectInfoTable :=
  t.filter (fun info => decide (info.capture_id ≠ id))

/-- A write through a `DxObjectInfo*`: the record stored under `info.capture_id` becomes
`info`. -/
def store : Dx12ObjectInfoTable → DxObjectInfo → Dx12ObjectInfoTable
  | [], _ => []
  | old :: t, info => if old.capture_id = info.capture_id then info :: t else old :: store t info

/-- Modelled from the spec: insert (on an object creation override). -/
def insert (t : Dx12ObjectInfoTable) (info : DxObjectInfo) : Dx12ObjectInfoTable :=
  match find t info.capture_id with
  | some _ => store t info
  | none => t ++ [info]

end Dx12ObjectInfoTable

/-- One range of the GPU virtual address map: `{replay_va, size, resource}` under a capture
address. -/
structure GpuVaRange where
  resource : Nat := 0
  capture_va : Nat := 0
  replay_va : Nat := 0
  size : Nat := 0
  deriving DecidableEq, Repr

/-- Modelled from the spec: `Dx12GpuVaMap`, the range map from capture-time GPU VA to
`{replay_va, size, resource}` of section 3 (graphics/dx12_gpu_va_map.h is not part of the
sources at hand). -/
abbrev Dx12GpuVaMap := List GpuVaRange

namespace Dx12GpuVaMap

/-- Modelled from the spec: `Dx12GpuVaMap::Remove(resource)`: no range of the resource is left
in the map ("After object removal, no address map retains any entry ..."). -/
def Remove (m : Dx12GpuVaMap) (resource : Nat) : Dx12GpuVaMap :=
  m.filter (fun r => decide (r.resource ≠ resource))

/-- Modelled from the spec: `Dx12GpuVaMap::Add(resource, capture_va, replay_va, desc)`; the size
of the range comes from the resource description. -/
def Add (m : Dx12GpuVaMap) (resource capture_va replay_va size : Nat) : Dx12GpuVaMap :=
  m ++ [{ resource := resource, capture_va := capture_va, replay_va := replay_va, size := size }]

/-- The map holds a range of the resource. -/
def containsResource (m : Dx12GpuVaMap) (resource : Nat) : Bool :=
  m.any (fun r => decide (r.resource = resource))

end Dx12GpuVaMap

/-- The arguments of a call `window_factory_->Create(x, y, width, height)`. -/
structure WindowRequest where
  x : Int := 0
  y : Int := 0
  width : Nat := 0
  height : Nat := 0
  deriving DecidableEq, Repr

/-- Modelled from the spec: the `WindowFactory` collaborator of section 4.H, seen through the
calls made on it: the windows it was asked to destroy, oldest first, and the windows it has
created, each with the request it was created for. -/
structure WindowFactory where
  destroyed : List Nat := []
  created : List (Nat × WindowRequest) := []
  deriving DecidableEq, Repr

/-- The call `window_factory_->Destroy(window)`. -/
def WindowFactory.Destroy (f : WindowFactory) (window : Nat) : WindowFactory :=
  { f with destroyed := f.destroyed ++ [window] }

/-- The state of a `Dx12ReplayConsumerBase`: the object table, the four address maps, the
active windows and the window factory. In the two descriptor maps the stored
`D3D12DescriptorHeapInfo*` is the capture id of the heap object that owns the info.
`increment_tables_` is the store of the descriptor increment tables that device infos and heap
infos share: a table is named by its position in the store, and a table is never taken out of
the store (a shared table lives as long as one owner does). -/
structure Dx12ReplayConsumerBase where
  object_info_table_ : Dx12ObjectInfoTable := []
  mapped_memory_ : List (Nat × Nat) := []
  descriptor_cpu_addresses_ : List (Nat × HandleId) := []
  descriptor_gpu_addresses_ : List (Nat × HandleId) := []
  gpu_va_map_ : Dx12GpuVaMap := []
  active_windows_ : List Nat := []
  window_factory_ : WindowFactory := {}
  increment_tables_ : List (List (Nat × Nat)) := []
  deriving DecidableEq, Repr

/-- Host memory: the bytes behind the pointers the driver returns from `Map`. -/
abbrev HostMemory := Nat → Byte

/-- The helper `util::platform::MemoryCopy(destination, destination_size, source, source_size)`
with `destination_size = source_size = size`: the `size` bytes of `source` go to
`destination ..< destination + size`. -/
def MemoryCopy (mem : HostMemory) (destination size : Nat) (source : List Byte) : HostMemory :=
  fun a => if destination ≤ a ∧ a < destination + size then source.getD (a - destination) 0 else mem a

/-- Modelled from the spec: `object_mapping::RemoveObject(capture_id, &object_info_table_)`, the
table's remove operation of section 4.D. -/
def object_mapping.RemoveObject (id : HandleId) (c : Dx12ReplayConsumerBase) :
    Dx12ReplayConsumerBase :=
  { c with object_info_table_ := c.object_info_table_.erase id }

/-- A decoded `D3D12_RANGE`. -/
structure D3D12_RANGE where
  Begin : Nat := 0
  End : Nat := 0
  deriving DecidableEq, Repr

/-- A `StructPointerDecoder<T>`: `GetPointer()` may be null. -/
structure StructPointerDecoder (α : Type) where
  pointer : Option α := none

/-- A `PointerDecoder<uint64_t, void*>`: `GetPointer()` is the captured memory id (or null),
`GetOutputPointer()` the slot the driver writes the host pointer to (or null). -/
structure PointerDecoder where
  pointer : Option Nat := none
  has_output_pointer : Bool := true
  deriving DecidableEq, Repr

namespace Dx12ReplayConsumerBase

/-- The member function `Dx12ReplayConsumerBase::ProcessFillMemoryCommand`. An unknown id
logs a warning and changes nothing. `GFXRECON_CHECK_CONVERSION_DATA_LOSS` only logs. -/
def ProcessFillMemoryCommand (c : Dx12ReplayConsumerBase) (mem : HostMemory)
    (memory_id offset size : Nat) (data : List Byte) : Dx12ReplayConsumerBase × HostMemory :=
  match Map.find c.mapped_memory_ memory_id with
  | some entry =>
    let copy_size := size
    let mapped_pointer := entry + offset
    (c, MemoryCopy mem mapped_pointer copy_size data)
  | none => (c, mem)

/-- The branch of `RemoveObject` run when `info->extra_info != nullptr`: purge the address maps
of what the extra info registered and delete it. The result is the consumer after the purge. -/
def DestroyExtraInfo (c : Dx12ReplayConsumerBase) (info : DxObjectInfo) (extra : ExtraInfo) :
    Option Dx12ReplayConsumerBase :=
  if info.extra_info_type = DxObjectInfoType.kID3D12ResourceInfo then
    match extra.asResource with
    | none => none
    | some resource_info =>
      let c1 :=
        if resource_info.capture_address_ ≠ 0 then
          { c with gpu_va_map_ := c.gpu_va_map_.Remove info.object }
        else c
      some { c1 with
        mapped_memory_ :=
          resource_info.mapped_memory_info.foldl
            (fun m entry => Map.erase m entry.2.memory_id) c1.mapped_memory_ }
  else if info.extra_info_type = DxObjectInfoType.kID3D12DescriptorHeapInfo then
    match extra.asHeap with
    | none => none
    | some heap_info =>
      some { c with
        descriptor_cpu_addresses_ :=
          Map.erase c.descriptor_cpu_addresses_ heap_info.capture_cpu_addr_begin
        descriptor_gpu_addresses_ :=
          Map.erase c.descriptor_gpu_addresses_ heap_info.capture_gpu_addr_begin }
  else if info.extra_info_type = DxObjectInfoType.kID3D12DeviceInfo then
    match extra.asDevice with
    | none => none
    | some _ => some c
  else if info.extra_info_type = DxObjectInfoType.kIDxgiSwapchainInfo then
    match extra.asSwapchain with
    | none => none
    | some swapchain_info =>
      some { c with
        window_factory_ := c.window_factory_.Destroy swapchain_info.window
        active_windows_ := c.active_windows_.filter (fun w => decide (w ≠ swapchain_info.window)) }
  else
    some c

/-- The member function `Dx12ReplayConsumerBase::RemoveObject`. `info` is the record the pointer
refers to (`none` for `nullptr`); the result is the consumer afterwards together with the record
as the function leaves it before the table entry goes away. -/
def RemoveObject (c : Dx12ReplayConsumerBase) (info : Option DxObjectInfo) :
    Option (Dx12ReplayConsumerBase × Option DxObjectInfo) :=
  match info with
  | none => some (c, none)
  | some info =>
    match info.extra_info with
    | some extra =>
      match DestroyExtraInfo c info extra with
      | none => none
      | some c1 =>
        let info1 :=
          { info with extra_info_type := DxObjectInfoType.kUnused, extra_info := none }
        some (object_mapping.RemoveObject info1.capture_id c1, some info1)
    | none => some (object_mapping.RemoveObject info.capture_id c, some info)

/-- The member function `Dx12ReplayConsumerBase::OverrideAddRef`; `driver_result` is what
`object->AddRef()` returns. -/
def OverrideAddRef (c : Dx12ReplayConsumerBase) (replay_object_info : HandleId)
    (original_result : Nat) (driver_result : Nat) : Option (Dx12ReplayConsumerBase × Nat) :=
  match c.object_info_table_.find replay_object_info with
  | none => none
  | some info =>
    if info.object = 0 then none
    else
      let info1 := { info with ref_count := info.ref_count + 1 }
      some ({ c with object_info_table_ := c.object_info_table_.store info1 }, driver_result)

/-- What `OverrideRelease` leaves behind: the consumer, the record behind `replay_object_info`
as last written, and the value returned. -/
structure ReleaseResult where
  consumer : Dx12ReplayConsumerBase
  info : DxObjectInfo
  result : Nat
  deriving DecidableEq, Repr

/-- The member function `Dx12ReplayConsumerBase::OverrideRelease`; `driver_result` is what
`object->Release()` returns. -/
def OverrideRelease (c : Dx12ReplayConsumerBase) (replay_object_info : HandleId)
    (original_result : Nat) (driver_result : Nat) : Option ReleaseResult :=
  match c.object_info_table_.find replay_object_info with
  | none => none
  | some info =>
    if info.object = 0 ∨ ¬ (info.ref_count > 0) then none
    else
      let info1 := { info with ref_count := info.ref_count - 1 }
      if info1.ref_count = 0 then
        match RemoveObject c (some info1) with
        | some (c1, some info2) => some { consumer := c1, info := info2, result := driver_result }
        | _ => none
      else
        some { consumer := { c with object_info_table_ := c.object_info_table_.store info1 }
               info := info1
               result := driver_result }

/-- The object's resource info as `OverrideGetGpuVirtualAddress` and `OverrideResourceMap`
obtain it: `reinterpret_cast<D3D12ResourceInfo*>(extra_info)`, a new `D3D12ResourceInfo` when that
is null, then the assert that the type is `kID3D12ResourceInfo`. -/
def resourceInfoOrNew (info : DxObjectInfo) : Option D3D12ResourceInfo :=
  match info.extra_info with
  | none => some {}
  | some extra =>
    if info.extra_info_type = DxObjectInfoType.kID3D12ResourceInfo then extra.asResource
    else none

/-- The member function `Dx12ReplayConsumerBase::OverrideResourceMap`. `result` is what the
driver's `Map` returns and `host_pointer` the value it leaves in `*data_pointer`. -/
def OverrideResourceMap (c : Dx12ReplayConsumerBase) (replay_object_info : HandleId)
    (original_result : HRESULT) (subresource : Nat)
    (read_range : Option (StructPointerDecoder D3D12_RANGE)) (data : Option PointerDecoder)
    (result : HRESULT) (host_pointer : Nat) : Option (Dx12ReplayConsumerBase × HRESULT) :=
  match c.object_info_table_.find replay_object_info, read_range, data with
  | some info, some _, some data =>
    if info.object = 0 then none
    else
      match data.pointer with
      | some id =>
        if SUCCEEDED result ∧ data.has_output_pointer = true ∧ host_pointer ≠ 0 then
          match resourceInfoOrNew info with
          | none => none
          | some resource_info =>
            let memory_info :=
              (Map.find resource_info.mapped_memory_info subresource).getD {}
            let memory_info := { memory_info with memory_id := id }
            let memory_info := { memory_info with count := memory_info.count + 1 }
            let resource_info :=
              { resource_info with
                mapped_memory_info :=
                  Map.assign resource_info.mapped_memory_info subresource memory_info }
            let info1 :=
              { info with
                extra_info_type := DxObjectInfoType.kID3D12ResourceInfo
                extra_info := some (ExtraInfo.resource resource_info) }
            some ({ c with
                    object_info_table_ := c.object_info_table_.store info1
                    mapped_memory_ := Map.assign c.mapped_memory_ id host_pointer }, result)
        else some (c, result)
      | none => some (c, result)
  | _, _, _ => none

/-- The member function `Dx12ReplayConsumerBase::OverrideResourceUnmap`. -/
def OverrideResourceUnmap (c : Dx12ReplayConsumerBase) (replay_object_info : HandleId)
    (subresource : Nat) (written_range : Option (StructPointerDecoder D3D12_RANGE)) :
    Option Dx12ReplayConsumerBase :=
  match c.object_info_table_.find replay_object_info, written_range with
  | some info, some _ =>
    if info.object = 0 then none
    else
      match info.extra_info with
      | none => some c
      | some extra =>
        if info.extra_info_type = DxObjectInfoType.kID3D12ResourceInfo then
          match extra.asResource with
          | none => none
          | some resource_info =>
            match Map.find resource_info.mapped_memory_info subresource with
            | none => some c
            | some memory_info =>
              if memory_info.count > 0 then
                let memory_info := { memory_info with count := memory_info.count - 1 }
                if memory_info.count = 0 then
                  let resource_info1 :=
                    { resource_info with
                      mapped_memory_info := Map.erase resource_info.mapped_memory_info subresource }
                  let info1 := { info with extra_info := some (ExtraInfo.resource resource_info1) }
                  some { c with
                    mapped_memory_ := Map.erase c.mapped_memory_ memory_info.memory_id
                    object_info_table_ := c.object_info_table_.store info1 }
                else
                  let resource_info1 :=
                    { resource_info with
                      mapped_memory_info :=
                        Map.assign resource_info.mapped_memory_info subresource memory_info }
                  let info1 := { info with extra_info := some (ExtraInfo.resource resource_info1) }
                  some { c with object_info_table_ := c.object_info_table_.store info1 }
              else none
        else none
  | _, _ => none

end Dx12ReplayConsumerBase

end decode
end gfxrecon

/-! ## Scenarios: sequences of calls -/

namespace gfxrecon
namespace decode

/-- One call of a sequence of `Map`/`Unmap` calls on a fixed subresource: a `Map`, with what the
driver returns and the host pointer it yields, or an `Unmap`. -/
inductive MapCall
  | map (result : HRESULT) (host_pointer : Nat)
  | unmap
  deriving DecidableEq, Repr

/-- A `Map` call of the sequence succeeded in the driver and produced a host pointer. -/
def MapCall.succeeds : MapCall → Bool
  | MapCall.map result host_pointer => SUCCEEDED result && decide (host_pointer ≠ 0)
  | MapCall.unmap => true

/-- Is the call a `Map`. -/
def MapCall.isMap : MapCall → Bool
  | MapCall.map _ _ => true
  | MapCall.unmap => false

/-- Run a sequence of `OverrideResourceMap` / `OverrideResourceUnmap` calls on subresource
`subresource` of the object `replay_object_info`, every `Map` reporting memory id `memory_id`. -/
def runMapCalls (replay_object_info : HandleId) (subresource memory_id : Nat) :
    Dx12ReplayConsumerBase → List MapCall → Option Dx12ReplayConsumerBase
  | c, [] => some c
  | c, MapCall.map result host_pointer :: rest =>
    match c.OverrideResourceMap replay_object_info result subresource (some {})
        (some { pointer := some memory_id }) result host_pointer with
    | some (c1, _) => runMapCalls replay_object_info subresource memory_id c1 rest
    | none => none
  | c, MapCall.unmap :: rest =>
    match c.OverrideResourceUnmap replay_object_info subresource (some {}) with
    | some c1 => runMapCalls replay_object_info subresource memory_id c1 rest
    | none => none

/-- No `Unmap` of the sequence comes while the subresource is unmapped: starting with
`outstanding` maps, every `Unmap` finds a `Map` before it that it undoes. -/
def everyUnmapMatched : Nat → List MapCall → Bool
  | _, [] => true
  | outstanding, MapCall.map _ _ :: rest => everyUnmapMatched (outstanding + 1) rest
  | 0, MapCall.unmap :: _ => false
  | outstanding + 1, MapCall.unmap :: rest => everyUnmapMatched outstanding rest

/-- The number of `Map` calls in a sequence. -/
def mapCount (calls : List MapCall) : Nat := calls.countP (fun call => call.isMap)

/-- The number of `Unmap` calls in a sequence. -/
def unmapCount (calls : List MapCall) : Nat := calls.countP (fun call => !call.isMap)

/-- The state of one subresource during such a sequence: the object exists, and either the
subresource has no entry and `memory_id` is not mapped (`outstanding = 0`), or its entry holds
`memory_id` with count `outstanding` and `memory_id` is mapped. -/
def Outstanding (c : Dx12ReplayConsumerBase) (replay_object_info : HandleId)
    (subresource memory_id : Nat) (outstanding : Nat) : Prop :=
  ∃ info, c.object_info_table_.find replay_object_info = some info ∧ info.object ≠ 0 ∧
    match outstanding with
    | 0 =>
      (info.extra_info = none ∨
        ∃ r, info.extra_info = some (ExtraInfo.resource r) ∧
          info.extra_info_type = DxObjectInfoType.kID3D12ResourceInfo ∧
          Map.find r.mapped_memory_info subresource = none) ∧
      Map.contains c.mapped_memory_ memory_id = false
    | n + 1 =>
      (∃ r, info.extra_info = some (ExtraInfo.resource r) ∧
          info.extra_info_type = DxObjectInfoType.kID3D12ResourceInfo ∧
          Map.find r.mapped_memory_info subresource =
            some { count := n + 1, memory_id := memory_id }) ∧
      Map.contains c.mapped_memory_ memory_id = true

/-- The keys of an association list are pairwise different (a `std::map` has one entry per
key). -/
def Map.uniqueKeys {β : Type} : List (Nat × β) → Prop
  | [] => True
  | (k, _) :: m => Map.find m k = none ∧ Map.uniqueKeys m

/-- The subresource table of the live object `id` has the entry `e` for subresource `sub`. -/
def Records (t : Dx12ObjectInfoTable) (id : HandleId) (sub : Nat) (e : MappedMemoryInfo) : Prop :=
  ∃ info r, t.find id = some info ∧ info.extra_info = some (ExtraInfo.resource r) ∧
    Map.find r.mapped_memory_info sub = some e

/-- Invariant I3: a memory id is a key of `mapped_memory_` if and only if some live resource's
subresource table has an entry carrying it with count greater than zero. -/
def I3 (c : Dx12ReplayConsumerBase) : Prop :=
  ∀ m, Map.contains c.mapped_memory_ m = true ↔
    ∃ id sub e, Records c.object_info_table_ id sub e ∧ e.memory_id = m ∧ e.count > 0

/-- The condition on a `Map` of subresource `sub` of object `id` reporting memory id `m` in a
well-formed trace: `m` names this subresource and no other, that is, an entry of a live
subresource table carries `m` exactly when it is the entry of `(id, sub)`. -/
def MemoryIdNamesSubresource (c : Dx12ReplayConsumerBase) (id : HandleId) (sub m : Nat) : Prop :=
  ∀ id2 sub2 e2, Records c.object_info_table_ id2 sub2 e2 →
    (e2.memory_id = m ↔ (id2 = id ∧ sub2 = sub))

/-- No condition on the memory id a `Map` reports. -/
def AnyMemoryId (_c : Dx12ReplayConsumerBase) (_id : HandleId) (_sub _m : Nat) : Prop := True

/-- The consumer states reachable from the empty consumer by object creation (a creation
override inserts a record with a fresh capture id and no extra info), `OverrideResourceMap`,
`OverrideResourceUnmap`, `OverrideRelease`, `RemoveObject` on a live object and
`ProcessFillMemoryCommand`. `guard c id sub m` is what is asked of a `Map` of subresource `sub`
of object `id` that reports memory id `m` in state `c`. -/
inductive Reachable (guard : Dx12ReplayConsumerBase → HandleId → Nat → Nat → Prop) :
    Dx12ReplayConsumerBase → Prop
  | init : Reachable guard ({ } : Dx12ReplayConsumerBase)
  | create (c : Dx12ReplayConsumerBase) (id : HandleId) (object ref_count : Nat) :
      Reachable guard c → c.object_info_table_.find id = none →
      Reachable guard
        { c with
          object_info_table_ :=
            c.object_info_table_.insert
              { capture_id := id, object := object, ref_count := ref_count } }
  | map (c c1 : Dx12ReplayConsumerBase) (id : HandleId) (original result : HRESULT)
      (sub host_pointer : Nat) (read_range : Option (StructPointerDecoder D3D12_RANGE))
      (data : Option PointerDecoder) (returned : HRESULT) :
      Reachable guard c →
      (∀ d m, data = some d → d.pointer = some m → guard c id sub m) →
      c.OverrideResourceMap id original sub read_range data result host_pointer =
        some (c1, returned) →
      Reachable guard c1
  | unmap (c c1 : Dx12ReplayConsumerBase) (id : HandleId) (sub : Nat)
      (written_range : Option (StructPointerDecoder D3D12_RANGE)) :
      Reachable guard c → c.OverrideResourceUnmap id sub written_range = some c1 →
      Reachable guard c1
  | release (c : Dx12ReplayConsumerBase) (id : HandleId) (original driver_result : Nat)
      (res : Dx12ReplayConsumerBase.ReleaseResult) :
      Reachable guard c → c.OverrideRelease id original driver_result = some res →
      Reachable guard res.consumer
  | remove (c c1 : Dx12ReplayConsumerBase) (id : HandleId) (info : DxObjectInfo)
      (left : Option DxObjectInfo) :
      Reachable guard c → c.object_info_table_.find id = some info →
      c.RemoveObject (some info) = some (c1, left) → Reachable guard c1
  | fill (c : Dx12ReplayConsumerBase) (mem : HostMemory) (memory_id offset size : Nat)
      (data : List Byte) :
      Reachable guard c →
      Reachable guard (c.ProcessFillMemoryCommand mem memory_id offset size data).1

/-- The invariant that carries I3 through the operations: I3 itself, every extra info is a
resource info (the only kind these operations create) under its own tag and with one entry per
subresource, every entry has a positive count, and no two entries carry the same memory id. -/
structure MapInvariant (c : Dx12ReplayConsumerBase) : Prop where
  i3 : I3 c
  tagged : ∀ id info, c.object_info_table_.find id = some info →
    info.extra_info = none ∨
      ∃ r, info.extra_info = some (ExtraInfo.resource r) ∧
        info.extra_info_type = DxObjectInfoType.kID3D12ResourceInfo ∧
        Map.uniqueKeys r.mapped_memory_info
  positive : ∀ id sub e, Records c.object_info_table_ id sub e → e.count > 0
  unique : ∀ id1 sub1 e1 id2 sub2 e2, Records c.object_info_table_ id1 sub1 e1 →
    Records c.object_info_table_ id2 sub2 e2 → e1.memory_id = e2.memory_id →
    id1 = id2 ∧ sub1 = sub2

/-- A consumer holding one freshly created object (id 1, one reference, no extra info). -/
def oneResource : Dx12ReplayConsumerBase :=
  { object_info_table_ := [{ capture_id := 1, object := 4096, ref_count := 1 }] }

/-- The consumer `oneResource` after `Map` of subresource 0 with memory id 42. -/
def mappedOnce : Dx12ReplayConsumerBase :=
  { object_info_table_ :=
      [{ capture_id := 1, object := 4096, ref_count := 1
         extra_info_type := DxObjectInfoType.kID3D12ResourceInfo
         extra_info := some (ExtraInfo.resource
           { mapped_memory_info := [(0, { count := 1, memory_id := 42 })] }) }]
    mapped_memory_ := [(42, 8192)] }

/-- The consumer `mappedOnce` after `Map` of subresource 1 with the same memory id 42. -/
def mappedTwoSubresources : Dx12ReplayConsumerBase :=
  { object_info_table_ :=
      [{ capture_id := 1, object := 4096, ref_count := 1
         extra_info_type := DxObjectInfoType.kID3D12ResourceInfo
         extra_info := some (ExtraInfo.resource
           { mapped_memory_info :=
               [(0, { count := 1, memory_id := 42 }), (1, { count := 1, memory_id := 42 })] }) }]
    mapped_memory_ := [(42, 8192)] }

/-- The consumer `mappedTwoSubresources` after `Unmap` of subresource 0: memory id 42 is gone from
`mapped_memory_` while subresource 1 still records it. -/
def sharedIdUnmapped : Dx12ReplayConsumerBase :=
  { object_info_table_ :=
      [{ capture_id := 1, object := 4096, ref_count := 1
         extra_info_type := DxObjectInfoType.kID3D12ResourceInfo
         extra_info := some (ExtraInfo.resource
           { mapped_memory_info := [(1, { count := 1, memory_id := 42 })] }) }]
    mapped_memory_ := [] }

/-- The consumer `mappedOnce` after a second `Map` of subresource 0 that reports memory id 43:
memory id 42 stays in `mapped_memory_` while no entry records it. -/
def remappedOtherId : Dx12ReplayConsumerBase :=
  { object_info_table_ :=
      [{ capture_id := 1, object := 4096, ref_count := 1
         extra_info_type := DxObjectInfoType.kID3D12ResourceInfo
         extra_info := some (ExtraInfo.resource
           { mapped_memory_info := [(0, { count := 2, memory_id := 43 })] }) }]
    mapped_memory_ := [(42, 8192), (43, 8192)] }

/-- The record of a resource (id 5, one reference) with a recorded GPU address and subresource 0
mapped under memory id 42. -/
def mappedResource : DxObjectInfo :=
  { capture_id := 5, object := 4096, ref_count := 1
    extra_info_type := DxObjectInfoType.kID3D12ResourceInfo
    extra_info := some (ExtraInfo.resource
      { mapped_memory_info := [(0, { count := 1, memory_id := 42 })]
        capture_address_ := 65536
        replay_address_ := 131072 }) }

/-- A consumer holding `mappedResource`, next to an unrelated mapped memory id 7 and an unrelated
GPU range. -/
def resourceWithAddress : Dx12ReplayConsumerBase :=
  { object_info_table_ := [mappedResource]
    mapped_memory_ := [(7, 512), (42, 8192)]
    gpu_va_map_ :=
      [{ resource := 4096, capture_va := 65536, replay_va := 131072, size := 256 },
       { resource := 12288, capture_va := 1048576, replay_va := 2097152, size := 256 }] }

end decode
end gfxrecon
namespace gfxrecon
namespace decode

/-! ## Creation overrides, descriptor handles, GPU addresses and windows -/

/-- A `HandlePointerDecoder<T>` as the overrides use it: `GetConsumerData(0)` is the
`DxObjectInfo` of the object being created (the record that goes into the object table after the
override has returned; `none` for a null pointer), `IsNull()` tells whether the captured handle
pointer was null. -/
structure HandlePointerDecoder where
  consumer_data : Option DxObjectInfo := none
  is_null : Bool := false
  deriving DecidableEq, Repr

/-- The fields of `D3D12_DESCRIPTOR_HEAP_DESC` that the overrides read (`Type`,
`NumDescriptors`). -/
structure D3D12_DESCRIPTOR_HEAP_DESC where
  Type_ : Nat := 0
  NumDescriptors : Nat := 0
  deriving DecidableEq, Repr

/-- The fields of `DXGI_MODE_DESC` that the overrides read. -/
structure DXGI_MODE_DESC where
  Width : Nat := 0
  Height : Nat := 0
  deriving DecidableEq, Repr

/-- The fields of `DXGI_SWAP_CHAIN_DESC` that the overrides read. -/
structure DXGI_SWAP_CHAIN_DESC where
  BufferDesc : DXGI_MODE_DESC := {}
  OutputWindow : Nat := 0
  deriving DecidableEq, Repr

/-- The fields of `DXGI_SWAP_CHAIN_DESC1` that the overrides read. -/
structure DXGI_SWAP_CHAIN_DESC1 where
  Width : Nat := 0
  Height : Nat := 0
  deriving DecidableEq, Repr

/-- A decoded `DXGI_SWAP_CHAIN_FULLSCREEN_DESC`; the overrides hand it to the driver unread. -/
structure DXGI_SWAP_CHAIN_FULLSCREEN_DESC where
  Windowed : Bool := true
  deriving DecidableEq, Repr

/-- The constant `kDefaultWindowPositionX`. -/
def kDefaultWindowPositionX : Int := 0

/-- The constant `kDefaultWindowPositionY`. -/
def kDefaultWindowPositionY : Int := 0

/-- The call `window_factory_->Create(x, y, width, height)`; `window` is the pointer the factory
returns (`0` for `nullptr`). A window that was created is recorded with its request. -/
def WindowFactory.Create (f : WindowFactory) (x y : Int) (width height window : Nat) :
    WindowFactory × Nat :=
  (if window ≠ 0 then
    { f with
      created := f.created ++ [(window, { x := x, y := y, width := width, height := height })] }
   else f, window)

/-- The `DxObjectInfo*` that `GetConsumerData(0)` gives on a decoder pointer. -/
def consumerData (decoder : Option HandlePointerDecoder) : Option DxObjectInfo :=
  decoder.bind (fun d => d.consumer_data)

/-- Insertion into `std::unordered_set<Window*>`: `active_windows_.insert(window)`. -/
def insertWindow (windows : List Nat) (window : Nat) : List Nat :=
  if window ∈ windows then windows else windows ++ [window]

/-- What a creation override leaves behind: the consumer, the `DxObjectInfo` of the created
object as the override leaves it (the consumer data of the handle decoder), the value returned,
and whether the driver's creation function was called. -/
structure CreateResult where
  consumer : Dx12ReplayConsumerBase
  object_info : Option DxObjectInfo
  result : HRESULT
  driver_called : Bool
  deriving DecidableEq, Repr

/-- The value of an increment table at a descriptor heap type: `(*table)[type]`, zero when the
type has no entry. -/
def incrementAt (tables : List (List (Nat × Nat))) (table : Option Nat) (type : Nat) :
    Option Nat :=
  match table with
  | none => none
  | some a => (tables.get? a).map (fun t => (Map.find t type).getD 0)

/-- The assignment `(*table)[type] = value` to a shared increment table; `none` when the pointer
is null. -/
def assignIncrement (tables : List (List (Nat × Nat))) (table : Option Nat) (type value : Nat) :
    Option (List (List (Nat × Nat))) :=
  match table with
  | none => none
  | some a =>
    match tables.get? a with
    | none => none
    | some t => some (tables.set a (Map.assign t type value))

/-- The entry of an ordered map with the largest key that is at most `k`. -/
def Map.findLargestLE {β : Type} : List (Nat × β) → Nat → Option (Nat × β)
  | [], _ => none
  | e :: m, k =>
    match Map.findLargestLE m k with
    | some best => if e.1 ≤ k ∧ best.1 < e.1 then some e else some best
    | none => if e.1 ≤ k then some e else none

/-- Modelled from the spec: `Dx12GpuVaMap::Map(address)`: "∀ GPU VA `a` within `[capture_va,
capture_va + size)` of a recorded resource, `remap_gpu_va(a) = replay_va + (a − capture_va)`", and
an address in no recorded range passes through. -/
def Dx12GpuVaMap.Map (m : Dx12GpuVaMap) (address : Nat) : Nat :=
  match m.find? (fun r => decide (r.capture_va ≤ address ∧ address < r.capture_va + r.size)) with
  | some r => r.replay_va + (address - r.capture_va)
  | none => address

namespace Dx12ReplayConsumerBase

/-- The member function `Dx12ReplayConsumerBase::OverrideD3D12CreateDevice`; `replay_result` is
what `D3D12CreateDevice` returns. `new D3D12DeviceInfo` allocates the two increment tables of the
device, empty. The feature level and the interface id go to the driver only. -/
def OverrideD3D12CreateDevice (c : Dx12ReplayConsumerBase) (original_result : HRESULT)
    (adapter_info : HandleId) (device : Option HandlePointerDecoder) (replay_result : HRESULT) :
    Option CreateResult :=
  match device with
  | none => none
  | some device =>
    if SUCCEEDED replay_result ∧ device.is_null = false then
      match device.consumer_data with
      | none => none
      | some object_info =>
        let device_info : D3D12DeviceInfo :=
          { capture_increments := some c.increment_tables_.length
            replay_increments := some (c.increment_tables_.length + 1) }
        some { consumer := { c with increment_tables_ := c.increment_tables_ ++ [[], []] }
               object_info := some
                 { object_info with
                   extra_info_type := DxObjectInfoType.kID3D12DeviceInfo
                   extra_info := some (ExtraInfo.device device_info) }
               result := replay_result
               driver_called := true }
    else
      some { consumer := c, object_info := device.consumer_data, result := replay_result
             driver_called := true }

/-- The heap info that `OverrideCreateDescriptorHeap` builds for a heap of the device `info`:
type and count from the description, the increment tables from the device info when the device
has one (a fatal message is logged otherwise). -/
def newHeapInfo (info : DxObjectInfo) (desc : D3D12_DESCRIPTOR_HEAP_DESC) :
    Option D3D12DescriptorHeapInfo :=
  let heap_info : D3D12DescriptorHeapInfo :=
    { descriptor_type := desc.Type_, descriptor_count := desc.NumDescriptors }
  match info.extra_info with
  | some extra =>
    if info.extra_info_type = DxObjectInfoType.kID3D12DeviceInfo then
      match extra.asDevice with
      | none => none
      | some device_info =>
        some { heap_info with
               capture_increments := device_info.capture_increments
               replay_increments := device_info.replay_increments }
    else some heap_info
  | none => some heap_info

/-- The member function `Dx12ReplayConsumerBase::OverrideCreateDescriptorHeap`; `replay_result`
is what the driver's `CreateDescriptorHeap` returns. -/
def OverrideCreateDescriptorHeap (c : Dx12ReplayConsumerBase) (replay_object_info : HandleId)
    (original_result : HRESULT) (desc : Option (StructPointerDecoder D3D12_DESCRIPTOR_HEAP_DESC))
    (heap : Option HandlePointerDecoder) (replay_result : HRESULT) : Option CreateResult :=
  match c.object_info_table_.find replay_object_info, desc, heap with
  | some info, some desc, some heap =>
    if info.object = 0 then none
    else
      match desc.pointer with
      | some desc_pointer =>
        if SUCCEEDED replay_result then
          match newHeapInfo info desc_pointer, heap.consumer_data with
          | some heap_info, some object_info =>
            some { consumer := c
                   object_info := some
                     { object_info with
                       extra_info_type := DxObjectInfoType.kID3D12DescriptorHeapInfo
                       extra_info := some (ExtraInfo.heap heap_info) }
                   result := replay_result
                   driver_called := true }
          | _, _ => none
        else
          some { consumer := c, object_info := heap.consumer_data, result := replay_result
                 driver_called := true }
      | none =>
        some { consumer := c, object_info := heap.consumer_data, result := replay_result
               driver_called := true }
  | _, _, _ => none

/-- The member function `Dx12ReplayConsumerBase::OverrideGetDescriptorHandleIncrementSize`;
`replay_result` is what the driver returns. -/
def OverrideGetDescriptorHandleIncrementSize (c : Dx12ReplayConsumerBase)
    (replay_object_info : HandleId) (original_result descriptor_heap_type replay_result : Nat) :
    Option (Dx12ReplayConsumerBase × Nat) :=
  match c.object_info_table_.find replay_object_info with
  | none => none
  | some info =>
    if info.object = 0 then none
    else
      match info.extra_info with
      | some extra =>
        if info.extra_info_type = DxObjectInfoType.kID3D12DeviceInfo then
          match extra.asDevice with
          | none => none
          | some device_info =>
            match assignIncrement c.increment_tables_ device_info.capture_increments
                descriptor_heap_type original_result with
            | none => none
            | some tables1 =>
              match assignIncrement tables1 device_info.replay_increments
                  descriptor_heap_type replay_result with
              | none => none
              | some tables2 => some ({ c with increment_tables_ := tables2 }, replay_result)
        else some (c, replay_result)
      | none => some (c, replay_result)

/-- The member function `Dx12ReplayConsumerBase::OverrideGetCPUDescriptorHandleForHeapStart`;
`original_result` is `original_result.decoded_value->ptr` and `replay_result` the `ptr` of what
the driver returns. -/
def OverrideGetCPUDescriptorHandleForHeapStart (c : Dx12ReplayConsumerBase)
    (replay_object_info : HandleId) (original_result replay_result : Nat) :
    Option (Dx12ReplayConsumerBase × Nat) :=
  match c.object_info_table_.find replay_object_info with
  | none => none
  | some info =>
    if info.object = 0 then none
    else
      match info.extra_info with
      | some extra =>
        if info.extra_info_type = DxObjectInfoType.kID3D12DescriptorHeapInfo then
          match extra.asHeap with
          | none => none
          | some heap_info =>
            if heap_info.capture_cpu_addr_begin = 0 then
              let heap_info1 :=
                { heap_info with
                  capture_cpu_addr_begin := original_result
                  replay_cpu_addr_begin := replay_result }
              let info1 := { info with extra_info := some (ExtraInfo.heap heap_info1) }
              some ({ c with
                      object_info_table_ := c.object_info_table_.store info1
                      descriptor_cpu_addresses_ :=
                        Map.assign c.descriptor_cpu_addresses_ heap_info1.capture_cpu_addr_begin
                          info.capture_id }, replay_result)
            else some (c, replay_result)
        else some (c, replay_result)
      | none => some (c, replay_result)

/-- The member function `Dx12ReplayConsumerBase::OverrideGetGPUDescriptorHandleForHeapStart`. -/
def OverrideGetGPUDescriptorHandleForHeapStart (c : Dx12ReplayConsumerBase)
    (replay_object_info : HandleId) (original_result replay_result : Nat) :
    Option (Dx12ReplayConsumerBase × Nat) :=
  match c.object_info_table_.find replay_object_info with
  | none => none
  | some info =>
    if info.object = 0 then none
    else
      match info.extra_info with
      | some extra =>
        if info.extra_info_type = DxObjectInfoType.kID3D12DescriptorHeapInfo then
          match extra.asHeap with
          | none => none
          | some heap_info =>
            if heap_info.capture_gpu_addr_begin = 0 then
              let heap_info1 :=
                { heap_info with
                  capture_gpu_addr_begin := original_result
                  replay_gpu_addr_begin := replay_result }
              let info1 := { info with extra_info := some (ExtraInfo.heap heap_info1) }
              some ({ c with
                      object_info_table_ := c.object_info_table_.store info1
                      descriptor_gpu_addresses_ :=
                        Map.assign c.descriptor_gpu_addresses_ heap_info1.capture_gpu_addr_begin
                          info.capture_id }, replay_result)
            else some (c, replay_result)
        else some (c, replay_result)
      | none => some (c, replay_result)

/-- The heap info behind a `D3D12DescriptorHeapInfo*` stored in a descriptor map. -/
def heapInfoOf (c : Dx12ReplayConsumerBase) (heap : HandleId) : Option D3D12DescriptorHeapInfo :=
  match c.object_info_table_.find heap with
  | some info => info.extra_info.bind ExtraInfo.asHeap
  | none => none

/-- The member function `Dx12ReplayConsumerBase::OverrideGetGpuVirtualAddress`; `replay_result`
is what the driver's `GetGPUVirtualAddress` returns and `size` the size of the resource that
`Dx12GpuVaMap::Add` takes from its description. -/
def OverrideGetGpuVirtualAddress (c : Dx12ReplayConsumerBase) (replay_object_info : HandleId)
    (original_result replay_result size : Nat) : Option (Dx12ReplayConsumerBase × Nat) :=
  match c.object_info_table_.find replay_object_info with
  | none => none
  | some info =>
    if info.object = 0 then none
    else if original_result ≠ 0 ∧ replay_result ≠ 0 then
      match resourceInfoOrNew info with
      | none => none
      | some resource_info =>
        let info1 :=
          { info with
            extra_info_type := DxObjectInfoType.kID3D12ResourceInfo
            extra_info := some (ExtraInfo.resource resource_info) }
        if resource_info.capture_address_ = 0 then
          let resource_info1 :=
            { resource_info with
              capture_address_ := original_result
              replay_address_ := replay_result }
          let info2 := { info1 with extra_info := some (ExtraInfo.resource resource_info1) }
          some ({ c with
                  object_info_table_ := c.object_info_table_.store info2
                  gpu_va_map_ :=
                    c.gpu_va_map_.Add info.object original_result replay_result size },
                replay_result)
        else some ({ c with object_info_table_ := c.object_info_table_.store info1 },
               replay_result)
    else some (c, replay_result)

/-- The member function `Dx12ReplayConsumerBase::MapGpuVirtualAddress`, with
`object_mapping::MapGpuVirtualAddress` modelled from the spec: the address is rewritten through
`Dx12GpuVaMap::Map`. -/
def MapGpuVirtualAddress (c : Dx12ReplayConsumerBase) (address : Nat) : Nat :=
  c.gpu_va_map_.Map address

end Dx12ReplayConsumerBase

/-- Modelled from the spec: `object_mapping::MapCpuDescriptorHandle(handle,
descriptor_cpu_addresses_)` (decode/dx12_object_mapping_util.h is not part of the sources at
hand): "Remapping a capture-time handle `h` with capture-begin `B` and replay-begin `B'`, stored
increments `(i_c, i_r)`, yields `h' = B' + ((h − B) / i_c) * i_r`. Lookup of `B` uses "largest
key ≤ h" on the ordered map." A handle that no heap of the map covers ("addresses not present in
the map") passes through. The consumer is there to follow the pointers of the map. -/
def object_mapping.MapCpuDescriptorHandle (c : Dx12ReplayConsumerBase) (handle : Nat) : Nat :=
  match Map.findLargestLE c.descriptor_cpu_addresses_ handle with
  | none => handle
  | some (capture_begin, heap) =>
    match c.heapInfoOf heap with
    | none => handle
    | some heap_info =>
      match incrementAt c.increment_tables_ heap_info.capture_increments
          heap_info.descriptor_type,
        incrementAt c.increment_tables_ heap_info.replay_increments
          heap_info.descriptor_type with
      | some capture_increment, some replay_increment =>
        let index := (handle - capture_begin) / capture_increment
        if index < heap_info.descriptor_count then
          heap_info.replay_cpu_addr_begin + index * replay_increment
        else handle
      | _, _ => handle

/-- Modelled from the spec: `object_mapping::MapGpuDescriptorHandle(handle,
descriptor_gpu_addresses_)`, "analogous for GPU descriptor handles". -/
def object_mapping.MapGpuDescriptorHandle (c : Dx12ReplayConsumerBase) (handle : Nat) : Nat :=
  match Map.findLargestLE c.descriptor_gpu_addresses_ handle with
  | none => handle
  | some (capture_begin, heap) =>
    match c.heapInfoOf heap with
    | none => handle
    | some heap_info =>
      match incrementAt c.increment_tables_ heap_info.capture_increments
          heap_info.descriptor_type,
        incrementAt c.increment_tables_ heap_info.replay_increments
          heap_info.descriptor_type with
      | some capture_increment, some replay_increment =>
        let index := (handle - capture_begin) / capture_increment
        if index < heap_info.descriptor_count then
          heap_info.replay_gpu_addr_begin + index * replay_increment
        else handle
      | _, _ => handle

namespace Dx12ReplayConsumerBase

/-- The member function `Dx12ReplayConsumerBase::MapCpuDescriptorHandle`: the handle as it is
rewritten in place. -/
def MapCpuDescriptorHandle (c : Dx12ReplayConsumerBase) (handle : Nat) : Nat :=
  object_mapping.MapCpuDescriptorHandle c handle

/-- The member function `Dx12ReplayConsumerBase::MapGpuDescriptorHandle`. -/
def MapGpuDescriptorHandle (c : Dx12ReplayConsumerBase) (handle : Nat) : Nat :=
  object_mapping.MapGpuDescriptorHandle c handle

/-- The member function `Dx12ReplayConsumerBase::SetSwapchainInfoWindow`; `info` is the
`DxObjectInfo` of the swapchain being created. The result is the consumer and that record
afterwards. -/
def SetSwapchainInfoWindow (c : Dx12ReplayConsumerBase) (info : Option DxObjectInfo)
    (window : Nat) : Option (Dx12ReplayConsumerBase × Option DxObjectInfo) :=
  if window ≠ 0 then
    match info with
    | some info =>
      if info.extra_info ≠ none then none
      else
        let swapchain_info : DxgiSwapchainInfo := { window := window }
        some ({ c with active_windows_ := insertWindow c.active_windows_ window },
          some { info with
                 extra_info_type := DxObjectInfoType.kIDxgiSwapchainInfo
                 extra_info := some (ExtraInfo.swapchain swapchain_info) })
    | none => some ({ c with active_windows_ := insertWindow c.active_windows_ window }, none)
  else some (c, info)

/-- The member function `Dx12ReplayConsumerBase::DestroyActiveWindows`. -/
def DestroyActiveWindows (c : Dx12ReplayConsumerBase) : Dx12ReplayConsumerBase :=
  { c with
    window_factory_ := c.active_windows_.foldl WindowFactory.Destroy c.window_factory_
    active_windows_ := [] }

/-- The part of the swapchain creation overrides after the window has been asked for: `window` is
the pointer the factory returned (or `nullptr` when there was no description), `asserted` tells
whether the assertion on the decoders holds, `native_handle` what `GetNativeHandle` returns and
`driver_result` what the driver's creation function returns. -/
def finishSwapChain (c : Dx12ReplayConsumerBase) (replay_object_info : HandleId)
    (asserted : Bool) (swapchain : Option HandlePointerDecoder) (window : Nat)
    (native_handle : Bool) (driver_result : HRESULT) : Option CreateResult :=
  if window ≠ 0 then
    if native_handle then
      match c.object_info_table_.find replay_object_info, asserted, swapchain with
      | some info, true, some swapchain =>
        if info.object = 0 then none
        else
          let result := driver_result
          if SUCCEEDED result then
            match c.SetSwapchainInfoWindow swapchain.consumer_data window with
            | none => none
            | some (c1, object_info) =>
              some { consumer := c1, object_info := object_info, result := result
                     driver_called := true }
          else
            some { consumer := { c with window_factory_ := c.window_factory_.Destroy window }
                   object_info := swapchain.consumer_data, result := result
                   driver_called := true }
      | _, _, _ => none
    else
      some { consumer := { c with window_factory_ := c.window_factory_.Destroy window }
             object_info := consumerData swapchain, result := E_FAIL, driver_called := false }
  else
    some { consumer := c, object_info := consumerData swapchain, result := E_FAIL
           driver_called := false }

/-- The member function `Dx12ReplayConsumerBase::CreateSwapChainForHwnd`. `window` is what the
window factory returns when it is asked for a window, `native_handle` what `GetNativeHandle`
returns and `driver_result` what the driver's `CreateSwapChainForHwnd` returns. The device and
the output go to the driver only. -/
def CreateSwapChainForHwnd (c : Dx12ReplayConsumerBase) (replay_object_info : HandleId)
    (original_result : HRESULT) (device_info : HandleId) (hwnd_id : Nat)
    (desc : Option (StructPointerDecoder DXGI_SWAP_CHAIN_DESC1))
    (full_screen_desc : Option (StructPointerDecoder DXGI_SWAP_CHAIN_FULLSCREEN_DESC))
    (restrict_to_output_info : HandleId) (swapchain : Option HandlePointerDecoder)
    (window : Nat) (native_handle : Bool) (driver_result : HRESULT) : Option CreateResult :=
  match desc with
  | none => none
  | some desc =>
    match desc.pointer with
    | some desc_pointer =>
      let created := c.window_factory_.Create kDefaultWindowPositionX kDefaultWindowPositionY
        desc_pointer.Width desc_pointer.Height window
      finishSwapChain { c with window_factory_ := created.1 } replay_object_info
        full_screen_desc.isSome swapchain created.2 native_handle driver_result
    | none =>
      finishSwapChain c replay_object_info full_screen_desc.isSome swapchain 0 native_handle
        driver_result

/-- The member function `Dx12ReplayConsumerBase::OverrideCreateSwapChain`. -/
def OverrideCreateSwapChain (c : Dx12ReplayConsumerBase) (replay_object_info : HandleId)
    (original_result : HRESULT) (device_info : HandleId)
    (desc : Option (StructPointerDecoder DXGI_SWAP_CHAIN_DESC))
    (swapchain : Option HandlePointerDecoder)
    (window : Nat) (native_handle : Bool) (driver_result : HRESULT) : Option CreateResult :=
  match desc with
  | none => none
  | some desc =>
    match desc.pointer with
    | some desc_pointer =>
      let created := c.window_factory_.Create kDefaultWindowPositionX kDefaultWindowPositionY
        desc_pointer.BufferDesc.Width desc_pointer.BufferDesc.Height window
      finishSwapChain { c with window_factory_ := created.1 } replay_object_info true swapchain
        created.2 native_handle driver_result
    | none => finishSwapChain c replay_object_info true swapchain 0 native_handle driver_result

/-- The member function `Dx12ReplayConsumerBase::OverrideCreateSwapChainForHwnd`. -/
def OverrideCreateSwapChainForHwnd (c : Dx12ReplayConsumerBase) (replay_object_info : HandleId)
    (original_result : HRESULT) (device_info : HandleId) (hwnd_id : Nat)
    (desc : Option (StructPointerDecoder DXGI_SWAP_CHAIN_DESC1))
    (full_screen_desc : Option (StructPointerDecoder DXGI_SWAP_CHAIN_FULLSCREEN_DESC))
    (restrict_to_output_info : HandleId) (swapchain : Option HandlePointerDecoder)
    (window : Nat) (native_handle : Bool) (driver_result : HRESULT) : Option CreateResult :=
  c.CreateSwapChainForHwnd replay_object_info original_result device_info hwnd_id desc
    full_screen_desc restrict_to_output_info swapchain window native_handle driver_result

/-- The member function `Dx12ReplayConsumerBase::OverrideCreateSwapChainForCoreWindow`. -/
def OverrideCreateSwapChainForCoreWindow (c : Dx12ReplayConsumerBase)
    (replay_object_info : HandleId) (original_result : HRESULT)
    (device_info window_info : HandleId)
    (desc : Option (StructPointerDecoder DXGI_SWAP_CHAIN_DESC1))
    (restrict_to_output_info : HandleId) (swapchain : Option HandlePointerDecoder)
    (window : Nat) (native_handle : Bool) (driver_result : HRESULT) : Option CreateResult :=
  c.CreateSwapChainForHwnd replay_object_info original_result device_info 0 desc none
    restrict_to_output_info swapchain window native_handle driver_result

/-- The member function `Dx12ReplayConsumerBase::OverrideCreateSwapChainForComposition`. -/
def OverrideCreateSwapChainForComposition (c : Dx12ReplayConsumerBase)
    (replay_object_info : HandleId) (original_result : HRESULT) (device_info : HandleId)
    (desc : Option (StructPointerDecoder DXGI_SWAP_CHAIN_DESC1))
    (restrict_to_output_info : HandleId) (swapchain : Option HandlePointerDecoder)
    (window : Nat) (native_handle : Bool) (driver_result : HRESULT) : Option CreateResult :=
  c.CreateSwapChainForHwnd replay_object_info original_result device_info 0 desc none
    restrict_to_output_info swapchain window native_handle driver_result

end Dx12ReplayConsumerBase

end decode
end gfxrecon

/-! ## The preload file processor (decode/preload_file_processor.cpp)

The base class `FileProcessor` (decode/file_processor.cpp), the header of `PreloadFileProcessor`
and `format/format.h` are not part of the sources at hand. What `ProcessBlocks`, `ReadBytes` and
`PreloadNextFrames` use of them is modelled from the spec or taken as a parameter, and marked
so. -/

namespace gfxrecon
namespace decode

/-- Little-endian encoding of `n` in `width` bytes. -/
def encodeLE : Nat → Nat → List Byte
  | 0, _ => []
  | width + 1, n => Fin.ofNat (n % 256) :: encodeLE width (n / 256)

/-- The number a list of bytes encodes, little-endian. -/
def decodeLE : List Byte → Nat
  | [] => 0
  | b :: bs => b.val + 256 * decodeLE bs

/-- What the processor takes from outside the sources at hand: the block type constants of
`format::BlockType` (format/format.h), the frame-delimiter predicate (the spec: "a fixed, small
set of API-call identifiers ... supplied by the driver-specific override layer via a constant
table"), and the allocator: `reserve_ok n` tells whether the preload container can be given a
capacity of `n` bytes (`std::vector::reserve` throws otherwise). -/
structure Environment where
  kFunctionCallBlock : Nat
  kMethodCallBlock : Nat
  kMetaDataBlock : Nat
  kStateMarkerBlock : Nat
  kAnnotation : Nat
  IsFrameDelimiter : Nat → Bool
  reserve_ok : Nat → Bool

namespace format

/-- Modelled from the spec: `format::BlockHeader`, `{u32 type, u64 size}` (section 6). -/
structure BlockHeader where
  size : Nat := 0
  type : Nat := 0
  deriving DecidableEq, Repr

/-- The constant `sizeof(format::BlockHeader)`: a 32-bit type and a 64-bit size. -/
def sizeofBlockHeader : Nat := 12

/-- The bytes of a block header in the file and in memory: type, then size. -/
def BlockHeader.toBytes (h : BlockHeader) : List Byte :=
  encodeLE 4 h.type ++ encodeLE 8 h.size

/-- The block header a run of (up to 12) bytes is read as. -/
def BlockHeader.ofBytes (bytes : List Byte) : BlockHeader :=
  { type := decodeLE (bytes.take 4), size := decodeLE (bytes.drop 4) }

/-- Modelled from the spec: `format::RemoveCompressedBlockBit`: "the top bit of `type` is a
compression flag; masking it yields" the canonical kind. -/
def RemoveCompressedBlockBit (type : Nat) : Nat := type % 2 ^ 31

end format

/-- The enumeration `PreloadFileProcessor::PreloadStatus`. -/
inductive PreloadStatus
  | kInactive
  | kRecord
  | kReplay
  deriving DecidableEq, Repr

/-- The error codes of `FileProcessor::Error` that the block loop sets. -/
inductive Error
  | kErrorNone
  | kErrorReadingBlockHeader
  | kErrorReadingBlockData
  deriving DecidableEq, Repr

/-- One invocation of a dispatch function of the block loop, with the block header, the
identifier read after it and the bytes the function read as its data. -/
inductive DecoderCall
  | function_call (block_header : format.BlockHeader) (api_call_id : Nat) (data : List Byte)
  | method_call (block_header : format.BlockHeader) (api_call_id : Nat) (data : List Byte)
  | meta_data (block_header : format.BlockHeader) (meta_data_id : Nat) (data : List Byte)
  | state_marker (block_header : format.BlockHeader) (marker_type : Nat) (data : List Byte)
  | annotation_block (block_header : format.BlockHeader) (annotation_type : Nat)
      (data : List Byte)
  deriving DecidableEq, Repr

/-- The class `PreloadFileProcessor::PreloadBuffer`: `container_` (a `std::vector<char>`, with
its capacity) and `replay_offset_`. -/
structure PreloadBuffer where
  container_ : List Byte := []
  capacity_ : Nat := 0
  replay_offset_ : Nat := 0
  deriving DecidableEq, Repr

namespace PreloadBuffer

/-- The member function `PreloadBuffer::Size`. -/
def Size (b : PreloadBuffer) : Nat := b.container_.length

/-- The member function `PreloadBuffer::Capacity`. -/
def Capacity (b : PreloadBuffer) : Nat := b.capacity_

/-- The member function `PreloadBuffer::Reserve`: `container_.reserve(container_.size() + size)`,
`false` when the allocation throws. A capacity that is already there needs no allocation. -/
def Reserve (env : Environment) (b : PreloadBuffer) (size : Nat) : PreloadBuffer × Bool :=
  let wanted := (b.container_.length + size) % 2 ^ 64
  if wanted ≤ b.capacity_ then (b, true)
  else if env.reserve_ok wanted then ({ b with capacity_ := wanted }, true)
  else (b, false)

/-- The member function `PreloadBuffer::Read`. The read cursor never passes the write size, so
the subtraction does not wrap. -/
def Read (b : PreloadBuffer) (destination_size : Nat) : PreloadBuffer × List Byte :=
  let remaining_buffer_data := b.container_.length - b.replay_offset_
  let read_size :=
    if destination_size > remaining_buffer_data then remaining_buffer_data else destination_size
  ({ b with replay_offset_ := b.replay_offset_ + read_size },
    (b.container_.drop b.replay_offset_).take read_size)

/-- The member function `PreloadBuffer::Reset`. -/
def Reset (_b : PreloadBuffer) : PreloadBuffer :=
  { container_ := [], capacity_ := 0, replay_offset_ := 0 }

/-- Modelled from the spec: `PreloadBuffer::Add` (declared in the header), "`append(bytes)` and
`append_header(h)`: copy into the tail; grow if necessary". -/
def Add (b : PreloadBuffer) (bytes : List Byte) : PreloadBuffer :=
  { b with
    container_ := b.container_ ++ bytes
    capacity_ := max b.capacity_ (b.container_.length + bytes.length) }

/-- Modelled from the spec: `PreloadBuffer::ReplayFinished` (declared in the header), "read
cursor has reached the write size". -/
def ReplayFinished (b : PreloadBuffer) : Bool :=
  decide (b.container_.length ≤ b.replay_offset_)

end PreloadBuffer

/-- The state of a `PreloadFileProcessor`. Of the base class: the file behind `filename_` and
`file_descriptor_` (its bytes, the read position and the end-of-file indicator), `bytes_read_`,
`current_frame_number_`, `block_index_`, `error_state_`, whether `annotation_handler_` is set,
and the dispatch calls made so far (`calls_`, what the decoders have seen). Of the class itself:
`status_`, `preload_buffer_`, `preload_frame_number_`. -/
structure PreloadFileProcessor where
  file_data_ : List Byte := []
  file_pos_ : Nat := 0
  file_eof_ : Bool := false
  bytes_read_ : Nat := 0
  current_frame_number_ : Nat := 0
  block_index_ : Nat := 0
  error_state_ : Error := Error.kErrorNone
  annotation_handler_ : Bool := false
  calls_ : List DecoderCall := []
  status_ : PreloadStatus := PreloadStatus.kInactive
  preload_buffer_ : PreloadBuffer := {}
  preload_frame_number_ : Nat := 0
  deriving DecidableEq, Repr

namespace PreloadFileProcessor

/-- The helper `util::platform::FileRead(buffer, 1, buffer_size, file_descriptor_)`, that is
`fread`: the bytes available, up to `buffer_size`; the end-of-file indicator is set when fewer
are available. -/
def FileRead (p : PreloadFileProcessor) (buffer_size : Nat) :
    PreloadFileProcessor × List Byte :=
  let bytes := (p.file_data_.drop p.file_pos_).take buffer_size
  ({ p with
     file_pos_ := p.file_pos_ + bytes.length
     file_eof_ := p.file_eof_ || decide (bytes.length < buffer_size) }, bytes)

/-- The member function `PreloadFileProcessor::ReadBytes`: the new state, the bytes put into
`buffer`, and the return value. -/
def ReadBytes (p : PreloadFileProcessor) (buffer_size : Nat) :
    PreloadFileProcessor × List Byte × Bool :=
  if p.status_ = PreloadStatus.kReplay then
    let (buffer1, bytes) := p.preload_buffer_.Read buffer_size
    let bytes_read := bytes.length
    let p1 := { p with preload_buffer_ := buffer1, bytes_read_ := p.bytes_read_ + bytes_read }
    let p2 :=
      if p1.preload_buffer_.ReplayFinished then { p1 with status_ := PreloadStatus.kInactive }
      else p1
    (p2, bytes, decide (bytes_read = buffer_size))
  else
    let (p1, bytes) := p.FileRead buffer_size
    let bytes_read := bytes.length
    ({ p1 with bytes_read_ := p1.bytes_read_ + bytes_read }, bytes,
      decide (bytes_read = buffer_size))

/-- Modelled from the spec: `FileProcessor::ContinueDecoding`. The inner loop of section 4.C has
no exit condition before the header read, so decoding always continues. -/
def ContinueDecoding (_p : PreloadFileProcessor) : Bool := true

/-- Modelled from the spec: `FileProcessor::ReadBlockHeader`: "read a block header", through
`ReadBytes`. -/
def ReadBlockHeader (p : PreloadFileProcessor) :
    PreloadFileProcessor × format.BlockHeader × Bool :=
  let (p1, bytes, success) := p.ReadBytes format.sizeofBlockHeader
  (p1, format.BlockHeader.ofBytes bytes, success)

/-- Modelled from the spec: `FileProcessor::SkipBytes`: "skip `header.size` bytes"; the file
position moves on and the bytes count as read. -/
def SkipBytes (p : PreloadFileProcessor) (skip_size : Nat) : PreloadFileProcessor × Bool :=
  ({ p with file_pos_ := p.file_pos_ + skip_size, bytes_read_ := p.bytes_read_ + skip_size },
    true)

/-- Modelled from the spec and from the comment in `ProcessBlocks`: `FileProcessor::
HandleBlockReadError` "will print an incomplete block at end of file warning when the file is at
EOF without an error"; otherwise it logs the message and records the error code. -/
def HandleBlockReadError (p : PreloadFileProcessor) (error_code : Error) :
    PreloadFileProcessor :=
  if p.file_eof_ then p else { p with error_state_ := error_code }

/-- The data bytes of a block after its 4-byte identifier: `block_header.size - sizeof(id)` in
64-bit unsigned arithmetic. -/
def dataSize (block_header : format.BlockHeader) : Nat :=
  (block_header.size + 2 ^ 64 - 4) % 2 ^ 64

/-- Modelled from the spec: the common shape of the five dispatch functions of `FileProcessor`
("read the 32-bit API-call identifier, then `header.size - 4` parameter bytes", "forward to F";
"metadata, state marker, annotation: similar two-mode handling"): read the rest of the block
through `ReadBytes` and hand header, identifier and data to the decoders; `call` tells which
dispatch function it is. A short read is reported with `kErrorReadingBlockData`. -/
def DispatchBlock (call : format.BlockHeader → Nat → List Byte → DecoderCall)
    (p : PreloadFileProcessor) (block_header : format.BlockHeader) (id : Nat) :
    PreloadFileProcessor × Bool :=
  let (p1, data, success) := p.ReadBytes (dataSize block_header)
  let p2 := { p1 with calls_ := p1.calls_ ++ [call block_header id data] }
  if success then (p2, true) else (p2.HandleBlockReadError Error.kErrorReadingBlockData, false)

/-- Modelled from the spec: `FileProcessor::ProcessFunctionCall`. -/
def ProcessFunctionCall (p : PreloadFileProcessor) (block_header : format.BlockHeader)
    (call_id : Nat) : PreloadFileProcessor × Bool :=
  DispatchBlock DecoderCall.function_call p block_header call_id

/-- Modelled from the spec: `FileProcessor::ProcessMethodCall`. -/
def ProcessMethodCall (p : PreloadFileProcessor) (block_header : format.BlockHeader)
    (call_id : Nat) : PreloadFileProcessor × Bool :=
  DispatchBlock DecoderCall.method_call p block_header call_id

/-- Modelled from the spec: `FileProcessor::ProcessMetaData`. -/
def ProcessMetaData (p : PreloadFileProcessor) (block_header : format.BlockHeader)
    (meta_data_id : Nat) : PreloadFileProcessor × Bool :=
  DispatchBlock DecoderCall.meta_data p block_header meta_data_id

/-- Modelled from the spec: `FileProcessor::ProcessStateMarker`. -/
def ProcessStateMarker (p : PreloadFileProcessor) (block_header : format.BlockHeader)
    (marker_type : Nat) : PreloadFileProcessor × Bool :=
  DispatchBlock DecoderCall.state_marker p block_header marker_type

/-- Modelled from the spec: `FileProcessor::ProcessAnnotation`. -/
def ProcessAnnotation (p : PreloadFileProcessor) (block_header : format.BlockHeader)
    (annotation_type : Nat) : PreloadFileProcessor × Bool :=
  DispatchBlock DecoderCall.annotation_block p block_header annotation_type

/-- The `Record` branches of `ProcessBlocks`: reserve room for the block, append the header and
the bytes already read after it (`id_bytes`: the API-call id for a call block, nothing for the
other kinds), then `parameters_size` bytes for the data, read from the file into that tail; a
short read leaves the rest of the tail zero and is reported with `kErrorReadingBlockData`. -/
def RecordBlock (env : Environment) (p : PreloadFileProcessor)
    (block_header : format.BlockHeader) (id_bytes : List Byte) (parameters_size : Nat) :
    PreloadFileProcessor × Bool :=
  let buffer1 :=
    (p.preload_buffer_.Reserve env (format.sizeofBlockHeader + block_header.size)).1
  let buffer2 := buffer1.Add block_header.toBytes
  let buffer3 := buffer2.Add id_bytes
  let (p1, data, success) := ReadBytes { p with preload_buffer_ := buffer3 } parameters_size
  let p2 :=
    { p1 with
      preload_buffer_ :=
        p1.preload_buffer_.Add (data ++ List.replicate (parameters_size - data.length) 0) }
  if success then (p2, true) else (p2.HandleBlockReadError Error.kErrorReadingBlockData, false)

/-- The branch of `ProcessBlocks` for a function call block (`is_method = false`) or a method
call block (`is_method = true`); the two differ in the dispatch function and in log messages.
The result is the state, `success`, and whether the loop is left by `break`. -/
def ProcessCallBlock (env : Environment) (p : PreloadFileProcessor)
    (block_header : format.BlockHeader) (is_method : Bool) :
    PreloadFileProcessor × Bool × Bool :=
  let (p1, id_bytes, success) := p.ReadBytes 4
  if success then
    let api_call_id := decodeLE id_bytes
    let is_frame_delimiter := env.IsFrameDelimiter api_call_id
    if p1.status_ = PreloadStatus.kRecord then
      let (p2, success) := RecordBlock env p1 block_header id_bytes (dataSize block_header)
      (p2, success, is_frame_delimiter)
    else
      let (p2, success) :=
        if is_method then p1.ProcessMethodCall block_header api_call_id
        else p1.ProcessFunctionCall block_header api_call_id
      if is_frame_delimiter then
        ({ p2 with
           current_frame_number_ := p2.current_frame_number_ + 1
           block_index_ := p2.block_index_ + 1 }, success, true)
      else (p2, success, false)
  else
    (p1.HandleBlockReadError Error.kErrorReadingBlockHeader, false, false)

/-- The branches of `ProcessBlocks` for a meta-data block, a state marker block and an
annotation block with a handler; they differ in the dispatch function `dispatch` and in log
messages. -/
def ProcessDataBlock (env : Environment) (p : PreloadFileProcessor)
    (block_header : format.BlockHeader)
    (dispatch : PreloadFileProcessor → format.BlockHeader → Nat → PreloadFileProcessor × Bool) :
    PreloadFileProcessor × Bool :=
  if p.status_ = PreloadStatus.kRecord then
    RecordBlock env p block_header [] block_header.size
  else
    let (p1, id_bytes, success) := p.ReadBytes 4
    if success then dispatch p1 block_header (decodeLE id_bytes)
    else (p1.HandleBlockReadError Error.kErrorReadingBlockHeader, false)

/-- One turn of the `while (success)` loop of `ProcessBlocks`, up to the `break` or the end of
the `if (success)` statement: the state, `success`, and whether the loop is left by `break`.
`SetCurrentBlockIndex` acts on the decoders only. -/
def ProcessBlocksBody (env : Environment) (p : PreloadFileProcessor) :
    PreloadFileProcessor × Bool × Bool :=
  let success := p.ContinueDecoding
  if success then
    let (p1, block_header, success) := p.ReadBlockHeader
    if success then
      if format.RemoveCompressedBlockBit block_header.type = env.kFunctionCallBlock then
        ProcessCallBlock env p1 block_header false
      else if format.RemoveCompressedBlockBit block_header.type = env.kMethodCallBlock then
        ProcessCallBlock env p1 block_header true
      else if format.RemoveCompressedBlockBit block_header.type = env.kMetaDataBlock then
        let (p2, success) := ProcessDataBlock env p1 block_header ProcessMetaData
        (p2, success, false)
      else if block_header.type = env.kStateMarkerBlock then
        let (p2, success) := ProcessDataBlock env p1 block_header ProcessStateMarker
        (p2, success, false)
      else if block_header.type = env.kAnnotation then
        if p1.annotation_handler_ then
          let (p2, success) := ProcessDataBlock env p1 block_header ProcessAnnotation
          (p2, success, false)
        else
          let (p2, success) := p1.SkipBytes block_header.size
          (p2, success, false)
      else
        let (p2, success) := p1.SkipBytes block_header.size
        (p2, success, false)
    else
      if p1.file_eof_ = false then
        ({ p1 with error_state_ := Error.kErrorReadingBlockHeader }, false, false)
      else (p1, false, false)
  else (p, false, false)

/-- The statement that ends a turn of the loop: `if (status_ != kRecord) ++block_index_`. -/
def CountBlock (p : PreloadFileProcessor) : PreloadFileProcessor :=
  if p.status_ ≠ PreloadStatus.kRecord then { p with block_index_ := p.block_index_ + 1 } else p

/-- The loop of `ProcessBlocks` with a bound on the number of turns; `none` when the bound is
reached before the loop ends. -/
def ProcessBlocksLoop (env : Environment) : Nat → PreloadFileProcessor →
    Option (PreloadFileProcessor × Bool)
  | 0, _ => none
  | fuel + 1, p =>
    match ProcessBlocksBody env p with
    | (p1, success, true) => some (p1, success)
    | (p1, true, false) => ProcessBlocksLoop env fuel (CountBlock p1)
    | (p1, false, false) => some (CountBlock p1, false)

/-- The bytes the loop can still read: the rest of the file, and in `Replay` state the rest of
the preload buffer. Every turn of the loop that goes on reads a block header. -/
def unreadBytes (p : PreloadFileProcessor) : Nat :=
  (p.file_data_.length - p.file_pos_) +
    (if p.status_ = PreloadStatus.kReplay then
      p.preload_buffer_.container_.length - p.preload_buffer_.replay_offset_
     else 0)

/-- The member function `PreloadFileProcessor::ProcessBlocks`: the state it leaves and its
return value. The bound on the turns of the loop is never reached
(`ProcessBlocks_terminates`). -/
def ProcessBlocks (env : Environment) (p : PreloadFileProcessor) :
    Option (PreloadFileProcessor × Bool) :=
  ProcessBlocksLoop env (p.unreadBytes + 1) p

/-- Modelled from the spec: `FileProcessor::ProcessNextFrame`: "execute the inner loop until one
frame delimiter is consumed (or the stream ends)". -/
def ProcessNextFrame (env : Environment) (p : PreloadFileProcessor) :
    Option (PreloadFileProcessor × Bool) :=
  ProcessBlocks env p

/-- Modelled from the spec: the constant `kFirstFrame`: "frame numbering starts at 1". -/
def kFirstFrame : Nat := 1

/-- Modelled from the spec: the auxiliary `FileProcessor` of `GetRequiredByteSizeForFrames` after
`Initialize(filename_)`: a processor of its own on the same file, at the start, with no
annotation handler and no decoder. It runs the same inner loop, always in direct mode. -/
def Initialize (file_data : List Byte) : PreloadFileProcessor :=
  { file_data_ := file_data, current_frame_number_ := kFirstFrame }

/-- The `while` loop of `GetRequiredByteSizeForFrames` with a bound on its turns: the auxiliary
processor once its frame number has reached `target`, `none` when the bound is reached first. -/
def AdvanceToFrame (env : Environment) (target : Nat) : Nat → PreloadFileProcessor →
    Option PreloadFileProcessor
  | 0, _ => none
  | fuel + 1, file_processor =>
    if file_processor.current_frame_number_ < target then
      match ProcessNextFrame env file_processor with
      | some (file_processor1, _) => AdvanceToFrame env target fuel file_processor1
      | none => none
    else some file_processor

/-- The member function `PreloadFileProcessor::GetRequiredByteSizeForFrames`; `none` when its loop
does not end. A turn of the loop that advances the frame number reads at least 16 bytes, and a
turn that does not leaves the file exhausted, so `file_data_.length + 1` turns decide. -/
def GetRequiredByteSizeForFrames (env : Environment) (p : PreloadFileProcessor)
    (frame_count : Nat) : Option Nat :=
  match AdvanceToFrame env (p.current_frame_number_ + frame_count) (p.file_data_.length + 1)
      (Initialize p.file_data_) with
  | some file_processor => some ((file_processor.bytes_read_ + 2 ^ 64 - p.bytes_read_) % 2 ^ 64)
  | none => none

/-- The member function `PreloadFileProcessor::GetNextBufferChunkSize`. The sum of the frame
numbers and the difference of capacity and size are computed in `size_t`, 64-bit unsigned
arithmetic. -/
def GetNextBufferChunkSize (p : PreloadFileProcessor) : Nat :=
  let kMegabyte := 2 ^ 20
  let bytes_to_reserve := 0
  let current_average_frame_size :=
    p.bytes_read_ / max ((p.current_frame_number_ + p.preload_frame_number_) % 2 ^ 64) 1
  let average_frame_size := max current_average_frame_size kMegabyte
  let buffer_capacity_left :=
    (p.preload_buffer_.Capacity + 2 ^ 64 - p.preload_buffer_.Size) % 2 ^ 64
  if buffer_capacity_left < average_frame_size then average_frame_size else bytes_to_reserve

/-- The loop `while (next_chunk_size > 1 && !preload_buffer_.Reserve(next_chunk_size))` of
`PreloadNextFrames` with a bound on its turns: the buffer and the chunk size it ends with, `none`
when the bound is reached first. -/
def ReserveChunk (env : Environment) : Nat → PreloadBuffer → Nat → Option (PreloadBuffer × Nat)
  | 0, _, _ => none
  | fuel + 1, buffer, next_chunk_size =>
    if next_chunk_size > 1 then
      match buffer.Reserve env next_chunk_size with
      | (buffer1, true) => some (buffer1, next_chunk_size)
      | (buffer1, false) =>
        ReserveChunk env fuel buffer1 (next_chunk_size - next_chunk_size / 10)
    else some (buffer, next_chunk_size)

/-- The statements of the `for` loop of `PreloadNextFrames` before `ProcessNextFrame()`: the
preload buffer they leave, `none` when the `while` loop does not end. The chunk size shrinks on
every failed `Reserve` until it is below 10, so `next_chunk_size + 1` turns of that loop decide
whether it ends. -/
def ReserveNextChunk (env : Environment) (p : PreloadFileProcessor) : Option PreloadBuffer :=
  let next_chunk_size := p.GetNextBufferChunkSize
  if next_chunk_size > 0 then
    (ReserveChunk env (next_chunk_size + 1) p.preload_buffer_ next_chunk_size).map Prod.fst
  else some p.preload_buffer_

/-- The `for` loop of `PreloadNextFrames` with a bound on its turns. -/
def PreloadFrames (env : Environment) (count : Nat) : Nat → PreloadFileProcessor →
    Option PreloadFileProcessor
  | 0, _ => none
  | fuel + 1, p =>
    if p.preload_frame_number_ < count then
      match ReserveNextChunk env p with
      | none => none
      | some buffer1 =>
        match ProcessNextFrame env { p with preload_buffer_ := buffer1 } with
        | none => none
        | some (p1, _) =>
          PreloadFrames env count fuel
            { p1 with preload_frame_number_ := p1.preload_frame_number_ + 1 }
    else some p

/-- The member function `PreloadFileProcessor::PreloadNextFrames`; `none` when one of its loops
does not end. -/
def PreloadNextFrames (env : Environment) (p : PreloadFileProcessor) (count : Nat) :
    Option PreloadFileProcessor :=
  match GetRequiredByteSizeForFrames env p count with
  | none => none
  | some total_bytes_needed =>
    let buffer1 := (p.preload_buffer_.Reserve env total_bytes_needed).1
    let p1 :=
      { p with
        preload_buffer_ := buffer1
        status_ := PreloadStatus.kRecord
        preload_frame_number_ := 0 }
    match PreloadFrames env count (count + 1) p1 with
    | none => none
    | some p2 => some { p2 with status_ := PreloadStatus.kReplay }

/-- The state after `count` calls of `ProcessNextFrame`. -/
def ProcessFrames (env : Environment) : Nat → PreloadFileProcessor → Option PreloadFileProcessor
  | 0, p => some p
  | count + 1, p =>
    match ProcessNextFrame env p with
    | none => none
    | some (p1, _) => ProcessFrames env count p1

end PreloadFileProcessor

/-- The bytes a read of `n` bytes gets from the preload buffer. -/
def bufferBytes (p : PreloadFileProcessor) (n : Nat) : List Byte :=
  (p.preload_buffer_.container_.drop p.preload_buffer_.replay_offset_).take n

/-- The bytes a read of `n` bytes gets from the file. -/
def fileBytes (p : PreloadFileProcessor) (n : Nat) : List Byte :=
  (p.file_data_.drop p.file_pos_).take n

/-- A dispatch call is a function or method call whose API-call id is a frame delimiter. -/
def isDelimiterCall (env : Environment) : DecoderCall → Bool
  | DecoderCall.function_call _ api_call_id _ => env.IsFrameDelimiter api_call_id
  | DecoderCall.method_call _ api_call_id _ => env.IsFrameDelimiter api_call_id
  | _ => false

/-- How a step of the processor may change `status_`: not at all, or from `Replay` to
`Inactive`. -/
def StatusStep (s s1 : PreloadStatus) : Prop :=
  s1 = s ∨ (s = PreloadStatus.kReplay ∧ s1 = PreloadStatus.kInactive)

/-- A step of the processor that reads at least `k` bytes and dispatches nothing: the unread
bytes go down by `k` or more, the state changes as in `StatusStep`, the frame number and the
dispatch calls stay. -/
structure QuietStep (p p1 : PreloadFileProcessor) (k : Nat) : Prop where
  unread : p1.unreadBytes + k ≤ p.unreadBytes
  status : StatusStep p.status_ p1.status_
  frame : p1.current_frame_number_ = p.current_frame_number_
  calls : p1.calls_ = p.calls_

/-- What the processing of a block after its header does, whatever the input: the unread bytes
do not go up; the state changes as in `StatusStep`; in `Record` state nothing is dispatched and
the frame number stays; in the other states at most one call is dispatched, and the turn ends in
`break` exactly when that call is a frame delimiter, the frame number going up by one. -/
structure PartSummary (env : Environment) (p p1 : PreloadFileProcessor) (brk : Bool) : Prop where
  unread_le : p1.unreadBytes ≤ p.unreadBytes
  status : StatusStep p.status_ p1.status_
  record_silent : p.status_ = PreloadStatus.kRecord →
    p1.calls_ = p.calls_ ∧ p1.current_frame_number_ = p.current_frame_number_
  dispatch : p.status_ ≠ PreloadStatus.kRecord →
    ∃ new, p1.calls_ = p.calls_ ++ new ∧
      (brk = true → ∃ d, new = [d] ∧ isDelimiterCall env d = true ∧
        p1.current_frame_number_ = p.current_frame_number_ + 1) ∧
      (brk = false → (∀ c ∈ new, isDelimiterCall env c = false) ∧
        p1.current_frame_number_ = p.current_frame_number_)

/-- What one turn of the loop of `ProcessBlocks` does, whatever the input: `PartSummary`, and a
turn that succeeds has read a block header. -/
structure BodySummary (env : Environment) (p p1 : PreloadFileProcessor) (success brk : Bool) :
    Prop where
  part : PartSummary env p p1 brk
  unread : success = true → p1.unreadBytes + format.sizeofBlockHeader ≤ p.unreadBytes

/-- The dispatch function of a call block. -/
def callDispatch (is_method : Bool) (p : PreloadFileProcessor)
    (block_header : format.BlockHeader) (api_call_id : Nat) : PreloadFileProcessor × Bool :=
  if is_method then p.ProcessMethodCall block_header api_call_id
  else p.ProcessFunctionCall block_header api_call_id

/-- What a pass of `ProcessBlocks` outside `Record` state has dispatched, `new` being the calls it
added: either no frame delimiter, and the frame number is as before; or calls that are no frame
delimiter followed by one frame delimiter, the last call, and the frame number is one more. -/
def PassOutcome (env : Environment) (frame_before frame_after : Nat) (new : List DecoderCall) :
    Prop :=
  ((∀ c ∈ new, isDelimiterCall env c = false) ∧ frame_after = frame_before) ∨
  (∃ pre d, new = pre ++ [d] ∧ (∀ c ∈ pre, isDelimiterCall env c = false) ∧
    isDelimiterCall env d = true ∧ frame_after = frame_before + 1)

/-- A sample environment: the block type values of the trace format, call id 4096 as the one
frame delimiter, and an allocator that never fails. -/
def sampleEnvironment : Environment :=
  { kFunctionCallBlock := 4
    kMethodCallBlock := 6
    kMetaDataBlock := 3
    kStateMarkerBlock := 2
    kAnnotation := 5
    IsFrameDelimiter := fun api_call_id => api_call_id == 4096
    reserve_ok := fun _ => true }

/-- A sample trace of two frames. Frame 1: a function call (id 1, two parameter bytes), a block
of unknown type 9 with three bytes, and the method call 4096 (a frame delimiter, no parameters).
Frame 2: the method call 4096 with one parameter byte. -/
def sampleTrace : List Byte :=
  [4, 0, 0, 0, 6, 0, 0, 0, 0, 0, 0, 0, 1, 0, 0, 0, 7, 8] ++
  [9, 0, 0, 0, 3, 0, 0, 0, 0, 0, 0, 0, 1, 2, 3] ++
  [6, 0, 0, 0, 4, 0, 0, 0, 0, 0, 0, 0, 0, 16, 0, 0] ++
  [6, 0, 0, 0, 5, 0, 0, 0, 0, 0, 0, 0, 0, 16, 0, 0, 9]

/-- A processor at the start of `sampleTrace`, in direct mode. -/
def sampleProcessor : PreloadFileProcessor :=
  { file_data_ := sampleTrace, current_frame_number_ := PreloadFileProcessor.kFirstFrame }

/-! ## Well-formed traces -/

/-- One block of a trace: the `type` field of its header and its payload; the `size` field is the
length of the payload. -/
structure Block where
  type : Nat
  payload : List Byte

/-- The header of a block. -/
def Block.header (b : Block) : format.BlockHeader :=
  { type := b.type, size := b.payload.length }

/-- The bytes of a block in the file: header, then payload. -/
def Block.bytes (b : Block) : List Byte :=
  b.header.toBytes ++ b.payload

/-- The identifier at the start of the payload (API-call id, meta-data id, marker type or
annotation type). -/
def Block.id (b : Block) : Nat := decodeLE (b.payload.take 4)

/-- The payload after the identifier. -/
def Block.data (b : Block) : List Byte := b.payload.drop 4

/-- The bytes of a sequence of blocks. -/
def traceBytes : List Block → List Byte
  | [] => []
  | b :: blocks => b.bytes ++ traceBytes blocks

/-- The branch of `ProcessBlocks` that a header type selects: a call block (function or method),
a block handed to one of the other three dispatch functions, or a block that is skipped. -/
inductive BlockKind
  | call (is_method : Bool)
  | data (dispatch : format.BlockHeader → Nat → List Byte → DecoderCall)
  | skipped

/-- The branch selected by the type dispatch of `ProcessBlocks`, in its order of tests;
`handler` tells whether an annotation handler is set. -/
def blockKind (env : Environment) (handler : Bool) (type : Nat) : BlockKind :=
  if format.RemoveCompressedBlockBit type = env.kFunctionCallBlock then BlockKind.call false
  else if format.RemoveCompressedBlockBit type = env.kMethodCallBlock then BlockKind.call true
  else if format.RemoveCompressedBlockBit type = env.kMetaDataBlock then
    BlockKind.data DecoderCall.meta_data
  else if type = env.kStateMarkerBlock then BlockKind.data DecoderCall.state_marker
  else if type = env.kAnnotation then
    if handler then BlockKind.data DecoderCall.annotation_block else BlockKind.skipped
  else BlockKind.skipped

/-- The dispatch call a block gives rise to when it is processed outside `Record` state. -/
def Block.call (env : Environment) (handler : Bool) (b : Block) : Option DecoderCall :=
  match blockKind env handler b.type with
  | BlockKind.call false => some (DecoderCall.function_call b.header b.id b.data)
  | BlockKind.call true => some (DecoderCall.method_call b.header b.id b.data)
  | BlockKind.data dispatch => some (dispatch b.header b.id b.data)
  | BlockKind.skipped => none

/-- The block is a frame delimiter: a call block whose API-call id is one. -/
def Block.endsFrame (env : Environment) (handler : Bool) (b : Block) : Bool :=
  match blockKind env handler b.type with
  | BlockKind.call _ => env.IsFrameDelimiter b.id
  | _ => false

/-- The block is one that `ProcessBlocks` skips (unrecognized type, or annotation without a
handler). -/
def Block.isSkipped (env : Environment) (handler : Bool) (b : Block) : Bool :=
  match blockKind env handler b.type with
  | BlockKind.skipped => true
  | _ => false

/-- A well-formed block: the type fits 32 bits, the size 64 bits, and a block that is dispatched
holds its 4-byte identifier. -/
def Block.WellFormed (env : Environment) (handler : Bool) (b : Block) : Prop :=
  b.type < 2 ^ 32 ∧ b.payload.length < 2 ^ 64 ∧
    (b.isSkipped env handler = false → 4 ≤ b.payload.length)

/-- A frame: well-formed blocks none of which is a frame delimiter, then a well-formed frame
delimiter. -/
def IsFrame (env : Environment) (handler : Bool) (blocks : List Block) : Prop :=
  ∃ pre d, blocks = pre ++ [d] ∧
    (∀ b ∈ pre, b.WellFormed env handler ∧ b.endsFrame env handler = false) ∧
    d.WellFormed env handler ∧ d.endsFrame env handler = true

/-- The blocks of a sequence of frames. -/
def framesBlocks : List (List Block) → List Block
  | [] => []
  | frame :: frames => frame ++ framesBlocks frames

/-- The dispatch calls of a sequence of blocks, in order. -/
def blocksCalls (env : Environment) (handler : Bool) : List Block → List DecoderCall
  | [] => []
  | b :: blocks =>
    match b.call env handler with
    | some c => c :: blocksCalls env handler blocks
    | none => blocksCalls env handler blocks

/-- The blocks of a sequence that are not skipped: what `Record` puts into the preload
buffer. -/
def bufferedBlocks (env : Environment) (handler : Bool) : List Block → List Block
  | [] => []
  | b :: blocks =>
    if b.isSkipped env handler then bufferedBlocks env handler blocks
    else b :: bufferedBlocks env handler blocks

/-- The file read position is at `bytes`: they are what is left of the file. -/
def FileAt (p : PreloadFileProcessor) (bytes : List Byte) : Prop :=
  p.file_data_.drop p.file_pos_ = bytes

/-- The state of a processor after `n` bytes were read from the file. -/
def advanceFile (p : PreloadFileProcessor) (n : Nat) : PreloadFileProcessor :=
  { p with file_pos_ := p.file_pos_ + n, bytes_read_ := p.bytes_read_ + n }

/-- The sequence of function and method calls among dispatch calls, each with its block header
and API-call id: what the replay consumer is invoked with. -/
def callSequence : List DecoderCall → List (Bool × format.BlockHeader × Nat)
  | [] => []
  | DecoderCall.function_call h id _ :: calls => (false, h, id) :: callSequence calls
  | DecoderCall.method_call h id _ :: calls => (true, h, id) :: callSequence calls
  | _ :: calls => callSequence calls

/-- The part of a turn of the loop of `ProcessBlocks` after the header read, by the branch
taken. -/
def ProcessBlockOfKind (env : Environment) (p : PreloadFileProcessor)
    (block_header : format.BlockHeader) : BlockKind → PreloadFileProcessor × Bool × Bool
  | BlockKind.call is_method => PreloadFileProcessor.ProcessCallBlock env p block_header is_method
  | BlockKind.data dispatch =>
    ((PreloadFileProcessor.ProcessDataBlock env p block_header
        (PreloadFileProcessor.DispatchBlock dispatch)).1,
      (PreloadFileProcessor.ProcessDataBlock env p block_header
        (PreloadFileProcessor.DispatchBlock dispatch)).2, false)
  | BlockKind.skipped => ((p.SkipBytes block_header.size).1, true, false)

/-- What a turn of the loop does with the next block `b` of a well-formed trace in direct
(`Inactive`) mode: the block is read from the file and dispatched, and a frame delimiter is
counted. -/
structure DirectStep (env : Environment) (p p1 : PreloadFileProcessor) (b : Block) : Prop where
  status : p1.status_ = PreloadStatus.kInactive
  file : p1.file_data_ = p.file_data_
  pos : p1.file_pos_ = p.file_pos_ + b.bytes.length
  eof : p1.file_eof_ = p.file_eof_
  handler : p1.annotation_handler_ = p.annotation_handler_
  calls : p1.calls_ = p.calls_ ++ (b.call env p.annotation_handler_).toList
  frame : p1.current_frame_number_ =
    p.current_frame_number_ + (if b.endsFrame env p.annotation_handler_ then 1 else 0)
  index : p1.block_index_ =
    p.block_index_ + (if b.endsFrame env p.annotation_handler_ then 1 else 0)
  bytes_read : p1.bytes_read_ = p.bytes_read_ + b.bytes.length
  buffer : p1.preload_buffer_ = p.preload_buffer_

/-- The number of frame delimiters among blocks. -/
def frameCount (env : Environment) (handler : Bool) (blocks : List Block) : Nat :=
  blocks.countP (fun b => b.endsFrame env handler)

/-- Blocks that end with their one frame delimiter: what one pass of `ProcessBlocks` outside
`Record` state consumes. -/
def Delimited (env : Environment) (handler : Bool) (blocks : List Block) : Prop :=
  ∃ pre d, blocks = pre ++ [d] ∧ (∀ b ∈ pre, b.endsFrame env handler = false) ∧
    d.endsFrame env handler = true

/-- What the processor does with `blocks` of a well-formed trace in direct (`Inactive`) mode:
they are read from the file and dispatched, and the frame delimiters are counted; the preload
buffer is not touched. -/
structure DirectRun (env : Environment) (p p1 : PreloadFileProcessor) (blocks : List Block) :
    Prop where
  status : p1.status_ = PreloadStatus.kInactive
  file : p1.file_data_ = p.file_data_
  pos : p1.file_pos_ = p.file_pos_ + (traceBytes blocks).length
  handler : p1.annotation_handler_ = p.annotation_handler_
  calls : p1.calls_ = p.calls_ ++ blocksCalls env p.annotation_handler_ blocks
  frame : p1.current_frame_number_ =
    p.current_frame_number_ + frameCount env p.annotation_handler_ blocks
  buffer : p1.preload_buffer_ = p.preload_buffer_

/-- What the processor does with `blocks` of a well-formed trace in `Record` state: they are read
from the file, and those that are not skipped are appended to the preload buffer; nothing is
dispatched and no frame is counted. -/
structure RecordRun (env : Environment) (p p1 : PreloadFileProcessor) (blocks : List Block) :
    Prop where
  status : p1.status_ = PreloadStatus.kRecord
  file : p1.file_data_ = p.file_data_
  pos : p1.file_pos_ = p.file_pos_ + (traceBytes blocks).length
  handler : p1.annotation_handler_ = p.annotation_handler_
  calls : p1.calls_ = p.calls_
  frame : p1.current_frame_number_ = p.current_frame_number_
  container : p1.preload_buffer_.container_ =
    p.preload_buffer_.container_ ++ traceBytes (bufferedBlocks env p.annotation_handler_ blocks)
  replay_offset : p1.preload_buffer_.replay_offset_ = p.preload_buffer_.replay_offset_

/-- The read cursor of the preload buffer is at `bytes`: they are what is left to replay, and the
state is `Replay` while some are left and `Inactive` once none are. -/
structure Replaying (p : PreloadFileProcessor) (bytes : List Byte) : Prop where
  buffer : p.preload_buffer_.container_.drop p.preload_buffer_.replay_offset_ = bytes
  status : p.status_ = if bytes.isEmpty then PreloadStatus.kInactive else PreloadStatus.kReplay

/-- What the processor does with `blocks` that it replays from the preload buffer: they are
dispatched and the frame delimiters are counted; the file is not read. -/
structure ReplayRun (env : Environment) (p p1 : PreloadFileProcessor) (blocks : List Block) :
    Prop where
  file : p1.file_data_ = p.file_data_
  pos : p1.file_pos_ = p.file_pos_
  handler : p1.annotation_handler_ = p.annotation_handler_
  calls : p1.calls_ = p.calls_ ++ blocksCalls env p.annotation_handler_ blocks
  frame : p1.current_frame_number_ =
    p.current_frame_number_ + frameCount env p.annotation_handler_ blocks

/-- A processor in direct mode whose file read position is at well-formed `blocks`, followed by
`rest`. -/
structure DirectAt (env : Environment) (handler : Bool) (rest : List Byte)
    (p : PreloadFileProcessor) (blocks : List Block) : Prop where
  status : p.status_ = PreloadStatus.kInactive
  same_handler : p.annotation_handler_ = handler
  file : FileAt p (traceBytes blocks ++ rest)
  wf : ∀ b ∈ blocks, b.WellFormed env handler

/-- A processor in `Record` state whose file read position is at well-formed `blocks`, followed
by `rest`, with `preloaded` frames recorded so far. -/
structure RecordAt (env : Environment) (handler : Bool) (rest : List Byte) (preloaded : Nat)
    (p : PreloadFileProcessor) (blocks : List Block) : Prop where
  status : p.status_ = PreloadStatus.kRecord
  preload_frame : p.preload_frame_number_ = preloaded
  same_handler : p.annotation_handler_ = handler
  file : FileAt p (traceBytes blocks ++ rest)
  wf : ∀ b ∈ blocks, b.WellFormed env handler

/-- A processor whose preload buffer holds, from the read cursor on, well-formed `blocks` none of
which is skipped, and nothing else. -/
structure ReplayAt (env : Environment) (handler : Bool) (p : PreloadFileProcessor)
    (blocks : List Block) : Prop where
  same_handler : p.annotation_handler_ = handler
  replaying : Replaying p (traceBytes blocks)
  wf : ∀ b ∈ blocks, b.WellFormed env handler ∧ b.isSkipped env handler = false

/-- The two frames of `sampleTrace`, block by block. -/
def sampleFrames : List (List Block) :=
  [[{ type := 4, payload := [1, 0, 0, 0, 7, 8] }, { type := 9, payload := [1, 2, 3] },
    { type := 6, payload := [0, 16, 0, 0] }],
   [{ type := 6, payload := [0, 16, 0, 0, 9] }]]

/-- A read through `ReadBytes` that is served by the preload buffer: the file, the dispatch
calls and the frame number are as before. -/
structure ReplayRead (p p1 : PreloadFileProcessor) : Prop where
  file : p1.file_data_ = p.file_data_
  pos : p1.file_pos_ = p.file_pos_
  handler : p1.annotation_handler_ = p.annotation_handler_
  calls : p1.calls_ = p.calls_
  frame : p1.current_frame_number_ = p.current_frame_number_

end decode
end gfxrecon
namespace gfxrecon
namespace decode

/-! ## Sample inputs of the block loop -/

/-- A processor in direct mode on a file that ends after five bytes of a block header. -/
def partialHeaderProcessor : PreloadFileProcessor :=
  { file_data_ := [4, 0, 0, 0, 6], current_frame_number_ := PreloadFileProcessor.kFirstFrame }

/-- A block with five payload bytes (identifier 1, one data byte) and the given header type. -/
def sampleBlock (type : Nat) : Block :=
  { type := type, payload := [1, 0, 0, 0, 7] }

/-- A processor in direct mode, with an annotation handler, on a file that holds one
`sampleBlock`. -/
def sampleBlockProcessor (type : Nat) : PreloadFileProcessor :=
  { file_data_ := (sampleBlock type).bytes, annotation_handler_ := true,
    current_frame_number_ := PreloadFileProcessor.kFirstFrame }

/-- The statement `next_chunk_size -= next_chunk_size / 10` of the reserve loop of
`PreloadNextFrames`: the request after a failed `Reserve`. -/
def retryChunkSize (next_chunk_size : Nat) : Nat :=
  next_chunk_size - next_chunk_size / 10

/-- An environment like `sampleEnvironment` whose allocator refuses a capacity of one mebibyte
or more. -/
def smallMemoryEnvironment : Environment :=
  { sampleEnvironment with reserve_ok := fun capacity => decide (capacity < 2 ^ 20) }

/-- A preload buffer that holds five bytes, two of them replayed. -/
def sampleBuffer : PreloadBuffer :=
  { container_ := [10, 11, 12, 13, 14], capacity_ := 8, replay_offset_ := 2 }

/-! ## Sample states of the replay consumer -/

/-- A descriptor heap record as `OverrideCreateDescriptorHeap` leaves it: type 0, 16
descriptors, no begin address recorded. -/
def sampleHeap (id : HandleId) : DxObjectInfo :=
  { capture_id := id, object := 4096 + id, ref_count := 1
    extra_info_type := DxObjectInfoType.kID3D12DescriptorHeapInfo
    extra_info := some (ExtraInfo.heap { descriptor_type := 0, descriptor_count := 16 }) }

/-- A consumer that holds two descriptor heaps, ids 8 and 9. -/
def twoHeaps : Dx12ReplayConsumerBase :=
  { object_info_table_ := [sampleHeap 8, sampleHeap 9] }

/-- Modelled from the spec: what the generated consumer does after a creation override has
returned: the `DxObjectInfo` of the created object goes into the object table ("insert (on an
object creation override)", section 4.D). -/
def object_mapping.AddObject (c : Dx12ReplayConsumerBase) (info : Option DxObjectInfo) :
    Dx12ReplayConsumerBase :=
  match info with
  | some info => { c with object_info_table_ := c.object_info_table_.insert info }
  | none => c

/-- The scenario "handle lifetime" of the spec: `D3D12CreateDevice` gives the device 7, the
increment of heap type 0 is 32 at capture and 64 at replay, `CreateDescriptorHeap` on the device
gives the heap 8 of type 0 with 16 descriptors, and `GetCPUDescriptorHandleForHeapStart` on the
heap returned 4096 (0x1000) at capture and returns 36864 (0x9000) at replay. -/
def handleLifetimeScenario : Option Dx12ReplayConsumerBase :=
  (({ } : Dx12ReplayConsumerBase).OverrideD3D12CreateDevice 0 0
    (some { consumer_data := some { capture_id := 7, object := 28672, ref_count := 1 } })
    0).bind fun device =>
  ((object_mapping.AddObject device.consumer device.object_info
    ).OverrideGetDescriptorHandleIncrementSize 7 32 0 64).bind fun increments =>
  (increments.1.OverrideCreateDescriptorHeap 7 0
    (some { pointer := some { Type_ := 0, NumDescriptors := 16 } })
    (some { consumer_data := some { capture_id := 8, object := 32768, ref_count := 1 } })
    0).bind fun heap =>
  ((object_mapping.AddObject heap.consumer heap.object_info
    ).OverrideGetCPUDescriptorHandleForHeapStart 8 4096 36864).map Prod.fst

/-- The state that `handleLifetimeScenario` ends in. -/
def handleLifetimeState : Dx12ReplayConsumerBase :=
  { object_info_table_ :=
      [{ capture_id := 7, object := 28672, ref_count := 1
         extra_info_type := DxObjectInfoType.kID3D12DeviceInfo
         extra_info := some (ExtraInfo.device
           { capture_increments := some 0, replay_increments := some 1 }) },
       { capture_id := 8, object := 32768, ref_count := 1
         extra_info_type := DxObjectInfoType.kID3D12DescriptorHeapInfo
         extra_info := some (ExtraInfo.heap
           { descriptor_type := 0, descriptor_count := 16
             capture_increments := some 0, replay_increments := some 1
             capture_cpu_addr_begin := 4096, replay_cpu_addr_begin := 36864 }) }]
    descriptor_cpu_addresses_ := [(4096, 8)]
    increment_tables_ := [[(0, 32)], [(0, 64)]] }

/-- A consumer that holds a DXGI factory, id 3. -/
def factoryConsumer : Dx12ReplayConsumerBase :=
  { object_info_table_ := [{ capture_id := 3, object := 12288, ref_count := 1 }] }

/-- The handle decoder of a swapchain about to be created, id 5. -/
def sampleSwapchainDecoder : HandlePointerDecoder :=
  { consumer_data := some { capture_id := 5, object := 20480, ref_count := 1 } }

/-! ## The life of windows -/

/-- The windows the factory has created, oldest first. -/
def WindowFactory.windows (f : WindowFactory) : List Nat :=
  f.created.map Prod.fst

/-- The state that the generated consumer leaves after a creation override: the object info of
the created object goes into the object table when the call has succeeded. -/
def afterCreation (r : CreateResult) : Dx12ReplayConsumerBase :=
  object_mapping.AddObject r.consumer (if SUCCEEDED r.result then r.object_info else none)

/-- The consumer states reachable from the empty consumer by the creation of objects without
extra info (factories, devices, outputs), swapchain creation through `CreateSwapChainForHwnd`
and `OverrideCreateSwapChain`, `RemoveObject` on a live object and `OverrideRelease`. The window
factory hands out a window that it has not handed out before, or none. -/
inductive WindowReachable : Dx12ReplayConsumerBase → Prop
  | init : WindowReachable ({ } : Dx12ReplayConsumerBase)
  | object (c : Dx12ReplayConsumerBase) (info : DxObjectInfo) :
      WindowReachable c → info.extra_info = none →
      WindowReachable (object_mapping.AddObject c (some info))
  | for_hwnd (c : Dx12ReplayConsumerBase)
      (replay_object_info device_info hwnd_id restrict_to_output_info : HandleId)
      (original_result driver_result : HRESULT)
      (desc : Option (StructPointerDecoder DXGI_SWAP_CHAIN_DESC1))
      (full_screen_desc : Option (StructPointerDecoder DXGI_SWAP_CHAIN_FULLSCREEN_DESC))
      (swapchain : Option HandlePointerDecoder) (window : Nat) (native_handle : Bool)
      (r : CreateResult) :
      WindowReachable c → window ∉ c.window_factory_.windows →
      c.CreateSwapChainForHwnd replay_object_info original_result device_info hwnd_id desc
        full_screen_desc restrict_to_output_info swapchain window native_handle driver_result =
        some r →
      WindowReachable (afterCreation r)
  | create (c : Dx12ReplayConsumerBase) (replay_object_info device_info : HandleId)
      (original_result driver_result : HRESULT)
      (desc : Option (StructPointerDecoder DXGI_SWAP_CHAIN_DESC))
      (swapchain : Option HandlePointerDecoder) (window : Nat) (native_handle : Bool)
      (r : CreateResult) :
      WindowReachable c → window ∉ c.window_factory_.windows →
      c.OverrideCreateSwapChain replay_object_info original_result device_info desc swapchain
        window native_handle driver_result = some r →
      WindowReachable (afterCreation r)
  | remove (c c1 : Dx12ReplayConsumerBase) (id : HandleId) (info : DxObjectInfo)
      (left : Option DxObjectInfo) :
      WindowReachable c → c.object_info_table_.find id = some info →
      c.RemoveObject (some info) = some (c1, left) → WindowReachable c1
  | release (c : Dx12ReplayConsumerBase) (id : HandleId) (original driver_result : Nat)
      (res : Dx12ReplayConsumerBase.ReleaseResult) :
      WindowReachable c → c.OverrideRelease id original driver_result = some res →
      WindowReachable res.consumer

/-- The invariant of the window lifecycle: the windows in `active_windows_` are windows the
factory has created and has not been asked to destroy, every other created window has been
destroyed once, and the swapchain infos of the object table hold active windows, no two of them
the same. -/
structure WindowInvariant (c : Dx12ReplayConsumerBase) : Prop where
  created_nodup : c.window_factory_.windows.Nodup
  active_nodup : c.active_windows_.Nodup
  active_created : ∀ w ∈ c.active_windows_, w ∈ c.window_factory_.windows
  destroyed_created : ∀ w ∈ c.window_factory_.destroyed, w ∈ c.window_factory_.windows
  destroyed_count : ∀ w ∈ c.window_factory_.windows,
    c.window_factory_.destroyed.count w = if w ∈ c.active_windows_ then 0 else 1
  tagged : ∀ id info, c.object_info_table_.find id = some info →
    info.extra_info = none ∨
      ∃ sw, info.extra_info = some (ExtraInfo.swapchain sw) ∧
        info.extra_info_type = DxObjectInfoType.kIDxgiSwapchainInfo ∧
        sw.window ∈ c.active_windows_
  distinct : ∀ id1 id2 info1 info2 sw1 sw2, c.object_info_table_.find id1 = some info1 →
    c.object_info_table_.find id2 = some info2 →
    info1.extra_info = some (ExtraInfo.swapchain sw1) →
    info2.extra_info = some (ExtraInfo.swapchain sw2) → sw1.window = sw2.window → id1 = id2

/-- A consumer with a swapchain, id 5, that holds the window 77. -/
def swapchainConsumer : Dx12ReplayConsumerBase :=
  { object_info_table_ :=
      [{ capture_id := 3, object := 12288, ref_count := 1 },
       { capture_id := 5, object := 20480, ref_count := 1
         extra_info_type := DxObjectInfoType.kIDxgiSwapchainInfo
         extra_info := some (ExtraInfo.swapchain { window := 77 }) }]
    window_factory_ := { created := [(77, { x := 0, y := 0, width := 800, height := 600 })] }
    active_windows_ := [77] }

/-- A processor at the start of `sampleTrace`, in `Record` state. -/
def recordingProcessor : PreloadFileProcessor :=
  { sampleProcessor with status_ := PreloadStatus.kRecord }

end decode
end gfxrecon
/-! ## The annotation pipeline (decode/replay_options_annotation.cpp,
tools/optimize/annotation_editor.cpp, tools/optimize/replay_options_editor.cpp)

The base class `decode::FileTransformer`, the reading `decode::FileProcessor` and `format/format.h`
are not part of the sources at hand; what the editors and the handler use of them is modelled from
the spec, and marked so. A `std::string` is a `String` whose characters stand for its bytes. -/

namespace gfxrecon
namespace decode

namespace format

/-- The enumeration `format::AnnotationType` (format/format.h): the two members the sources at
hand name, and any other value. -/
inductive AnnotationType
  | kUnknown
  | kText
  | other (value : Nat)
  deriving DecidableEq, Repr

/-- Modelled from the spec: the constant `format::kAnnotationLabelReplayOptions`, "the label
`"replay-options"`". -/
def kAnnotationLabelReplayOptions : String := "replay-options"

/-- Modelled from the spec: `format::GetAnnotationBlockBaseSize()`, the size of an annotation
payload without label and data: "annotation payloads encode `{u32 annotation_type, u32 label_len,
u32 data_len, char label[], char data[]}`". -/
def GetAnnotationBlockBaseSize : Nat := 12

end format

/-- Modelled from the spec: a block of a file as `FileTransformer` reads and writes it: an
annotation block, decoded into what `ProcessAnnotation` receives (block header, annotation type,
label, data), or a block of any other kind. -/
inductive FileBlock
  | annotation (block_header : format.BlockHeader) (annotation_type : format.AnnotationType)
      (label data : String)
  | other (type : Nat) (payload : List Byte)
  deriving DecidableEq, Repr

/-- Modelled from the spec: the state of a `decode::FileTransformer`, "a file-to-file
transformer": the blocks of the input file, whether the input ends in a block that cannot be
read, the blocks written to the output file, oldest first, and how many more blocks the output
file accepts (`none`: any number). -/
structure FileTransformer where
  input_ : List FileBlock := []
  input_error_ : Bool := false
  output_ : List FileBlock := []
  output_room_ : Option Nat := none
  deriving DecidableEq, Repr

namespace FileTransformer

/-- Modelled from the spec: a write of one block to the output file; a write that fails leaves
the output as it is. -/
def WriteBlock (t : FileTransformer) (block : FileBlock) : FileTransformer × Bool :=
  match t.output_room_ with
  | none => ({ t with output_ := t.output_ ++ [block] }, true)
  | some 0 => (t, false)
  | some (room + 1) => ({ t with output_ := t.output_ ++ [block], output_room_ := some room }, true)

/-- Modelled from the spec: the base function `FileTransformer::ProcessAnnotation`, which writes
the annotation block it is given to the output. -/
def ProcessAnnotation (t : FileTransformer) (block_header : format.BlockHeader)
    (annotation_type : format.AnnotationType) (label data : String) : FileTransformer × Bool :=
  t.WriteBlock (FileBlock.annotation block_header annotation_type label data)

/-- Modelled from the spec: the loop of `FileTransformer::Process` over the blocks of the input,
in file order: an annotation block goes to the virtual function `ProcessAnnotation` of the class
(`process_annotation`), any other block is copied to the output (`copy`); the loop ends at the
first failure. -/
def Pass {σ : Type}
    ( process_annotation :
      σ → format.BlockHeader → format.AnnotationType → String → String → σ × Bool)
    (copy : σ → FileBlock → σ × Bool) : List FileBlock → σ → σ × Bool
  | [], s => (s, true)
  | FileBlock.annotation block_header annotation_type label data :: rest, s =>
    match process_annotation s block_header annotation_type label data with
    | (s1, true) => Pass process_annotation copy rest s1
    | (s1, false) => (s1, false)
  | FileBlock.other type payload :: rest, s =>
    match copy s (FileBlock.other type payload) with
    | (s1, true) => Pass process_annotation copy rest s1
    | (s1, false) => (s1, false)

end FileTransformer

/-- The class `ReplayOptionsAnnotationHandler`: the member `replay_options_`. -/
structure ReplayOptionsAnnotationHandler where
  replay_options_ : String := ""
  deriving DecidableEq, Repr

namespace ReplayOptionsAnnotationHandler

/-- The member function `ReplayOptionsAnnotationHandler::ProcessAnnotation`. -/
def ProcessAnnotation (h : ReplayOptionsAnnotationHandler) (block_index : Nat)
    (type : format.AnnotationType) (label data : String) : ReplayOptionsAnnotationHandler :=
  if label = format.kAnnotationLabelReplayOptions then { h with replay_options_ := data } else h

/-- The member function `ReplayOptionsAnnotationHandler::GetReplayOptions`. -/
def GetReplayOptions (h : ReplayOptionsAnnotationHandler) : String :=
  h.replay_options_

end ReplayOptionsAnnotationHandler

/-- An annotation as it is delivered to an annotation handler: type, label, data. -/
structure Annotation where
  type : format.AnnotationType := format.AnnotationType.kUnknown
  label : String := ""
  data : String := ""
  deriving DecidableEq, Repr

/-- A sequence of annotations delivered to `ReplayOptionsAnnotationHandler::ProcessAnnotation`,
one call each; `block_index` is the index given with the first one, and it grows by one from
call to call. -/
def deliver : List Annotation → Nat → ReplayOptionsAnnotationHandler →
    ReplayOptionsAnnotationHandler
  | [], _, h => h
  | a :: rest, block_index, h =>
    deliver rest (block_index + 1) (h.ProcessAnnotation block_index a.type a.label a.data)

/-- The annotations among the blocks of a file, in file order. -/
def fileAnnotations : List FileBlock → List Annotation
  | [] => []
  | FileBlock.annotation _ annotation_type label data :: rest =>
    { type := annotation_type, label := label, data := data } :: fileAnnotations rest
  | FileBlock.other _ _ :: rest => fileAnnotations rest

/-- Modelled from the spec: `FileProcessor::ProcessAnnotation()` with an annotation handler set:
"a registered handler receives each annotation", in file order, with the index of its block. -/
def FileProcessor.ProcessAnnotation : List FileBlock → Nat → ReplayOptionsAnnotationHandler →
    ReplayOptionsAnnotationHandler
  | [], _, h => h
  | FileBlock.annotation _ annotation_type label data :: rest, block_index, h =>
    FileProcessor.ProcessAnnotation rest (block_index + 1)
      (h.ProcessAnnotation block_index annotation_type label data)
  | FileBlock.other _ _ :: rest, block_index, h =>
    FileProcessor.ProcessAnnotation rest (block_index + 1) h

/-- The classification `std::isspace` of the stream's locale (the "C" locale): space, and the
characters from horizontal tab to carriage return. -/
def isspace (c : Char) : Bool :=
  decide (c.toNat = 32) || (decide (9 ≤ c.toNat) && decide (c.toNat ≤ 13))

/-- One extraction `stream >> token` of a `std::string` from the string stream: leading
whitespace is skipped; at the end of the stream the extraction fails (`none`); otherwise the
characters up to the next whitespace or the end are the token. The result is the token and what
is left of the stream. -/
def extractToken (stream : List Char) : Option (List Char × List Char) :=
  match stream.dropWhile isspace with
  | [] => none
  | c :: rest =>
    some ((c :: rest).takeWhile (fun x => !isspace x), (c :: rest).dropWhile (fun x => !isspace x))

/-- The range `[begin, end)` of `std::istream_iterator<std::string>` over the string stream:
tokens are extracted until an extraction fails. `fuel` bounds the number of extractions; `none`
when the bound is reached first. -/
def istreamTokens : Nat → List Char → Option (List (List Char))
  | 0, _ => none
  | fuel + 1, stream =>
    match extractToken stream with
    | none => some []
    | some (token, rest) => (istreamTokens fuel rest).map (fun tokens => token :: tokens)

/-- The function `GetTraceReplayOptions`; the argument is the content of the file `filename`.
Every extraction but the last takes a character from the stream, so one more extraction than
the string has characters ends the range. -/
def GetTraceReplayOptions (file : List FileBlock) : Option (List String) :=
  let annotation_handler : ReplayOptionsAnnotationHandler := {}
  let annotation_handler1 := FileProcessor.ProcessAnnotation file 0 annotation_handler
  let ss := annotation_handler1.GetReplayOptions
  (istreamTokens (ss.data.length + 1) ss.data).map (fun tokens => tokens.map String.mk)

/-- The words of the spec, "whitespace-tokenized": the maximal non-empty whitespace-free
substrings of the data, in order, which are the non-empty pieces between whitespace
characters. -/
def whitespaceTokens (data : List Char) : List (List Char) :=
  (data.splitOnP isspace).filter (fun token => !token.isEmpty)

/-- The data of the last annotation of a sequence whose label is `"replay-options"`, the empty
string when there is none. -/
def lastReplayOptions (annotations : List Annotation) : String :=
  match (annotations.filter
      (fun a => decide (a.label = format.kAnnotationLabelReplayOptions))).getLast? with
  | some a => a.data
  | none => ""

end decode

open decode

/-- The class `AnnotationEditor`, a `decode::FileTransformer` with the member
`annotations_to_set_`, a map from label to annotation type and data; the entries are listed in
the order in which the map is iterated. -/
structure AnnotationEditor extends FileTransformer where
  annotations_to_set_ : List (String × format.AnnotationType × String) := []
  deriving DecidableEq, Repr

namespace AnnotationEditor

/-- Lookup in `annotations_to_set_`: `annotations_to_set_.find(label)`. -/
def find : List (String × format.AnnotationType × String) → String →
    Option (format.AnnotationType × String)
  | [], _ => none
  | (key, value) :: rest, label => if key = label then some value else find rest label

/-- Assignment to `annotations_to_set_`: `annotations_to_set_[label] = value`. -/
def assign : List (String × format.AnnotationType × String) → String →
    format.AnnotationType × String → List (String × format.AnnotationType × String)
  | [], label, value => [(label, value)]
  | (key, old) :: rest, label, value =>
    if key = label then (key, value) :: rest else (key, old) :: assign rest label value

/-- Removal from `annotations_to_set_`: `annotations_to_set_.erase(it)` for the entry of
`label`. -/
def erase (m : List (String × format.AnnotationType × String)) (label : String) :
    List (String × format.AnnotationType × String) :=
  m.filter (fun entry => decide (entry.1 ≠ label))

/-- The base class call `FileTransformer::ProcessAnnotation(...)` on an editor. -/
def baseProcessAnnotation (e : AnnotationEditor) (block_header : format.BlockHeader)
    (annotation_type : format.AnnotationType) (label data : String) : AnnotationEditor × Bool :=
  let (t, success) := e.toFileTransformer.ProcessAnnotation block_header annotation_type label data
  ({ e with toFileTransformer := t }, success)

/-- Modelled from the spec: what `FileTransformer::Process` does with a block that is not an
annotation: it is copied to the output. -/
def copyBlock (e : AnnotationEditor) (block : FileBlock) : AnnotationEditor × Bool :=
  let (t, success) := e.toFileTransformer.WriteBlock block
  ({ e with toFileTransformer := t }, success)

/-- The member function `AnnotationEditor::SetAnnotation`. -/
def SetAnnotation (e : AnnotationEditor) (type : format.AnnotationType) (label data : String) :
    AnnotationEditor :=
  { e with annotations_to_set_ := assign e.annotations_to_set_ label (type, data) }

/-- The member function `AnnotationEditor::ProcessAnnotation`. -/
def ProcessAnnotation (e : AnnotationEditor) (block_header : format.BlockHeader)
    (annotation_type : format.AnnotationType) (label data : String) : AnnotationEditor × Bool :=
  match find e.annotations_to_set_ label with
  | some annotation_modification =>
    let (e1, success) :=
      if data ≠ "" then
        e.baseProcessAnnotation block_header annotation_type label annotation_modification.2
      else (e, true)
    ({ e1 with annotations_to_set_ := erase e1.annotations_to_set_ label }, success)
  | none => e.baseProcessAnnotation block_header annotation_type label data

/-- The member function `AnnotationEditor::WriteAnnotation`; `kAnnotation` is the constant
`format::BlockType::kAnnotation`. The size is computed in 64-bit unsigned arithmetic. -/
def WriteAnnotation ( kAnnotation : Nat) (e : AnnotationEditor)
    (annotation_type : format.AnnotationType) (label data : String) : AnnotationEditor × Bool :=
  let block_header : format.BlockHeader :=
    { type := kAnnotation
      size := (format.GetAnnotationBlockBaseSize + label.length + data.length) % 2 ^ 64 }
  e.baseProcessAnnotation block_header annotation_type label data

/-- The call `decode::FileTransformer::Process()` on an `AnnotationEditor`: the pass over the
input with `AnnotationEditor::ProcessAnnotation` as the virtual function; it succeeds when no
step fails and the input ends without an error. -/
def transformerProcess (e : AnnotationEditor) : AnnotationEditor × Bool :=
  let (e1, success) := FileTransformer.Pass ProcessAnnotation copyBlock e.input_ e
  (e1, success && !e.input_error_)

/-- The loop of `AnnotationEditor::Process` over `annotations_to_set_`:
`success = success && WriteAnnotation(...)` for every entry. -/
def appendAnnotations ( kAnnotation : Nat) :
    List (String × format.AnnotationType × String) → AnnotationEditor × Bool →
    AnnotationEditor × Bool
  | [], r => r
  | annotation :: rest, (e, success) =>
    if success then
      appendAnnotations kAnnotation rest
        (e.WriteAnnotation kAnnotation annotation.2.1 annotation.1 annotation.2.2)
    else appendAnnotations kAnnotation rest (e, false)

/-- The member function `AnnotationEditor::Process`. -/
def Process ( kAnnotation : Nat) (e : AnnotationEditor) : AnnotationEditor × Bool :=
  let (e1, success) := e.transformerProcess
  if success then appendAnnotations kAnnotation e1.annotations_to_set_ (e1, success)
  else (e1, success)

end AnnotationEditor

/-- The class `ReplayOptionsEditor`, an `AnnotationEditor` with the member `replay_options_`. -/
structure ReplayOptionsEditor extends AnnotationEditor where
  replay_options_ : String := ""
  deriving DecidableEq, Repr

namespace ReplayOptionsEditor

/-- The base class call `FileTransformer::ProcessAnnotation(...)` on a replay options editor. -/
def baseProcessAnnotation (e : ReplayOptionsEditor) (block_header : format.BlockHeader)
    (annotation_type : format.AnnotationType) (label data : String) :
    ReplayOptionsEditor × Bool :=
  let (a, success) :=
    e.toAnnotationEditor.baseProcessAnnotation block_header annotation_type label data
  ({ e with toAnnotationEditor := a }, success)

/-- Modelled from the spec: what `FileTransformer::Process` does with a block that is not an
annotation: it is copied to the output. -/
def copyBlock (e : ReplayOptionsEditor) (block : FileBlock) : ReplayOptionsEditor × Bool :=
  let (a, success) := e.toAnnotationEditor.copyBlock block
  ({ e with toAnnotationEditor := a }, success)

/-- The inherited member function `AnnotationEditor::WriteAnnotation` on a replay options
editor. -/
def WriteAnnotation ( kAnnotation : Nat) (e : ReplayOptionsEditor)
    (annotation_type : format.AnnotationType) (label data : String) :
    ReplayOptionsEditor × Bool :=
  let (a, success) := e.toAnnotationEditor.WriteAnnotation kAnnotation annotation_type label data
  ({ e with toAnnotationEditor := a }, success)

/-- The member function `ReplayOptionsEditor::SetReplayOptions`. -/
def SetReplayOptions (e : ReplayOptionsEditor) (replay_options : String) : ReplayOptionsEditor :=
  { e with replay_options_ := replay_options }

/-- The member function `ReplayOptionsEditor::ProcessAnnotation`. -/
def ProcessAnnotation (e : ReplayOptionsEditor) (block_header : format.BlockHeader)
    (annotation_type : format.AnnotationType) (label data : String) :
    ReplayOptionsEditor × Bool :=
  if label ≠ format.kAnnotationLabelReplayOptions then
    e.baseProcessAnnotation block_header annotation_type label data
  else (e, true)

/-- The call `FileTransformer::Process()` on a `ReplayOptionsEditor`: the pass over the input
with `ReplayOptionsEditor::ProcessAnnotation` as the virtual function. -/
def transformerProcess (e : ReplayOptionsEditor) : ReplayOptionsEditor × Bool :=
  let (e1, success) := FileTransformer.Pass ProcessAnnotation copyBlock e.input_ e
  (e1, success && !e.input_error_)

/-- The member function `ReplayOptionsEditor::Process`. -/
def Process ( kAnnotation : Nat) (e : ReplayOptionsEditor) : ReplayOptionsEditor × Bool :=
  let (e1, success) :=
    if e.replay_options_ ≠ "" then
      e.WriteAnnotation kAnnotation format.AnnotationType.kText
        format.kAnnotationLabelReplayOptions e.replay_options_
    else (e, true)
  if success then
    let (e2, success2) := e1.transformerProcess
    (e2, success && success2)
  else (e1, success)

end ReplayOptionsEditor

/-- The annotation blocks among blocks whose label is `"replay-options"`. -/
def replayOptionsBlocks (blocks : List FileBlock) : List FileBlock :=
  blocks.filter (fun block =>
    match block with
    | FileBlock.annotation _ _ label _ => decide (label = format.kAnnotationLabelReplayOptions)
    | FileBlock.other _ _ => false)

/-- The blocks that are not annotation blocks with the label `"replay-options"`. -/
def withoutReplayOptions (blocks : List FileBlock) : List FileBlock :=
  blocks.filter (fun block =>
    match block with
    | FileBlock.annotation _ _ label _ => decide (label ≠ format.kAnnotationLabelReplayOptions)
    | FileBlock.other _ _ => true)

/-- The labels of the annotation blocks among blocks. -/
def annotationLabels : List FileBlock → List String
  | [] => []
  | FileBlock.annotation _ _ label _ :: rest => label :: annotationLabels rest
  | FileBlock.other _ _ :: rest => annotationLabels rest

/-- The annotation block that `WriteAnnotation` makes of an entry of `annotations_to_set_`. -/
def writtenBlock ( kAnnotation : Nat) (entry : String × format.AnnotationType × String) :
    FileBlock :=
  FileBlock.annotation
    { type := kAnnotation
      size := (format.GetAnnotationBlockBaseSize + entry.1.length + entry.2.2.length) % 2 ^ 64 }
    entry.2.1 entry.1 entry.2.2

/-- An editor on an input with one annotation, label `"app"` and no data, that is to set the
data of `"app"` to `"demo"`. -/
def replaceEditor : AnnotationEditor :=
  AnnotationEditor.SetAnnotation
    { input_ := [FileBlock.annotation { type := 5, size := 15 } format.AnnotationType.kText
        "app" ""] }
    format.AnnotationType.kText "app" "demo"

/-- An editor on an input with one annotation, label `"app"` and data `"demo"`, that is to
delete the annotation `"app"`. -/
def deleteEditor : AnnotationEditor :=
  AnnotationEditor.SetAnnotation
    { input_ := [FileBlock.annotation { type := 5, size := 19 } format.AnnotationType.kText
        "app" "demo"] }
    format.AnnotationType.kText "app" ""

/-- The input of the scenario "annotation rewrite" of the spec: a trace with the annotation
`{label="replay-options", data="--foo"}` between two other blocks. -/
def rewriteInput : List FileBlock :=
  [FileBlock.other 4 [1, 0, 0, 0, 7],
   FileBlock.annotation { type := 5, size := 31 } format.AnnotationType.kText "replay-options"
     "--foo",
   FileBlock.other 6 [0, 16, 0, 0]]

/-- An editor on an input with the annotation `"app"` and one other block, that is to set the
data of `"app"` to `"demo"` and the data of `"note"` to `"hello"`. -/
def appendEditor : AnnotationEditor :=
  AnnotationEditor.SetAnnotation
    (AnnotationEditor.SetAnnotation
      { input_ := [FileBlock.annotation { type := 5, size := 16 } format.AnnotationType.kText
          "app" "x", FileBlock.other 4 [1, 0, 0, 0, 7]] }
      format.AnnotationType.kText "app" "demo")
    format.AnnotationType.kText "note" "hello"

end gfxrecon
namespace gfxrecon
namespace decode

/-! ## Sequences of calls on one object -/

/-- A sequence of calls of `OverrideGetGpuVirtualAddress` on one object, each with the captured
address (`original_result`), the address the driver returns and the size of the resource: the
consumer afterwards and the values returned, in order; `none` when an assertion fails. -/
def getGpuVirtualAddresses (replay_object_info : HandleId) :
    List (Nat × Nat × Nat) → Dx12ReplayConsumerBase → Option (Dx12ReplayConsumerBase × List Nat)
  | [], c => some (c, [])
  | (original_result, replay_result, size) :: calls, c =>
    match c.OverrideGetGpuVirtualAddress replay_object_info original_result replay_result size with
    | none => none
    | some (c1, returned) =>
      (getGpuVirtualAddresses replay_object_info calls c1).map (fun r => (r.1, returned :: r.2))

/-- The consumer after the call of `OverrideGetGpuVirtualAddress` that records the addresses of
the object `info`, whose resource info (the one it has, or a new one) is `resource_info`. -/
def withGpuVirtualAddress (c : Dx12ReplayConsumerBase) (info : DxObjectInfo)
    (resource_info : D3D12ResourceInfo) (original_result replay_result size : Nat) :
    Dx12ReplayConsumerBase :=
  { c with
    object_info_table_ := c.object_info_table_.store
      { info with
        extra_info_type := DxObjectInfoType.kID3D12ResourceInfo
        extra_info := some (ExtraInfo.resource
          { resource_info with
            capture_address_ := original_result
            replay_address_ := replay_result }) }
    gpu_va_map_ := c.gpu_va_map_.Add info.object original_result replay_result size }

/-! ## The driver call of `OverrideResourceUnmap` -/

/-- A call `replay_object->Unmap(subresource, written_range->GetPointer())` of the driver: the
object, the subresource and the range (`none` for a null pointer). -/
structure DriverUnmap where
  object : Nat
  subresource : Nat
  written_range : Option D3D12_RANGE
  deriving DecidableEq, Repr

/-- The driver call that `OverrideResourceUnmap` makes. The call is the last statement of the
function and under no condition, so it is made whenever the function gets past its assertions
(`none` otherwise). -/
def Dx12ReplayConsumerBase.unmapDriverCall (c : Dx12ReplayConsumerBase)
    (replay_object_info : HandleId) (subresource : Nat)
    (written_range : Option (StructPointerDecoder D3D12_RANGE)) : Option DriverUnmap :=
  match c.OverrideResourceUnmap replay_object_info subresource written_range,
    c.object_info_table_.find replay_object_info, written_range with
  | some _, some info, some written_range =>
    some { object := info.object, subresource := subresource
           written_range := written_range.pointer }
  | _, _, _ => none

/-! ## The descriptor maps -/

/-- The entries of a descriptor map `m` whose key is among `keys` are keyed by the capture begin
address (`key`: the CPU or the GPU one) of the heap info they point to, and that heap info is the
extra info of a record of the object table `t`. -/
def HeapKeyed (keys : Nat → Prop) (t : Dx12ObjectInfoTable)
    (key : D3D12DescriptorHeapInfo → Nat) (m : List (Nat × HandleId)) : Prop :=
  ∀ k heap, keys k → Map.find m k = some heap →
    ∃ info heap_info, t.find heap = some info ∧
      info.extra_info = some (ExtraInfo.heap heap_info) ∧
      info.extra_info_type = DxObjectInfoType.kID3D12DescriptorHeapInfo ∧ key heap_info = k

/-- The consumer states reachable from the empty consumer by the creation of objects of other
kinds (the record goes into the table under a capture id that is not in use),
`OverrideCreateDescriptorHeap` (the heap gets a capture id that is not in use),
`OverrideGetCPUDescriptorHandleForHeapStart`, `OverrideGetGPUDescriptorHandleForHeapStart`,
`OverrideAddRef`, `OverrideRelease` and `RemoveObject` on a live object. -/
inductive DescriptorReachable : Dx12ReplayConsumerBase → Prop
  | init : DescriptorReachable ({ } : Dx12ReplayConsumerBase)
  | object (c : Dx12ReplayConsumerBase) (info : DxObjectInfo) :
      DescriptorReachable c → c.object_info_table_.find info.capture_id = none →
      DescriptorReachable (object_mapping.AddObject c (some info))
  | create_heap (c : Dx12ReplayConsumerBase) (replay_object_info : HandleId)
      (original_result driver_result : HRESULT)
      (desc : Option (StructPointerDecoder D3D12_DESCRIPTOR_HEAP_DESC))
      (heap : Option HandlePointerDecoder) (r : CreateResult) :
      DescriptorReachable c →
      (∀ info, consumerData heap = some info →
        c.object_info_table_.find info.capture_id = none) →
      c.OverrideCreateDescriptorHeap replay_object_info original_result desc heap driver_result =
        some r →
      DescriptorReachable (afterCreation r)
  | cpu_start (c c1 : Dx12ReplayConsumerBase) (id : HandleId)
      (original_result replay_result returned : Nat) :
      DescriptorReachable c →
      c.OverrideGetCPUDescriptorHandleForHeapStart id original_result replay_result =
        some (c1, returned) →
      DescriptorReachable c1
  | gpu_start (c c1 : Dx12ReplayConsumerBase) (id : HandleId)
      (original_result replay_result returned : Nat) :
      DescriptorReachable c →
      c.OverrideGetGPUDescriptorHandleForHeapStart id original_result replay_result =
        some (c1, returned) →
      DescriptorReachable c1
  | add_ref (c c1 : Dx12ReplayConsumerBase) (id : HandleId)
      (original_result driver_result returned : Nat) :
      DescriptorReachable c →
      c.OverrideAddRef id original_result driver_result = some (c1, returned) →
      DescriptorReachable c1
  | release (c : Dx12ReplayConsumerBase) (id : HandleId) (original driver_result : Nat)
      (res : Dx12ReplayConsumerBase.ReleaseResult) :
      DescriptorReachable c → c.OverrideRelease id original driver_result = some res →
      DescriptorReachable res.consumer
  | remove (c c1 : Dx12ReplayConsumerBase) (id : HandleId) (info : DxObjectInfo)
      (left : Option DxObjectInfo) :
      DescriptorReachable c → c.object_info_table_.find id = some info →
      c.RemoveObject (some info) = some (c1, left) → DescriptorReachable c1

/-- The consumer states reachable by the same steps as in `DescriptorReachable`, where a call of
`OverrideGetCPUDescriptorHandleForHeapStart` (`OverrideGetGPUDescriptorHandleForHeapStart`) on a
heap that the CPU (GPU) map has under the address 0 carries the captured address 0 again: the
captured start address of such a heap does not change from one call to the next. -/
inductive DescriptorConsistent : Dx12ReplayConsumerBase → Prop
  | init : DescriptorConsistent ({ } : Dx12ReplayConsumerBase)
  | object (c : Dx12ReplayConsumerBase) (info : DxObjectInfo) :
      DescriptorConsistent c → c.object_info_table_.find info.capture_id = none →
      DescriptorConsistent (object_mapping.AddObject c (some info))
  | create_heap (c : Dx12ReplayConsumerBase) (replay_object_info : HandleId)
      (original_result driver_result : HRESULT)
      (desc : Option (StructPointerDecoder D3D12_DESCRIPTOR_HEAP_DESC))
      (heap : Option HandlePointerDecoder) (r : CreateResult) :
      DescriptorConsistent c →
      (∀ info, consumerData heap = some info →
        c.object_info_table_.find info.capture_id = none) →
      c.OverrideCreateDescriptorHeap replay_object_info original_result desc heap driver_result =
        some r →
      DescriptorConsistent (afterCreation r)
  | cpu_start (c c1 : Dx12ReplayConsumerBase) (id : HandleId)
      (original_result replay_result returned : Nat) :
      DescriptorConsistent c →
      (Map.find c.descriptor_cpu_addresses_ 0 = some id → original_result = 0) →
      c.OverrideGetCPUDescriptorHandleForHeapStart id original_result replay_result =
        some (c1, returned) →
      DescriptorConsistent c1
  | gpu_start (c c1 : Dx12ReplayConsumerBase) (id : HandleId)
      (original_result replay_result returned : Nat) :
      DescriptorConsistent c →
      (Map.find c.descriptor_gpu_addresses_ 0 = some id → original_result = 0) →
      c.OverrideGetGPUDescriptorHandleForHeapStart id original_result replay_result =
        some (c1, returned) →
      DescriptorConsistent c1
  | add_ref (c c1 : Dx12ReplayConsumerBase) (id : HandleId)
      (original_result driver_result returned : Nat) :
      DescriptorConsistent c →
      c.OverrideAddRef id original_result driver_result = some (c1, returned) →
      DescriptorConsistent c1
  | release (c : Dx12ReplayConsumerBase) (id : HandleId) (original driver_result : Nat)
      (res : Dx12ReplayConsumerBase.ReleaseResult) :
      DescriptorConsistent c → c.OverrideRelease id original driver_result = some res →
      DescriptorConsistent res.consumer
  | remove (c c1 : Dx12ReplayConsumerBase) (id : HandleId) (info : DxObjectInfo)
      (left : Option DxObjectInfo) :
      DescriptorConsistent c → c.object_info_table_.find id = some info →
      c.RemoveObject (some info) = some (c1, left) → DescriptorConsistent c1

/-- A consumer that holds a device, id 7 (without device info). -/
def deviceConsumer : Dx12ReplayConsumerBase :=
  { object_info_table_ := [{ capture_id := 7, object := 28672, ref_count := 1 }] }

/-- The consumer `deviceConsumer` after the creation of the descriptor heap 8 (type 0, 16
descriptors). -/
def heapConsumer : Dx12ReplayConsumerBase :=
  { object_info_table_ :=
      [{ capture_id := 7, object := 28672, ref_count := 1 },
       { capture_id := 8, object := 32768, ref_count := 1
         extra_info_type := DxObjectInfoType.kID3D12DescriptorHeapInfo
         extra_info := some (ExtraInfo.heap { descriptor_type := 0, descriptor_count := 16 }) }] }

/-- The consumer `heapConsumer` after `OverrideGetCPUDescriptorHandleForHeapStart` on the heap 8
with the captured address 4096 and the replay address 36864. -/
def heapStartConsumer : Dx12ReplayConsumerBase :=
  { object_info_table_ :=
      [{ capture_id := 7, object := 28672, ref_count := 1 },
       { capture_id := 8, object := 32768, ref_count := 1
         extra_info_type := DxObjectInfoType.kID3D12DescriptorHeapInfo
         extra_info := some (ExtraInfo.heap
           { descriptor_type := 0, descriptor_count := 16
             capture_cpu_addr_begin := 4096, replay_cpu_addr_begin := 36864 }) }]
    descriptor_cpu_addresses_ := [(4096, 8)] }

/-- The consumer `heapConsumer` after `OverrideGetGPUDescriptorHandleForHeapStart` on the heap 8
with the captured address 0 (a heap that is not shader visible) and the replay address 100. -/
def zeroKeyedHeapConsumer : Dx12ReplayConsumerBase :=
  { object_info_table_ :=
      [{ capture_id := 7, object := 28672, ref_count := 1 },
       { capture_id := 8, object := 32768, ref_count := 1
         extra_info_type := DxObjectInfoType.kID3D12DescriptorHeapInfo
         extra_info := some (ExtraInfo.heap
           { descriptor_type := 0, descriptor_count := 16
             capture_gpu_addr_begin := 0, replay_gpu_addr_begin := 100 }) }]
    descriptor_gpu_addresses_ := [(0, 8)] }

/-- The scenario "handle lifetime" with a second heap: the device 7 with the increments 32 at
capture and 64 at replay for the heap type 0, the heaps 8 and 9 of type 0 with 16 descriptors
each, `GetCPUDescriptorHandleForHeapStart` on the heap 8 with 4096 at capture and 36864 at
replay, and on the heap 9 with 4128 at capture, inside the range of the heap 8, and 98304 at
replay. -/
def overlappingHeapsScenario : Option Dx12ReplayConsumerBase :=
  (({ } : Dx12ReplayConsumerBase).OverrideD3D12CreateDevice 0 0
    (some { consumer_data := some { capture_id := 7, object := 28672, ref_count := 1 } })
    0).bind fun device =>
  ((object_mapping.AddObject device.consumer device.object_info
    ).OverrideGetDescriptorHandleIncrementSize 7 32 0 64).bind fun increments =>
  (increments.1.OverrideCreateDescriptorHeap 7 0
    (some { pointer := some { Type_ := 0, NumDescriptors := 16 } })
    (some { consumer_data := some { capture_id := 8, object := 32768, ref_count := 1 } })
    0).bind fun first =>
  ((object_mapping.AddObject first.consumer first.object_info).OverrideCreateDescriptorHeap 7 0
    (some { pointer := some { Type_ := 0, NumDescriptors := 16 } })
    (some { consumer_data := some { capture_id := 9, object := 36864, ref_count := 1 } })
    0).bind fun second =>
  ((object_mapping.AddObject second.consumer second.object_info
    ).OverrideGetCPUDescriptorHandleForHeapStart 8 4096 36864).bind fun started =>
  (started.1.OverrideGetCPUDescriptorHandleForHeapStart 9 4128 98304).map Prod.fst

/-- The scenario "handle lifetime" with a driver that returns the increment 0 at replay: the
device 7 with the increments 32 at capture and 0 at replay for the heap type 0, the heap 8 of
type 0 with 16 descriptors, and `GetCPUDescriptorHandleForHeapStart` on it with 4096 at capture
and 36864 at replay. -/
def zeroIncrementScenario : Option Dx12ReplayConsumerBase :=
  (({ } : Dx12ReplayConsumerBase).OverrideD3D12CreateDevice 0 0
    (some { consumer_data := some { capture_id := 7, object := 28672, ref_count := 1 } })
    0).bind fun device =>
  ((object_mapping.AddObject device.consumer device.object_info
    ).OverrideGetDescriptorHandleIncrementSize 7 32 0 0).bind fun increments =>
  (increments.1.OverrideCreateDescriptorHeap 7 0
    (some { pointer := some { Type_ := 0, NumDescriptors := 16 } })
    (some { consumer_data := some { capture_id := 8, object := 32768, ref_count := 1 } })
    0).bind fun heap =>
  ((object_mapping.AddObject heap.consumer heap.object_info
    ).OverrideGetCPUDescriptorHandleForHeapStart 8 4096 36864).map Prod.fst

/-- A consumer that holds two freshly created resources, ids 1 and 2. -/
def twoResources : Dx12ReplayConsumerBase :=
  { object_info_table_ :=
      [{ capture_id := 1, object := 4096, ref_count := 1 },
       { capture_id := 2, object := 8192, ref_count := 1 }] }

/-- Two resources whose ranges of GPU addresses overlap (resources placed on the same memory):
`GetGPUVirtualAddress` on the resource 1 with 65536 at capture, 327680 at replay and the size
256, and on the resource 2 with 65600 at capture, 589824 at replay and the size 256. -/
def overlappingRangesScenario : Option Dx12ReplayConsumerBase :=
  (twoResources.OverrideGetGpuVirtualAddress 1 65536 327680 256).bind fun first =>
  (first.1.OverrideGetGpuVirtualAddress 2 65600 589824 256).map Prod.fst

/-! ## Sample inputs of the preload loops -/

/-- An environment like `sampleEnvironment` whose allocator refuses every request (the memory is
exhausted). -/
def refusingEnvironment : Environment :=
  { sampleEnvironment with reserve_ok := fun _ => false }

/-- The sample trace followed by a third frame: the method call 4096 without parameters. -/
def threeFrameTrace : List Byte :=
  sampleTrace ++ [6, 0, 0, 0, 4, 0, 0, 0, 0, 0, 0, 0, 0, 16, 0, 0]

/-- A processor at the start of `threeFrameTrace`, in direct mode. -/
def threeFrameProcessor : PreloadFileProcessor :=
  { file_data_ := threeFrameTrace, current_frame_number_ := PreloadFileProcessor.kFirstFrame }

/-! ## The count of bytes read -/

/-- How a step of the processor, from `p` to `p1`, counts bytes: `bytes_read_` grows by what the
file read position and the read cursor of the preload buffer advance together; neither of the two
goes back; a read cursor within the buffer stays within it; and outside `Record` state the
content of the buffer stays as it is and the state does not become `Record`. -/
structure Accounted (p p1 : PreloadFileProcessor) : Prop where
  bytes : p1.bytes_read_ + p.file_pos_ + p.preload_buffer_.replay_offset_ =
    p.bytes_read_ + p1.file_pos_ + p1.preload_buffer_.replay_offset_
  file : p.file_pos_ ≤ p1.file_pos_
  offset : p.preload_buffer_.replay_offset_ ≤ p1.preload_buffer_.replay_offset_
  bounded : p.preload_buffer_.replay_offset_ ≤ p.preload_buffer_.container_.length →
    p1.preload_buffer_.replay_offset_ ≤ p1.preload_buffer_.container_.length
  steady : p.status_ ≠ PreloadStatus.kRecord →
    p1.status_ ≠ PreloadStatus.kRecord ∧
      p1.preload_buffer_.container_ = p.preload_buffer_.container_

end decode
end gfxrecon

namespace gfxrecon

open decode

/-- The inherited member function `AnnotationEditor::SetAnnotation` on a replay options
editor. -/
def ReplayOptionsEditor.SetAnnotation (e : ReplayOptionsEditor) (type : format.AnnotationType)
    (label data : String) : ReplayOptionsEditor :=
  { e with
    toAnnotationEditor := AnnotationEditor.SetAnnotation e.toAnnotationEditor type label data }

/-- A run of calls of `SetAnnotation` on a replay options editor, one for every registration
of a type, a label and data, in order. -/
def ReplayOptionsEditor.setAnnotations :
    List (format.AnnotationType × String × String) → ReplayOptionsEditor → ReplayOptionsEditor
  | [], e => e
  | registration :: rest, e =>
    ReplayOptionsEditor.setAnnotations rest
      (ReplayOptionsEditor.SetAnnotation e registration.1 registration.2.1 registration.2.2)

/-- The annotation blocks among blocks whose label is `label`. -/
def labelledBlocks (label : String) (blocks : List FileBlock) : List FileBlock :=
  blocks.filter (fun block =>
    match block with
    | FileBlock.annotation _ _ block_label _ => decide (block_label = label)
    | FileBlock.other _ _ => false)

/-- An editor on an input with three annotations of the label `"app"`, with the data `"x"`,
`"y"` and none, after another block and with an annotation `"note"` between them, that is to
set the data of `"app"` to `"demo"`. -/
def repeatedEditor : AnnotationEditor :=
  AnnotationEditor.SetAnnotation
    { input_ :=
        [FileBlock.other 4 [1, 0, 0, 0, 7],
         FileBlock.annotation { type := 5, size := 16 } format.AnnotationType.kText "app" "x",
         FileBlock.annotation { type := 5, size := 17 } format.AnnotationType.kText "note" "n",
         FileBlock.annotation { type := 5, size := 16 } format.AnnotationType.kText "app" "y",
         FileBlock.annotation { type := 5, size := 15 } format.AnnotationType.kText "app" ""] }
    format.AnnotationType.kText "app" "demo"

/-- A replay options editor on the input of the scenario "annotation rewrite", with the options
`"--bar"`. -/
def optionsEditor : ReplayOptionsEditor :=
  { input_ := rewriteInput, replay_options_ := "--bar" }

end gfxrecon

/-! ## Lemmas on the containers -/

namespace gfxrecon
namespace decode

namespace Map

theorem find_assign_self {β : Type} (m : List (Nat × β)) (k : Nat) (v : β) :
    find (assign m k v) k = some v := by
  induction m with
  | nil => simp [assign, find]
  | cons e m ih =>
    obtain ⟨k', v'⟩ := e
    by_cases h : k' = k
    · simp [assign, find, h]
    · simp [assign, find, h, ih]

theorem find_assign_ne {β : Type} (m : List (Nat × β)) (k k2 : Nat) (v : β) (h : k ≠ k2) :
    find (assign m k v) k2 = find m k2 := by
  induction m with
  | nil => simp [assign, find, h]
  | cons e m ih =>
    obtain ⟨k', v'⟩ := e
    by_cases h1 : k' = k
    · subst h1
      simp [assign, find, h]
    · by_cases h2 : k' = k2
      · subst h2
        simp [assign, find, h1]
      · simp [assign, find, h1, h2, ih]

theorem find_erase_self {β : Type} (m : List (Nat × β)) (k : Nat) :
    find (erase m k) k = none := by
  induction m with
  | nil => simp [erase, find]
  | cons e m ih =>
    obtain ⟨k', v'⟩ := e
    by_cases h : k' = k
    · simpa [erase, List.filter_cons, h] using ih
    · simpa [erase, List.filter_cons, h, find] using ih

theorem find_erase_ne {β : Type} (m : List (Nat × β)) (k k2 : Nat) (h : k ≠ k2) :
    find (erase m k) k2 = find m k2 := by
  induction m with
  | nil => simp [erase, find]
  | cons e m ih =>
    obtain ⟨k', v'⟩ := e
    by_cases h1 : k' = k
    · subst h1
      simpa [erase, List.filter_cons, find, h] using ih
    · by_cases h2 : k' = k2
      · subst h2
        simp [erase, List.filter_cons, h1, find]
      · simpa [erase, List.filter_cons, h1, find, h2] using ih

theorem contains_assign_self {β : Type} (m : List (Nat × β)) (k : Nat) (v : β) :
    contains (assign m k v) k = true := by
  simp [contains, find_assign_self]

theorem contains_erase_self {β : Type} (m : List (Nat × β)) (k : Nat) :
    contains (erase m k) k = false := by
  simp [contains, find_erase_self]

theorem contains_assign_ne {β : Type} (m : List (Nat × β)) (k k2 : Nat) (v : β) (h : k ≠ k2) :
    contains (assign m k v) k2 = contains m k2 := by
  simp [contains, find_assign_ne m k k2 v h]

theorem contains_erase_ne {β : Type} (m : List (Nat × β)) (k k2 : Nat) (h : k ≠ k2) :
    contains (erase m k) k2 = contains m k2 := by
  simp [contains, find_erase_ne m k k2 h]

theorem uniqueKeys_assign {β : Type} (m : List (Nat × β)) (k : Nat) (v : β)
    (h : uniqueKeys m) : uniqueKeys (assign m k v) := by
  induction m with
  | nil => simp [assign, uniqueKeys, find]
  | cons e m ih =>
    obtain ⟨k', v'⟩ := e
    obtain ⟨h1, h2⟩ := h
    by_cases hk : k' = k
    · subst hk
      simpa [assign, uniqueKeys] using ⟨h1, h2⟩
    · have hk2 : k ≠ k' := fun h => hk h.symm
      simp only [assign, hk, if_false, uniqueKeys]
      exact ⟨by rw [find_assign_ne m k k' v hk2]; exact h1, ih h2⟩

theorem uniqueKeys_erase {β : Type} (m : List (Nat × β)) (k : Nat)
    (h : uniqueKeys m) : uniqueKeys (erase m k) := by
  induction m with
  | nil => simp [erase, uniqueKeys]
  | cons e m ih =>
    obtain ⟨k', v'⟩ := e
    obtain ⟨h1, h2⟩ := h
    by_cases hk : k' = k
    · simpa [erase, List.filter_cons, hk] using ih h2
    · have hk2 : k ≠ k' := fun h => hk h.symm
      have h3 : find (erase m k) k' = none := by rw [find_erase_ne m k k' hk2]; exact h1
      have h4 := ih h2
      simp [erase, List.filter_cons, hk, uniqueKeys] at h3 h4 ⊢
      exact ⟨h3, h4⟩

theorem find_of_mem {β : Type} (m : List (Nat × β)) (k : Nat) (v : β)
    (h : uniqueKeys m) (hmem : (k, v) ∈ m) : find m k = some v := by
  induction m with
  | nil => simp at hmem
  | cons e m ih =>
    obtain ⟨k', v'⟩ := e
    obtain ⟨h1, h2⟩ := h
    rcases List.mem_cons.1 hmem with heq | hin
    · cases heq
      simp [find]
    · have h3 := ih h2 hin
      by_cases hk : k' = k
      · subst hk
        rw [h1] at h3
        cases h3
      · simp [find, hk, h3]

theorem mem_of_find {β : Type} (m : List (Nat × β)) (k : Nat) (v : β)
    (h : find m k = some v) : (k, v) ∈ m := by
  induction m with
  | nil => simp [find] at h
  | cons e m ih =>
    obtain ⟨k', v'⟩ := e
    by_cases hk : k' = k
    · subst hk
      simp [find] at h
      simp [h]
    · simp [find, hk] at h
      exact List.mem_cons_of_mem _ (ih h)

theorem contains_foldl_erase {β : Type} (l : List β) (key : β → Nat) :
    ∀ (m : List (Nat × Nat)) (x : Nat),
      contains (l.foldl (fun m e => erase m (key e)) m) x = true ↔
        contains m x = true ∧ ∀ e ∈ l, key e ≠ x := by
  induction l with
  | nil => intro m x; simp
  | cons a l ih =>
    intro m x
    rw [List.foldl_cons, ih]
    by_cases hx : key a = x
    · subst hx
      simp [contains_erase_self]
    · rw [contains_erase_ne m (key a) x hx]
      simp [hx]

end Map

namespace Dx12ObjectInfoTable

theorem find_capture_id (t : Dx12ObjectInfoTable) (id : HandleId) (info : DxObjectInfo)
    (h : find t id = some info) : info.capture_id = id := by
  induction t with
  | nil => simp [find] at h
  | cons a t ih =>
    by_cases h1 : a.capture_id = id
    · simp [find, h1] at h
      rw [← h]; exact h1
    · simp [find, h1] at h
      exact ih h

theorem find_store_self (t : Dx12ObjectInfoTable) (info : DxObjectInfo)
    (h : (find t info.capture_id).isSome) : find (store t info) info.capture_id = some info := by
  induction t with
  | nil => simp [find] at h
  | cons a t ih =>
    by_cases h1 : a.capture_id = info.capture_id
    · simp [store, find, h1]
    · simp [find, h1] at h
      simp [store, find, h1, ih h]

theorem find_store_at (t : Dx12ObjectInfoTable) (info old : DxObjectInfo) (id : HandleId)
    (hid : info.capture_id = id) (h : find t id = some old) :
    find (store t info) id = some info := by
  subst hid
  exact find_store_self t info (by simp [h])

theorem find_append (t : Dx12ObjectInfoTable) (info : DxObjectInfo) (id : HandleId) :
    find (t ++ [info]) id =
      match find t id with
      | some old => some old
      | none => if info.capture_id = id then some info else none := by
  induction t with
  | nil => simp [find]
  | cons a t ih =>
    by_cases h1 : a.capture_id = id
    · simp [find, h1]
    · simp [find, h1, ih]

theorem find_insert_fresh (t : Dx12ObjectInfoTable) (info : DxObjectInfo) (id : HandleId)
    (h : find t info.capture_id = none) :
    find (insert t info) id = if info.capture_id = id then some info else find t id := by
  simp only [insert, h]
  rw [find_append]
  by_cases h1 : info.capture_id = id
  · subst h1
    simp [h]
  · simp only [h1, if_false]
    cases find t id <;> rfl

theorem find_store_ne (t : Dx12ObjectInfoTable) (info : DxObjectInfo) (id : HandleId)
    (h : info.capture_id ≠ id) : find (store t info) id = find t id := by
  induction t with
  | nil => simp [store, find]
  | cons a t ih =>
    by_cases h1 : a.capture_id = info.capture_id
    · have h2 : a.capture_id ≠ id := by rw [h1]; exact h
      simp [store, find, h1, h, h2]
    · by_cases h2 : a.capture_id = id
      · subst h2
        simp [store, find, h1]
      · simp [store, find, h1, h2, ih]

theorem table_find_erase_self (t : Dx12ObjectInfoTable) (id : HandleId) :
    find (erase t id) id = none := by
  induction t with
  | nil => simp [erase, find]
  | cons a t ih =>
    by_cases h : a.capture_id = id
    · simpa [erase, List.filter_cons, h] using ih
    · simpa [erase, List.filter_cons, h, find] using ih

theorem table_find_erase_ne (t : Dx12ObjectInfoTable) (id id2 : HandleId) (h : id ≠ id2) :
    find (erase t id) id2 = find t id2 := by
  induction t with
  | nil => simp [erase, find]
  | cons a t ih =>
    by_cases h1 : a.capture_id = id
    · have h2 : a.capture_id ≠ id2 := by rw [h1]; exact h
      simpa [erase, List.filter_cons, h1, find, h2, h] using ih
    · by_cases h2 : a.capture_id = id2
      · subst h2
        simp [erase, List.filter_cons, h1, find]
      · simpa [erase, List.filter_cons, h1, find, h2] using ih

theorem find_store (t : Dx12ObjectInfoTable) (info old : DxObjectInfo) (id id2 : HandleId)
    (hid : info.capture_id = id) (h : find t id = some old) :
    find (store t info) id2 = if id = id2 then some info else find t id2 := by
  by_cases h1 : id = id2
  · subst h1
    simp [find_store_at t info old id hid h]
  · simp only [h1, if_false]
    exact find_store_ne t info id2 (by rw [hid]; exact h1)

theorem find_erase (t : Dx12ObjectInfoTable) (id id2 : HandleId) :
    find (erase t id) id2 = if id = id2 then none else find t id2 := by
  by_cases h1 : id = id2
  · subst h1
    simp [table_find_erase_self]
  · simp only [h1, if_false]
    exact table_find_erase_ne t id id2 h1

end Dx12ObjectInfoTable

end decode
end gfxrecon

/-! ## Map / Unmap counting -/

namespace gfxrecon
namespace decode

open Dx12ReplayConsumerBase

/-- The consumer after a `Map` that took effect, written out: the subresource entry of
`resource_info` gets the id and one more count, the object gets the resource info, the id is
mapped to the host pointer. -/
theorem OverrideResourceMap_effect (c : Dx12ReplayConsumerBase) (id sub m : Nat)
    (result original : HRESULT) (host_pointer : Nat) (info : DxObjectInfo)
    (resource_info : D3D12ResourceInfo)
    (hfind : c.object_info_table_.find id = some info) (hobj : info.object ≠ 0)
    (hsucc : SUCCEEDED result = true) (hptr : host_pointer ≠ 0)
    (hinfo : (info.extra_info = none ∧ resource_info = {}) ∨
      (info.extra_info = some (ExtraInfo.resource resource_info) ∧
        info.extra_info_type = DxObjectInfoType.kID3D12ResourceInfo)) :
    c.OverrideResourceMap id original sub (some {}) (some { pointer := some m })
        result host_pointer =
      some ({ c with
              object_info_table_ := c.object_info_table_.store
                { info with
                  extra_info_type := DxObjectInfoType.kID3D12ResourceInfo
                  extra_info := some (ExtraInfo.resource
                    { resource_info with
                      mapped_memory_info :=
                        Map.assign resource_info.mapped_memory_info sub
                          { count :=
                              ((Map.find resource_info.mapped_memory_info sub).getD {}).count + 1
                            memory_id := m } }) }
              mapped_memory_ := Map.assign c.mapped_memory_ m host_pointer }, result) := by
  rcases hinfo with ⟨hnone, hr⟩ | ⟨hr, htag⟩
  · subst hr
    simp [OverrideResourceMap, resourceInfoOrNew, hfind, hobj, hsucc, hptr, hnone]
  · simp [OverrideResourceMap, resourceInfoOrNew, hfind, hobj, hsucc, hptr, hr, htag,
      ExtraInfo.asResource]

theorem Outstanding.map_step (c : Dx12ReplayConsumerBase) (id sub m n : Nat) (result : HRESULT)
    (host_pointer : Nat) (original : HRESULT) (h : Outstanding c id sub m n)
    (hs : (MapCall.map result host_pointer).succeeds = true) :
    ∃ c1, c.OverrideResourceMap id original sub (some {}) (some { pointer := some m })
        result host_pointer = some (c1, result) ∧ Outstanding c1 id sub m (n + 1) := by
  obtain ⟨info, hfind, hobj, hn⟩ := h
  have hid := Dx12ObjectInfoTable.find_capture_id _ _ _ hfind
  simp only [MapCall.succeeds, Bool.and_eq_true, decide_eq_true_eq] at hs
  obtain ⟨hsucc, hptr⟩ := hs
  have key : ∃ r : D3D12ResourceInfo,
      ((info.extra_info = none ∧ r = {}) ∨
        (info.extra_info = some (ExtraInfo.resource r) ∧
          info.extra_info_type = DxObjectInfoType.kID3D12ResourceInfo)) ∧
      ((Map.find r.mapped_memory_info sub).getD {}).count = n := by
    cases n with
    | zero =>
      obtain ⟨hex, hmem⟩ := hn
      rcases hex with hnone | ⟨r, hr, htag, hsubfind⟩
      · exact ⟨{}, Or.inl ⟨hnone, rfl⟩, by simp [Map.find]⟩
      · exact ⟨r, Or.inr ⟨hr, htag⟩, by simp [hsubfind]⟩
    | succ k =>
      obtain ⟨⟨r, hr, htag, hsubfind⟩, hmem⟩ := hn
      exact ⟨r, Or.inr ⟨hr, htag⟩, by simp [hsubfind]⟩
  obtain ⟨r, hinfo, hcount⟩ := key
  refine ⟨_, OverrideResourceMap_effect c id sub m result original host_pointer info r hfind hobj
    hsucc hptr hinfo, ?_⟩
  refine ⟨_, Dx12ObjectInfoTable.find_store_at _ _ _ _ hid hfind, ?_, ?_⟩
  · simpa using hobj
  · refine ⟨⟨_, rfl, rfl, ?_⟩, ?_⟩
    · simp [Map.find_assign_self, hcount]
    · simp [Map.contains_assign_self]

/-- The consumer after an `Unmap` that finds an entry with count `n + 1`, written out. -/
theorem Outstanding.unmap_step (c : Dx12ReplayConsumerBase) (id sub m n : Nat)
    (h : Outstanding c id sub m (n + 1)) :
    ∃ c1, c.OverrideResourceUnmap id sub (some {}) = some c1 ∧ Outstanding c1 id sub m n := by
  obtain ⟨info, hfind, hobj, ⟨r, hr, htag, hsubfind⟩, hmem⟩ := h
  have hid := Dx12ObjectInfoTable.find_capture_id _ _ _ hfind
  cases n with
  | zero =>
    refine ⟨{ c with
        mapped_memory_ := Map.erase c.mapped_memory_ m
        object_info_table_ := c.object_info_table_.store
          { info with extra_info := some (ExtraInfo.resource
              { r with mapped_memory_info := Map.erase r.mapped_memory_info sub }) } }, ?_, ?_⟩
    · simp [OverrideResourceUnmap, hfind, hobj, hr, htag, ExtraInfo.asResource, hsubfind]
    · refine ⟨_, Dx12ObjectInfoTable.find_store_at _ _ _ _ hid hfind, ?_, ?_⟩
      · simpa using hobj
      · refine ⟨Or.inr ⟨_, rfl, htag, ?_⟩, ?_⟩
        · simp [Map.find_erase_self]
        · simp [Map.contains_erase_self]
  | succ k =>
    refine ⟨{ c with
        object_info_table_ := c.object_info_table_.store
          { info with extra_info := some (ExtraInfo.resource
              { r with mapped_memory_info :=
                  Map.assign r.mapped_memory_info sub { count := k + 1, memory_id := m } }) } },
      ?_, ?_⟩
    · simp [OverrideResourceUnmap, hfind, hobj, hr, htag, ExtraInfo.asResource, hsubfind]
    · refine ⟨_, Dx12ObjectInfoTable.find_store_at _ _ _ _ hid hfind, ?_, ?_⟩
      · simpa using hobj
      · refine ⟨⟨_, rfl, htag, ?_⟩, ?_⟩
        · simp [Map.find_assign_self]
        · simpa using hmem

theorem Outstanding.contains_iff (c : Dx12ReplayConsumerBase) (id sub m n : Nat)
    (h : Outstanding c id sub m n) : Map.contains c.mapped_memory_ m = true ↔ 0 < n := by
  obtain ⟨info, _, _, hn⟩ := h
  cases n with
  | zero => simp [hn.2]
  | succ k => simp [hn.2]

theorem runMapCalls_outstanding (id sub m : Nat) (calls : List MapCall) :
    ∀ (c : Dx12ReplayConsumerBase) (n : Nat), Outstanding c id sub m n →
      (∀ call ∈ calls, call.succeeds = true) → everyUnmapMatched n calls = true →
      ∃ c1 k, runMapCalls id sub m c calls = some c1 ∧ Outstanding c1 id sub m k ∧
        k + unmapCount calls = n + mapCount calls := by
  induction calls with
  | nil =>
    intro c n h _ _
    exact ⟨c, n, rfl, h, by simp [unmapCount, mapCount]⟩
  | cons call rest ih =>
    intro c n h hs hm
    cases call with
    | map result host_pointer =>
      obtain ⟨c1, hc1, ho⟩ :=
        Outstanding.map_step c id sub m n result host_pointer result h
          (hs _ (List.mem_cons_self _ _))
      obtain ⟨c2, k, hrun, hk, hcount⟩ :=
        ih c1 (n + 1) ho (fun call hc => hs call (List.mem_cons_of_mem _ hc))
          (by simpa [everyUnmapMatched] using hm)
      refine ⟨c2, k, ?_, hk, ?_⟩
      · simp [runMapCalls, hc1, hrun]
      · simp [unmapCount, mapCount, MapCall.isMap] at hcount ⊢
        omega
    | unmap =>
      cases n with
      | zero => simp [everyUnmapMatched] at hm
      | succ j =>
        obtain ⟨c1, hc1, ho⟩ := Outstanding.unmap_step c id sub m j h
        obtain ⟨c2, k, hrun, hk, hcount⟩ :=
          ih c1 j ho (fun call hc => hs call (List.mem_cons_of_mem _ hc))
            (by simpa [everyUnmapMatched] using hm)
        refine ⟨c2, k, ?_, hk, ?_⟩
        · simp [runMapCalls, hc1, hrun]
        · simp [unmapCount, mapCount, MapCall.isMap] at hcount ⊢
          omega

/-- C1, as stated, fails: after `Unmap` then `Map` of subresource 0 of a fresh resource (one map,
one unmap, so the map count does not exceed the unmap count) memory id 42 is mapped. The unmap
finds no entry and is ignored by `OverrideResourceUnmap`. -/
theorem map_unmap_count_counterexample :
    ∃ c1, runMapCalls 1 0 42 oneResource [MapCall.unmap, MapCall.map 0 8192] = some c1 ∧
      (∀ call ∈ [MapCall.unmap, MapCall.map 0 8192], call.succeeds = true) ∧
      Map.contains c1.mapped_memory_ 42 = true ∧
      ¬ (mapCount [MapCall.unmap, MapCall.map 0 8192] >
          unmapCount [MapCall.unmap, MapCall.map 0 8192]) := by
  refine ⟨_, rfl, ?_, ?_, ?_⟩
  · decide
  · decide
  · decide

/-- C1 (amended): for an object whose subresource `sub` is unmapped and whose memory id `m` is
not in `mapped_memory_`, every sequence of `OverrideResourceMap` / `OverrideResourceUnmap` calls
on `sub` in which each `Map` succeeds with memory id `m` and no `Unmap` comes while the
subresource is unmapped runs to the end, and afterwards `mapped_memory_` contains `m` if and only
if the number of `Map` calls exceeds the number of `Unmap` calls. -/
theorem map_unmap_count (c : Dx12ReplayConsumerBase) (id sub m : Nat) (calls : List MapCall)
    (h0 : Outstanding c id sub m 0) (hs : ∀ call ∈ calls, call.succeeds = true)
    (hm : everyUnmapMatched 0 calls = true) :
    ∃ c1, runMapCalls id sub m c calls = some c1 ∧
      (Map.contains c1.mapped_memory_ m = true ↔ mapCount calls > unmapCount calls) := by
  obtain ⟨c1, k, hrun, hk, hcount⟩ := runMapCalls_outstanding id sub m calls c 0 h0 hs hm
  refine ⟨c1, hrun, ?_⟩
  rw [Outstanding.contains_iff c1 id sub m k hk]
  omega

/-- Witness of C1: map, map, unmap on the fresh resource leaves id 42 mapped (2 > 1). -/
theorem map_unmap_count_witness :
    ∃ c1, runMapCalls 1 0 42 oneResource
        [MapCall.map 0 8192, MapCall.map 0 8192, MapCall.unmap] = some c1 ∧
      (Map.contains c1.mapped_memory_ 42 = true ↔
        mapCount [MapCall.map 0 8192, MapCall.map 0 8192, MapCall.unmap] >
          unmapCount [MapCall.map 0 8192, MapCall.map 0 8192, MapCall.unmap]) :=
  map_unmap_count oneResource 1 0 42 [MapCall.map 0 8192, MapCall.map 0 8192, MapCall.unmap]
    ⟨{ capture_id := 1, object := 4096, ref_count := 1 }, rfl, by decide, Or.inl rfl, rfl⟩
    (by decide) (by decide)

theorem resourceInfoOrNew_some (info : DxObjectInfo) (r : D3D12ResourceInfo)
    (h : resourceInfoOrNew info = some r) :
    (info.extra_info = none ∧ r = {}) ∨
      (info.extra_info = some (ExtraInfo.resource r) ∧
        info.extra_info_type = DxObjectInfoType.kID3D12ResourceInfo) := by
  unfold resourceInfoOrNew at h
  cases hx : info.extra_info with
  | none =>
    simp [hx] at h
    exact Or.inl ⟨rfl, h.symm⟩
  | some extra =>
    simp only [hx] at h
    by_cases htag : info.extra_info_type = DxObjectInfoType.kID3D12ResourceInfo
    · simp only [htag, if_true] at h
      cases extra <;> simp [ExtraInfo.asResource] at h
      subst h
      exact Or.inr ⟨rfl, htag⟩
    · simp [htag] at h

/-- Every way `OverrideResourceMap` returns: without effect, or with the effect written out. -/
theorem OverrideResourceMap_cases (c c1 : Dx12ReplayConsumerBase) (id sub : Nat)
    (original result returned : HRESULT) (host_pointer : Nat)
    (read_range : Option (StructPointerDecoder D3D12_RANGE)) (data : Option PointerDecoder)
    (h : c.OverrideResourceMap id original sub read_range data result host_pointer =
      some (c1, returned)) :
    c1 = c ∨
    ∃ info r d m, c.object_info_table_.find id = some info ∧ data = some d ∧
      d.pointer = some m ∧
      ((info.extra_info = none ∧ r = {}) ∨
        (info.extra_info = some (ExtraInfo.resource r) ∧
          info.extra_info_type = DxObjectInfoType.kID3D12ResourceInfo)) ∧
      c1 = { c with
              object_info_table_ := c.object_info_table_.store
                { info with
                  extra_info_type := DxObjectInfoType.kID3D12ResourceInfo
                  extra_info := some (ExtraInfo.resource
                    { r with
                      mapped_memory_info :=
                        Map.assign r.mapped_memory_info sub
                          { count := ((Map.find r.mapped_memory_info sub).getD {}).count + 1
                            memory_id := m } }) }
              mapped_memory_ := Map.assign c.mapped_memory_ m host_pointer } := by
  cases hfind : c.object_info_table_.find id with
  | none => simp [OverrideResourceMap, hfind] at h
  | some info =>
    cases read_range with
    | none => simp [OverrideResourceMap, hfind] at h
    | some rr =>
      cases data with
      | none => simp [OverrideResourceMap, hfind] at h
      | some d =>
        by_cases hobj : info.object = 0
        · simp [OverrideResourceMap, hfind, hobj] at h
        · cases hm : d.pointer with
          | none =>
            simp [OverrideResourceMap, hfind, hobj, hm] at h
            exact Or.inl h.1.symm
          | some m =>
            by_cases hcond : SUCCEEDED result = true ∧ d.has_output_pointer = true ∧
                host_pointer ≠ 0
            · cases hr : resourceInfoOrNew info with
              | none => simp [OverrideResourceMap, hfind, hobj, hm, hcond, hr] at h
              | some r =>
                simp [OverrideResourceMap, hfind, hobj, hm, hcond, hr] at h
                exact Or.inr ⟨info, r, d, m, rfl, rfl, hm, resourceInfoOrNew_some info r hr,
                  h.1.symm⟩
            · simp [OverrideResourceMap, hfind, hobj, hm, hcond] at h
              exact Or.inl h.1.symm

/-- Every way `OverrideResourceUnmap` returns: without effect, with the entry erased (count
one), or with the count of the entry decremented. -/
theorem OverrideResourceUnmap_cases (c c1 : Dx12ReplayConsumerBase) (id sub : Nat)
    (written_range : Option (StructPointerDecoder D3D12_RANGE))
    (h : c.OverrideResourceUnmap id sub written_range = some c1) :
    c1 = c ∨
    ∃ info r e, c.object_info_table_.find id = some info ∧
      info.extra_info = some (ExtraInfo.resource r) ∧
      info.extra_info_type = DxObjectInfoType.kID3D12ResourceInfo ∧
      Map.find r.mapped_memory_info sub = some e ∧ e.count > 0 ∧
      ((e.count - 1 = 0 ∧
        c1 = { c with
          mapped_memory_ := Map.erase c.mapped_memory_ e.memory_id
          object_info_table_ := c.object_info_table_.store
            { info with extra_info := some (ExtraInfo.resource
                { r with mapped_memory_info := Map.erase r.mapped_memory_info sub }) } }) ∨
       (e.count - 1 ≠ 0 ∧
        c1 = { c with
          object_info_table_ := c.object_info_table_.store
            { info with extra_info := some (ExtraInfo.resource
                { r with
                  mapped_memory_info :=
                    Map.assign r.mapped_memory_info sub { e with count := e.count - 1 } }) } })) := by
  cases hfind : c.object_info_table_.find id with
  | none => simp [OverrideResourceUnmap, hfind] at h
  | some info =>
    cases written_range with
    | none => simp [OverrideResourceUnmap, hfind] at h
    | some wr =>
      by_cases hobj : info.object = 0
      · simp [OverrideResourceUnmap, hfind, hobj] at h
      · cases hx : info.extra_info with
        | none =>
          simp [OverrideResourceUnmap, hfind, hobj, hx] at h
          exact Or.inl h.symm
        | some extra =>
          by_cases htag : info.extra_info_type = DxObjectInfoType.kID3D12ResourceInfo
          · cases extra with
            | resource r =>
              cases he : Map.find r.mapped_memory_info sub with
              | none =>
                simp [OverrideResourceUnmap, hfind, hobj, hx, htag, ExtraInfo.asResource, he] at h
                exact Or.inl h.symm
              | some e =>
                by_cases hpos : e.count > 0
                · by_cases hz : e.count - 1 = 0
                  · simp [OverrideResourceUnmap, hfind, hobj, hx, htag, ExtraInfo.asResource,
                      he, hpos, hz] at h
                    exact Or.inr ⟨info, r, e, rfl, hx, htag, he, hpos,
                      Or.inl ⟨hz, by rw [htag]; exact h.symm⟩⟩
                  · simp [OverrideResourceUnmap, hfind, hobj, hx, htag, ExtraInfo.asResource,
                      he, hpos, hz] at h
                    exact Or.inr ⟨info, r, e, rfl, hx, htag, he, hpos,
                      Or.inr ⟨hz, by rw [htag]; exact h.symm⟩⟩
                · simp [OverrideResourceUnmap, hfind, hobj, hx, htag, ExtraInfo.asResource,
                    he, hpos] at h
            | heap _ =>
              simp [OverrideResourceUnmap, hfind, hobj, hx, htag, ExtraInfo.asResource] at h
            | device _ =>
              simp [OverrideResourceUnmap, hfind, hobj, hx, htag, ExtraInfo.asResource] at h
            | swapchain _ =>
              simp [OverrideResourceUnmap, hfind, hobj, hx, htag, ExtraInfo.asResource] at h
          · simp [OverrideResourceUnmap, hfind, hobj, hx, htag] at h

/-- What `RemoveObject` does to a record without extra info or with a resource info. -/
theorem RemoveObject_resource_cases (c c1 : Dx12ReplayConsumerBase) (info : DxObjectInfo)
    (left : Option DxObjectInfo)
    (htagged : info.extra_info = none ∨
      ∃ r, info.extra_info = some (ExtraInfo.resource r) ∧
        info.extra_info_type = DxObjectInfoType.kID3D12ResourceInfo)
    (h : c.RemoveObject (some info) = some (c1, left)) :
    (info.extra_info = none ∧
      c1 = { c with object_info_table_ := c.object_info_table_.erase info.capture_id }) ∨
    ∃ r, info.extra_info = some (ExtraInfo.resource r) ∧
      c1.object_info_table_ = c.object_info_table_.erase info.capture_id ∧
      c1.mapped_memory_ =
        r.mapped_memory_info.foldl (fun m entry => Map.erase m entry.2.memory_id)
          c.mapped_memory_ := by
  rcases htagged with hnone | ⟨r, hr, htag⟩
  · simp [RemoveObject, hnone, object_mapping.RemoveObject] at h
    exact Or.inl ⟨hnone, h.1.symm⟩
  · right
    refine ⟨r, hr, ?_⟩
    by_cases ha : r.capture_address_ = 0
    · simp [RemoveObject, hr, DestroyExtraInfo, htag, ExtraInfo.asResource, ha,
        object_mapping.RemoveObject] at h
      rw [← h.1]
      exact ⟨rfl, rfl⟩
    · simp [RemoveObject, hr, DestroyExtraInfo, htag, ExtraInfo.asResource, ha,
        object_mapping.RemoveObject] at h
      rw [← h.1]
      exact ⟨rfl, rfl⟩

/-- Every way `OverrideRelease` returns: the reference count goes down and stays positive, or the
record, with count zero, goes through `RemoveObject`. -/
theorem OverrideRelease_cases (c : Dx12ReplayConsumerBase) (id original driver_result : Nat)
    (res : ReleaseResult) (h : c.OverrideRelease id original driver_result = some res) :
    ∃ info, c.object_info_table_.find id = some info ∧
      ((res.consumer = { c with
          object_info_table_ :=
            c.object_info_table_.store { info with ref_count := info.ref_count - 1 } }) ∨
       (∃ left, c.RemoveObject (some { info with ref_count := info.ref_count - 1 }) =
          some (res.consumer, left))) := by
  cases hfind : c.object_info_table_.find id with
  | none => simp [OverrideRelease, hfind] at h
  | some info =>
    refine ⟨info, rfl, ?_⟩
    unfold OverrideRelease at h
    simp only [hfind] at h
    by_cases hg : info.object = 0 ∨ ¬ (info.ref_count > 0)
    · rw [if_pos hg] at h
      cases h
    · rw [if_neg hg] at h
      by_cases hz : info.ref_count - 1 = 0
      · right
        simp only [hz, if_true] at h
        cases hrm : c.RemoveObject (some { info with ref_count := info.ref_count - 1 }) with
        | none =>
          simp only [hz] at hrm
          simp [hrm] at h
        | some p =>
          obtain ⟨c2, left⟩ := p
          simp only [hz] at hrm
          cases left with
          | none => simp [hrm] at h
          | some info2 =>
            simp [hrm] at h
            exact ⟨some info2, by rw [← h]⟩
      · left
        simp only [hz, if_false] at h
        simp at h
        rw [← h]

theorem Records_store (t : Dx12ObjectInfoTable) (info1 old : DxObjectInfo) (id id2 sub : Nat)
    (e : MappedMemoryInfo) (hid : info1.capture_id = id) (h : t.find id = some old) :
    Records (t.store info1) id2 sub e ↔
      (id2 = id ∧ ∃ r, info1.extra_info = some (ExtraInfo.resource r) ∧
        Map.find r.mapped_memory_info sub = some e) ∨
      (id2 ≠ id ∧ Records t id2 sub e) := by
  unfold Records
  rw [Dx12ObjectInfoTable.find_store t info1 old id id2 hid h]
  by_cases h1 : id = id2
  · subst h1
    simp
  · have h2 : ¬ id2 = id := fun h => h1 h.symm
    simp [h1, h2]

theorem Records_erase (t : Dx12ObjectInfoTable) (id id2 sub : Nat) (e : MappedMemoryInfo) :
    Records (t.erase id) id2 sub e ↔ id2 ≠ id ∧ Records t id2 sub e := by
  unfold Records
  rw [Dx12ObjectInfoTable.find_erase t id id2]
  by_cases h1 : id = id2
  · subst h1
    simp
  · have h2 : ¬ id2 = id := fun h => h1 h.symm
    simp [h1, h2]

theorem Records_insert_fresh (t : Dx12ObjectInfoTable) (info : DxObjectInfo) (id2 sub : Nat)
    (e : MappedMemoryInfo) (h : t.find info.capture_id = none) (hx : info.extra_info = none) :
    Records (t.insert info) id2 sub e ↔ Records t id2 sub e := by
  unfold Records
  rw [Dx12ObjectInfoTable.find_insert_fresh t info id2 h]
  by_cases h1 : info.capture_id = id2
  · subst h1
    simp [h, hx]
  · simp [h1]

theorem Records.functional (t : Dx12ObjectInfoTable) (id sub : Nat) (e1 e2 : MappedMemoryInfo)
    (h1 : Records t id sub e1) (h2 : Records t id sub e2) : e1 = e2 := by
  obtain ⟨i1, r1, hf1, hx1, hm1⟩ := h1
  obtain ⟨i2, r2, hf2, hx2, hm2⟩ := h2
  rw [hf1] at hf2
  cases hf2
  rw [hx1] at hx2
  cases hx2
  rw [hm1] at hm2
  cases hm2
  rfl

theorem MapInvariant.init : MapInvariant ({ } : Dx12ReplayConsumerBase) where
  i3 := by
    intro m
    simp [Map.contains, Map.find, Records, Dx12ObjectInfoTable.find]
  tagged := by
    intro id info h
    simp [Dx12ObjectInfoTable.find] at h
  positive := by
    rintro id sub e ⟨info, r, h, _⟩
    simp [Dx12ObjectInfoTable.find] at h
  unique := by
    rintro id1 sub1 e1 id2 sub2 e2 ⟨info, r, h, _⟩
    simp [Dx12ObjectInfoTable.find] at h

theorem MapInvariant.create (c : Dx12ReplayConsumerBase) (id object ref_count : Nat)
    (inv : MapInvariant c) (hfresh : c.object_info_table_.find id = none) :
    MapInvariant
      { c with
        object_info_table_ :=
          c.object_info_table_.insert
            { capture_id := id, object := object, ref_count := ref_count } } := by
  have hrec : ∀ id2 sub e,
      Records (c.object_info_table_.insert
        { capture_id := id, object := object, ref_count := ref_count }) id2 sub e ↔
      Records c.object_info_table_ id2 sub e := fun id2 sub e =>
    Records_insert_fresh _ _ id2 sub e hfresh rfl
  refine ⟨?_, ?_, ?_, ?_⟩
  · intro m
    simp only [hrec]
    exact inv.i3 m
  · intro id2 info h
    simp only at h
    rw [Dx12ObjectInfoTable.find_insert_fresh _ _ id2 hfresh] at h
    by_cases h1 : id = id2
    · simp [h1] at h
      subst h
      exact Or.inl rfl
    · simp [h1] at h
      exact inv.tagged id2 info h
  · intro id2 sub e h
    exact inv.positive id2 sub e ((hrec id2 sub e).1 h)
  · intro id1 sub1 e1 id2 sub2 e2 h1 h2 hm
    exact inv.unique id1 sub1 e1 id2 sub2 e2 ((hrec _ _ _).1 h1) ((hrec _ _ _).1 h2) hm

/-- A write to a record that leaves its extra info alone (a reference count change) keeps the
invariant. -/
theorem MapInvariant.store_same (c : Dx12ReplayConsumerBase) (id : Nat) (info info1 : DxObjectInfo)
    (inv : MapInvariant c) (hfind : c.object_info_table_.find id = some info)
    (hid : info1.capture_id = id) (hx : info1.extra_info = info.extra_info)
    (ht : info1.extra_info_type = info.extra_info_type) :
    MapInvariant { c with object_info_table_ := c.object_info_table_.store info1 } := by
  have hrec : ∀ id2 sub e,
      Records (c.object_info_table_.store info1) id2 sub e ↔
      Records c.object_info_table_ id2 sub e := by
    intro id2 sub e
    rw [Records_store _ info1 info id id2 sub e hid hfind]
    constructor
    · rintro (⟨h1, r, hr, hm⟩ | ⟨_, h⟩)
      · subst h1
        exact ⟨info, r, hfind, by rw [← hx]; exact hr, hm⟩
      · exact h
    · intro h
      by_cases h1 : id2 = id
      · left
        subst h1
        obtain ⟨i, r, hf, hr, hm⟩ := h
        rw [hfind] at hf
        cases hf
        exact ⟨rfl, r, by rw [hx]; exact hr, hm⟩
      · exact Or.inr ⟨h1, h⟩
  refine ⟨?_, ?_, ?_, ?_⟩
  · intro m
    simp only [hrec]
    exact inv.i3 m
  · intro id2 i2 h
    simp only at h
    rw [Dx12ObjectInfoTable.find_store _ info1 info id id2 hid hfind] at h
    by_cases h1 : id = id2
    · simp [h1] at h
      subst h
      rw [hx, ht]
      exact inv.tagged id info hfind
    · simp [h1] at h
      exact inv.tagged id2 i2 h
  · intro id2 sub e h
    exact inv.positive id2 sub e ((hrec id2 sub e).1 h)
  · intro id1 sub1 e1 id2 sub2 e2 h1 h2 hm
    exact inv.unique id1 sub1 e1 id2 sub2 e2 ((hrec _ _ _).1 h1) ((hrec _ _ _).1 h2) hm

/-- The entries recorded after a `Map` that took effect: the new entry of `(id, sub)`, and the
old entries of every other subresource. -/
theorem Records_map_effect (t : Dx12ObjectInfoTable) (id sub id2 sub2 : Nat)
    (info : DxObjectInfo) (r : D3D12ResourceInfo) (enew e2 : MappedMemoryInfo)
    (tag : DxObjectInfoType)
    (hfind : t.find id = some info)
    (hinfo : (info.extra_info = none ∧ r = {}) ∨ info.extra_info = some (ExtraInfo.resource r)) :
    Records (t.store
        { info with
          extra_info_type := tag
          extra_info := some (ExtraInfo.resource
            { r with mapped_memory_info := Map.assign r.mapped_memory_info sub enew }) })
        id2 sub2 e2 ↔
      (id2 = id ∧ sub2 = sub ∧ e2 = enew) ∨
      (¬ (id2 = id ∧ sub2 = sub) ∧ Records t id2 sub2 e2) := by
  have hid := Dx12ObjectInfoTable.find_capture_id _ _ _ hfind
  rw [Records_store t _ info id id2 sub2 e2 (by exact hid) hfind]
  constructor
  · rintro (⟨h1, r1, hr1, hm⟩ | ⟨h1, h⟩)
    · simp only [Option.some.injEq, ExtraInfo.resource.injEq] at hr1
      subst hr1
      simp only at hm
      by_cases hs : sub = sub2
      · subst hs
        rw [Map.find_assign_self] at hm
        cases hm
        exact Or.inl ⟨h1, rfl, rfl⟩
      · rw [Map.find_assign_ne _ _ _ _ hs] at hm
        right
        refine ⟨fun h => hs h.2.symm, ?_⟩
        rcases hinfo with ⟨_, hr⟩ | hr
        · subst hr
          simp [Map.find] at hm
        · subst h1
          exact ⟨info, r, hfind, hr, hm⟩
    · exact Or.inr ⟨fun h => h1 h.1, h⟩
  · rintro (⟨h1, h2, h3⟩ | ⟨hne, h⟩)
    · subst h1 h2 h3
      exact Or.inl ⟨rfl, _, rfl, Map.find_assign_self _ _ _⟩
    · by_cases h1 : id2 = id
      · subst h1
        have hs : sub ≠ sub2 := fun h => hne ⟨rfl, h.symm⟩
        obtain ⟨i, r0, hf, hr0, hm⟩ := h
        rw [hfind] at hf
        cases hf
        rcases hinfo with ⟨hnone, _⟩ | hr
        · rw [hnone] at hr0
          cases hr0
        · rw [hr] at hr0
          cases hr0
          exact Or.inl ⟨rfl, _, rfl, by simp only; rw [Map.find_assign_ne _ _ _ _ hs]; exact hm⟩
      · exact Or.inr ⟨h1, h⟩

theorem MapInvariant.map_effect (c : Dx12ReplayConsumerBase) (id sub m host_pointer : Nat)
    (info : DxObjectInfo) (r : D3D12ResourceInfo) (inv : MapInvariant c)
    (hfind : c.object_info_table_.find id = some info)
    (hinfo : (info.extra_info = none ∧ r = {}) ∨
      (info.extra_info = some (ExtraInfo.resource r) ∧
        info.extra_info_type = DxObjectInfoType.kID3D12ResourceInfo))
    (hguard : MemoryIdNamesSubresource c id sub m) :
    MapInvariant
      { c with
        object_info_table_ := c.object_info_table_.store
          { info with
            extra_info_type := DxObjectInfoType.kID3D12ResourceInfo
            extra_info := some (ExtraInfo.resource
              { r with
                mapped_memory_info :=
                  Map.assign r.mapped_memory_info sub
                    { count := ((Map.find r.mapped_memory_info sub).getD {}).count + 1
                      memory_id := m } }) }
        mapped_memory_ := Map.assign c.mapped_memory_ m host_pointer } := by
  have hid := Dx12ObjectInfoTable.find_capture_id _ _ _ hfind
  have hinfo2 : (info.extra_info = none ∧ r = {}) ∨
      info.extra_info = some (ExtraInfo.resource r) := by
    rcases hinfo with h | h
    · exact Or.inl h
    · exact Or.inr h.1
  have hrec := fun id2 sub2 e2 =>
    Records_map_effect c.object_info_table_ id sub id2 sub2 info r
      { count := ((Map.find r.mapped_memory_info sub).getD {}).count + 1, memory_id := m } e2
      DxObjectInfoType.kID3D12ResourceInfo hfind hinfo2
  have hcontains : ∀ x, Map.contains (Map.assign c.mapped_memory_ m host_pointer) x = true ↔
      x = m ∨ Map.contains c.mapped_memory_ x = true := by
    intro x
    by_cases hx : m = x
    · subst hx
      simp [Map.contains_assign_self]
    · rw [Map.contains_assign_ne _ _ _ _ hx]
      have hx2 : ¬ x = m := fun h => hx h.symm
      simp [hx2]
  refine ⟨?_, ?_, ?_, ?_⟩
  · intro x
    simp only [hrec, hcontains]
    constructor
    · rintro (hx | hx)
      · subst hx
        exact ⟨id, sub, _, Or.inl ⟨rfl, rfl, rfl⟩, rfl, Nat.succ_pos _⟩
      · by_cases hxm : x = m
        · subst hxm
          exact ⟨id, sub, _, Or.inl ⟨rfl, rfl, rfl⟩, rfl, Nat.succ_pos _⟩
        · obtain ⟨id2, sub2, e2, hr2, hm2, hp2⟩ := (inv.i3 x).1 hx
          refine ⟨id2, sub2, e2, Or.inr ⟨?_, hr2⟩, hm2, hp2⟩
          intro hpos
          exact hxm (by rw [← hm2]; exact (hguard id2 sub2 e2 hr2).2 hpos)
    · rintro ⟨id2, sub2, e2, (⟨_, _, h3⟩ | ⟨_, hr2⟩), hm2, hp2⟩
      · subst h3
        exact Or.inl hm2.symm
      · exact Or.inr ((inv.i3 x).2 ⟨id2, sub2, e2, hr2, hm2, hp2⟩)
  · intro id2 i2 h
    simp only at h
    rw [Dx12ObjectInfoTable.find_store _ _ info id id2 (by exact hid) hfind] at h
    by_cases h1 : id = id2
    · simp [h1] at h
      subst h
      right
      refine ⟨_, rfl, rfl, ?_⟩
      apply Map.uniqueKeys_assign
      rcases hinfo with ⟨_, hr⟩ | ⟨hr, _⟩
      · subst hr
        exact True.intro
      · rcases inv.tagged id info hfind with hnone | ⟨r0, hr0, _, hu⟩
        · rw [hnone] at hr
          cases hr
        · rw [hr] at hr0
          cases hr0
          exact hu
    · simp [h1] at h
      exact inv.tagged id2 i2 h
  · intro id2 sub2 e2 h
    rcases (hrec id2 sub2 e2).1 h with ⟨_, _, h3⟩ | ⟨_, hr2⟩
    · subst h3
      exact Nat.succ_pos _
    · exact inv.positive id2 sub2 e2 hr2
  · intro id1 sub1 e1 id2 sub2 e2 h1 h2 hm
    rcases (hrec id1 sub1 e1).1 h1 with ⟨a1, a2, a3⟩ | ⟨na, hr1⟩
    · rcases (hrec id2 sub2 e2).1 h2 with ⟨b1, b2, b3⟩ | ⟨nb, hr2⟩
      · exact ⟨a1.trans b1.symm, a2.trans b2.symm⟩
      · subst a3
        exact absurd ((hguard id2 sub2 e2 hr2).1 hm.symm) nb
    · rcases (hrec id2 sub2 e2).1 h2 with ⟨b1, b2, b3⟩ | ⟨nb, hr2⟩
      · subst b3
        exact absurd ((hguard id1 sub1 e1 hr1).1 hm) na
      · exact inv.unique id1 sub1 e1 id2 sub2 e2 hr1 hr2 hm

/-- The entries recorded after an `Unmap` that erased the entry of `(id, sub)`. -/
theorem Records_unmap_erase (t : Dx12ObjectInfoTable) (id sub id2 sub2 : Nat)
    (info : DxObjectInfo) (r : D3D12ResourceInfo) (e2 : MappedMemoryInfo)
    (hfind : t.find id = some info)
    (hinfo : info.extra_info = some (ExtraInfo.resource r)) :
    Records (t.store
        { info with
          extra_info := some (ExtraInfo.resource
            { r with mapped_memory_info := Map.erase r.mapped_memory_info sub }) })
        id2 sub2 e2 ↔
      (¬ (id2 = id ∧ sub2 = sub) ∧ Records t id2 sub2 e2) := by
  have hid := Dx12ObjectInfoTable.find_capture_id _ _ _ hfind
  rw [Records_store t _ info id id2 sub2 e2 (by exact hid) hfind]
  constructor
  · rintro (⟨h1, r1, hr1, hm⟩ | ⟨h1, h⟩)
    · simp only [Option.some.injEq, ExtraInfo.resource.injEq] at hr1
      subst hr1
      simp only at hm
      by_cases hs : sub = sub2
      · subst hs
        rw [Map.find_erase_self] at hm
        cases hm
      · rw [Map.find_erase_ne _ _ _ hs] at hm
        subst h1
        exact ⟨fun h => hs h.2.symm, info, r, hfind, hinfo, hm⟩
    · exact ⟨fun h => h1 h.1, h⟩
  · rintro ⟨hne, h⟩
    by_cases h1 : id2 = id
    · subst h1
      have hs : sub ≠ sub2 := fun h => hne ⟨rfl, h.symm⟩
      obtain ⟨i, r0, hf, hr0, hm⟩ := h
      rw [hfind] at hf
      cases hf
      rw [hinfo] at hr0
      cases hr0
      exact Or.inl ⟨rfl, _, rfl, by simp only; rw [Map.find_erase_ne _ _ _ hs]; exact hm⟩
    · exact Or.inr ⟨h1, h⟩

theorem MapInvariant.unmap_erase (c : Dx12ReplayConsumerBase) (id sub : Nat)
    (info : DxObjectInfo) (r : D3D12ResourceInfo) (e : MappedMemoryInfo) (inv : MapInvariant c)
    (hfind : c.object_info_table_.find id = some info)
    (hinfo : info.extra_info = some (ExtraInfo.resource r))
    (he : Map.find r.mapped_memory_info sub = some e) :
    MapInvariant
      { c with
        mapped_memory_ := Map.erase c.mapped_memory_ e.memory_id
        object_info_table_ := c.object_info_table_.store
          { info with extra_info := some (ExtraInfo.resource
              { r with mapped_memory_info := Map.erase r.mapped_memory_info sub }) } } := by
  have hid := Dx12ObjectInfoTable.find_capture_id _ _ _ hfind
  have hrec := fun id2 sub2 e2 =>
    Records_unmap_erase c.object_info_table_ id sub id2 sub2 info r e2 hfind hinfo
  have hold : Records c.object_info_table_ id sub e := ⟨info, r, hfind, hinfo, he⟩
  have hcontains : ∀ x, Map.contains (Map.erase c.mapped_memory_ e.memory_id) x = true ↔
      x ≠ e.memory_id ∧ Map.contains c.mapped_memory_ x = true := by
    intro x
    by_cases hx : e.memory_id = x
    · subst hx
      simp [Map.contains_erase_self]
    · rw [Map.contains_erase_ne _ _ _ hx]
      have hx2 : ¬ x = e.memory_id := fun h => hx h.symm
      simp [hx2]
  refine ⟨?_, ?_, ?_, ?_⟩
  · intro x
    simp only [hrec, hcontains]
    constructor
    · rintro ⟨hx, hc⟩
      obtain ⟨id2, sub2, e2, hr2, hm2, hp2⟩ := (inv.i3 x).1 hc
      refine ⟨id2, sub2, e2, ⟨?_, hr2⟩, hm2, hp2⟩
      rintro ⟨h1, h2⟩
      subst h1 h2
      have := Records.functional _ _ _ _ _ hr2 hold
      subst this
      exact hx hm2.symm
    · rintro ⟨id2, sub2, e2, ⟨hne, hr2⟩, hm2, hp2⟩
      refine ⟨?_, (inv.i3 x).2 ⟨id2, sub2, e2, hr2, hm2, hp2⟩⟩
      intro hx
      exact hne (inv.unique id2 sub2 e2 id sub e hr2 hold (hm2.trans hx))
  · intro id2 i2 h
    simp only at h
    rw [Dx12ObjectInfoTable.find_store _ _ info id id2 (by exact hid) hfind] at h
    by_cases h1 : id = id2
    · simp [h1] at h
      subst h
      rcases inv.tagged id info hfind with hnone | ⟨r0, hr0, ht0, hu⟩
      · rw [hnone] at hinfo
        cases hinfo
      · rw [hinfo] at hr0
        cases hr0
        exact Or.inr ⟨_, rfl, ht0, Map.uniqueKeys_erase _ _ hu⟩
    · simp [h1] at h
      exact inv.tagged id2 i2 h
  · intro id2 sub2 e2 h
    exact inv.positive id2 sub2 e2 ((hrec id2 sub2 e2).1 h).2
  · intro id1 sub1 e1 id2 sub2 e2 h1 h2 hm
    exact inv.unique id1 sub1 e1 id2 sub2 e2 ((hrec _ _ _).1 h1).2 ((hrec _ _ _).1 h2).2 hm

theorem MapInvariant.unmap_decrement (c : Dx12ReplayConsumerBase) (id sub : Nat)
    (info : DxObjectInfo) (r : D3D12ResourceInfo) (e : MappedMemoryInfo) (inv : MapInvariant c)
    (hfind : c.object_info_table_.find id = some info)
    (hinfo : info.extra_info = some (ExtraInfo.resource r))
    (he : Map.find r.mapped_memory_info sub = some e) (hz : e.count - 1 ≠ 0) :
    MapInvariant
      { c with
        object_info_table_ := c.object_info_table_.store
          { info with extra_info := some (ExtraInfo.resource
              { r with
                mapped_memory_info :=
                  Map.assign r.mapped_memory_info sub { e with count := e.count - 1 } }) } } := by
  have hid := Dx12ObjectInfoTable.find_capture_id _ _ _ hfind
  have hrec := fun id2 sub2 e2 =>
    Records_map_effect c.object_info_table_ id sub id2 sub2 info r
      { e with count := e.count - 1 } e2 info.extra_info_type hfind (Or.inr hinfo)
  have hold : Records c.object_info_table_ id sub e := ⟨info, r, hfind, hinfo, he⟩
  refine ⟨?_, ?_, ?_, ?_⟩
  · intro x
    simp only [hrec]
    rw [inv.i3 x]
    constructor
    · rintro ⟨id2, sub2, e2, hr2, hm2, hp2⟩
      by_cases hpos : id2 = id ∧ sub2 = sub
      · obtain ⟨h1, h2⟩ := hpos
        subst h1 h2
        have := Records.functional _ _ _ _ _ hr2 hold
        subst this
        exact ⟨id2, sub2, _, Or.inl ⟨rfl, rfl, rfl⟩, hm2, Nat.pos_of_ne_zero hz⟩
      · exact ⟨id2, sub2, e2, Or.inr ⟨hpos, hr2⟩, hm2, hp2⟩
    · rintro ⟨id2, sub2, e2, (⟨h1, h2, h3⟩ | ⟨_, hr2⟩), hm2, hp2⟩
      · subst h1 h2 h3
        exact ⟨id2, sub2, e, hold, hm2, inv.positive _ _ _ hold⟩
      · exact ⟨id2, sub2, e2, hr2, hm2, hp2⟩
  · intro id2 i2 h
    simp only at h
    rw [Dx12ObjectInfoTable.find_store _ _ info id id2 (by exact hid) hfind] at h
    by_cases h1 : id = id2
    · simp [h1] at h
      subst h
      rcases inv.tagged id info hfind with hnone | ⟨r0, hr0, ht0, hu⟩
      · rw [hnone] at hinfo
        cases hinfo
      · rw [hinfo] at hr0
        cases hr0
        exact Or.inr ⟨_, rfl, ht0, Map.uniqueKeys_assign _ _ _ hu⟩
    · simp [h1] at h
      exact inv.tagged id2 i2 h
  · intro id2 sub2 e2 h
    rcases (hrec id2 sub2 e2).1 h with ⟨_, _, h3⟩ | ⟨_, hr2⟩
    · subst h3
      exact Nat.pos_of_ne_zero hz
    · exact inv.positive id2 sub2 e2 hr2
  · intro id1 sub1 e1 id2 sub2 e2 h1 h2 hm
    rcases (hrec id1 sub1 e1).1 h1 with ⟨a1, a2, a3⟩ | ⟨na, hr1⟩
    · rcases (hrec id2 sub2 e2).1 h2 with ⟨b1, b2, b3⟩ | ⟨nb, hr2⟩
      · exact ⟨a1.trans b1.symm, a2.trans b2.symm⟩
      · subst a3
        have := inv.unique id sub e id2 sub2 e2 hold hr2 hm
        exact absurd ⟨this.1.symm, this.2.symm⟩ nb
    · rcases (hrec id2 sub2 e2).1 h2 with ⟨b1, b2, b3⟩ | ⟨nb, hr2⟩
      · subst b3
        exact absurd (inv.unique id1 sub1 e1 id sub e hr1 hold hm) na
      · exact inv.unique id1 sub1 e1 id2 sub2 e2 hr1 hr2 hm

theorem MapInvariant.remove (c c1 : Dx12ReplayConsumerBase) (info info1 : DxObjectInfo)
    (left : Option DxObjectInfo) (inv : MapInvariant c)
    (hfind : c.object_info_table_.find info1.capture_id = some info)
    (hx : info1.extra_info = info.extra_info)
    (ht : info1.extra_info_type = info.extra_info_type)
    (h : c.RemoveObject (some info1) = some (c1, left)) : MapInvariant c1 := by
  have htagged := inv.tagged _ info hfind
  rw [← hx, ← ht] at htagged
  have htagged2 : info1.extra_info = none ∨
      ∃ r, info1.extra_info = some (ExtraInfo.resource r) ∧
        info1.extra_info_type = DxObjectInfoType.kID3D12ResourceInfo := by
    rcases htagged with hn | ⟨r, hr, htg, _⟩
    · exact Or.inl hn
    · exact Or.inr ⟨r, hr, htg⟩
  have key : c1.object_info_table_ = c.object_info_table_.erase info1.capture_id ∧
      ∀ x, Map.contains c1.mapped_memory_ x = true ↔
        Map.contains c.mapped_memory_ x = true ∧
          ∀ sub e, Records c.object_info_table_ info1.capture_id sub e → e.memory_id ≠ x := by
    rcases RemoveObject_resource_cases c c1 info1 left htagged2 h with ⟨hn, hc1⟩ | ⟨r, hr, h1, h2⟩
    · subst hc1
      refine ⟨rfl, fun x => ?_⟩
      simp only
      constructor
      · intro hc
        refine ⟨hc, ?_⟩
        rintro sub e ⟨i, r, hf, hri, _⟩
        rw [hfind] at hf
        cases hf
        rw [← hx, hn] at hri
        cases hri
      · exact fun hc => hc.1
    · refine ⟨h1, fun x => ?_⟩
      rw [h2, Map.contains_foldl_erase r.mapped_memory_info (fun entry => entry.2.memory_id)]
      have hu : Map.uniqueKeys r.mapped_memory_info := by
        rcases htagged with hn | ⟨r0, hr0, _, hu⟩
        · rw [hn] at hr
          cases hr
        · rw [hr] at hr0
          cases hr0
          exact hu
      constructor
      · rintro ⟨hc, hall⟩
        refine ⟨hc, ?_⟩
        rintro sub e ⟨i, r0, hf, hri, hm⟩
        rw [hfind] at hf
        cases hf
        rw [← hx, hr] at hri
        cases hri
        exact hall (sub, e) (Map.mem_of_find _ _ _ hm)
      · rintro ⟨hc, hall⟩
        refine ⟨hc, ?_⟩
        rintro ⟨sub, e⟩ hmem
        exact hall sub e ⟨info, r, hfind, by rw [← hx]; exact hr, Map.find_of_mem _ _ _ hu hmem⟩
  obtain ⟨htable, hmapped⟩ := key
  have hrec : ∀ id2 sub e, Records c1.object_info_table_ id2 sub e ↔
      id2 ≠ info1.capture_id ∧ Records c.object_info_table_ id2 sub e := by
    intro id2 sub e
    rw [htable]
    exact Records_erase _ _ _ _ _
  refine ⟨?_, ?_, ?_, ?_⟩
  · intro x
    rw [hmapped x]
    simp only [hrec]
    constructor
    · rintro ⟨hc, hall⟩
      obtain ⟨id2, sub2, e2, hr2, hm2, hp2⟩ := (inv.i3 x).1 hc
      refine ⟨id2, sub2, e2, ⟨?_, hr2⟩, hm2, hp2⟩
      intro hid
      subst hid
      exact hall sub2 e2 hr2 hm2
    · rintro ⟨id2, sub2, e2, ⟨hne, hr2⟩, hm2, hp2⟩
      refine ⟨(inv.i3 x).2 ⟨id2, sub2, e2, hr2, hm2, hp2⟩, ?_⟩
      intro sub e hr hm
      exact hne (inv.unique id2 sub2 e2 _ sub e hr2 hr (hm2.trans hm.symm)).1
  · intro id2 i2 hf
    rw [htable, Dx12ObjectInfoTable.find_erase] at hf
    by_cases h1 : info1.capture_id = id2
    · simp [h1] at hf
    · simp [h1] at hf
      exact inv.tagged id2 i2 hf
  · intro id2 sub2 e2 hr
    exact inv.positive id2 sub2 e2 ((hrec _ _ _).1 hr).2
  · intro id1 sub1 e1 id2 sub2 e2 h1 h2 hm
    exact inv.unique id1 sub1 e1 id2 sub2 e2 ((hrec _ _ _).1 h1).2 ((hrec _ _ _).1 h2).2 hm

/-- The invariant holds in every state reached through well-formed `Map` calls. -/
theorem MapInvariant.of_reachable (c : Dx12ReplayConsumerBase)
    (h : Reachable MemoryIdNamesSubresource c) : MapInvariant c := by
  induction h with
  | init => exact MapInvariant.init
  | create c id object ref_count _ hfresh ih => exact MapInvariant.create c id object ref_count ih hfresh
  | map c c1 id original result sub host_pointer read_range data returned _ hguard hmap ih =>
    rcases OverrideResourceMap_cases c c1 id sub original result returned host_pointer read_range
      data hmap with h | ⟨info, r, d, m, hfind, hd, hm, hinfo, hc1⟩
    · rw [h]
      exact ih
    · rw [hc1]
      exact MapInvariant.map_effect c id sub m host_pointer info r ih hfind hinfo
        (hguard d m hd hm)
  | unmap c c1 id sub written_range _ hunmap ih =>
    rcases OverrideResourceUnmap_cases c c1 id sub written_range hunmap with
      h | ⟨info, r, e, hfind, hinfo, _, he, _, (⟨_, hc1⟩ | ⟨hz, hc1⟩)⟩
    · rw [h]
      exact ih
    · rw [hc1]
      exact MapInvariant.unmap_erase c id sub info r e ih hfind hinfo he
    · rw [hc1]
      exact MapInvariant.unmap_decrement c id sub info r e ih hfind hinfo he hz
  | release c id original driver_result res _ hrel ih =>
    obtain ⟨info, hfind, (hc1 | ⟨left, hrm⟩)⟩ := OverrideRelease_cases c id original driver_result res hrel
    · have hid := Dx12ObjectInfoTable.find_capture_id _ _ _ hfind
      rw [hc1]
      exact MapInvariant.store_same c id info { info with ref_count := info.ref_count - 1 } ih
        hfind hid rfl rfl
    · have hid := Dx12ObjectInfoTable.find_capture_id _ _ _ hfind
      exact MapInvariant.remove c res.consumer info { info with ref_count := info.ref_count - 1 }
        left ih (by simpa [hid] using hfind) rfl rfl hrm
  | remove c c1 id info left _ hfind hrm ih =>
    have hid := Dx12ObjectInfoTable.find_capture_id _ _ _ hfind
    exact MapInvariant.remove c c1 info info left ih (by rw [hid]; exact hfind) rfl rfl hrm
  | fill c mem memory_id offset size data _ ih =>
    have : (c.ProcessFillMemoryCommand mem memory_id offset size data).1 = c := by
      unfold ProcessFillMemoryCommand
      cases Map.find c.mapped_memory_ memory_id <;> rfl
    rw [this]
    exact ih

theorem oneResource_reachable (guard : Dx12ReplayConsumerBase → HandleId → Nat → Nat → Prop) :
    Reachable guard oneResource :=
  Reachable.create { } 1 4096 1 Reachable.init rfl

theorem mappedOnce_reachable_any : Reachable AnyMemoryId mappedOnce :=
  Reachable.map oneResource mappedOnce 1 0 0 0 8192 (some {}) (some { pointer := some 42 }) 0
    (oneResource_reachable _) (fun _ _ _ _ => True.intro) rfl

/-- C2, as stated, fails in both directions. After `Map` of subresources 0 and 1 of one resource
under the same memory id 42 and `Unmap` of subresource 0, subresource 1 records 42 with count 1
but 42 is not a key of `mapped_memory_`. After two `Map` calls of subresource 0 that report ids
42 and then 43, 42 is a key of `mapped_memory_` but no entry records it. -/
theorem I3_counterexample :
    (Reachable AnyMemoryId sharedIdUnmapped ∧ ¬ I3 sharedIdUnmapped) ∧
    (Reachable AnyMemoryId remappedOtherId ∧ ¬ I3 remappedOtherId) := by
  refine ⟨⟨?_, ?_⟩, ⟨?_, ?_⟩⟩
  · have h2 : Reachable AnyMemoryId mappedTwoSubresources :=
      Reachable.map mappedOnce mappedTwoSubresources 1 0 0 1 8192 (some {})
        (some { pointer := some 42 }) 0 mappedOnce_reachable_any (fun _ _ _ _ => True.intro) rfl
    exact Reachable.unmap mappedTwoSubresources sharedIdUnmapped 1 0 (some {}) h2 rfl
  · intro h
    have h1 := (h 42).2 ⟨1, 1, { count := 1, memory_id := 42 }, ⟨_, _, rfl, rfl, rfl⟩, rfl,
      by decide⟩
    simp [sharedIdUnmapped, Map.contains, Map.find] at h1
  · exact Reachable.map mappedOnce remappedOtherId 1 0 0 0 8192 (some {})
      (some { pointer := some 43 }) 0 mappedOnce_reachable_any (fun _ _ _ _ => True.intro) rfl
  · intro h
    obtain ⟨id, sub, e, ⟨info, r, hfind, hr, hm⟩, he, _⟩ := (h 42).1 rfl
    by_cases hid : id = 1
    · subst hid
      simp [remappedOtherId, Dx12ObjectInfoTable.find] at hfind
      subst hfind
      simp at hr
      subst hr
      by_cases hs : sub = 0
      · subst hs
        simp [Map.find] at hm
        subst hm
        simp at he
      · have hs2 : ¬ 0 = sub := fun h => hs h.symm
        simp [Map.find, hs2] at hm
    · have hid2 : ¬ 1 = id := fun h => hid h.symm
      simp [remappedOtherId, Dx12ObjectInfoTable.find, hid2] at hfind

/-- C2 (amended): in every consumer state reachable from the empty consumer through object
creation, `OverrideResourceMap`, `OverrideResourceUnmap`, `OverrideRelease`, `RemoveObject` and
`ProcessFillMemoryCommand`, where every `Map` reports a memory id that names its subresource and
no other (the entries that carry the id are exactly the entry of that subresource, if it has
one), a memory id is a key of `mapped_memory_` if and only if some live resource's subresource
table has an entry carrying it with count greater than zero. -/
theorem I3_of_reachable (c : Dx12ReplayConsumerBase)
    (h : Reachable MemoryIdNamesSubresource c) : I3 c :=
  (MapInvariant.of_reachable c h).i3

/-- Witness of C2: the state after creating a resource and mapping its subresource 0. -/
theorem I3_of_reachable_witness : Reachable MemoryIdNamesSubresource mappedOnce ∧ I3 mappedOnce :=
  have h : Reachable MemoryIdNamesSubresource mappedOnce :=
    Reachable.map oneResource mappedOnce 1 0 0 0 8192 (some {}) (some { pointer := some 42 }) 0
      (Reachable.create { } 1 4096 1 Reachable.init rfl)
      (fun _ _ _ _ id2 sub2 e2 hrec => by
        obtain ⟨info, r, hfind, hr, _⟩ := hrec
        by_cases hid : id2 = 1
        · subst hid
          simp [oneResource, Dx12ObjectInfoTable.find] at hfind
          subst hfind
          simp at hr
        · have hid2 : ¬ 1 = id2 := fun h => hid h.symm
          simp [oneResource, Dx12ObjectInfoTable.find, hid2] at hfind)
      rfl
  ⟨h, I3_of_reachable mappedOnce h⟩

/-! ## Object removal and reference counting -/

theorem Dx12GpuVaMap.containsResource_Remove (m : Dx12GpuVaMap) (resource : Nat) :
    Dx12GpuVaMap.containsResource (Dx12GpuVaMap.Remove m resource) resource = false := by
  simp [Dx12GpuVaMap.containsResource, Dx12GpuVaMap.Remove]

/-- The purge of the address maps leaves the object table alone. -/
theorem DestroyExtraInfo_table (c c1 : Dx12ReplayConsumerBase) (info : DxObjectInfo)
    (extra : ExtraInfo) (h : DestroyExtraInfo c info extra = some c1) :
    c1.object_info_table_ = c.object_info_table_ := by
  unfold DestroyExtraInfo at h
  split_ifs at h with h1 h2 h3 h4
  · cases extra <;> simp [ExtraInfo.asResource] at h
    rw [← h]
    split_ifs <;> rfl
  · cases extra <;> simp [ExtraInfo.asHeap] at h
    rw [← h]
  · cases extra <;> simp [ExtraInfo.asDevice] at h
    rw [← h]
  · cases extra <;> simp [ExtraInfo.asSwapchain] at h
    rw [← h]
  · cases h
    rfl

/-- On a record whose tag and payload agree `DestroyExtraInfo` meets no bad cast. -/
theorem DestroyExtraInfo_isSome (c : Dx12ReplayConsumerBase) (info : DxObjectInfo)
    (extra : ExtraInfo) (hx : info.extra_info = some extra) (hcons : info.Consistent) :
    ∃ c1, DestroyExtraInfo c info extra = some c1 ∧
      c1.object_info_table_ = c.object_info_table_ := by
  unfold DxObjectInfo.Consistent at hcons
  rw [hx] at hcons
  simp only at hcons
  have hsome : (DestroyExtraInfo c info extra).isSome = true := by
    cases extra <;>
      simp [DestroyExtraInfo, hcons, ExtraInfo.tag, ExtraInfo.asResource, ExtraInfo.asHeap,
        ExtraInfo.asDevice, ExtraInfo.asSwapchain]
  obtain ⟨c1, hc1⟩ := Option.isSome_iff_exists.1 hsome
  exact ⟨c1, hc1, DestroyExtraInfo_table c c1 info extra hc1⟩

/-- On a record whose tag and payload agree `RemoveObject` returns, leaves the record without
extra info and takes its capture id out of the table. -/
theorem RemoveObject_consistent (c : Dx12ReplayConsumerBase) (info : DxObjectInfo)
    (hcons : info.Consistent) :
    ∃ c1, c.RemoveObject (some info) =
        some (c1, some { info with
                          extra_info_type := DxObjectInfoType.kUnused, extra_info := none }) ∧
      c1.object_info_table_ = c.object_info_table_.erase info.capture_id := by
  cases hx : info.extra_info with
  | none =>
    unfold DxObjectInfo.Consistent at hcons
    rw [hx] at hcons
    simp only at hcons
    refine ⟨object_mapping.RemoveObject info.capture_id c, ?_, rfl⟩
    simp only [RemoveObject, hx]
    congr
    cases info
    simp_all
  | some extra =>
    obtain ⟨c1, hc1, ht⟩ := DestroyExtraInfo_isSome c info extra hx hcons
    refine ⟨object_mapping.RemoveObject info.capture_id c1, ?_, ?_⟩
    · simp [RemoveObject, hx, hc1]
    · simp [object_mapping.RemoveObject, ht]

/-- C4: `RemoveObject` on a record whose tag and payload agree returns; afterwards the record has
no extra info (type `kUnused`, payload null), its capture id is not in the object table, for a
resource info with a recorded capture address `gpu_va_map_` holds no range of the resource and
`mapped_memory_` holds none of the memory ids of its subresource table, and for a descriptor heap
info the two descriptor maps have no entry under its capture begin addresses. -/
theorem RemoveObject_purges (c : Dx12ReplayConsumerBase) (info : DxObjectInfo)
    (hcons : info.Consistent) :
    ∃ c1 info1, c.RemoveObject (some info) = some (c1, some info1) ∧
      info1.extra_info_type = DxObjectInfoType.kUnused ∧ info1.extra_info = none ∧
      c1.object_info_table_.find info.capture_id = none ∧
      (∀ r, info.extra_info = some (ExtraInfo.resource r) →
        (r.capture_address_ ≠ 0 → c1.gpu_va_map_.containsResource info.object = false) ∧
        (∀ entry ∈ r.mapped_memory_info,
          Map.contains c1.mapped_memory_ entry.2.memory_id = false)) ∧
      (∀ h, info.extra_info = some (ExtraInfo.heap h) →
        Map.contains c1.descriptor_cpu_addresses_ h.capture_cpu_addr_begin = false ∧
        Map.contains c1.descriptor_gpu_addresses_ h.capture_gpu_addr_begin = false) := by
  obtain ⟨c1, hrm, htable⟩ := RemoveObject_consistent c info hcons
  refine ⟨c1, _, hrm, rfl, rfl, ?_, ?_, ?_⟩
  · rw [htable]
    exact Dx12ObjectInfoTable.table_find_erase_self _ _
  · intro r hr
    have htag : info.extra_info_type = DxObjectInfoType.kID3D12ResourceInfo := by
      unfold DxObjectInfo.Consistent at hcons
      rw [hr] at hcons
      exact hcons
    constructor
    · intro ha
      simp [RemoveObject, hr, DestroyExtraInfo, htag, ExtraInfo.asResource, ha,
        object_mapping.RemoveObject] at hrm
      rw [← hrm]
      exact Dx12GpuVaMap.containsResource_Remove _ _
    · intro entry hentry
      have hmm : c1.mapped_memory_ =
          r.mapped_memory_info.foldl (fun m entry => Map.erase m entry.2.memory_id)
            c.mapped_memory_ := by
        by_cases ha : r.capture_address_ = 0
        · simp [RemoveObject, hr, DestroyExtraInfo, htag, ExtraInfo.asResource, ha,
            object_mapping.RemoveObject] at hrm
          rw [← hrm]
        · simp [RemoveObject, hr, DestroyExtraInfo, htag, ExtraInfo.asResource, ha,
            object_mapping.RemoveObject] at hrm
          rw [← hrm]
      have hiff := Map.contains_foldl_erase r.mapped_memory_info (fun entry => entry.2.memory_id)
        c.mapped_memory_ entry.2.memory_id
      rw [hmm]
      cases hc : Map.contains (List.foldl (fun m entry => Map.erase m entry.2.memory_id)
        c.mapped_memory_ r.mapped_memory_info) entry.2.memory_id with
      | false => rfl
      | true => exact absurd rfl ((hiff.1 hc).2 entry hentry)
  · intro h hh
    have htag : info.extra_info_type = DxObjectInfoType.kID3D12DescriptorHeapInfo := by
      unfold DxObjectInfo.Consistent at hcons
      rw [hh] at hcons
      exact hcons
    simp [RemoveObject, hh, DestroyExtraInfo, htag, ExtraInfo.asHeap,
      object_mapping.RemoveObject] at hrm
    rw [← hrm]
    exact ⟨Map.contains_erase_self _ _, Map.contains_erase_self _ _⟩

/-- Witness of C4: removing the resource of `resourceWithAddress`. -/
theorem RemoveObject_purges_witness :
    ∃ c1 info1,
      resourceWithAddress.RemoveObject (some mappedResource) = some (c1, some info1) ∧
      info1.extra_info_type = DxObjectInfoType.kUnused ∧ info1.extra_info = none ∧
      c1.object_info_table_.find mappedResource.capture_id = none ∧
      (∀ r, mappedResource.extra_info = some (ExtraInfo.resource r) →
        (r.capture_address_ ≠ 0 →
          c1.gpu_va_map_.containsResource mappedResource.object = false) ∧
        (∀ entry ∈ r.mapped_memory_info,
          Map.contains c1.mapped_memory_ entry.2.memory_id = false)) ∧
      (∀ h, mappedResource.extra_info = some (ExtraInfo.heap h) →
        Map.contains c1.descriptor_cpu_addresses_ h.capture_cpu_addr_begin = false ∧
        Map.contains c1.descriptor_gpu_addresses_ h.capture_gpu_addr_begin = false) :=
  RemoveObject_purges resourceWithAddress mappedResource (by decide)

/-- C3: for a live object with a non-null driver pointer, agreeing tag and payload and
replay-side reference count `r > 0`, `OverrideRelease` returns the driver's value whatever it is,
and the consumer and the record it leaves do not depend on that value: the record has count
`r - 1`; the capture id is gone from the object table if and only if `r = 1`; for `r > 1` the
consumer is the old one with only the count of this record written back (every address map is
unchanged); for `r = 1` the consumer is the result of `RemoveObject` on the record. -/
theorem OverrideRelease_removes_at_zero (c : Dx12ReplayConsumerBase) (id original : Nat)
    (info : DxObjectInfo) (hfind : c.object_info_table_.find id = some info)
    (hobj : info.object ≠ 0) (hr : 0 < info.ref_count) (hcons : info.Consistent) :
    ∃ c1 info1,
      (∀ driver_result, c.OverrideRelease id original driver_result =
        some { consumer := c1, info := info1, result := driver_result }) ∧
      info1.ref_count = info.ref_count - 1 ∧
      (c1.object_info_table_.find id = none ↔ info.ref_count = 1) ∧
      (1 < info.ref_count →
        c1 = { c with
          object_info_table_ :=
            c.object_info_table_.store { info with ref_count := info.ref_count - 1 } }) ∧
      (info.ref_count = 1 →
        c.RemoveObject (some { info with ref_count := 0 }) = some (c1, some info1)) := by
  have hid := Dx12ObjectInfoTable.find_capture_id _ _ _ hfind
  have hg : ¬ (info.object = 0 ∨ ¬ (info.ref_count > 0)) := by
    rintro (h | h)
    · exact hobj h
    · exact h hr
  by_cases hz : info.ref_count - 1 = 0
  · have h1 : info.ref_count = 1 := by omega
    have hcons0 : DxObjectInfo.Consistent { info with ref_count := info.ref_count - 1 } := hcons
    obtain ⟨c1, hrm, htable⟩ := RemoveObject_consistent c _ hcons0
    refine ⟨c1,
      { info with
        ref_count := info.ref_count - 1
        extra_info_type := DxObjectInfoType.kUnused
        extra_info := none }, ?_, rfl, ?_, ?_, ?_⟩
    · intro d
      unfold OverrideRelease
      simp only [hfind]
      rw [if_neg hg, if_pos hz, hrm]
    · simp only [h1, iff_true]
      rw [htable]
      simp only
      rw [hid]
      exact Dx12ObjectInfoTable.table_find_erase_self _ _
    · intro h
      omega
    · intro _
      rw [← hz]
      exact hrm
  · refine ⟨{ c with
        object_info_table_ :=
          c.object_info_table_.store { info with ref_count := info.ref_count - 1 } },
      { info with ref_count := info.ref_count - 1 }, ?_, rfl, ?_, fun _ => rfl, ?_⟩
    · intro d
      unfold OverrideRelease
      simp only [hfind]
      rw [if_neg hg, if_neg hz]
    · have hne : info.ref_count ≠ 1 := by omega
      simp only [hne, iff_false]
      rw [Dx12ObjectInfoTable.find_store_at _ _ info id (by exact hid) hfind]
      simp
    · intro h
      omega

/-- Witness of C3: the last reference of the resource of `resourceWithAddress` is released. -/
theorem OverrideRelease_removes_at_zero_witness :
    ∃ c1 info1,
      (∀ driver_result, resourceWithAddress.OverrideRelease 5 0 driver_result =
        some { consumer := c1, info := info1, result := driver_result }) ∧
      info1.ref_count = 1 - 1 ∧
      (c1.object_info_table_.find 5 = none ↔ 1 = 1) ∧
      (1 < 1 →
        c1 = { resourceWithAddress with
          object_info_table_ :=
            resourceWithAddress.object_info_table_.store
              { mappedResource with ref_count := 1 - 1 } }) ∧
      (1 = 1 →
        resourceWithAddress.RemoveObject (some { mappedResource with ref_count := 0 }) =
          some (c1, some info1)) :=
  OverrideRelease_removes_at_zero resourceWithAddress 5 0 mappedResource rfl (by decide)
    (by decide) (by decide)

/-! ## FillMemory -/

/-- C5: for a memory id that is not a key of `mapped_memory_`, `ProcessFillMemoryCommand` returns
with the consumer and every byte of host memory as they were, for every offset, size and data. -/
theorem ProcessFillMemoryCommand_unknown_id (c : Dx12ReplayConsumerBase) (mem : HostMemory)
    (memory_id offset size : Nat) (data : List Byte)
    (h : Map.contains c.mapped_memory_ memory_id = false) :
    c.ProcessFillMemoryCommand mem memory_id offset size data = (c, mem) := by
  unfold ProcessFillMemoryCommand
  cases hf : Map.find c.mapped_memory_ memory_id with
  | none => rfl
  | some p => simp [Map.contains, hf] at h

/-- Witness of C5: memory id 999 before any `Map`. -/
theorem ProcessFillMemoryCommand_unknown_id_witness :
    oneResource.ProcessFillMemoryCommand (fun _ => 0) 999 16 4 [1, 2, 3, 4] =
      (oneResource, fun _ => 0) :=
  ProcessFillMemoryCommand_unknown_id oneResource (fun _ => 0) 999 16 4 [1, 2, 3, 4] rfl

/-- C6: for a memory id mapped to host pointer `p` and `size` bytes of data, after
`ProcessFillMemoryCommand` the bytes at `p + offset ..< p + offset + size` are the first `size`
bytes of the data in order, every other byte of host memory (of the same region or of any other)
is unchanged, and the consumer (`mapped_memory_`, the object table and all the rest) is
unchanged. -/
theorem ProcessFillMemoryCommand_copies (c : Dx12ReplayConsumerBase) (mem : HostMemory)
    (memory_id offset size p : Nat) (data : List Byte)
    (h : Map.find c.mapped_memory_ memory_id = some p) (hsize : size ≤ data.length) :
    (c.ProcessFillMemoryCommand mem memory_id offset size data).1 = c ∧
    (∀ i, i < size →
      some ((c.ProcessFillMemoryCommand mem memory_id offset size data).2 (p + offset + i)) =
        data[i]?) ∧
    (∀ a, ¬ (p + offset ≤ a ∧ a < p + offset + size) →
      (c.ProcessFillMemoryCommand mem memory_id offset size data).2 a = mem a) := by
  unfold ProcessFillMemoryCommand
  simp only [h]
  refine ⟨True.intro, ?_, ?_⟩
  · intro i hi
    have hlt : i < data.length := Nat.lt_of_lt_of_le hi hsize
    have h1 : p + offset ≤ p + offset + i ∧ p + offset + i < p + offset + size :=
      ⟨Nat.le_add_right _ _, Nat.add_lt_add_left hi _⟩
    simp only [MemoryCopy, h1, and_self, if_true, Nat.add_sub_cancel_left]
    rw [List.getD_eq_getElem?_getD, List.getElem?_eq_getElem hlt]
    rfl
  · intro a ha
    simp only [MemoryCopy, ha, if_false]

/-- Witness of C6: four bytes written at offset 16 of the region of memory id 42. -/
theorem ProcessFillMemoryCommand_copies_witness :
    (mappedOnce.ProcessFillMemoryCommand (fun _ => 0) 42 16 4 [1, 2, 3, 4]).1 = mappedOnce ∧
    (∀ i, i < 4 →
      some ((mappedOnce.ProcessFillMemoryCommand (fun _ => 0) 42 16 4 [1, 2, 3, 4]).2
        (8192 + 16 + i)) = ([1, 2, 3, 4] : List Byte)[i]?) ∧
    (∀ a, ¬ (8192 + 16 ≤ a ∧ a < 8192 + 16 + 4) →
      (mappedOnce.ProcessFillMemoryCommand (fun _ => 0) 42 16 4 [1, 2, 3, 4]).2 a =
        (fun _ => 0) a) :=
  ProcessFillMemoryCommand_copies mappedOnce (fun _ => 0) 42 16 4 8192 [1, 2, 3, 4] rfl
    (by decide)

end decode
end gfxrecon

/-! ## The preload file processor: reading -/

namespace gfxrecon
namespace decode

open PreloadFileProcessor

theorem encodeLE_length (width n : Nat) : (encodeLE width n).length = width := by
  induction width generalizing n with
  | zero => rfl
  | succ w ih => simp [encodeLE, ih]

theorem encodeLE_decodeLE (bytes : List Byte) :
    encodeLE bytes.length (decodeLE bytes) = bytes := by
  induction bytes with
  | nil => rfl
  | cons b bs ih =>
    have hb : b.val < 256 := b.isLt
    have h1 : (b.val + 256 * decodeLE bs) % 256 = b.val := by omega
    have h2 : (b.val + 256 * decodeLE bs) / 256 = decodeLE bs := by omega
    simp only [List.length_cons, encodeLE, decodeLE, h1, h2, ih]
    congr 1
    apply Fin.ext
    simp [Fin.ofNat, Nat.mod_eq_of_lt hb]

theorem decodeLE_lt (bytes : List Byte) : decodeLE bytes < 256 ^ bytes.length := by
  induction bytes with
  | nil => simp [decodeLE]
  | cons b bs ih =>
    have hb : b.val < 256 := b.isLt
    simp only [decodeLE, List.length_cons, pow_succ]
    omega

/-- A header read from 12 bytes is, in memory, those 12 bytes. -/
theorem BlockHeader_toBytes_ofBytes (bytes : List Byte)
    (h : bytes.length = format.sizeofBlockHeader) :
    (format.BlockHeader.ofBytes bytes).toBytes = bytes := by
  have h4 : (bytes.take 4).length = 4 := by
    simp [List.length_take, h, format.sizeofBlockHeader]
  have h8 : (bytes.drop 4).length = 8 := by
    simp [List.length_drop, h, format.sizeofBlockHeader]
  have e4 := encodeLE_decodeLE (bytes.take 4)
  have e8 := encodeLE_decodeLE (bytes.drop 4)
  rw [h4] at e4
  rw [h8] at e8
  simp only [format.BlockHeader.toBytes, format.BlockHeader.ofBytes, e4, e8,
    List.take_append_drop]

theorem PreloadBuffer_Read_eq (b : PreloadBuffer) (n : Nat) :
    b.Read n =
      ({ b with replay_offset_ := b.replay_offset_ + ((b.container_.drop b.replay_offset_).take n).length },
        (b.container_.drop b.replay_offset_).take n) := by
  unfold PreloadBuffer.Read
  by_cases hgt : n > b.container_.length - b.replay_offset_
  · have h1 : List.take (b.container_.length - b.replay_offset_)
        (List.drop b.replay_offset_ b.container_) =
        List.take n (List.drop b.replay_offset_ b.container_) := by
      rw [List.take_of_length_le (by simp), List.take_of_length_le (by simp; omega)]
    have h2 : (List.take n (List.drop b.replay_offset_ b.container_)).length =
        b.container_.length - b.replay_offset_ := by
      simp only [List.length_take, List.length_drop]
      omega
    simp only [hgt, if_true, h1, h2]
  · have h2 : (List.take n (List.drop b.replay_offset_ b.container_)).length = n := by
      simp only [List.length_take, List.length_drop]
      omega
    simp only [hgt, if_false, h2]

/-- `ReadBytes` in `Replay` state, written out. -/
theorem ReadBytes_replay (p : PreloadFileProcessor) (n : Nat)
    (hs : p.status_ = PreloadStatus.kReplay) :
    p.ReadBytes n =
      ({ p with
         preload_buffer_ :=
           { p.preload_buffer_ with
             replay_offset_ := p.preload_buffer_.replay_offset_ + (bufferBytes p n).length }
         bytes_read_ := p.bytes_read_ + (bufferBytes p n).length
         status_ :=
           if p.preload_buffer_.container_.length ≤
               p.preload_buffer_.replay_offset_ + (bufferBytes p n).length
           then PreloadStatus.kInactive else PreloadStatus.kReplay },
        bufferBytes p n, decide ((bufferBytes p n).length = n)) := by
  unfold ReadBytes
  simp only [hs, if_true, PreloadBuffer_Read_eq, PreloadBuffer.ReplayFinished, bufferBytes]
  by_cases hfin : p.preload_buffer_.container_.length ≤ p.preload_buffer_.replay_offset_ +
      (List.take n (List.drop p.preload_buffer_.replay_offset_
        p.preload_buffer_.container_)).length
  · simp only [hfin, decide_True, if_true]
  · simp only [hfin, decide_False, if_false, Bool.false_eq_true]

/-- `ReadBytes` in `Record` and `Inactive` state, written out. -/
theorem ReadBytes_file (p : PreloadFileProcessor) (n : Nat)
    (hs : p.status_ ≠ PreloadStatus.kReplay) :
    p.ReadBytes n =
      ({ p with
         file_pos_ := p.file_pos_ + (fileBytes p n).length
         file_eof_ := p.file_eof_ || decide ((fileBytes p n).length < n)
         bytes_read_ := p.bytes_read_ + (fileBytes p n).length },
        fileBytes p n, decide ((fileBytes p n).length = n)) := by
  unfold ReadBytes
  simp only [hs, if_false, FileRead, fileBytes]

/-- C10: `ReadBytes` of `n` bytes. In `Replay` state the bytes are the next bytes of the preload
buffer (at most `n`), the file is not touched, the read cursor and `bytes_read_` grow by the
number of bytes obtained, the state afterwards is `Inactive` exactly when the read cursor has
reached the write size and `Replay` otherwise, and the result is `true` exactly when `n` bytes
were obtained. In `Record` and `Inactive` state the bytes are the next bytes of the file (at most
`n`), `bytes_read_` grows by the number of bytes obtained, the state and the preload buffer are
unchanged, and the result is `true` exactly when `n` bytes were obtained. -/
theorem ReadBytes_sources (p : PreloadFileProcessor) (n : Nat) :
    (p.status_ = PreloadStatus.kReplay →
      (p.ReadBytes n).2.1 =
        (p.preload_buffer_.container_.drop p.preload_buffer_.replay_offset_).take n ∧
      (p.ReadBytes n).1.file_data_ = p.file_data_ ∧
      (p.ReadBytes n).1.file_pos_ = p.file_pos_ ∧
      (p.ReadBytes n).1.file_eof_ = p.file_eof_ ∧
      (p.ReadBytes n).1.preload_buffer_.container_ = p.preload_buffer_.container_ ∧
      (p.ReadBytes n).1.preload_buffer_.replay_offset_ =
        p.preload_buffer_.replay_offset_ + (p.ReadBytes n).2.1.length ∧
      (p.ReadBytes n).1.bytes_read_ = p.bytes_read_ + (p.ReadBytes n).2.1.length ∧
      ((p.ReadBytes n).1.status_ = PreloadStatus.kInactive ↔
        p.preload_buffer_.container_.length ≤
          (p.ReadBytes n).1.preload_buffer_.replay_offset_) ∧
      ((p.ReadBytes n).1.status_ = PreloadStatus.kInactive ∨
        (p.ReadBytes n).1.status_ = PreloadStatus.kReplay) ∧
      ((p.ReadBytes n).2.2 = true ↔ (p.ReadBytes n).2.1.length = n)) ∧
    (p.status_ ≠ PreloadStatus.kReplay →
      (p.ReadBytes n).2.1 = (p.file_data_.drop p.file_pos_).take n ∧
      (p.ReadBytes n).1.file_pos_ = p.file_pos_ + (p.ReadBytes n).2.1.length ∧
      (p.ReadBytes n).1.preload_buffer_ = p.preload_buffer_ ∧
      (p.ReadBytes n).1.bytes_read_ = p.bytes_read_ + (p.ReadBytes n).2.1.length ∧
      (p.ReadBytes n).1.status_ = p.status_ ∧
      ((p.ReadBytes n).2.2 = true ↔ (p.ReadBytes n).2.1.length = n)) := by
  constructor
  · intro hs
    rw [ReadBytes_replay p n hs]
    refine ⟨rfl, rfl, rfl, rfl, rfl, rfl, rfl, ?_, ?_, ?_⟩
    · simp only
      split_ifs with h1
      · simp [h1]
      · simp [h1]
    · simp only
      split_ifs
      · exact Or.inl rfl
      · exact Or.inr rfl
    · simp
  · intro hs
    rw [ReadBytes_file p n hs]
    refine ⟨rfl, rfl, rfl, rfl, rfl, ?_⟩
    simp

/-! ## The preload file processor: what a turn of the block loop does -/

theorem StatusStep.same (s : PreloadStatus) : StatusStep s s := Or.inl rfl

theorem StatusStep.compose {s s1 s2 : PreloadStatus} (h1 : StatusStep s s1)
    (h2 : StatusStep s1 s2) : StatusStep s s2 := by
  rcases h1 with h1 | ⟨h1, h1'⟩
  · rw [h1] at h2
    exact h2
  · rcases h2 with h2 | ⟨h2, _⟩
    · exact Or.inr ⟨h1, by rw [h2, h1']⟩
    · rw [h1'] at h2
      cases h2

theorem StatusStep.record {s s1 : PreloadStatus} (h : StatusStep s s1)
    (hs : s = PreloadStatus.kRecord) : s1 = PreloadStatus.kRecord := by
  rcases h with h | ⟨h, _⟩
  · rw [h, hs]
  · rw [hs] at h
    cases h

theorem StatusStep.record_inv {s s1 : PreloadStatus} (h : StatusStep s s1)
    (hs : s1 = PreloadStatus.kRecord) : s = PreloadStatus.kRecord := by
  rcases h with h | ⟨_, h⟩
  · rw [← h]
    exact hs
  · rw [hs] at h
    cases h

theorem StatusStep.not_record {s s1 : PreloadStatus} (h : StatusStep s s1)
    (hs : s ≠ PreloadStatus.kRecord) : s1 ≠ PreloadStatus.kRecord := by
  rcases h with h | ⟨_, h⟩
  · rw [h]
    exact hs
  · rw [h]
    decide

theorem QuietStep.nothing (p : PreloadFileProcessor) : QuietStep p p 0 :=
  ⟨Nat.le_refl _, StatusStep.same _, rfl, rfl⟩

theorem QuietStep.followed {p p1 p2 : PreloadFileProcessor} {k j : Nat} (h1 : QuietStep p p1 k)
    (h2 : QuietStep p1 p2 j) : QuietStep p p2 (k + j) :=
  ⟨by have := h1.unread; have := h2.unread; omega, h1.status.compose h2.status,
    h2.frame.trans h1.frame, h2.calls.trans h1.calls⟩

theorem QuietStep.weaken {p p1 : PreloadFileProcessor} {k : Nat} (h : QuietStep p p1 k) (j : Nat)
    (hj : j ≤ k) : QuietStep p p1 j :=
  ⟨by have := h.unread; omega, h.status, h.frame, h.calls⟩

theorem ReadBytes_quiet (p : PreloadFileProcessor) (n : Nat) :
    QuietStep p (p.ReadBytes n).1 (p.ReadBytes n).2.1.length := by
  by_cases hs : p.status_ = PreloadStatus.kReplay
  · rw [ReadBytes_replay p n hs]
    refine ⟨?_, ?_, rfl, rfl⟩
    · have hlen : (bufferBytes p n).length ≤
          p.preload_buffer_.container_.length - p.preload_buffer_.replay_offset_ := by
        simp only [bufferBytes, List.length_take, List.length_drop]
        omega
      simp only [unreadBytes, hs, if_true]
      split_ifs with h1 h2 h2
      · cases h2
      · omega
      · omega
      · exact absurd rfl h2
    · simp only
      split_ifs
      · exact Or.inr ⟨hs, rfl⟩
      · exact Or.inl hs.symm
  · rw [ReadBytes_file p n hs]
    refine ⟨?_, Or.inl rfl, rfl, rfl⟩
    have hlen : (fileBytes p n).length ≤ p.file_data_.length - p.file_pos_ := by
      simp only [fileBytes, List.length_take, List.length_drop]
      omega
    simp only [unreadBytes, hs, if_false]
    omega

theorem ReadBytes_success_length (p : PreloadFileProcessor) (n : Nat)
    (h : (p.ReadBytes n).2.2 = true) : (p.ReadBytes n).2.1.length = n := by
  by_cases hs : p.status_ = PreloadStatus.kReplay
  · rw [ReadBytes_replay p n hs] at h ⊢
    simpa using h
  · rw [ReadBytes_file p n hs] at h ⊢
    simpa using h

theorem SkipBytes_quiet (p : PreloadFileProcessor) (n : Nat) :
    QuietStep p (p.SkipBytes n).1 0 := by
  refine ⟨?_, Or.inl rfl, rfl, rfl⟩
  simp only [SkipBytes, unreadBytes]
  omega

theorem HandleBlockReadError_quiet (p : PreloadFileProcessor) (e : Error) :
    QuietStep p (p.HandleBlockReadError e) 0 := by
  unfold HandleBlockReadError
  split_ifs
  · exact QuietStep.nothing p
  · exact ⟨Nat.le_refl _, Or.inl rfl, rfl, rfl⟩

theorem QuietStep.part {p p1 : PreloadFileProcessor} {k : Nat} (env : Environment)
    (h : QuietStep p p1 k) : PartSummary env p p1 false :=
  ⟨by have := h.unread; omega, h.status, fun _ => ⟨h.calls, h.frame⟩,
    fun _ => ⟨[], by simp [h.calls], ⟨fun hb => Bool.noConfusion hb,
      fun _ => ⟨by simp, h.frame⟩⟩⟩⟩

theorem PartSummary.after {env : Environment} {p p0 p1 : PreloadFileProcessor} {k : Nat}
    {brk : Bool} (h0 : QuietStep p p0 k) (h : PartSummary env p0 p1 brk) :
    PartSummary env p p1 brk := by
  refine ⟨?_, h0.status.compose h.status, ?_, ?_⟩
  · have := h0.unread
    have := h.unread_le
    omega
  · intro hs
    have h1 := h.record_silent (h0.status.record hs)
    exact ⟨h1.1.trans h0.calls, h1.2.trans h0.frame⟩
  · intro hs
    obtain ⟨new, hc, hb, hnb⟩ := h.dispatch (h0.status.not_record hs)
    refine ⟨new, by rw [hc, h0.calls], ?_, ?_⟩
    · intro hbrk
      obtain ⟨d, hd, hdel, hf⟩ := hb hbrk
      exact ⟨d, hd, hdel, by rw [hf, h0.frame]⟩
    · intro hbrk
      exact ⟨(hnb hbrk).1, by rw [(hnb hbrk).2, h0.frame]⟩

theorem PartSummary.then_quiet {env : Environment} {p p0 p1 : PreloadFileProcessor} {k : Nat}
    {brk : Bool} (h : PartSummary env p p0 brk) (h0 : QuietStep p0 p1 k) :
    PartSummary env p p1 brk := by
  refine ⟨?_, h.status.compose h0.status, ?_, ?_⟩
  · have := h0.unread
    have := h.unread_le
    omega
  · intro hs
    have h1 := h.record_silent hs
    exact ⟨h0.calls.trans h1.1, h0.frame.trans h1.2⟩
  · intro hs
    obtain ⟨new, hc, hb, hnb⟩ := h.dispatch hs
    refine ⟨new, by rw [h0.calls, hc], ?_, ?_⟩
    · intro hbrk
      obtain ⟨d, hd, hdel, hf⟩ := hb hbrk
      exact ⟨d, hd, hdel, by rw [h0.frame, hf]⟩
    · intro hbrk
      exact ⟨(hnb hbrk).1, by rw [h0.frame, (hnb hbrk).2]⟩

/-- Replacing the preload buffer in `Record` or `Inactive` state reads nothing. -/
theorem with_buffer_quiet (p : PreloadFileProcessor) (b : PreloadBuffer)
    (hs : p.status_ ≠ PreloadStatus.kReplay) :
    QuietStep p { p with preload_buffer_ := b } 0 := by
  refine ⟨?_, Or.inl rfl, rfl, rfl⟩
  simp only [unreadBytes, hs, if_false]
  omega

theorem RecordBlock_quiet (env : Environment) (p : PreloadFileProcessor)
    (block_header : format.BlockHeader) (id_bytes : List Byte) (parameters_size : Nat)
    (hs : p.status_ = PreloadStatus.kRecord) :
    QuietStep p (RecordBlock env p block_header id_bytes parameters_size).1 0 := by
  have hnr : p.status_ ≠ PreloadStatus.kReplay := by rw [hs]; decide
  unfold RecordBlock
  simp only
  have h1 := with_buffer_quiet p
    (((p.preload_buffer_.Reserve env (format.sizeofBlockHeader + block_header.size)).1.Add
      block_header.toBytes).Add id_bytes) hnr
  have h2 := ReadBytes_quiet { p with preload_buffer_ :=
    (((p.preload_buffer_.Reserve env (format.sizeofBlockHeader + block_header.size)).1.Add
      block_header.toBytes).Add id_bytes) } parameters_size
  have h12 := (h1.followed h2).weaken 0 (Nat.zero_le _)
  have hs2 : (ReadBytes { p with preload_buffer_ :=
    (((p.preload_buffer_.Reserve env (format.sizeofBlockHeader + block_header.size)).1.Add
      block_header.toBytes).Add id_bytes) } parameters_size).1.status_ ≠
      PreloadStatus.kReplay := by
    have := h12.status.record hs
    rw [this]
    decide
  have h3 := with_buffer_quiet _
    ((ReadBytes { p with preload_buffer_ :=
      (((p.preload_buffer_.Reserve env (format.sizeofBlockHeader + block_header.size)).1.Add
        block_header.toBytes).Add id_bytes) } parameters_size).1.preload_buffer_.Add
      ((ReadBytes { p with preload_buffer_ :=
        (((p.preload_buffer_.Reserve env (format.sizeofBlockHeader + block_header.size)).1.Add
          block_header.toBytes).Add id_bytes) } parameters_size).2.1 ++
        List.replicate (parameters_size - (ReadBytes { p with preload_buffer_ :=
          (((p.preload_buffer_.Reserve env (format.sizeofBlockHeader + block_header.size)).1.Add
            block_header.toBytes).Add id_bytes) } parameters_size).2.1.length) 0)) hs2
  have h123 := h12.followed h3
  split_ifs
  · exact h123
  · exact h123.followed (HandleBlockReadError_quiet _ _)

theorem DispatchBlock_eq (call : format.BlockHeader → Nat → List Byte → DecoderCall)
    (p : PreloadFileProcessor) (block_header : format.BlockHeader) (id : Nat) :
    DispatchBlock call p block_header id =
      if (p.ReadBytes (dataSize block_header)).2.2 = true then
        ({ (p.ReadBytes (dataSize block_header)).1 with
           calls_ := (p.ReadBytes (dataSize block_header)).1.calls_ ++
             [call block_header id (p.ReadBytes (dataSize block_header)).2.1] }, true)
      else
        (HandleBlockReadError
          { (p.ReadBytes (dataSize block_header)).1 with
            calls_ := (p.ReadBytes (dataSize block_header)).1.calls_ ++
              [call block_header id (p.ReadBytes (dataSize block_header)).2.1] }
          Error.kErrorReadingBlockData, false) := rfl

theorem DispatchBlock_summary (env : Environment)
    (call : format.BlockHeader → Nat → List Byte → DecoderCall) (p : PreloadFileProcessor)
    (block_header : format.BlockHeader) (id : Nat) :
    (DispatchBlock call p block_header id).1.unreadBytes ≤ p.unreadBytes ∧
    StatusStep p.status_ (DispatchBlock call p block_header id).1.status_ ∧
    (DispatchBlock call p block_header id).1.current_frame_number_ = p.current_frame_number_ ∧
    ∃ data, (DispatchBlock call p block_header id).1.calls_ =
      p.calls_ ++ [call block_header id data] := by
  have h1 := ReadBytes_quiet p (dataSize block_header)
  have e : unreadBytes { (p.ReadBytes (dataSize block_header)).1 with
      calls_ := (p.ReadBytes (dataSize block_header)).1.calls_ ++
        [call block_header id (p.ReadBytes (dataSize block_header)).2.1] } =
      unreadBytes (p.ReadBytes (dataSize block_header)).1 := rfl
  rw [DispatchBlock_eq]
  split_ifs
  · refine ⟨?_, h1.status, h1.frame, (p.ReadBytes (dataSize block_header)).2.1, ?_⟩
    · have := h1.unread
      simp only [e]
      omega
    · simp only [h1.calls]
  · have h2 := HandleBlockReadError_quiet
      { (p.ReadBytes (dataSize block_header)).1 with
        calls_ := (p.ReadBytes (dataSize block_header)).1.calls_ ++
          [call block_header id (p.ReadBytes (dataSize block_header)).2.1] }
      Error.kErrorReadingBlockData
    refine ⟨?_, ?_, ?_, (p.ReadBytes (dataSize block_header)).2.1, ?_⟩
    · have := h1.unread
      have := h2.unread
      simp only at *
      omega
    · exact h1.status.compose h2.status
    · simp only
      rw [h2.frame]
      exact h1.frame
    · simp only
      rw [h2.calls]
      simp only [h1.calls]

/-- A quiet step that ends in `Record` state started there, and fits every way of leaving the
turn. -/
theorem QuietStep.part_record {p p1 : PreloadFileProcessor} {k : Nat} (env : Environment)
    (brk : Bool) (h : QuietStep p p1 k) (hs : p1.status_ = PreloadStatus.kRecord) :
    PartSummary env p p1 brk := by
  have hp : p.status_ = PreloadStatus.kRecord := by
    rcases h.status with h1 | ⟨_, h1⟩
    · rw [← h1]
      exact hs
    · rw [hs] at h1
      cases h1
  exact ⟨by have := h.unread; omega, h.status, fun _ => ⟨h.calls, h.frame⟩,
    fun hn => absurd hp hn⟩

theorem ProcessCallBlock_eq (env : Environment) (p : PreloadFileProcessor)
    (block_header : format.BlockHeader) (is_method : Bool) :
    ProcessCallBlock env p block_header is_method =
      if (p.ReadBytes 4).2.2 = true then
        if (p.ReadBytes 4).1.status_ = PreloadStatus.kRecord then
          ((RecordBlock env (p.ReadBytes 4).1 block_header (p.ReadBytes 4).2.1
              (dataSize block_header)).1,
            (RecordBlock env (p.ReadBytes 4).1 block_header (p.ReadBytes 4).2.1
              (dataSize block_header)).2,
            env.IsFrameDelimiter (decodeLE (p.ReadBytes 4).2.1))
        else
          if env.IsFrameDelimiter (decodeLE (p.ReadBytes 4).2.1) = true then
            ({ (callDispatch is_method (p.ReadBytes 4).1 block_header
                  (decodeLE (p.ReadBytes 4).2.1)).1 with
               current_frame_number_ :=
                 (callDispatch is_method (p.ReadBytes 4).1 block_header
                   (decodeLE (p.ReadBytes 4).2.1)).1.current_frame_number_ + 1
               block_index_ :=
                 (callDispatch is_method (p.ReadBytes 4).1 block_header
                   (decodeLE (p.ReadBytes 4).2.1)).1.block_index_ + 1 },
              (callDispatch is_method (p.ReadBytes 4).1 block_header
                (decodeLE (p.ReadBytes 4).2.1)).2, true)
          else
            ((callDispatch is_method (p.ReadBytes 4).1 block_header
                (decodeLE (p.ReadBytes 4).2.1)).1,
              (callDispatch is_method (p.ReadBytes 4).1 block_header
                (decodeLE (p.ReadBytes 4).2.1)).2, false)
      else
        ((p.ReadBytes 4).1.HandleBlockReadError Error.kErrorReadingBlockHeader, false, false) := by
  unfold ProcessCallBlock callDispatch
  cases is_method <;> rfl

theorem callDispatch_summary (env : Environment) (is_method : Bool) (p : PreloadFileProcessor)
    (block_header : format.BlockHeader) (id : Nat) :
    (callDispatch is_method p block_header id).1.unreadBytes ≤ p.unreadBytes ∧
    StatusStep p.status_ (callDispatch is_method p block_header id).1.status_ ∧
    (callDispatch is_method p block_header id).1.current_frame_number_ =
      p.current_frame_number_ ∧
    ∃ d, (callDispatch is_method p block_header id).1.calls_ = p.calls_ ++ [d] ∧
      isDelimiterCall env d = env.IsFrameDelimiter id := by
  cases is_method
  · obtain ⟨h1, h2, h3, data, h4⟩ :=
      DispatchBlock_summary env DecoderCall.function_call p block_header id
    exact ⟨h1, h2, h3, _, h4, rfl⟩
  · obtain ⟨h1, h2, h3, data, h4⟩ :=
      DispatchBlock_summary env DecoderCall.method_call p block_header id
    exact ⟨h1, h2, h3, _, h4, rfl⟩

theorem ProcessCallBlock_part (env : Environment) (p : PreloadFileProcessor)
    (block_header : format.BlockHeader) (is_method : Bool) :
    PartSummary env p (ProcessCallBlock env p block_header is_method).1
      (ProcessCallBlock env p block_header is_method).2.2 := by
  have h0 := ReadBytes_quiet p 4
  rw [ProcessCallBlock_eq]
  split_ifs with hsucc hrec hdel
  · exact ((h0.followed (RecordBlock_quiet env _ block_header _ _ hrec)).part_record env _
      ((RecordBlock_quiet env _ block_header _ _ hrec).status.record hrec))
  · obtain ⟨h1, h2, h3, d, h4, h5⟩ := callDispatch_summary env is_method (p.ReadBytes 4).1
      block_header (decodeLE (p.ReadBytes 4).2.1)
    refine PartSummary.after h0 ⟨h1, h2, fun hs => absurd hs hrec, fun _ => ⟨[d], h4, ?_, ?_⟩⟩
    · intro _
      exact ⟨d, rfl, by rw [h5]; exact hdel, by simp only; rw [h3]⟩
    · intro hb
      cases hb
  · obtain ⟨h1, h2, h3, d, h4, h5⟩ := callDispatch_summary env is_method (p.ReadBytes 4).1
      block_header (decodeLE (p.ReadBytes 4).2.1)
    refine PartSummary.after h0 ⟨h1, h2, fun hs => absurd hs hrec, fun _ => ⟨[d], h4, ?_, ?_⟩⟩
    · intro hb
      cases hb
    · intro _
      refine ⟨?_, h3⟩
      intro c hc
      simp only [List.mem_singleton] at hc
      rw [hc, h5]
      simpa using hdel
  · exact (h0.followed (HandleBlockReadError_quiet _ _)).part env

theorem ProcessDataBlock_eq (env : Environment) (p : PreloadFileProcessor)
    (block_header : format.BlockHeader)
    (dispatch : PreloadFileProcessor → format.BlockHeader → Nat → PreloadFileProcessor × Bool) :
    ProcessDataBlock env p block_header dispatch =
      if p.status_ = PreloadStatus.kRecord then
        RecordBlock env p block_header [] block_header.size
      else
        if (p.ReadBytes 4).2.2 = true then
          dispatch (p.ReadBytes 4).1 block_header (decodeLE (p.ReadBytes 4).2.1)
        else ((p.ReadBytes 4).1.HandleBlockReadError Error.kErrorReadingBlockHeader, false) := rfl

/-- A data block is dispatched through `DispatchBlock` with a call that is no frame
delimiter. -/
theorem ProcessDataBlock_part (env : Environment) (p : PreloadFileProcessor)
    (block_header : format.BlockHeader)
    (call : format.BlockHeader → Nat → List Byte → DecoderCall)
    (hcall : ∀ h id data, isDelimiterCall env (call h id data) = false) :
    PartSummary env p (ProcessDataBlock env p block_header (DispatchBlock call)).1 false := by
  rw [ProcessDataBlock_eq]
  split_ifs with hrec hsucc
  · exact (RecordBlock_quiet env p block_header [] _ hrec).part env
  · have h0 := ReadBytes_quiet p 4
    obtain ⟨h1, h2, h3, data, h4⟩ := DispatchBlock_summary env call (p.ReadBytes 4).1 block_header
      (decodeLE (p.ReadBytes 4).2.1)
    refine PartSummary.after h0 ⟨h1, h2, fun hr => absurd (h0.status.record_inv hr) hrec,
      fun _ => ⟨_, h4, ?_, ?_⟩⟩
    · intro hb
      cases hb
    · intro _
      refine ⟨?_, h3⟩
      intro c hc
      simp only [List.mem_singleton] at hc
      rw [hc]
      exact hcall _ _ _
  · exact ((ReadBytes_quiet p 4).followed (HandleBlockReadError_quiet _ _)).part env

theorem ProcessBlocksBody_eq (env : Environment) (p : PreloadFileProcessor) :
    ProcessBlocksBody env p =
      if (p.ReadBytes format.sizeofBlockHeader).2.2 = true then
        if format.RemoveCompressedBlockBit
            (format.BlockHeader.ofBytes (p.ReadBytes format.sizeofBlockHeader).2.1).type =
            env.kFunctionCallBlock then
          ProcessCallBlock env (p.ReadBytes format.sizeofBlockHeader).1
            (format.BlockHeader.ofBytes (p.ReadBytes format.sizeofBlockHeader).2.1) false
        else if format.RemoveCompressedBlockBit
            (format.BlockHeader.ofBytes (p.ReadBytes format.sizeofBlockHeader).2.1).type =
            env.kMethodCallBlock then
          ProcessCallBlock env (p.ReadBytes format.sizeofBlockHeader).1
            (format.BlockHeader.ofBytes (p.ReadBytes format.sizeofBlockHeader).2.1) true
        else if format.RemoveCompressedBlockBit
            (format.BlockHeader.ofBytes (p.ReadBytes format.sizeofBlockHeader).2.1).type =
            env.kMetaDataBlock then
          ((ProcessDataBlock env (p.ReadBytes format.sizeofBlockHeader).1
              (format.BlockHeader.ofBytes (p.ReadBytes format.sizeofBlockHeader).2.1)
              ProcessMetaData).1,
            (ProcessDataBlock env (p.ReadBytes format.sizeofBlockHeader).1
              (format.BlockHeader.ofBytes (p.ReadBytes format.sizeofBlockHeader).2.1)
              ProcessMetaData).2, false)
        else if (format.BlockHeader.ofBytes (p.ReadBytes format.sizeofBlockHeader).2.1).type =
            env.kStateMarkerBlock then
          ((ProcessDataBlock env (p.ReadBytes format.sizeofBlockHeader).1
              (format.BlockHeader.ofBytes (p.ReadBytes format.sizeofBlockHeader).2.1)
              ProcessStateMarker).1,
            (ProcessDataBlock env (p.ReadBytes format.sizeofBlockHeader).1
              (format.BlockHeader.ofBytes (p.ReadBytes format.sizeofBlockHeader).2.1)
              ProcessStateMarker).2, false)
        else if (format.BlockHeader.ofBytes (p.ReadBytes format.sizeofBlockHeader).2.1).type =
            env.kAnnotation then
          if (p.ReadBytes format.sizeofBlockHeader).1.annotation_handler_ = true then
            ((ProcessDataBlock env (p.ReadBytes format.sizeofBlockHeader).1
                (format.BlockHeader.ofBytes (p.ReadBytes format.sizeofBlockHeader).2.1)
                ProcessAnnotation).1,
              (ProcessDataBlock env (p.ReadBytes format.sizeofBlockHeader).1
                (format.BlockHeader.ofBytes (p.ReadBytes format.sizeofBlockHeader).2.1)
                ProcessAnnotation).2, false)
          else
            (((p.ReadBytes format.sizeofBlockHeader).1.SkipBytes
                (format.BlockHeader.ofBytes (p.ReadBytes format.sizeofBlockHeader).2.1).size).1,
              true, false)
        else
          (((p.ReadBytes format.sizeofBlockHeader).1.SkipBytes
              (format.BlockHeader.ofBytes (p.ReadBytes format.sizeofBlockHeader).2.1).size).1,
            true, false)
      else
        if (p.ReadBytes format.sizeofBlockHeader).1.file_eof_ = false then
          ({ (p.ReadBytes format.sizeofBlockHeader).1 with
             error_state_ := Error.kErrorReadingBlockHeader }, false, false)
        else ((p.ReadBytes format.sizeofBlockHeader).1, false, false) := by
  unfold ProcessBlocksBody
  simp only [ContinueDecoding, if_true, ReadBlockHeader]
  rfl

/-- What a turn of the loop of `ProcessBlocks` does, for every state and every input. -/
theorem ProcessBlocksBody_summary (env : Environment) (p : PreloadFileProcessor) :
    BodySummary env p (ProcessBlocksBody env p).1 (ProcessBlocksBody env p).2.1
      (ProcessBlocksBody env p).2.2 := by
  have h0 := ReadBytes_quiet p format.sizeofBlockHeader
  have key : PartSummary env p (ProcessBlocksBody env p).1 (ProcessBlocksBody env p).2.2 ∧
      ((ProcessBlocksBody env p).2.1 = true →
        (p.ReadBytes format.sizeofBlockHeader).2.2 = true) := by
    rw [ProcessBlocksBody_eq]
    split_ifs with hsucc h1 h2 h3 h4 h5 h6 h7
    · exact ⟨PartSummary.after h0 (ProcessCallBlock_part env _ _ _), fun _ => hsucc⟩
    · exact ⟨PartSummary.after h0 (ProcessCallBlock_part env _ _ _), fun _ => hsucc⟩
    · exact ⟨PartSummary.after h0
        (ProcessDataBlock_part env _ _ DecoderCall.meta_data (fun _ _ _ => rfl)),
        fun _ => hsucc⟩
    · exact ⟨PartSummary.after h0
        (ProcessDataBlock_part env _ _ DecoderCall.state_marker (fun _ _ _ => rfl)),
        fun _ => hsucc⟩
    · exact ⟨PartSummary.after h0
        (ProcessDataBlock_part env _ _ DecoderCall.annotation_block (fun _ _ _ => rfl)),
        fun _ => hsucc⟩
    · exact ⟨PartSummary.after h0 ((SkipBytes_quiet _ _).part env), fun _ => hsucc⟩
    · exact ⟨PartSummary.after h0 ((SkipBytes_quiet _ _).part env), fun _ => hsucc⟩
    · refine ⟨(h0.followed (⟨Nat.le_refl _, Or.inl rfl, rfl, rfl⟩ :
        QuietStep (p.ReadBytes format.sizeofBlockHeader).1
          { (p.ReadBytes format.sizeofBlockHeader).1 with
            error_state_ := Error.kErrorReadingBlockHeader } 0)).part env, fun h => ?_⟩
      cases h
    · exact ⟨h0.part env, fun h => by cases h⟩
  refine ⟨key.1, fun hs => ?_⟩
  have hsucc := key.2 hs
  have hlen := ReadBytes_success_length p _ hsucc
  have hpart : PartSummary env (p.ReadBytes format.sizeofBlockHeader).1
      (ProcessBlocksBody env p).1 (ProcessBlocksBody env p).2.2 := by
    rw [ProcessBlocksBody_eq]
    simp only [hsucc, if_true]
    split_ifs
    · exact ProcessCallBlock_part env _ _ _
    · exact ProcessCallBlock_part env _ _ _
    · exact ProcessDataBlock_part env _ _ DecoderCall.meta_data (fun _ _ _ => rfl)
    · exact ProcessDataBlock_part env _ _ DecoderCall.state_marker (fun _ _ _ => rfl)
    · exact ProcessDataBlock_part env _ _ DecoderCall.annotation_block (fun _ _ _ => rfl)
    · exact (SkipBytes_quiet _ _).part env
    · exact (SkipBytes_quiet _ _).part env
  have := h0.unread
  have := hpart.unread_le
  rw [hlen] at *
  omega

/-! ## The preload file processor: the block loop -/

theorem ProcessBlocksLoop_succ (env : Environment) (fuel : Nat) (p : PreloadFileProcessor) :
    ProcessBlocksLoop env (fuel + 1) p =
      if (ProcessBlocksBody env p).2.2 = true then
        some ((ProcessBlocksBody env p).1, (ProcessBlocksBody env p).2.1)
      else if (ProcessBlocksBody env p).2.1 = true then
        ProcessBlocksLoop env fuel (CountBlock (ProcessBlocksBody env p).1)
      else some (CountBlock (ProcessBlocksBody env p).1, false) := by
  rcases h : ProcessBlocksBody env p with ⟨p1, success, brk⟩
  cases success <;> cases brk <;> simp [ProcessBlocksLoop, h]

theorem CountBlock_unreadBytes (p : PreloadFileProcessor) :
    (CountBlock p).unreadBytes = p.unreadBytes := by
  unfold CountBlock
  split_ifs <;> rfl

theorem CountBlock_status (p : PreloadFileProcessor) : (CountBlock p).status_ = p.status_ := by
  unfold CountBlock
  split_ifs <;> rfl

theorem CountBlock_calls (p : PreloadFileProcessor) : (CountBlock p).calls_ = p.calls_ := by
  unfold CountBlock
  split_ifs <;> rfl

theorem CountBlock_frame (p : PreloadFileProcessor) :
    (CountBlock p).current_frame_number_ = p.current_frame_number_ := by
  unfold CountBlock
  split_ifs <;> rfl

/-- The loop of `ProcessBlocks` ends within `unreadBytes + 1` turns. -/
theorem ProcessBlocksLoop_terminates (env : Environment) (fuel : Nat) :
    ∀ p : PreloadFileProcessor, p.unreadBytes < fuel →
      ∃ r, ProcessBlocksLoop env fuel p = some r := by
  induction fuel with
  | zero => intro p h; omega
  | succ fuel ih =>
    intro p h
    rw [ProcessBlocksLoop_succ]
    split_ifs with hb hs
    · exact ⟨_, rfl⟩
    · apply ih
      have := (ProcessBlocksBody_summary env p).unread hs
      rw [CountBlock_unreadBytes]
      simp only [format.sizeofBlockHeader] at this
      omega
    · exact ⟨_, rfl⟩

/-- More turns than needed change nothing. -/
theorem ProcessBlocksLoop_mono (env : Environment) (fuel : Nat) :
    ∀ (p : PreloadFileProcessor) (r : PreloadFileProcessor × Bool) (extra : Nat),
      ProcessBlocksLoop env fuel p = some r → ProcessBlocksLoop env (fuel + extra) p = some r := by
  induction fuel with
  | zero => intro p r extra h; simp [ProcessBlocksLoop] at h
  | succ fuel ih =>
    intro p r extra h
    rw [ProcessBlocksLoop_succ] at h
    rw [show fuel + 1 + extra = (fuel + extra) + 1 by omega, ProcessBlocksLoop_succ]
    split_ifs at h ⊢ with hb hs
    · exact h
    · exact ih _ _ _ h
    · exact h

/-- The member function `ProcessBlocks` returns, for every state and every input. -/
theorem ProcessBlocks_terminates (env : Environment) (p : PreloadFileProcessor) :
    ∃ r, ProcessBlocks env p = some r :=
  ProcessBlocksLoop_terminates env _ p (Nat.lt_succ_self _)

/-- A run of the loop with any bound that ends gives what `ProcessBlocks` gives. -/
theorem ProcessBlocks_of_loop (env : Environment) (fuel : Nat) (p : PreloadFileProcessor)
    (r : PreloadFileProcessor × Bool) (h : ProcessBlocksLoop env fuel p = some r) :
    ProcessBlocks env p = some r := by
  obtain ⟨r1, h1⟩ := ProcessBlocks_terminates env p
  have h2 := ProcessBlocksLoop_mono env _ p r1 fuel h1
  have h3 := ProcessBlocksLoop_mono env _ p r (p.unreadBytes + 1) h
  rw [Nat.add_comm] at h3
  unfold ProcessBlocks at h1
  rw [h2] at h3
  rw [ProcessBlocks, h1, h3]

/-- In `Record` state the loop dispatches nothing, keeps the frame number and stays in `Record`
state. -/
theorem ProcessBlocksLoop_record (env : Environment) (fuel : Nat) :
    ∀ (p : PreloadFileProcessor) (r : PreloadFileProcessor × Bool),
      p.status_ = PreloadStatus.kRecord → ProcessBlocksLoop env fuel p = some r →
      r.1.calls_ = p.calls_ ∧ r.1.current_frame_number_ = p.current_frame_number_ ∧
        r.1.status_ = PreloadStatus.kRecord := by
  induction fuel with
  | zero => intro p r _ h; simp [ProcessBlocksLoop] at h
  | succ fuel ih =>
    intro p r hs h
    have hsum := (ProcessBlocksBody_summary env p).part
    have h1 := hsum.record_silent hs
    have h2 := hsum.status.record hs
    rw [ProcessBlocksLoop_succ] at h
    split_ifs at h with hb hsucc
    · cases h
      exact ⟨h1.1, h1.2, h2⟩
    · obtain ⟨a, b, c⟩ := ih _ r (by rw [CountBlock_status]; exact h2) h
      rw [CountBlock_calls] at a
      rw [CountBlock_frame] at b
      exact ⟨a.trans h1.1, b.trans h1.2, c⟩
    · cases h
      simp only [CountBlock_calls, CountBlock_frame, CountBlock_status]
      exact ⟨h1.1, h1.2, h2⟩

/-- C9: in `Record` state `ProcessBlocks` returns, for every input, without having invoked
`ProcessFunctionCall`, `ProcessMethodCall`, `ProcessMetaData`, `ProcessStateMarker` or
`ProcessAnnotation`: the dispatch calls are the ones made before, and the state is still
`Record`. -/
theorem ProcessBlocks_record_dispatches_nothing (env : Environment) (p : PreloadFileProcessor)
    (hs : p.status_ = PreloadStatus.kRecord) :
    ∃ r, ProcessBlocks env p = some r ∧ r.1.calls_ = p.calls_ ∧
      r.1.status_ = PreloadStatus.kRecord := by
  obtain ⟨r, hr⟩ := ProcessBlocks_terminates env p
  obtain ⟨h1, _, h3⟩ := ProcessBlocksLoop_record env _ p r hs hr
  exact ⟨r, hr, h1, h3⟩

/-- Witness of C9: recording the first frame of the sample trace. -/
theorem ProcessBlocks_record_dispatches_nothing_witness :
    ∃ r, ProcessBlocks sampleEnvironment
        { sampleProcessor with status_ := PreloadStatus.kRecord } = some r ∧
      r.1.calls_ = [] ∧ r.1.status_ = PreloadStatus.kRecord :=
  ProcessBlocks_record_dispatches_nothing sampleEnvironment
    { sampleProcessor with status_ := PreloadStatus.kRecord } rfl

/-- Outside `Record` state the loop dispatches calls up to the first frame delimiter and counts
that one frame. -/
theorem ProcessBlocksLoop_outcome (env : Environment) (fuel : Nat) :
    ∀ (p : PreloadFileProcessor) (r : PreloadFileProcessor × Bool),
      p.status_ ≠ PreloadStatus.kRecord → ProcessBlocksLoop env fuel p = some r →
      r.1.status_ ≠ PreloadStatus.kRecord ∧
      ∃ new, r.1.calls_ = p.calls_ ++ new ∧
        PassOutcome env p.current_frame_number_ r.1.current_frame_number_ new := by
  induction fuel with
  | zero => intro p r _ h; simp [ProcessBlocksLoop] at h
  | succ fuel ih =>
    intro p r hs h
    have hsum := (ProcessBlocksBody_summary env p).part
    obtain ⟨new, hc, hb, hnb⟩ := hsum.dispatch hs
    have h2 := hsum.status.not_record hs
    rw [ProcessBlocksLoop_succ] at h
    split_ifs at h with hbrk hsucc
    · cases h
      obtain ⟨d, hd, hdel, hf⟩ := hb hbrk
      refine ⟨h2, new, hc, Or.inr ⟨[], d, by simpa using hd, by simp, hdel, hf⟩⟩
    · have hbrk2 : (ProcessBlocksBody env p).2.2 = false := by simpa using hbrk
      obtain ⟨hq, hf⟩ := hnb hbrk2
      obtain ⟨h3, new2, hc2, ho⟩ := ih _ r (by rw [CountBlock_status]; exact h2) h
      rw [CountBlock_calls] at hc2
      rw [CountBlock_frame, hf] at ho
      refine ⟨h3, new ++ new2, by rw [hc2, hc, List.append_assoc], ?_⟩
      rcases ho with ⟨hall, hfr⟩ | ⟨pre, d, hnew, hpre, hd, hfr⟩
      · refine Or.inl ⟨?_, hfr⟩
        intro c hcm
        rcases List.mem_append.1 hcm with hm | hm
        · exact hq c hm
        · exact hall c hm
      · refine Or.inr ⟨new ++ pre, d, by rw [hnew, List.append_assoc], ?_, hd, hfr⟩
        intro c hcm
        rcases List.mem_append.1 hcm with hm | hm
        · exact hq c hm
        · exact hpre c hm
    · cases h
      have hbrk2 : (ProcessBlocksBody env p).2.2 = false := by simpa using hbrk
      obtain ⟨hq, hf⟩ := hnb hbrk2
      simp only [CountBlock_calls, CountBlock_frame, CountBlock_status]
      exact ⟨h2, new, hc, Or.inl ⟨hq, hf⟩⟩

end decode
end gfxrecon

/-! ## The preload file processor on well-formed traces -/

namespace gfxrecon
namespace decode

open PreloadFileProcessor

theorem decodeLE_encodeLE (width : Nat) :
    ∀ n, n < 256 ^ width → decodeLE (encodeLE width n) = n := by
  induction width with
  | zero => intro n h; simp at h; simp [encodeLE, decodeLE, h]
  | succ w ih =>
    intro n h
    have h1 : n / 256 < 256 ^ w := by
      rw [pow_succ] at h
      exact Nat.div_lt_of_lt_mul (by rw [Nat.mul_comm]; exact h)
    have h2 : n % 256 < 256 := Nat.mod_lt _ (by decide)
    simp only [encodeLE, decodeLE, ih _ h1]
    have h3 : (Fin.ofNat (n % 256) : Fin 256).val = n % 256 := by
      simp [Fin.ofNat, Nat.mod_eq_of_lt h2]
    rw [h3]
    omega

theorem BlockHeader_ofBytes_toBytes (h : format.BlockHeader) (ht : h.type < 2 ^ 32)
    (hs : h.size < 2 ^ 64) : format.BlockHeader.ofBytes h.toBytes = h := by
  have l4 : (encodeLE 4 h.type).length = 4 := encodeLE_length _ _
  have e1 : (encodeLE 4 h.type ++ encodeLE 8 h.size).take 4 = encodeLE 4 h.type := by
    rw [List.take_left' l4]
  have e2 : (encodeLE 4 h.type ++ encodeLE 8 h.size).drop 4 = encodeLE 8 h.size := by
    rw [List.drop_left' l4]
  simp only [format.BlockHeader.ofBytes, format.BlockHeader.toBytes, e1, e2]
  rw [decodeLE_encodeLE 4 _ (by norm_num; exact ht), decodeLE_encodeLE 8 _ (by norm_num; exact hs)]

theorem BlockHeader_toBytes_length (h : format.BlockHeader) :
    h.toBytes.length = format.sizeofBlockHeader := by
  simp [format.BlockHeader.toBytes, encodeLE_length, format.sizeofBlockHeader]

theorem Block.bytes_length (b : Block) :
    b.bytes.length = format.sizeofBlockHeader + b.payload.length := by
  simp [Block.bytes, BlockHeader_toBytes_length]

/-- A read from the file of bytes that are there. -/
theorem ReadBytes_fileAt (p : PreloadFileProcessor) (xs rest : List Byte)
    (hs : p.status_ ≠ PreloadStatus.kReplay) (hf : FileAt p (xs ++ rest)) :
    p.ReadBytes xs.length = (advanceFile p xs.length, xs, true) := by
  have hb : fileBytes p xs.length = xs := by
    unfold fileBytes
    rw [hf]
    exact List.take_left' rfl
  rw [ReadBytes_file p _ hs, hb]
  simp [advanceFile]

theorem FileAt_advanceFile (p : PreloadFileProcessor) (xs rest : List Byte)
    (hf : FileAt p (xs ++ rest)) : FileAt (advanceFile p xs.length) rest := by
  unfold FileAt at hf ⊢
  simp only [advanceFile]
  rw [← List.drop_drop, hf]
  exact List.drop_left' rfl

theorem ProcessBlocksBody_kind (env : Environment) (p : PreloadFileProcessor)
    (hsucc : (p.ReadBytes format.sizeofBlockHeader).2.2 = true) :
    ProcessBlocksBody env p =
      ProcessBlockOfKind env (p.ReadBytes format.sizeofBlockHeader).1
        (format.BlockHeader.ofBytes (p.ReadBytes format.sizeofBlockHeader).2.1)
        (blockKind env (p.ReadBytes format.sizeofBlockHeader).1.annotation_handler_
          (format.BlockHeader.ofBytes (p.ReadBytes format.sizeofBlockHeader).2.1).type) := by
  rw [ProcessBlocksBody_eq]
  simp only [hsucc, if_true]
  unfold blockKind
  split_ifs <;> rfl

theorem dataSize_header (b : Block) (h4 : 4 ≤ b.payload.length)
    (hs : b.payload.length < 2 ^ 64) : dataSize b.header = b.data.length := by
  simp only [dataSize, Block.header, Block.data, List.length_drop]
  omega

theorem Block.payload_split (b : Block) : b.payload = b.payload.take 4 ++ b.data := by
  simp [Block.data]

theorem Block.id_length (b : Block) (h4 : 4 ≤ b.payload.length) :
    (b.payload.take 4).length = 4 := by
  simp [List.length_take, h4]

/-- A dispatch whose data is at the file read position. -/
theorem DispatchBlock_fileAt (call : format.BlockHeader → Nat → List Byte → DecoderCall)
    (p : PreloadFileProcessor) (block_header : format.BlockHeader) (id : Nat)
    (data rest : List Byte) (hs : p.status_ ≠ PreloadStatus.kReplay)
    (hf : FileAt p (data ++ rest)) (hsize : dataSize block_header = data.length) :
    DispatchBlock call p block_header id =
      ({ advanceFile p data.length with calls_ := p.calls_ ++ [call block_header id data] },
        true) := by
  rw [DispatchBlock_eq, hsize, ReadBytes_fileAt p data rest hs hf]
  rfl

/-- The dispatch call of a call block. -/
theorem callDispatch_fileAt (is_method : Bool) (p : PreloadFileProcessor)
    (block_header : format.BlockHeader) (id : Nat) (data rest : List Byte)
    (hs : p.status_ ≠ PreloadStatus.kReplay) (hf : FileAt p (data ++ rest))
    (hsize : dataSize block_header = data.length) :
    callDispatch is_method p block_header id =
      ({ advanceFile p data.length with
         calls_ := p.calls_ ++
           [if is_method then DecoderCall.method_call block_header id data
            else DecoderCall.function_call block_header id data] }, true) := by
  cases is_method
  · exact DispatchBlock_fileAt DecoderCall.function_call p block_header id data rest hs hf hsize
  · exact DispatchBlock_fileAt DecoderCall.method_call p block_header id data rest hs hf hsize

/-- A call block processed from the file in direct mode. -/
theorem ProcessCallBlock_fileAt (env : Environment) (p : PreloadFileProcessor)
    (block_header : format.BlockHeader) (is_method : Bool) (id_bytes data rest : List Byte)
    (hs : p.status_ = PreloadStatus.kInactive) (hid : id_bytes.length = 4)
    (hf : FileAt p (id_bytes ++ (data ++ rest)))
    (hsize : dataSize block_header = data.length) :
    ProcessCallBlock env p block_header is_method =
      (if env.IsFrameDelimiter (decodeLE id_bytes) = true then
        { advanceFile (advanceFile p 4) data.length with
          calls_ := p.calls_ ++
            [if is_method then DecoderCall.method_call block_header (decodeLE id_bytes) data
             else DecoderCall.function_call block_header (decodeLE id_bytes) data]
          current_frame_number_ := p.current_frame_number_ + 1
          block_index_ := p.block_index_ + 1 }
       else
        { advanceFile (advanceFile p 4) data.length with
          calls_ := p.calls_ ++
            [if is_method then DecoderCall.method_call block_header (decodeLE id_bytes) data
             else DecoderCall.function_call block_header (decodeLE id_bytes) data] },
        true, env.IsFrameDelimiter (decodeLE id_bytes)) := by
  have hnr : p.status_ ≠ PreloadStatus.kReplay := by rw [hs]; decide
  have hread := ReadBytes_fileAt p id_bytes (data ++ rest) hnr hf
  rw [hid] at hread
  have hf1 : FileAt (advanceFile p 4) (data ++ rest) := by
    have := FileAt_advanceFile p id_bytes (data ++ rest) hf
    rw [hid] at this
    exact this
  have hs1 : (advanceFile p 4).status_ ≠ PreloadStatus.kReplay := hnr
  have hs2 : (advanceFile p 4).status_ ≠ PreloadStatus.kRecord := by
    show p.status_ ≠ PreloadStatus.kRecord
    rw [hs]
    decide
  rw [ProcessCallBlock_eq, hread]
  simp only [if_true, hs2, if_false]
  rw [callDispatch_fileAt is_method (advanceFile p 4) block_header (decodeLE id_bytes) data rest
    hs1 hf1 hsize]
  cases hdel : env.IsFrameDelimiter (decodeLE id_bytes)
  · simp only [Bool.false_eq_true, if_false]
    rfl
  · simp only [if_true]
    rfl

/-- A data block processed from the file in direct mode. -/
theorem ProcessDataBlock_fileAt (env : Environment) (p : PreloadFileProcessor)
    (block_header : format.BlockHeader)
    (call : format.BlockHeader → Nat → List Byte → DecoderCall) (id_bytes data rest : List Byte)
    (hs : p.status_ = PreloadStatus.kInactive) (hid : id_bytes.length = 4)
    (hf : FileAt p (id_bytes ++ (data ++ rest)))
    (hsize : dataSize block_header = data.length) :
    ProcessDataBlock env p block_header (DispatchBlock call) =
      ({ advanceFile (advanceFile p 4) data.length with
         calls_ := p.calls_ ++ [call block_header (decodeLE id_bytes) data] }, true) := by
  have hnr : p.status_ ≠ PreloadStatus.kReplay := by rw [hs]; decide
  have hrec : p.status_ ≠ PreloadStatus.kRecord := by rw [hs]; decide
  have hread := ReadBytes_fileAt p id_bytes (data ++ rest) hnr hf
  rw [hid] at hread
  have hf1 : FileAt (advanceFile p 4) (data ++ rest) := by
    have := FileAt_advanceFile p id_bytes (data ++ rest) hf
    rw [hid] at this
    exact this
  have hs1 : (advanceFile p 4).status_ ≠ PreloadStatus.kReplay := hnr
  rw [ProcessDataBlock_eq]
  simp only [hrec, if_false, hread, if_true]
  exact DispatchBlock_fileAt call (advanceFile p 4) block_header (decodeLE id_bytes) data rest
    hs1 hf1 hsize

/-- The header read of the next block of a well-formed trace, from the file. -/
theorem ReadBlockHeader_fileAt (p : PreloadFileProcessor) (b : Block) (rest : List Byte)
    (hs : p.status_ ≠ PreloadStatus.kReplay) (hf : FileAt p (b.bytes ++ rest)) :
    p.ReadBytes format.sizeofBlockHeader =
      (advanceFile p format.sizeofBlockHeader, b.header.toBytes, true) ∧
    FileAt (advanceFile p format.sizeofBlockHeader) (b.payload ++ rest) := by
  have hf0 : FileAt p (b.header.toBytes ++ (b.payload ++ rest)) := by
    unfold FileAt at hf ⊢
    rw [hf, Block.bytes, List.append_assoc]
  have h1 := ReadBytes_fileAt p _ _ hs hf0
  have h2 := FileAt_advanceFile p _ _ hf0
  rw [BlockHeader_toBytes_length] at h1 h2
  exact ⟨h1, h2⟩

theorem Block.header_ofBytes (env : Environment) (handler : Bool) (b : Block)
    (hwf : b.WellFormed env handler) : format.BlockHeader.ofBytes b.header.toBytes = b.header :=
  BlockHeader_ofBytes_toBytes b.header hwf.1 hwf.2.1

/-- One turn of the loop in direct mode on the next block of a well-formed trace. -/
theorem ProcessBlocksBody_direct (env : Environment) (p : PreloadFileProcessor) (b : Block)
    (rest : List Byte) (hs : p.status_ = PreloadStatus.kInactive)
    (hf : FileAt p (b.bytes ++ rest)) (hwf : b.WellFormed env p.annotation_handler_) :
    ∃ p1, ProcessBlocksBody env p = (p1, true, b.endsFrame env p.annotation_handler_) ∧
      DirectStep env p p1 b := by
  have hnr : p.status_ ≠ PreloadStatus.kReplay := by rw [hs]; decide
  obtain ⟨hread, hf1⟩ := ReadBlockHeader_fileAt p b rest hnr hf
  have hlen := Block.bytes_length b
  rw [ProcessBlocksBody_kind env p (by rw [hread]), hread]
  simp only
  rw [Block.header_ofBytes env _ b hwf]
  have hh : (advanceFile p format.sizeofBlockHeader).annotation_handler_ =
      p.annotation_handler_ := rfl
  have ht : b.header.type = b.type := rfl
  have hs1 : (advanceFile p format.sizeofBlockHeader).status_ = PreloadStatus.kInactive := hs
  rw [hh, ht]
  cases hk : blockKind env p.annotation_handler_ b.type with
  | call is_method =>
    have h4 : 4 ≤ b.payload.length := hwf.2.2 (by simp [Block.isSkipped, hk])
    have hf2 : FileAt (advanceFile p format.sizeofBlockHeader)
        (b.payload.take 4 ++ (b.data ++ rest)) := by
      rw [← List.append_assoc, ← Block.payload_split]
      exact hf1
    have hcall := ProcessCallBlock_fileAt env _ b.header is_method _ _ _ hs1
      (Block.id_length b h4) hf2 (dataSize_header b h4 hwf.2.1)
    have hsplit : b.payload.length = 4 + b.data.length := by
      simp only [Block.data, List.length_drop]
      omega
    simp only [ProcessBlockOfKind, hcall, Block.endsFrame, hk, Block.id]
    refine ⟨_, rfl, ?_⟩
    cases hdel : env.IsFrameDelimiter (decodeLE (List.take 4 b.payload))
    · simp only [Bool.false_eq_true, if_false]
      refine ⟨hs, rfl, ?_, rfl, rfl, ?_, ?_, ?_, ?_, rfl⟩
      · simp only [advanceFile]
        omega
      · cases is_method <;> simp [advanceFile, Block.call, hk, Block.id]
      · simp [advanceFile, Block.endsFrame, hk, Block.id, hdel]
      · simp [advanceFile, Block.endsFrame, hk, Block.id, hdel]
      · simp only [advanceFile]
        omega
    · simp only [if_true]
      refine ⟨hs, rfl, ?_, rfl, rfl, ?_, ?_, ?_, ?_, rfl⟩
      · simp only [advanceFile]
        omega
      · cases is_method <;> simp [advanceFile, Block.call, hk, Block.id]
      · simp [advanceFile, Block.endsFrame, hk, Block.id, hdel]
      · simp [advanceFile, Block.endsFrame, hk, Block.id, hdel]
      · simp only [advanceFile]
        omega
  | data dispatch =>
    have h4 : 4 ≤ b.payload.length := hwf.2.2 (by simp [Block.isSkipped, hk])
    have hf2 : FileAt (advanceFile p format.sizeofBlockHeader)
        (b.payload.take 4 ++ (b.data ++ rest)) := by
      rw [← List.append_assoc, ← Block.payload_split]
      exact hf1
    have hdata := ProcessDataBlock_fileAt env _ b.header dispatch _ _ _ hs1
      (Block.id_length b h4) hf2 (dataSize_header b h4 hwf.2.1)
    have hsplit : b.payload.length = 4 + b.data.length := by
      simp only [Block.data, List.length_drop]
      omega
    simp only [ProcessBlockOfKind, hdata, Block.endsFrame, hk]
    refine ⟨_, rfl, hs, rfl, ?_, rfl, rfl, ?_, ?_, ?_, ?_, rfl⟩
    · simp only [advanceFile]
      omega
    · simp [advanceFile, Block.call, hk, Block.id]
    · simp [advanceFile, Block.endsFrame, hk]
    · simp [advanceFile, Block.endsFrame, hk]
    · simp only [advanceFile]
      omega
  | skipped =>
    simp only [ProcessBlockOfKind, SkipBytes, Block.endsFrame, hk]
    refine ⟨_, rfl, hs, rfl, ?_, rfl, rfl, ?_, ?_, ?_, ?_, rfl⟩
    · simp only [advanceFile, Block.header]
      omega
    · simp [advanceFile, Block.call, hk]
    · simp [advanceFile, Block.endsFrame, hk]
    · simp [advanceFile, Block.endsFrame, hk]
    · simp only [advanceFile, Block.header]
      omega

/-! ## Passes over the blocks of a well-formed trace -/

/-- A pass of the loop over blocks that end with their one frame delimiter, from what one turn of
the loop does with the next block: `At` tells where the processor stands, `Run` what it has
done. -/
theorem ProcessBlocksLoop_pass (env : Environment) (handler : Bool)
    (At : PreloadFileProcessor → List Block → Prop)
    (Run : PreloadFileProcessor → PreloadFileProcessor → List Block → Prop)
    (hbody : ∀ p b bs, At p (b :: bs) →
      ∃ p1, ProcessBlocksBody env p = (p1, true, b.endsFrame env handler) ∧ At p1 bs ∧
        Run p p1 [b])
    (hcount : ∀ p bs, At p bs → At (CountBlock p) bs)
    (hrun : ∀ p p1 bs, Run p p1 bs → Run p (CountBlock p1) bs)
    (htrans : ∀ p p1 p2 bs cs, Run p p1 bs → Run p1 p2 cs → Run p p2 (bs ++ cs)) :
    ∀ (pre : List Block) (p : PreloadFileProcessor) (d : Block) (tail : List Block) (fuel : Nat),
      At p (pre ++ d :: tail) → (∀ b ∈ pre, b.endsFrame env handler = false) →
      d.endsFrame env handler = true → pre.length < fuel →
      ∃ p1, ProcessBlocksLoop env fuel p = some (p1, true) ∧ At p1 tail ∧
        Run p p1 (pre ++ [d]) := by
  intro pre
  induction pre with
  | nil =>
    intro p d tail fuel hat _ hd hfuel
    obtain ⟨fuel, rfl⟩ : ∃ k, fuel = k + 1 := ⟨fuel - 1, by simp at hfuel; omega⟩
    obtain ⟨p1, hb, hat1, hr⟩ := hbody p d tail hat
    rw [ProcessBlocksLoop_succ, hb, hd]
    exact ⟨p1, by simp, hat1, hr⟩
  | cons b pre ih =>
    intro p d tail fuel hat hpre hd hfuel
    obtain ⟨fuel, rfl⟩ : ∃ k, fuel = k + 1 := ⟨fuel - 1, by simp at hfuel; omega⟩
    obtain ⟨p1, hb, hat1, hr⟩ := hbody p b (pre ++ d :: tail) hat
    have hbf : b.endsFrame env handler = false := hpre b (List.mem_cons_self _ _)
    obtain ⟨p2, hl, hat2, hr2⟩ := ih (CountBlock p1) d tail fuel (hcount _ _ hat1)
      (fun c hc => hpre c (List.mem_cons_of_mem _ hc)) hd (by simp at hfuel; omega)
    rw [ProcessBlocksLoop_succ, hb, hbf]
    refine ⟨p2, by simpa using hl, hat2, ?_⟩
    exact htrans p (CountBlock p1) p2 [b] (pre ++ [d]) (hrun _ _ _ hr) hr2

end decode
end gfxrecon
namespace gfxrecon
namespace decode

open PreloadFileProcessor

/-! ## Lists of blocks -/

theorem traceBytes_append (bs cs : List Block) :
    traceBytes (bs ++ cs) = traceBytes bs ++ traceBytes cs := by
  induction bs with
  | nil => rfl
  | cons b bs ih => simp [traceBytes, ih]

theorem blocksCalls_append (env : Environment) (handler : Bool) (bs cs : List Block) :
    blocksCalls env handler (bs ++ cs) =
      blocksCalls env handler bs ++ blocksCalls env handler cs := by
  induction bs with
  | nil => rfl
  | cons b bs ih =>
    simp only [List.cons_append, blocksCalls]
    cases b.call env handler <;> simp [ih]

theorem frameCount_append (env : Environment) (handler : Bool) (bs cs : List Block) :
    frameCount env handler (bs ++ cs) = frameCount env handler bs + frameCount env handler cs := by
  simp [frameCount, List.countP_append]

theorem bufferedBlocks_append (env : Environment) (handler : Bool) (bs cs : List Block) :
    bufferedBlocks env handler (bs ++ cs) =
      bufferedBlocks env handler bs ++ bufferedBlocks env handler cs := by
  induction bs with
  | nil => rfl
  | cons b bs ih =>
    simp only [List.cons_append, bufferedBlocks]
    split_ifs <;> simp [ih]

theorem traceBytes_single (b : Block) : traceBytes [b] = b.bytes := by
  simp [traceBytes]

theorem blocksCalls_single (env : Environment) (handler : Bool) (b : Block) :
    blocksCalls env handler [b] = (b.call env handler).toList := by
  simp only [blocksCalls]
  cases b.call env handler <;> rfl

theorem frameCount_single (env : Environment) (handler : Bool) (b : Block) :
    frameCount env handler [b] = if b.endsFrame env handler then 1 else 0 := by
  simp [frameCount, List.countP_cons]

/-- A position in the file moves over the bytes read. -/
theorem FileAt.advance {p p1 : PreloadFileProcessor} {xs rest : List Byte}
    (hf : FileAt p (xs ++ rest)) (hfile : p1.file_data_ = p.file_data_)
    (hpos : p1.file_pos_ = p.file_pos_ + xs.length) : FileAt p1 rest := by
  unfold FileAt at hf ⊢
  rw [hfile, hpos, ← List.drop_drop, hf]
  exact List.drop_left' rfl

/-! ## Direct mode -/

theorem DirectRun.direct_empty (env : Environment) (p : PreloadFileProcessor)
    (hs : p.status_ = PreloadStatus.kInactive) : DirectRun env p p [] :=
  ⟨hs, rfl, rfl, rfl, by simp [blocksCalls], by simp [frameCount], rfl⟩

theorem DirectRun.direct_append {env : Environment} {p p1 p2 : PreloadFileProcessor}
    {bs cs : List Block} (h1 : DirectRun env p p1 bs) (h2 : DirectRun env p1 p2 cs) :
    DirectRun env p p2 (bs ++ cs) := by
  refine ⟨h2.status, h2.file.trans h1.file, ?_, h2.handler.trans h1.handler, ?_, ?_,
    h2.buffer.trans h1.buffer⟩
  · rw [h2.pos, h1.pos, traceBytes_append, List.length_append, Nat.add_assoc]
  · rw [h2.calls, h1.calls, h1.handler, blocksCalls_append, List.append_assoc]
  · rw [h2.frame, h1.frame, h1.handler, frameCount_append, Nat.add_assoc]

theorem DirectRun.direct_counted {env : Environment} {p p1 : PreloadFileProcessor} {bs : List Block}
    (h : DirectRun env p p1 bs) : DirectRun env p (CountBlock p1) bs := by
  unfold CountBlock
  split_ifs
  · exact ⟨h.status, h.file, h.pos, h.handler, h.calls, h.frame, h.buffer⟩
  · exact h

theorem DirectAt.direct_at_counted {env : Environment} {handler : Bool} {rest : List Byte}
    {p : PreloadFileProcessor} {bs : List Block} (h : DirectAt env handler rest p bs) :
    DirectAt env handler rest (CountBlock p) bs := by
  unfold CountBlock
  split_ifs
  · exact ⟨h.status, h.same_handler, h.file, h.wf⟩
  · exact h

theorem DirectStep.run {env : Environment} {p p1 : PreloadFileProcessor} {b : Block}
    (h : DirectStep env p p1 b) : DirectRun env p p1 [b] := by
  refine ⟨h.status, h.file, ?_, h.handler, ?_, ?_, h.buffer⟩
  · rw [traceBytes_single]
    exact h.pos
  · rw [blocksCalls_single]
    exact h.calls
  · rw [frameCount_single]
    exact h.frame

/-- One turn of the loop in direct mode. -/
theorem ProcessBlocksBody_directAt (env : Environment) (handler : Bool) (rest : List Byte)
    (p : PreloadFileProcessor) (b : Block) (bs : List Block)
    (h : DirectAt env handler rest p (b :: bs)) :
    ∃ p1, ProcessBlocksBody env p = (p1, true, b.endsFrame env handler) ∧
      DirectAt env handler rest p1 bs ∧ DirectRun env p p1 [b] := by
  have hf : FileAt p (b.bytes ++ (traceBytes bs ++ rest)) := by
    have := h.file
    rwa [traceBytes, List.append_assoc] at this
  have hwf : b.WellFormed env p.annotation_handler_ := by
    rw [h.same_handler]
    exact h.wf b (List.mem_cons_self _ _)
  obtain ⟨p1, hb, hstep⟩ := ProcessBlocksBody_direct env p b _ h.status hf hwf
  rw [h.same_handler] at hb
  refine ⟨p1, hb, ⟨hstep.status, hstep.handler.trans h.same_handler, ?_, ?_⟩, hstep.run⟩
  · exact hf.advance hstep.file hstep.pos
  · exact fun c hc => h.wf c (List.mem_cons_of_mem _ hc)

/-- A pass of the loop in direct mode over a frame. -/
theorem ProcessBlocksLoop_direct (env : Environment) (handler : Bool) (rest : List Byte)
    (pre : List Block) (p : PreloadFileProcessor) (d : Block) (tail : List Block) (fuel : Nat)
    (hat : DirectAt env handler rest p (pre ++ d :: tail))
    (hpre : ∀ b ∈ pre, b.endsFrame env handler = false) (hd : d.endsFrame env handler = true)
    (hfuel : pre.length < fuel) :
    ∃ p1, ProcessBlocksLoop env fuel p = some (p1, true) ∧ DirectAt env handler rest p1 tail ∧
      DirectRun env p p1 (pre ++ [d]) :=
  ProcessBlocksLoop_pass env handler (DirectAt env handler rest) (DirectRun env)
    (ProcessBlocksBody_directAt env handler rest) (fun _ _ h => h.direct_at_counted)
    (fun _ _ _ h => h.direct_counted)
    (fun _ _ _ _ _ h1 h2 => h1.direct_append h2) pre p d tail fuel hat hpre hd hfuel

/-! ## Record state -/

theorem Reserve_container (env : Environment) (b : PreloadBuffer) (n : Nat) :
    (b.Reserve env n).1.container_ = b.container_ ∧
      (b.Reserve env n).1.replay_offset_ = b.replay_offset_ := by
  unfold PreloadBuffer.Reserve
  simp only
  split_ifs <;> exact ⟨rfl, rfl⟩

/-- A block whose data is at the file read position is appended to the preload buffer. -/
theorem RecordBlock_fileAt (env : Environment) (p : PreloadFileProcessor)
    (block_header : format.BlockHeader) (id_bytes data rest : List Byte)
    (hs : p.status_ = PreloadStatus.kRecord) (hf : FileAt p (data ++ rest)) :
    ∃ p1, RecordBlock env p block_header id_bytes data.length = (p1, true) ∧
      p1.status_ = PreloadStatus.kRecord ∧ p1.file_data_ = p.file_data_ ∧
      p1.file_pos_ = p.file_pos_ + data.length ∧
      p1.annotation_handler_ = p.annotation_handler_ ∧ p1.calls_ = p.calls_ ∧
      p1.current_frame_number_ = p.current_frame_number_ ∧
      p1.preload_buffer_.container_ =
        p.preload_buffer_.container_ ++ (block_header.toBytes ++ (id_bytes ++ data)) ∧
      p1.preload_buffer_.replay_offset_ = p.preload_buffer_.replay_offset_ ∧
      p1.preload_frame_number_ = p.preload_frame_number_ := by
  have hnr : ∀ b : PreloadBuffer,
      ({ p with preload_buffer_ := b } : PreloadFileProcessor).status_ ≠
        PreloadStatus.kReplay := by
    intro b
    show p.status_ ≠ PreloadStatus.kReplay
    rw [hs]
    decide
  have hread := fun b : PreloadBuffer =>
    ReadBytes_fileAt { p with preload_buffer_ := b } data rest (hnr b) hf
  obtain ⟨hc, ho⟩ := Reserve_container env p.preload_buffer_
    (format.sizeofBlockHeader + block_header.size)
  unfold RecordBlock
  simp only [hread, if_true, Nat.sub_self, List.replicate_zero, List.append_nil]
  refine ⟨_, rfl, hs, rfl, rfl, rfl, rfl, rfl, ?_, ?_, rfl⟩
  · simp only [advanceFile, PreloadBuffer.Add, hc, List.append_assoc]
  · simp only [advanceFile, PreloadBuffer.Add, ho]

theorem bufferedBlocks_single (env : Environment) (handler : Bool) (b : Block) :
    bufferedBlocks env handler [b] = if b.isSkipped env handler then [] else [b] := by
  simp only [bufferedBlocks]

theorem RecordRun.record_empty (env : Environment) (p : PreloadFileProcessor)
    (hs : p.status_ = PreloadStatus.kRecord) : RecordRun env p p [] :=
  ⟨hs, rfl, rfl, rfl, rfl, rfl, by simp [bufferedBlocks, traceBytes], rfl⟩

theorem RecordRun.record_append {env : Environment} {p p1 p2 : PreloadFileProcessor}
    {bs cs : List Block} (h1 : RecordRun env p p1 bs) (h2 : RecordRun env p1 p2 cs) :
    RecordRun env p p2 (bs ++ cs) := by
  refine ⟨h2.status, h2.file.trans h1.file, ?_, h2.handler.trans h1.handler,
    h2.calls.trans h1.calls, h2.frame.trans h1.frame, ?_, h2.replay_offset.trans h1.replay_offset⟩
  · rw [h2.pos, h1.pos, traceBytes_append, List.length_append, Nat.add_assoc]
  · rw [h2.container, h1.container, h1.handler, bufferedBlocks_append, traceBytes_append,
      List.append_assoc]

theorem RecordRun.record_counted {env : Environment} {p p1 : PreloadFileProcessor} {bs : List Block}
    (h : RecordRun env p p1 bs) : RecordRun env p (CountBlock p1) bs := by
  unfold CountBlock
  split_ifs
  · exact ⟨h.status, h.file, h.pos, h.handler, h.calls, h.frame, h.container, h.replay_offset⟩
  · exact h

theorem RecordAt.record_at_counted {env : Environment} {handler : Bool} {rest : List Byte} {k : Nat}
    {p : PreloadFileProcessor} {bs : List Block} (h : RecordAt env handler rest k p bs) :
    RecordAt env handler rest k (CountBlock p) bs := by
  unfold CountBlock
  split_ifs
  · exact ⟨h.status, h.preload_frame, h.same_handler, h.file, h.wf⟩
  · exact h

/-- One turn of the loop in `Record` state. -/
theorem ProcessBlocksBody_recordAt (env : Environment) (handler : Bool) (rest : List Byte)
    (k : Nat) (p : PreloadFileProcessor) (b : Block) (bs : List Block)
    (h : RecordAt env handler rest k p (b :: bs)) :
    ∃ p1, ProcessBlocksBody env p = (p1, true, b.endsFrame env handler) ∧
      RecordAt env handler rest k p1 bs ∧ RecordRun env p p1 [b] := by
  have hf : FileAt p (b.bytes ++ (traceBytes bs ++ rest)) := by
    have := h.file
    rwa [traceBytes, List.append_assoc] at this
  have hwf : b.WellFormed env handler := h.wf b (List.mem_cons_self _ _)
  have hnr : p.status_ ≠ PreloadStatus.kReplay := by rw [h.status]; decide
  obtain ⟨hread, hf1⟩ := ReadBlockHeader_fileAt p b _ hnr hf
  have hlen := Block.bytes_length b
  suffices hmain : ∃ p1, ProcessBlocksBody env p = (p1, true, b.endsFrame env handler) ∧
      p1.status_ = PreloadStatus.kRecord ∧ p1.file_data_ = p.file_data_ ∧
      p1.file_pos_ = p.file_pos_ + b.bytes.length ∧
      p1.annotation_handler_ = p.annotation_handler_ ∧ p1.calls_ = p.calls_ ∧
      p1.current_frame_number_ = p.current_frame_number_ ∧
      p1.preload_buffer_.container_ = p.preload_buffer_.container_ ++
        traceBytes (bufferedBlocks env handler [b]) ∧
      p1.preload_buffer_.replay_offset_ = p.preload_buffer_.replay_offset_ ∧
      p1.preload_frame_number_ = p.preload_frame_number_ by
    obtain ⟨p1, hb, h1, h2, h3, h4, h5, h6, h7, h8, h9⟩ := hmain
    refine ⟨p1, hb, ⟨h1, h9.trans h.preload_frame, h4.trans h.same_handler, hf.advance h2 h3,
      fun c hc => h.wf c (List.mem_cons_of_mem _ hc)⟩, ⟨h1, h2, ?_, h4, h5, h6, ?_, h8⟩⟩
    · rw [traceBytes_single]
      exact h3
    · rw [h.same_handler]
      exact h7
  rw [ProcessBlocksBody_kind env p (by rw [hread]), hread]
  simp only
  rw [Block.header_ofBytes env _ b hwf]
  have hh : (advanceFile p format.sizeofBlockHeader).annotation_handler_ = handler :=
    h.same_handler
  have ht : b.header.type = b.type := rfl
  have hs1 : (advanceFile p format.sizeofBlockHeader).status_ = PreloadStatus.kRecord := h.status
  rw [hh, ht, bufferedBlocks_single]
  cases hk : blockKind env handler b.type with
  | call is_method =>
    have hskip : b.isSkipped env handler = false := by simp [Block.isSkipped, hk]
    have h4 : 4 ≤ b.payload.length := hwf.2.2 hskip
    have hf2 : FileAt (advanceFile p format.sizeofBlockHeader)
        (b.payload.take 4 ++ (b.data ++ (traceBytes bs ++ rest))) := by
      rw [← List.append_assoc, ← Block.payload_split]
      exact hf1
    have hnr1 : (advanceFile p format.sizeofBlockHeader).status_ ≠ PreloadStatus.kReplay := hnr
    have hid := ReadBytes_fileAt _ _ _ hnr1 hf2
    rw [Block.id_length b h4] at hid
    have hf3 := FileAt_advanceFile _ _ _ hf2
    rw [Block.id_length b h4] at hf3
    have hs2 : (advanceFile (advanceFile p format.sizeofBlockHeader) 4).status_ =
        PreloadStatus.kRecord := h.status
    obtain ⟨p1, hrec, r1, r2, r3, r4, r5, r6, r7, r8, r9⟩ :=
      RecordBlock_fileAt env _ b.header (b.payload.take 4) b.data _ hs2 hf3
    have hsplit : b.payload.length = 4 + b.data.length := by
      simp only [Block.data, List.length_drop]
      omega
    simp only [ProcessBlockOfKind]
    rw [ProcessCallBlock_eq, hid]
    simp only [if_true, hs2, dataSize_header b h4 hwf.2.1, hrec, Block.endsFrame, hk, Block.id,
      hskip, Bool.false_eq_true, if_false]
    refine ⟨p1, rfl, r1, r2, ?_, r4, r5, r6, ?_, r8, r9⟩
    · rw [r3]
      simp only [advanceFile]
      omega
    · rw [r7, traceBytes_single, Block.bytes, ← Block.payload_split]
      rfl
  | data dispatch =>
    have hskip : b.isSkipped env handler = false := by simp [Block.isSkipped, hk]
    obtain ⟨p1, hrec, r1, r2, r3, r4, r5, r6, r7, r8, r9⟩ :=
      RecordBlock_fileAt env _ b.header [] b.payload _ hs1 hf1
    have hsz : b.header.size = b.payload.length := rfl
    simp only [ProcessBlockOfKind]
    rw [ProcessDataBlock_eq]
    simp only [hs1, if_true, hsz, hrec, Block.endsFrame, hk, hskip, Bool.false_eq_true, if_false]
    refine ⟨p1, rfl, r1, r2, ?_, r4, r5, r6, ?_, r8, r9⟩
    · rw [r3]
      simp only [advanceFile]
      omega
    · rw [r7, traceBytes_single, Block.bytes]
      rfl
  | skipped =>
    have hskip : b.isSkipped env handler = true := by simp [Block.isSkipped, hk]
    simp only [ProcessBlockOfKind, SkipBytes, Block.endsFrame, hk, hskip, if_true]
    refine ⟨_, rfl, h.status, rfl, ?_, rfl, rfl, rfl, by simp [traceBytes, advanceFile], rfl,
      rfl⟩
    simp only [advanceFile, Block.header]
    omega

/-- A pass of the loop in `Record` state over a frame. -/
theorem ProcessBlocksLoop_recordAt (env : Environment) (handler : Bool) (rest : List Byte)
    (k : Nat) (pre : List Block) (p : PreloadFileProcessor) (d : Block) (tail : List Block)
    (fuel : Nat) (hat : RecordAt env handler rest k p (pre ++ d :: tail))
    (hpre : ∀ b ∈ pre, b.endsFrame env handler = false) (hd : d.endsFrame env handler = true)
    (hfuel : pre.length < fuel) :
    ∃ p1, ProcessBlocksLoop env fuel p = some (p1, true) ∧ RecordAt env handler rest k p1 tail ∧
      RecordRun env p p1 (pre ++ [d]) :=
  ProcessBlocksLoop_pass env handler (RecordAt env handler rest k) (RecordRun env)
    (ProcessBlocksBody_recordAt env handler rest k) (fun _ _ h => h.record_at_counted)
    (fun _ _ _ h => h.record_counted)
    (fun _ _ _ _ _ h1 h2 => h1.record_append h2) pre p d tail fuel hat hpre hd hfuel

/-! ## Replay -/

theorem Replaying.outside_record {p : PreloadFileProcessor} {bytes : List Byte}
    (h : Replaying p bytes) : p.status_ ≠ PreloadStatus.kRecord := by
  rw [h.status]
  split_ifs <;> decide

/-- A read of bytes that the preload buffer holds at its read cursor; a read of no bytes once the
buffer is exhausted goes to the file and changes nothing. -/
theorem ReadBytes_replaying (p : PreloadFileProcessor) (xs rest : List Byte)
    (h : Replaying p (xs ++ rest)) :
    ∃ p1, p.ReadBytes xs.length = (p1, xs, true) ∧ Replaying p1 rest ∧ ReplayRead p p1 := by
  by_cases hnil : (xs ++ rest).isEmpty = true
  · have hs : p.status_ = PreloadStatus.kInactive := by rw [h.status, if_pos hnil]
    have hxs : xs = [] := by
      cases xs with
      | nil => rfl
      | cons x xs => simp at hnil
    have hrest : rest = [] := by
      subst hxs
      cases rest with
      | nil => rfl
      | cons x xs => simp at hnil
    subst hxs hrest
    have hnr : p.status_ ≠ PreloadStatus.kReplay := by rw [hs]; decide
    have hfb : fileBytes p ([] : List Byte).length = [] := by simp [fileBytes]
    rw [ReadBytes_file p _ hnr, hfb]
    refine ⟨_, rfl, ⟨?_, ?_⟩, ⟨rfl, rfl, rfl, rfl, rfl⟩⟩
    · exact h.buffer
    · simpa using hs
  · have hs : p.status_ = PreloadStatus.kReplay := by rw [h.status, if_neg hnil]
    have hb : bufferBytes p xs.length = xs := by
      unfold bufferBytes
      rw [h.buffer]
      exact List.take_left' rfl
    have hlen : p.preload_buffer_.container_.length - p.preload_buffer_.replay_offset_ =
        xs.length + rest.length := by
      rw [← List.length_drop, h.buffer, List.length_append]
    have hpos : xs.length + rest.length ≠ 0 := by
      intro h0
      apply hnil
      have : (xs ++ rest).length = 0 := by rw [List.length_append]; exact h0
      simp [List.length_eq_zero.1 this]
    have hdec : decide (xs.length = xs.length) = true := by simp
    rw [ReadBytes_replay p _ hs, hb, hdec]
    refine ⟨_, rfl, ⟨?_, ?_⟩, ⟨rfl, rfl, rfl, rfl, rfl⟩⟩
    · show List.drop (p.preload_buffer_.replay_offset_ + xs.length)
        p.preload_buffer_.container_ = rest
      rw [← List.drop_drop, h.buffer]
      exact List.drop_left' rfl
    · show (if p.preload_buffer_.container_.length ≤
          p.preload_buffer_.replay_offset_ + xs.length
        then PreloadStatus.kInactive else PreloadStatus.kReplay) =
        if rest.isEmpty then PreloadStatus.kInactive else PreloadStatus.kReplay
      cases rest with
      | nil =>
        rw [if_pos (by simp at hlen ⊢; omega)]
        rfl
      | cons r rest =>
        rw [if_neg (by simp at hlen ⊢; omega)]
        rfl

theorem ReplayRead.read_append {p p1 p2 : PreloadFileProcessor} (h1 : ReplayRead p p1)
    (h2 : ReplayRead p1 p2) : ReplayRead p p2 :=
  ⟨h2.file.trans h1.file, h2.pos.trans h1.pos, h2.handler.trans h1.handler,
    h2.calls.trans h1.calls, h2.frame.trans h1.frame⟩

/-- A dispatch whose data is at the read cursor of the preload buffer. -/
theorem DispatchBlock_replaying (call : format.BlockHeader → Nat → List Byte → DecoderCall)
    (p : PreloadFileProcessor) (block_header : format.BlockHeader) (id : Nat)
    (data rest : List Byte) (h : Replaying p (data ++ rest))
    (hsize : dataSize block_header = data.length) :
    ∃ p1 p2, DispatchBlock call p block_header id = (p2, true) ∧ Replaying p2 rest ∧
      ReplayRead p p1 ∧ p2 = { p1 with calls_ := p1.calls_ ++ [call block_header id data] } := by
  obtain ⟨p1, hread, hrep, hrr⟩ := ReadBytes_replaying p data rest h
  rw [DispatchBlock_eq, hsize, hread]
  exact ⟨p1, _, rfl, ⟨hrep.buffer, hrep.status⟩, hrr, rfl⟩

theorem callDispatch_replaying (is_method : Bool) (p : PreloadFileProcessor)
    (block_header : format.BlockHeader) (id : Nat) (data rest : List Byte)
    (h : Replaying p (data ++ rest)) (hsize : dataSize block_header = data.length) :
    ∃ p1 p2, callDispatch is_method p block_header id = (p2, true) ∧ Replaying p2 rest ∧
      ReplayRead p p1 ∧
      p2 = { p1 with
             calls_ := p1.calls_ ++
               [if is_method then DecoderCall.method_call block_header id data
                else DecoderCall.function_call block_header id data] } := by
  cases is_method
  · exact DispatchBlock_replaying DecoderCall.function_call p block_header id data rest h hsize
  · exact DispatchBlock_replaying DecoderCall.method_call p block_header id data rest h hsize

theorem ReplayRun.replay_empty (env : Environment) (p : PreloadFileProcessor) : ReplayRun env p p [] :=
  ⟨rfl, rfl, rfl, by simp [blocksCalls], by simp [frameCount]⟩

theorem ReplayRun.replay_append {env : Environment} {p p1 p2 : PreloadFileProcessor}
    {bs cs : List Block} (h1 : ReplayRun env p p1 bs) (h2 : ReplayRun env p1 p2 cs) :
    ReplayRun env p p2 (bs ++ cs) := by
  refine ⟨h2.file.trans h1.file, h2.pos.trans h1.pos, h2.handler.trans h1.handler, ?_, ?_⟩
  · rw [h2.calls, h1.calls, h1.handler, blocksCalls_append, List.append_assoc]
  · rw [h2.frame, h1.frame, h1.handler, frameCount_append, Nat.add_assoc]

theorem ReplayRun.replay_counted {env : Environment} {p p1 : PreloadFileProcessor} {bs : List Block}
    (h : ReplayRun env p p1 bs) : ReplayRun env p (CountBlock p1) bs := by
  unfold CountBlock
  split_ifs
  · exact ⟨h.file, h.pos, h.handler, h.calls, h.frame⟩
  · exact h

theorem ReplayAt.replay_at_counted {env : Environment} {handler : Bool} {p : PreloadFileProcessor}
    {bs : List Block} (h : ReplayAt env handler p bs) : ReplayAt env handler (CountBlock p) bs := by
  unfold CountBlock
  split_ifs
  · exact ⟨h.same_handler, ⟨h.replaying.buffer, h.replaying.status⟩, h.wf⟩
  · exact h

/-- One turn of the loop on a block replayed from the preload buffer. -/
theorem ProcessBlocksBody_replayAt (env : Environment) (handler : Bool)
    (p : PreloadFileProcessor) (b : Block) (bs : List Block)
    (h : ReplayAt env handler p (b :: bs)) :
    ∃ p1, ProcessBlocksBody env p = (p1, true, b.endsFrame env handler) ∧
      ReplayAt env handler p1 bs ∧ ReplayRun env p p1 [b] := by
  obtain ⟨hwf, hskip⟩ := h.wf b (List.mem_cons_self _ _)
  have h4 : 4 ≤ b.payload.length := hwf.2.2 hskip
  have hrep : Replaying p (b.header.toBytes ++
      (b.payload.take 4 ++ (b.data ++ traceBytes bs))) := by
    have := h.replaying
    rw [traceBytes, Block.bytes, Block.payload_split b, List.append_assoc,
      List.append_assoc] at this
    exact this
  obtain ⟨p0, hread, hrep0, hrr0⟩ := ReadBytes_replaying p _ _ hrep
  rw [BlockHeader_toBytes_length] at hread
  obtain ⟨p01, hid, hrep01, hrr01⟩ := ReadBytes_replaying p0 _ _ hrep0
  rw [Block.id_length b h4] at hid
  have hsize := dataSize_header b h4 hwf.2.1
  have hh0 : p0.annotation_handler_ = handler := hrr0.handler.trans h.same_handler
  have hnrec0 : p0.status_ ≠ PreloadStatus.kRecord := hrep0.outside_record
  have hnrec01 : p01.status_ ≠ PreloadStatus.kRecord := hrep01.outside_record
  have htail : ∀ c ∈ bs, c.WellFormed env handler ∧ c.isSkipped env handler = false :=
    fun c hc => h.wf c (List.mem_cons_of_mem _ hc)
  have hrr := hrr0.read_append hrr01
  rw [ProcessBlocksBody_kind env p (by rw [hread]), hread]
  simp only
  rw [Block.header_ofBytes env _ b hwf, hh0]
  have ht : b.header.type = b.type := rfl
  rw [ht]
  cases hk : blockKind env handler b.type with
  | call is_method =>
    obtain ⟨p1, p2, hdisp, hrep2, hrr1, heq⟩ :=
      callDispatch_replaying is_method p01 b.header (decodeLE (b.payload.take 4)) b.data _
        hrep01 hsize
    have hrr2 := hrr.read_append hrr1
    simp only [ProcessBlockOfKind]
    rw [ProcessCallBlock_eq, hid]
    simp only [if_true, hnrec01, if_false, hdisp, Block.endsFrame, hk, Block.id]
    subst heq
    have hcall : blocksCalls env p.annotation_handler_ [b] =
        [if is_method = true then
          DecoderCall.method_call b.header (decodeLE (b.payload.take 4)) b.data
         else DecoderCall.function_call b.header (decodeLE (b.payload.take 4)) b.data] := by
      rw [blocksCalls_single, h.same_handler]
      cases is_method <;> simp [Block.call, hk, Block.id]
    have hfc : frameCount env p.annotation_handler_ [b] =
        if env.IsFrameDelimiter (decodeLE (b.payload.take 4)) = true then 1 else 0 := by
      rw [frameCount_single, h.same_handler]
      simp [Block.endsFrame, hk, Block.id]
    cases hdel : env.IsFrameDelimiter (decodeLE (b.payload.take 4))
    · simp only [Bool.false_eq_true, if_false]
      refine ⟨_, rfl, ⟨hrr2.handler.trans h.same_handler, ⟨hrep2.buffer, hrep2.status⟩, htail⟩,
        ⟨hrr2.file, hrr2.pos, hrr2.handler, ?_, ?_⟩⟩
      · rw [hcall]
        show p1.calls_ ++ _ = _
        rw [hrr2.calls]
      · rw [hfc, hdel]
        exact hrr2.frame
    · simp only [if_true]
      refine ⟨_, rfl, ⟨hrr2.handler.trans h.same_handler, ⟨hrep2.buffer, hrep2.status⟩, htail⟩,
        ⟨hrr2.file, hrr2.pos, hrr2.handler, ?_, ?_⟩⟩
      · rw [hcall]
        show p1.calls_ ++ _ = _
        rw [hrr2.calls]
      · rw [hfc, hdel]
        show p1.current_frame_number_ + 1 = _
        rw [hrr2.frame]
        rfl
  | data dispatch =>
    obtain ⟨p1, p2, hdisp, hrep2, hrr1, heq⟩ :=
      DispatchBlock_replaying dispatch p01 b.header (decodeLE (b.payload.take 4)) b.data _
        hrep01 hsize
    have hrr2 := hrr.read_append hrr1
    simp only [ProcessBlockOfKind]
    rw [ProcessDataBlock_eq, hid]
    simp only [if_true, hnrec0, if_false, hdisp, Block.endsFrame, hk]
    subst heq
    refine ⟨_, rfl, ⟨hrr2.handler.trans h.same_handler, ⟨hrep2.buffer, hrep2.status⟩, htail⟩,
      ⟨hrr2.file, hrr2.pos, hrr2.handler, ?_, ?_⟩⟩
    · rw [blocksCalls_single, h.same_handler]
      show p1.calls_ ++ _ = _
      rw [hrr2.calls]
      simp [Block.call, hk, Block.id]
    · rw [frameCount_single, h.same_handler]
      simp only [Block.endsFrame, hk, Bool.false_eq_true, if_false]
      exact hrr2.frame
  | skipped =>
    simp [Block.isSkipped, hk] at hskip

/-- A pass of the loop over a frame replayed from the preload buffer. -/
theorem ProcessBlocksLoop_replayAt (env : Environment) (handler : Bool)
    (pre : List Block) (p : PreloadFileProcessor) (d : Block) (tail : List Block) (fuel : Nat)
    (hat : ReplayAt env handler p (pre ++ d :: tail))
    (hpre : ∀ b ∈ pre, b.endsFrame env handler = false) (hd : d.endsFrame env handler = true)
    (hfuel : pre.length < fuel) :
    ∃ p1, ProcessBlocksLoop env fuel p = some (p1, true) ∧ ReplayAt env handler p1 tail ∧
      ReplayRun env p p1 (pre ++ [d]) :=
  ProcessBlocksLoop_pass env handler (ReplayAt env handler) (ReplayRun env)
    (ProcessBlocksBody_replayAt env handler) (fun _ _ h => h.replay_at_counted)
    (fun _ _ _ h => h.replay_counted)
    (fun _ _ _ _ _ h1 h2 => h1.replay_append h2) pre p d tail fuel hat hpre hd hfuel

end decode
end gfxrecon
namespace gfxrecon
namespace decode

open PreloadFileProcessor

/-! ## Frames -/

/-- A call of `ProcessNextFrame` over a frame, from what one turn of the loop does. -/
theorem ProcessNextFrame_pass (env : Environment) (handler : Bool)
    (At : PreloadFileProcessor → List Block → Prop)
    (Run : PreloadFileProcessor → PreloadFileProcessor → List Block → Prop)
    (hbody : ∀ p b bs, At p (b :: bs) →
      ∃ p1, ProcessBlocksBody env p = (p1, true, b.endsFrame env handler) ∧ At p1 bs ∧
        Run p p1 [b])
    (hcount : ∀ p bs, At p bs → At (CountBlock p) bs)
    (hrun : ∀ p p1 bs, Run p p1 bs → Run p (CountBlock p1) bs)
    (htrans : ∀ p p1 p2 bs cs, Run p p1 bs → Run p1 p2 cs → Run p p2 (bs ++ cs))
    (p : PreloadFileProcessor) (frame tail : List Block) (hat : At p (frame ++ tail))
    (hframe : Delimited env handler frame) :
    ∃ p1, ProcessNextFrame env p = some (p1, true) ∧ At p1 tail ∧ Run p p1 frame := by
  obtain ⟨pre, d, rfl, hpre, hd⟩ := hframe
  rw [List.append_assoc, List.singleton_append] at hat
  obtain ⟨p1, hl, hat1, hr⟩ := ProcessBlocksLoop_pass env handler At Run hbody hcount hrun htrans
    pre p d tail (pre.length + 1) hat hpre hd (Nat.lt_succ_self _)
  exact ⟨p1, ProcessBlocks_of_loop env _ p _ hl, hat1, hr⟩

/-- Calls of `ProcessNextFrame`, one for each of the frames. -/
theorem ProcessFrames_pass (env : Environment) (handler : Bool)
    (At : PreloadFileProcessor → List Block → Prop)
    (Run : PreloadFileProcessor → PreloadFileProcessor → List Block → Prop)
    (hpass : ∀ p frame tail, At p (frame ++ tail) → Delimited env handler frame →
      ∃ p1, ProcessNextFrame env p = some (p1, true) ∧ At p1 tail ∧ Run p p1 frame)
    (hrefl : ∀ p bs, At p bs → Run p p [])
    (htrans : ∀ p p1 p2 bs cs, Run p p1 bs → Run p1 p2 cs → Run p p2 (bs ++ cs)) :
    ∀ (frames : List (List Block)) (p : PreloadFileProcessor) (tail : List Block),
      At p (framesBlocks frames ++ tail) → (∀ f ∈ frames, Delimited env handler f) →
      ∃ p1, ProcessFrames env frames.length p = some p1 ∧ At p1 tail ∧
        Run p p1 (framesBlocks frames) := by
  intro frames
  induction frames with
  | nil =>
    intro p tail hat _
    exact ⟨p, rfl, hat, hrefl p _ hat⟩
  | cons f frames ih =>
    intro p tail hat hall
    rw [framesBlocks, List.append_assoc] at hat
    obtain ⟨p1, hp, hat1, hr1⟩ := hpass p f _ hat (hall f (List.mem_cons_self _ _))
    obtain ⟨p2, hp2, hat2, hr2⟩ := ih p1 tail hat1 (fun g hg => hall g (List.mem_cons_of_mem _ hg))
    refine ⟨p2, ?_, hat2, htrans _ _ _ _ _ hr1 hr2⟩
    simp only [List.length_cons, ProcessFrames, hp]
    exact hp2

theorem IsFrame.delimited {env : Environment} {handler : Bool} {frame : List Block}
    (h : IsFrame env handler frame) : Delimited env handler frame := by
  obtain ⟨pre, d, rfl, hpre, _, hd⟩ := h
  exact ⟨pre, d, rfl, fun b hb => (hpre b hb).2, hd⟩

theorem IsFrame.wf {env : Environment} {handler : Bool} {frame : List Block}
    (h : IsFrame env handler frame) : ∀ b ∈ frame, b.WellFormed env handler := by
  obtain ⟨pre, d, rfl, hpre, hwd, _⟩ := h
  intro b hb
  rcases List.mem_append.1 hb with hm | hm
  · exact (hpre b hm).1
  · rw [List.mem_singleton.1 hm]
    exact hwd

theorem mem_framesBlocks {frames : List (List Block)} {b : Block}
    (h : b ∈ framesBlocks frames) : ∃ f ∈ frames, b ∈ f := by
  induction frames with
  | nil => simp [framesBlocks] at h
  | cons f frames ih =>
    rw [framesBlocks] at h
    rcases List.mem_append.1 h with hm | hm
    · exact ⟨f, List.mem_cons_self _ _, hm⟩
    · obtain ⟨g, hg, hb⟩ := ih hm
      exact ⟨g, List.mem_cons_of_mem _ hg, hb⟩

theorem framesBlocks_wf {env : Environment} {handler : Bool} {frames : List (List Block)}
    (h : ∀ f ∈ frames, IsFrame env handler f) :
    ∀ b ∈ framesBlocks frames, b.WellFormed env handler := by
  intro b hb
  obtain ⟨f, hf, hbf⟩ := mem_framesBlocks hb
  exact (h f hf).wf b hbf

theorem frameCount_delimited {env : Environment} {handler : Bool} {frame : List Block}
    (h : Delimited env handler frame) : frameCount env handler frame = 1 := by
  obtain ⟨pre, d, rfl, hpre, hd⟩ := h
  rw [frameCount_append, frameCount_single, hd]
  have : frameCount env handler pre = 0 := by
    unfold frameCount
    rw [List.countP_eq_zero]
    intro b hb
    simp [hpre b hb]
  rw [this]
  rfl

theorem frameCount_framesBlocks {env : Environment} {handler : Bool}
    {frames : List (List Block)} (h : ∀ f ∈ frames, Delimited env handler f) :
    frameCount env handler (framesBlocks frames) = frames.length := by
  induction frames with
  | nil => rfl
  | cons f frames ih =>
    rw [framesBlocks, frameCount_append, frameCount_delimited (h f (List.mem_cons_self _ _)),
      ih (fun g hg => h g (List.mem_cons_of_mem _ hg)), List.length_cons, Nat.add_comm]

/-- The direct replay of frames of a well-formed trace. -/
theorem ProcessFrames_direct (env : Environment) (handler : Bool) (rest : List Byte)
    (frames : List (List Block)) (p : PreloadFileProcessor) (tail : List Block)
    (hat : DirectAt env handler rest p (framesBlocks frames ++ tail))
    (hall : ∀ f ∈ frames, Delimited env handler f) :
    ∃ p1, ProcessFrames env frames.length p = some p1 ∧ DirectAt env handler rest p1 tail ∧
      DirectRun env p p1 (framesBlocks frames) :=
  ProcessFrames_pass env handler (DirectAt env handler rest) (DirectRun env)
    (ProcessNextFrame_pass env handler _ _ (ProcessBlocksBody_directAt env handler rest)
      (fun _ _ h => h.direct_at_counted) (fun _ _ _ h => h.direct_counted)
      (fun _ _ _ _ _ h1 h2 => h1.direct_append h2))
    (fun p _ h => DirectRun.direct_empty env p h.status)
    (fun _ _ _ _ _ h1 h2 => h1.direct_append h2)
    frames p tail hat hall

/-- The replay of frames from the preload buffer. -/
theorem ProcessFrames_replay (env : Environment) (handler : Bool)
    (frames : List (List Block)) (p : PreloadFileProcessor) (tail : List Block)
    (hat : ReplayAt env handler p (framesBlocks frames ++ tail))
    (hall : ∀ f ∈ frames, Delimited env handler f) :
    ∃ p1, ProcessFrames env frames.length p = some p1 ∧ ReplayAt env handler p1 tail ∧
      ReplayRun env p p1 (framesBlocks frames) :=
  ProcessFrames_pass env handler (ReplayAt env handler) (ReplayRun env)
    (ProcessNextFrame_pass env handler _ _ (ProcessBlocksBody_replayAt env handler)
      (fun _ _ h => h.replay_at_counted) (fun _ _ _ h => h.replay_counted)
      (fun _ _ _ _ _ h1 h2 => h1.replay_append h2))
    (fun p _ _ => ReplayRun.replay_empty env p)
    (fun _ _ _ _ _ h1 h2 => h1.replay_append h2)
    frames p tail hat hall

/-- A call of `ProcessNextFrame` in `Record` state over a frame. -/
theorem ProcessNextFrame_record (env : Environment) (handler : Bool) (rest : List Byte)
    (k : Nat) (p : PreloadFileProcessor) (frame tail : List Block)
    (hat : RecordAt env handler rest k p (frame ++ tail))
    (hframe : Delimited env handler frame) :
    ∃ p1, ProcessNextFrame env p = some (p1, true) ∧ RecordAt env handler rest k p1 tail ∧
      RecordRun env p p1 frame :=
  ProcessNextFrame_pass env handler (RecordAt env handler rest k) (RecordRun env)
    (ProcessBlocksBody_recordAt env handler rest k) (fun _ _ h => h.record_at_counted)
    (fun _ _ _ h => h.record_counted) (fun _ _ _ _ _ h1 h2 => h1.record_append h2)
    p frame tail hat hframe

/-! ## Preloading -/

theorem ReserveChunk_container (env : Environment) (fuel : Nat) :
    ∀ (b : PreloadBuffer) (n : Nat) (r : PreloadBuffer × Nat),
      ReserveChunk env fuel b n = some r →
      r.1.container_ = b.container_ ∧ r.1.replay_offset_ = b.replay_offset_ := by
  induction fuel with
  | zero => intro b n r h; simp [ReserveChunk] at h
  | succ fuel ih =>
    intro b n r h
    have hres := Reserve_container env b n
    unfold ReserveChunk at h
    split_ifs at h with hn
    · rcases hr : b.Reserve env n with ⟨b1, ok⟩
      rw [hr] at h hres
      cases ok
      · obtain ⟨h1, h2⟩ := ih b1 _ r h
        exact ⟨h1.trans hres.1, h2.trans hres.2⟩
      · cases h
        exact hres
    · cases h
      exact ⟨rfl, rfl⟩

theorem Reserve_ok (env : Environment) (hok : ∀ n, env.reserve_ok n = true) (b : PreloadBuffer)
    (n : Nat) : (b.Reserve env n).2 = true := by
  unfold PreloadBuffer.Reserve
  simp only [hok, if_true]
  split_ifs <;> rfl

theorem ReserveChunk_ok (env : Environment) (hok : ∀ n, env.reserve_ok n = true) (fuel : Nat)
    (b : PreloadBuffer) (n : Nat) : ∃ r, ReserveChunk env (fuel + 1) b n = some r := by
  have hres := Reserve_ok env hok b n
  unfold ReserveChunk
  split_ifs with hn
  · rcases hr : b.Reserve env n with ⟨b1, ok⟩
    rw [hr] at hres
    cases hres
    exact ⟨_, rfl⟩
  · exact ⟨_, rfl⟩

theorem ReserveNextChunk_container (env : Environment) (p : PreloadFileProcessor)
    (b : PreloadBuffer) (h : ReserveNextChunk env p = some b) :
    b.container_ = p.preload_buffer_.container_ ∧
      b.replay_offset_ = p.preload_buffer_.replay_offset_ := by
  unfold ReserveNextChunk at h
  simp only at h
  split_ifs at h with hn
  · rcases hr : ReserveChunk env (p.GetNextBufferChunkSize + 1) p.preload_buffer_
        p.GetNextBufferChunkSize with _ | r
    · rw [hr] at h
      cases h
    · rw [hr] at h
      cases h
      exact ReserveChunk_container env _ _ _ r hr
  · cases h
    exact ⟨rfl, rfl⟩

theorem ReserveNextChunk_ok (env : Environment) (hok : ∀ n, env.reserve_ok n = true)
    (p : PreloadFileProcessor) : ∃ b, ReserveNextChunk env p = some b := by
  unfold ReserveNextChunk
  simp only
  split_ifs with hn
  · obtain ⟨r, hr⟩ := ReserveChunk_ok env hok p.GetNextBufferChunkSize p.preload_buffer_
      p.GetNextBufferChunkSize
    exact ⟨r.1, by rw [hr]; rfl⟩
  · exact ⟨_, rfl⟩

theorem PreloadFrames_succ (env : Environment) (count fuel : Nat) (p : PreloadFileProcessor) :
    PreloadFrames env count (fuel + 1) p =
      if p.preload_frame_number_ < count then
        match ReserveNextChunk env p with
        | none => none
        | some buffer1 =>
          match ProcessNextFrame env { p with preload_buffer_ := buffer1 } with
          | none => none
          | some (p1, _) =>
            PreloadFrames env count fuel
              { p1 with preload_frame_number_ := p1.preload_frame_number_ + 1 }
      else some p := rfl

/-- The `for` loop of `PreloadNextFrames`, whatever the input: no frame is counted, nothing is
dispatched, and the state stays `Record`. -/
theorem PreloadFrames_silent (env : Environment) (count fuel : Nat) :
    ∀ (p r : PreloadFileProcessor), p.status_ = PreloadStatus.kRecord →
      PreloadFrames env count fuel p = some r →
      r.current_frame_number_ = p.current_frame_number_ ∧ r.calls_ = p.calls_ ∧
        r.status_ = PreloadStatus.kRecord := by
  induction fuel with
  | zero => intro p r _ h; simp [PreloadFrames] at h
  | succ fuel ih =>
    intro p r hs h
    rw [PreloadFrames_succ] at h
    split_ifs at h with hlt
    · rcases hb : ReserveNextChunk env p with _ | b1
      · rw [hb] at h
        cases h
      · rw [hb] at h
        simp only at h
        rcases hp : ProcessNextFrame env { p with preload_buffer_ := b1 } with _ | ⟨p1, ok⟩
        · rw [hp] at h
          cases h
        · rw [hp] at h
          simp only at h
          obtain ⟨hc, hf, hs1⟩ := ProcessBlocksLoop_record env _
            { p with preload_buffer_ := b1 } (p1, ok) hs hp
          obtain ⟨h1, h2, h3⟩ := ih
            { p1 with preload_frame_number_ := p1.preload_frame_number_ + 1 } r hs1 h
          exact ⟨h1.trans hf, h2.trans hc, h3⟩
    · cases h
      exact ⟨rfl, rfl, hs⟩

/-- The `for` loop of `PreloadNextFrames` over frames of a well-formed trace: when it ends it has
recorded the frames, and it ends when no allocation fails. -/
theorem PreloadFrames_record (env : Environment) (handler : Bool) (rest : List Byte)
    (count : Nat) :
    ∀ (frames : List (List Block)) (k : Nat) (p : PreloadFileProcessor) (tail : List Block)
      (fuel : Nat),
      RecordAt env handler rest k p (framesBlocks frames ++ tail) →
      (∀ f ∈ frames, Delimited env handler f) →
      k + frames.length = count → frames.length < fuel →
      (∀ r, PreloadFrames env count fuel p = some r →
        RecordAt env handler rest count r tail ∧ RecordRun env p r (framesBlocks frames)) ∧
      ((∀ n, env.reserve_ok n = true) → ∃ r, PreloadFrames env count fuel p = some r) := by
  intro frames
  induction frames with
  | nil =>
    intro k p tail fuel hat _ hcount hfuel
    obtain ⟨fuel, rfl⟩ : ∃ j, fuel = j + 1 := ⟨fuel - 1, by simp at hfuel; omega⟩
    have hk : k = count := by simpa using hcount
    subst hk
    have hge : ¬ p.preload_frame_number_ < k := by rw [hat.preload_frame]; omega
    rw [PreloadFrames_succ, if_neg hge]
    refine ⟨?_, fun _ => ⟨p, rfl⟩⟩
    intro r hr
    cases hr
    exact ⟨hat, RecordRun.record_empty env p hat.status⟩
  | cons f frames ih =>
    intro k p tail fuel hat hall hcount hfuel
    obtain ⟨fuel, rfl⟩ : ∃ j, fuel = j + 1 := ⟨fuel - 1, by simp at hfuel; omega⟩
    have hlt : p.preload_frame_number_ < count := by
      rw [hat.preload_frame]
      simp at hcount
      omega
    rw [PreloadFrames_succ, if_pos hlt]
    rcases hb : ReserveNextChunk env p with _ | b1
    · refine ⟨fun r hr => (by cases hr), fun hok => ?_⟩
      obtain ⟨b, hb1⟩ := ReserveNextChunk_ok env hok p
      rw [hb] at hb1
      cases hb1
    · obtain ⟨hc, ho⟩ := ReserveNextChunk_container env p b1 hb
      have hat0 : RecordAt env handler rest k { p with preload_buffer_ := b1 }
          (f ++ (framesBlocks frames ++ tail)) := by
        have := hat
        rw [framesBlocks, List.append_assoc] at this
        exact ⟨this.status, this.preload_frame, this.same_handler, this.file, this.wf⟩
      obtain ⟨p1, hp, hat1, hr1⟩ := ProcessNextFrame_record env handler rest k _ f _ hat0
        (hall f (List.mem_cons_self _ _))
      have hat2 : RecordAt env handler rest (k + 1)
          { p1 with preload_frame_number_ := p1.preload_frame_number_ + 1 }
          (framesBlocks frames ++ tail) :=
        ⟨hat1.status, by show p1.preload_frame_number_ + 1 = k + 1; rw [hat1.preload_frame],
          hat1.same_handler, hat1.file, hat1.wf⟩
      obtain ⟨ih1, ih2⟩ := ih (k + 1) _ tail fuel hat2
        (fun g hg => hall g (List.mem_cons_of_mem _ hg))
        (by simp at hcount; omega) (by simp at hfuel; omega)
      simp only [hp]
      refine ⟨?_, ih2⟩
      intro r hr
      obtain ⟨hatr, hrr⟩ := ih1 r hr
      refine ⟨hatr, ?_⟩
      have hr0 : RecordRun env p p1 f :=
        ⟨hr1.status, hr1.file, hr1.pos, hr1.handler, hr1.calls, hr1.frame,
          by rw [hr1.container]; show b1.container_ ++ _ = _; rw [hc],
          by rw [hr1.replay_offset]; exact ho⟩
      have hr2 : RecordRun env p1 r (framesBlocks frames) :=
        ⟨hrr.status, hrr.file, hrr.pos, hrr.handler, hrr.calls, hrr.frame, hrr.container,
          hrr.replay_offset⟩
      exact hr0.record_append hr2

end decode
end gfxrecon
namespace gfxrecon
namespace decode

open PreloadFileProcessor

/-! ## What the preload buffer holds -/

theorem Block.call_of_skipped {env : Environment} {handler : Bool} {b : Block}
    (h : b.isSkipped env handler = true) :
    b.call env handler = none ∧ b.endsFrame env handler = false := by
  unfold Block.isSkipped at h
  unfold Block.call Block.endsFrame
  cases hk : blockKind env handler b.type with
  | call is_method => rw [hk] at h; cases h
  | data dispatch => rw [hk] at h; cases h
  | skipped => exact ⟨rfl, rfl⟩

theorem Block.not_skipped_of_endsFrame {env : Environment} {handler : Bool} {b : Block}
    (h : b.endsFrame env handler = true) : b.isSkipped env handler = false := by
  cases hs : b.isSkipped env handler
  · rfl
  · rw [(Block.call_of_skipped hs).2] at h
    cases h

theorem blocksCalls_bufferedBlocks (env : Environment) (handler : Bool) (bs : List Block) :
    blocksCalls env handler (bufferedBlocks env handler bs) = blocksCalls env handler bs := by
  induction bs with
  | nil => rfl
  | cons b bs ih =>
    simp only [bufferedBlocks]
    cases hs : b.isSkipped env handler
    · simp only [Bool.false_eq_true, if_false, blocksCalls, ih]
    · simp only [if_true, blocksCalls, (Block.call_of_skipped hs).1, ih]

theorem frameCount_bufferedBlocks (env : Environment) (handler : Bool) (bs : List Block) :
    frameCount env handler (bufferedBlocks env handler bs) = frameCount env handler bs := by
  induction bs with
  | nil => rfl
  | cons b bs ih =>
    have hcons : ∀ (c : Block) (cs : List Block), frameCount env handler (c :: cs) =
        frameCount env handler cs + if c.endsFrame env handler then 1 else 0 := by
      intro c cs
      simp [frameCount, List.countP_cons]
    simp only [bufferedBlocks]
    cases hs : b.isSkipped env handler
    · simp only [Bool.false_eq_true, if_false, hcons, ih]
    · simp only [if_true, hcons, (Block.call_of_skipped hs).2, ih, Bool.false_eq_true, if_false,
        Nat.add_zero]

theorem mem_bufferedBlocks {env : Environment} {handler : Bool} {bs : List Block} {b : Block} :
    b ∈ bufferedBlocks env handler bs ↔ b ∈ bs ∧ b.isSkipped env handler = false := by
  induction bs with
  | nil => simp [bufferedBlocks]
  | cons c bs ih =>
    simp only [bufferedBlocks]
    cases hs : c.isSkipped env handler
    · simp only [Bool.false_eq_true, if_false, List.mem_cons, ih]
      constructor
      · rintro (rfl | ⟨h1, h2⟩)
        · exact ⟨Or.inl rfl, hs⟩
        · exact ⟨Or.inr h1, h2⟩
      · rintro ⟨rfl | h1, h2⟩
        · exact Or.inl rfl
        · exact Or.inr ⟨h1, h2⟩
    · simp only [if_true, List.mem_cons, ih]
      constructor
      · rintro ⟨h1, h2⟩
        exact ⟨Or.inr h1, h2⟩
      · rintro ⟨rfl | h1, h2⟩
        · rw [hs] at h2
          cases h2
        · exact ⟨h1, h2⟩

theorem Delimited.buffered {env : Environment} {handler : Bool} {frame : List Block}
    (h : Delimited env handler frame) :
    Delimited env handler (bufferedBlocks env handler frame) := by
  obtain ⟨pre, d, rfl, hpre, hd⟩ := h
  refine ⟨bufferedBlocks env handler pre, d, ?_, ?_, hd⟩
  · rw [bufferedBlocks_append, bufferedBlocks_single, Block.not_skipped_of_endsFrame hd]
    rfl
  · intro b hb
    exact hpre b (mem_bufferedBlocks.1 hb).1

theorem bufferedBlocks_framesBlocks (env : Environment) (handler : Bool)
    (frames : List (List Block)) :
    bufferedBlocks env handler (framesBlocks frames) =
      framesBlocks (frames.map (bufferedBlocks env handler)) := by
  induction frames with
  | nil => rfl
  | cons f frames ih => simp only [framesBlocks, List.map_cons, bufferedBlocks_append, ih]

theorem traceBytes_ne_nil {bs : List Block} {b : Block} (h : b ∈ bs) : traceBytes bs ≠ [] := by
  induction bs with
  | nil => cases h
  | cons c bs ih =>
    intro hnil
    have hlen : (traceBytes (c :: bs)).length = 0 := by rw [hnil]; rfl
    rw [traceBytes, List.length_append, Block.bytes_length] at hlen
    simp [format.sizeofBlockHeader] at hlen

theorem Delimited.length_le {env : Environment} {handler : Bool} :
    ∀ {frames : List (List Block)}, (∀ f ∈ frames, Delimited env handler f) →
      frames.length ≤ (traceBytes (framesBlocks frames)).length := by
  intro frames
  induction frames with
  | nil => intro _; exact Nat.zero_le _
  | cons f frames ih =>
    intro h
    obtain ⟨pre, d, rfl, _, _⟩ := h f (List.mem_cons_self _ _)
    have := ih (fun g hg => h g (List.mem_cons_of_mem _ hg))
    simp only [framesBlocks, traceBytes_append, traceBytes_single, List.length_append,
      List.length_cons, Block.bytes_length, format.sizeofBlockHeader]
    omega

/-! ## `PreloadNextFrames` -/

/-- The loop of `GetRequiredByteSizeForFrames` ends when the file holds the frames it has to
pass. -/
theorem AdvanceToFrame_terminates (env : Environment) (rest : List Byte) (target : Nat) :
    ∀ (frames : List (List Block)) (file_processor : PreloadFileProcessor) (fuel : Nat),
      DirectAt env false rest file_processor (framesBlocks frames) →
      (∀ f ∈ frames, Delimited env false f) →
      target ≤ file_processor.current_frame_number_ + frames.length → frames.length < fuel →
      ∃ r, AdvanceToFrame env target fuel file_processor = some r := by
  intro frames
  induction frames with
  | nil =>
    intro fp fuel _ _ htarget hfuel
    obtain ⟨fuel, rfl⟩ : ∃ j, fuel = j + 1 := ⟨fuel - 1, by simp at hfuel; omega⟩
    have hge : ¬ fp.current_frame_number_ < target := by simp at htarget; omega
    exact ⟨fp, by simp only [AdvanceToFrame, if_neg hge]⟩
  | cons f frames ih =>
    intro fp fuel hat hall htarget hfuel
    obtain ⟨fuel, rfl⟩ : ∃ j, fuel = j + 1 := ⟨fuel - 1, by simp at hfuel; omega⟩
    by_cases hlt : fp.current_frame_number_ < target
    · have hf := hall f (List.mem_cons_self _ _)
      obtain ⟨fp1, hp, hat1, hr1⟩ := ProcessNextFrame_pass env false _ _
        (ProcessBlocksBody_directAt env false rest) (fun _ _ h => h.direct_at_counted)
        (fun _ _ _ h => h.direct_counted) (fun _ _ _ _ _ h1 h2 => h1.direct_append h2)
        fp f
        (framesBlocks frames) hat hf
      have hfr : fp1.current_frame_number_ = fp.current_frame_number_ + 1 := by
        rw [hr1.frame, hat.same_handler, frameCount_delimited hf]
      obtain ⟨r, hr⟩ := ih fp1 fuel hat1 (fun g hg => hall g (List.mem_cons_of_mem _ hg))
        (by simp at htarget; omega) (by simp at hfuel; omega)
      exact ⟨r, by simp only [AdvanceToFrame, if_pos hlt, hp]; exact hr⟩
    · exact ⟨fp, by simp only [AdvanceToFrame, if_neg hlt]⟩

/-- The function `GetRequiredByteSizeForFrames` returns when the file holds well-formed frames up
to the last one asked for. -/
theorem GetRequiredByteSizeForFrames_returns (env : Environment) (p : PreloadFileProcessor)
    (frame_count : Nat) (all : List (List Block)) (rest : List Byte)
    (hfile : p.file_data_ = traceBytes (framesBlocks all) ++ rest)
    (hall : ∀ f ∈ all, IsFrame env false f)
    (hcount : p.current_frame_number_ + frame_count ≤ kFirstFrame + all.length) :
    ∃ total, GetRequiredByteSizeForFrames env p frame_count = some total := by
  have hdel : ∀ f ∈ all, Delimited env false f := fun f hf => (hall f hf).delimited
  have hat : DirectAt env false rest (Initialize p.file_data_) (framesBlocks all) :=
    ⟨rfl, rfl, by show List.drop 0 p.file_data_ = _; rw [List.drop_zero, hfile],
      framesBlocks_wf hall⟩
  have hlen : all.length < p.file_data_.length + 1 := by
    have := Delimited.length_le hdel
    rw [hfile, List.length_append]
    omega
  obtain ⟨r, hr⟩ := AdvanceToFrame_terminates env rest (p.current_frame_number_ + frame_count)
    all (Initialize p.file_data_) (p.file_data_.length + 1) hat hdel hcount hlen
  exact ⟨(r.bytes_read_ + 2 ^ 64 - p.bytes_read_) % 2 ^ 64,
    by simp only [GetRequiredByteSizeForFrames, hr]⟩

theorem PreloadNextFrames_eq (env : Environment) (p : PreloadFileProcessor) (count : Nat) :
    PreloadNextFrames env p count =
      match GetRequiredByteSizeForFrames env p count with
      | none => none
      | some total_bytes_needed =>
        match PreloadFrames env count (count + 1)
            { p with
              preload_buffer_ := (p.preload_buffer_.Reserve env total_bytes_needed).1
              status_ := PreloadStatus.kRecord
              preload_frame_number_ := 0 } with
        | none => none
        | some p2 => some { p2 with status_ := PreloadStatus.kReplay } := rfl

/-- Whatever the input, `PreloadNextFrames` counts no frame and dispatches nothing, and leaves
the state `Replay`. -/
theorem PreloadNextFrames_silent (env : Environment) (p r : PreloadFileProcessor) (count : Nat)
    (h : PreloadNextFrames env p count = some r) :
    r.current_frame_number_ = p.current_frame_number_ ∧ r.calls_ = p.calls_ ∧
      r.status_ = PreloadStatus.kReplay := by
  rw [PreloadNextFrames_eq] at h
  rcases ht : GetRequiredByteSizeForFrames env p count with _ | total
  · rw [ht] at h
    cases h
  · rw [ht] at h
    simp only at h
    rcases hp : PreloadFrames env count (count + 1)
        { p with
          preload_buffer_ := (p.preload_buffer_.Reserve env total).1
          status_ := PreloadStatus.kRecord
          preload_frame_number_ := 0 } with _ | p2
    · rw [hp] at h
      cases h
    · rw [hp] at h
      cases h
      obtain ⟨h1, h2, _⟩ := PreloadFrames_silent env count _ _ p2 rfl hp
      exact ⟨h1, h2, rfl⟩

/-- On frames of a well-formed trace, with nothing left to replay, `PreloadNextFrames` leaves the
frames it has read at the read cursor of the preload buffer, and the file read position behind
them. -/
theorem PreloadNextFrames_records (env : Environment) (handler : Bool) (rest : List Byte)
    (frames : List (List Block)) (p r : PreloadFileProcessor)
    (hat : DirectAt env handler rest p (framesBlocks frames))
    (hall : ∀ f ∈ frames, Delimited env handler f) (hne : frames ≠ [])
    (hbuf : p.preload_buffer_.replay_offset_ = p.preload_buffer_.container_.length)
    (h : PreloadNextFrames env p frames.length = some r) :
    ReplayAt env handler r (bufferedBlocks env handler (framesBlocks frames)) ∧
      r.annotation_handler_ = p.annotation_handler_ ∧ FileAt r rest := by
  rw [PreloadNextFrames_eq] at h
  rcases ht : GetRequiredByteSizeForFrames env p frames.length with _ | total
  · rw [ht] at h
    cases h
  · rw [ht] at h
    simp only at h
    obtain ⟨hc, ho⟩ := Reserve_container env p.preload_buffer_ total
    rcases hp : PreloadFrames env frames.length (frames.length + 1)
        { p with
          preload_buffer_ := (p.preload_buffer_.Reserve env total).1
          status_ := PreloadStatus.kRecord
          preload_frame_number_ := 0 } with _ | p2
    · rw [hp] at h
      cases h
    · rw [hp] at h
      cases h
      have hat0 : RecordAt env handler rest 0
          { p with
            preload_buffer_ := (p.preload_buffer_.Reserve env total).1
            status_ := PreloadStatus.kRecord
            preload_frame_number_ := 0 } (framesBlocks frames ++ []) :=
        ⟨rfl, rfl, hat.same_handler, by rw [List.append_nil]; exact hat.file,
          by rw [List.append_nil]; exact hat.wf⟩
      obtain ⟨hat2, hrun⟩ := (PreloadFrames_record env handler rest frames.length frames 0 _ []
        (frames.length + 1) hat0 hall (Nat.zero_add _) (Nat.lt_succ_self _)).1 p2 hp
      have hcont : p2.preload_buffer_.container_ = p.preload_buffer_.container_ ++
          traceBytes (bufferedBlocks env handler (framesBlocks frames)) := by
        rw [hrun.container]
        show (p.preload_buffer_.Reserve env total).1.container_ ++
          traceBytes (bufferedBlocks env p.annotation_handler_ (framesBlocks frames)) = _
        rw [hc, hat.same_handler]
      have hoff : p2.preload_buffer_.replay_offset_ = p.preload_buffer_.container_.length := by
        rw [hrun.replay_offset]
        show (p.preload_buffer_.Reserve env total).1.replay_offset_ = _
        rw [ho, hbuf]
      have hnonempty : traceBytes (bufferedBlocks env handler (framesBlocks frames)) ≠ [] := by
        cases frames with
        | nil => exact absurd rfl hne
        | cons f frames =>
          obtain ⟨pre, d, rfl, _, hd⟩ := hall f (List.mem_cons_self _ _)
          apply traceBytes_ne_nil (b := d)
          rw [mem_bufferedBlocks]
          exact ⟨by simp [framesBlocks], Block.not_skipped_of_endsFrame hd⟩
      refine ⟨⟨hat2.same_handler, ⟨?_, ?_⟩, ?_⟩, hrun.handler, ?_⟩
      · show List.drop p2.preload_buffer_.replay_offset_ p2.preload_buffer_.container_ = _
        rw [hcont, hoff]
        exact List.drop_left' rfl
      · show PreloadStatus.kReplay = _
        rw [if_neg]
        intro hemp
        exact hnonempty (List.isEmpty_iff.1 hemp)
      · intro b hb
        obtain ⟨hm, hsk⟩ := mem_bufferedBlocks.1 hb
        exact ⟨hat.wf b hm, hsk⟩
      · exact hat2.file

/-- On frames of a well-formed trace `PreloadNextFrames` returns when no allocation fails and the
file holds well-formed frames up to the last one asked for. -/
theorem PreloadNextFrames_returns (env : Environment) (handler : Bool) (rest : List Byte)
    (frames : List (List Block)) (p : PreloadFileProcessor)
    (hat : DirectAt env handler rest p (framesBlocks frames))
    (hall : ∀ f ∈ frames, Delimited env handler f) (hok : ∀ n, env.reserve_ok n = true)
    (hsize : ∃ total, GetRequiredByteSizeForFrames env p frames.length = some total) :
    ∃ r, PreloadNextFrames env p frames.length = some r := by
  obtain ⟨total, ht⟩ := hsize
  have hat0 : RecordAt env handler rest 0
      { p with
        preload_buffer_ := (p.preload_buffer_.Reserve env total).1
        status_ := PreloadStatus.kRecord
        preload_frame_number_ := 0 } (framesBlocks frames ++ []) :=
    ⟨rfl, rfl, hat.same_handler, by rw [List.append_nil]; exact hat.file,
      by rw [List.append_nil]; exact hat.wf⟩
  obtain ⟨p2, hp⟩ := (PreloadFrames_record env handler rest frames.length frames 0 _ []
    (frames.length + 1) hat0 hall (Nat.zero_add _) (Nat.lt_succ_self _)).2 hok
  exact ⟨{ p2 with status_ := PreloadStatus.kReplay },
    by rw [PreloadNextFrames_eq, ht]; simp only [hp]⟩

end decode
end gfxrecon
namespace gfxrecon
namespace decode

open PreloadFileProcessor

/-! ## Preloading and replaying frames -/

theorem DirectAt.of_frames {env : Environment} {p : PreloadFileProcessor}
    {frames : List (List Block)} {rest : List Byte}
    (hs : p.status_ = PreloadStatus.kInactive)
    (hfile : FileAt p (traceBytes (framesBlocks frames) ++ rest))
    (hframes : ∀ f ∈ frames, IsFrame env p.annotation_handler_ f) :
    DirectAt env p.annotation_handler_ rest p (framesBlocks frames) :=
  ⟨hs, rfl, hfile, framesBlocks_wf hframes⟩

/-- The direct replay of frames of a well-formed trace dispatches the calls of their blocks, in
order, and counts the frames. -/
theorem direct_frames (env : Environment) (p : PreloadFileProcessor)
    (frames : List (List Block)) (rest : List Byte)
    (hs : p.status_ = PreloadStatus.kInactive)
    (hfile : FileAt p (traceBytes (framesBlocks frames) ++ rest))
    (hframes : ∀ f ∈ frames, IsFrame env p.annotation_handler_ f) :
    ∃ direct, ProcessFrames env frames.length p = some direct ∧
      direct.calls_ = p.calls_ ++ blocksCalls env p.annotation_handler_ (framesBlocks frames) ∧
      direct.current_frame_number_ = p.current_frame_number_ + frames.length := by
  have hat := DirectAt.of_frames hs hfile hframes
  have hdel : ∀ f ∈ frames, Delimited env p.annotation_handler_ f :=
    fun f hf => (hframes f hf).delimited
  obtain ⟨direct, hd, _, hrun⟩ := ProcessFrames_direct env p.annotation_handler_ rest frames p []
    (by rw [List.append_nil]; exact hat) hdel
  exact ⟨direct, hd, hrun.calls, by rw [hrun.frame, frameCount_framesBlocks hdel]⟩

/-- The replay of frames of a well-formed trace that `PreloadNextFrames` has preloaded dispatches
the calls of their blocks, in order, and counts the frames. -/
theorem preloaded_frames (env : Environment) (p : PreloadFileProcessor)
    (frames : List (List Block)) (rest : List Byte)
    (hs : p.status_ = PreloadStatus.kInactive)
    (hbuf : p.preload_buffer_.replay_offset_ = p.preload_buffer_.container_.length)
    (hfile : FileAt p (traceBytes (framesBlocks frames) ++ rest))
    (hframes : ∀ f ∈ frames, IsFrame env p.annotation_handler_ f)
    (preloaded : PreloadFileProcessor)
    (h : PreloadNextFrames env p frames.length = some preloaded) :
    ∃ replayed, ProcessFrames env frames.length preloaded = some replayed ∧
      replayed.calls_ = p.calls_ ++ blocksCalls env p.annotation_handler_ (framesBlocks frames) ∧
      replayed.current_frame_number_ = p.current_frame_number_ + frames.length := by
  obtain ⟨hfr, hcalls, _⟩ := PreloadNextFrames_silent env p preloaded _ h
  by_cases hne : frames = []
  · subst hne
    exact ⟨preloaded, rfl, by simpa [framesBlocks, blocksCalls] using hcalls, hfr⟩
  · have hat := DirectAt.of_frames hs hfile hframes
    have hdel : ∀ f ∈ frames, Delimited env p.annotation_handler_ f :=
      fun f hf => (hframes f hf).delimited
    obtain ⟨hrep, hh, _⟩ := PreloadNextFrames_records env p.annotation_handler_ rest frames p
      preloaded hat hdel hne hbuf h
    rw [bufferedBlocks_framesBlocks] at hrep
    have hdel2 : ∀ f ∈ frames.map (bufferedBlocks env p.annotation_handler_),
        Delimited env p.annotation_handler_ f := by
      intro f hf
      obtain ⟨g, hg, rfl⟩ := List.mem_map.1 hf
      exact (hdel g hg).buffered
    obtain ⟨replayed, hr, _, hrun⟩ := ProcessFrames_replay env p.annotation_handler_
      (frames.map (bufferedBlocks env p.annotation_handler_)) preloaded []
      (by rw [List.append_nil]; exact hrep) hdel2
    rw [List.length_map] at hr
    refine ⟨replayed, hr, ?_, ?_⟩
    · rw [hrun.calls, hh, hcalls, ← bufferedBlocks_framesBlocks, blocksCalls_bufferedBlocks]
    · rw [hrun.frame, hh, hfr, ← bufferedBlocks_framesBlocks, frameCount_bufferedBlocks,
        frameCount_framesBlocks hdel]

theorem sampleFrames_file :
    FileAt sampleProcessor (traceBytes (framesBlocks sampleFrames) ++ []) := by
  unfold FileAt
  decide

theorem sampleFrames_frames (handler : Bool) :
    ∀ f ∈ sampleFrames, IsFrame sampleEnvironment handler f := by
  intro f hf
  simp only [sampleFrames, List.mem_cons, List.mem_singleton, List.not_mem_nil, or_false] at hf
  rcases hf with rfl | rfl
  · refine ⟨[{ type := 4, payload := [1, 0, 0, 0, 7, 8] }, { type := 9, payload := [1, 2, 3] }],
      { type := 6, payload := [0, 16, 0, 0] }, rfl, ?_, ?_, ?_⟩
    · intro b hb
      simp only [List.mem_cons, List.mem_singleton, List.not_mem_nil, or_false] at hb
      rcases hb with rfl | rfl
      · cases handler <;> exact ⟨⟨by decide, by decide, fun _ => by decide⟩, by decide⟩
      · cases handler <;> exact ⟨⟨by decide, by decide, fun h => absurd h (by decide)⟩, by decide⟩
    · cases handler <;> exact ⟨by decide, by decide, fun _ => by decide⟩
    · cases handler <;> decide
  · refine ⟨[], { type := 6, payload := [0, 16, 0, 0, 9] }, rfl, ?_, ?_, ?_⟩
    · intro b hb
      cases hb
    · cases handler <;> exact ⟨by decide, by decide, fun _ => by decide⟩
    · cases handler <;> decide

theorem sample_preload_returns :
    ∃ preloaded, PreloadNextFrames sampleEnvironment sampleProcessor sampleFrames.length =
      some preloaded :=
  PreloadNextFrames_returns sampleEnvironment false [] sampleFrames sampleProcessor
    (DirectAt.of_frames rfl sampleFrames_file (sampleFrames_frames false))
    (fun f hf => (sampleFrames_frames false f hf).delimited) (fun _ => rfl)
    (GetRequiredByteSizeForFrames_returns sampleEnvironment sampleProcessor sampleFrames.length
      sampleFrames [] (by decide) (sampleFrames_frames false) (by decide))

/-- C7: preload equivalence. Let the processor be in `Inactive` state with nothing left to
replay in its preload buffer, its file read position at `n` frames of a well-formed trace
(`frames`, `n = frames.length`). Then `n` calls of `ProcessNextFrame` return and dispatch the
calls of the blocks of these frames, in order; and when `PreloadNextFrames(n)` returns, it has
dispatched nothing, and the `n` calls of `ProcessNextFrame` after it return and leave the same
dispatch calls: the sequence of `ProcessFunctionCall` / `ProcessMethodCall` invocations (block
header and API-call id) made since the start is the same in both runs. `PreloadNextFrames(n)`
does return when no allocation fails and the file holds well-formed frames up to the last one
asked for. -/
theorem preload_equivalence (env : Environment) (p : PreloadFileProcessor)
    (frames : List (List Block)) (rest : List Byte)
    (hs : p.status_ = PreloadStatus.kInactive)
    (hbuf : p.preload_buffer_.replay_offset_ = p.preload_buffer_.container_.length)
    (hfile : FileAt p (traceBytes (framesBlocks frames) ++ rest))
    (hframes : ∀ f ∈ frames, IsFrame env p.annotation_handler_ f) :
    (∃ direct, ProcessFrames env frames.length p = some direct ∧
      direct.calls_ = p.calls_ ++ blocksCalls env p.annotation_handler_ (framesBlocks frames) ∧
      ∀ preloaded, PreloadNextFrames env p frames.length = some preloaded →
        preloaded.calls_ = p.calls_ ∧
        ∃ replayed, ProcessFrames env frames.length preloaded = some replayed ∧
          replayed.calls_ = direct.calls_ ∧
          callSequence (replayed.calls_.drop p.calls_.length) =
            callSequence (direct.calls_.drop p.calls_.length)) ∧
    ((∀ n, env.reserve_ok n = true) →
      (∃ all rest0, p.file_data_ = traceBytes (framesBlocks all) ++ rest0 ∧
        (∀ f ∈ all, IsFrame env false f) ∧
        p.current_frame_number_ + frames.length ≤ kFirstFrame + all.length) →
      ∃ preloaded, PreloadNextFrames env p frames.length = some preloaded) := by
  obtain ⟨direct, hd, hdc, _⟩ := direct_frames env p frames rest hs hfile hframes
  refine ⟨⟨direct, hd, hdc, ?_⟩, ?_⟩
  · intro preloaded hp
    obtain ⟨replayed, hr, hrc, _⟩ :=
      preloaded_frames env p frames rest hs hbuf hfile hframes preloaded hp
    have heq : replayed.calls_ = direct.calls_ := by rw [hrc, hdc]
    exact ⟨(PreloadNextFrames_silent env p preloaded _ hp).2.1, replayed, hr, heq, by rw [heq]⟩
  · rintro hok ⟨all, rest0, hall_file, hall, hcount⟩
    exact PreloadNextFrames_returns env p.annotation_handler_ rest frames p
      (DirectAt.of_frames hs hfile hframes) (fun f hf => (hframes f hf).delimited) hok
      (GetRequiredByteSizeForFrames_returns env p frames.length all rest0 hall_file hall hcount)

/-- Witness of C7: the two frames of the sample trace, preloaded and replayed, and replayed
directly. -/
theorem preload_equivalence_witness :
    ∃ direct preloaded replayed,
      ProcessFrames sampleEnvironment 2 sampleProcessor = some direct ∧
      PreloadNextFrames sampleEnvironment sampleProcessor 2 = some preloaded ∧
      ProcessFrames sampleEnvironment 2 preloaded = some replayed ∧
      callSequence (replayed.calls_.drop sampleProcessor.calls_.length) =
        callSequence (direct.calls_.drop sampleProcessor.calls_.length) := by
  obtain ⟨⟨direct, hd, _, hall⟩, hret⟩ := preload_equivalence sampleEnvironment sampleProcessor
    sampleFrames [] rfl rfl sampleFrames_file (sampleFrames_frames false)
  obtain ⟨preloaded, hp⟩ := hret (fun _ => rfl)
    ⟨sampleFrames, [], by decide, sampleFrames_frames false, by decide⟩
  obtain ⟨_, replayed, hr, _, hseq⟩ := hall preloaded hp
  exact ⟨direct, preloaded, replayed, hd, hp, hr, hseq⟩

/-- C8: `current_frame_number_` and the passes of `ProcessBlocks`. A pass returns, whatever the
input. In `Record` state it leaves `current_frame_number_` as it was. In `Replay` or `Inactive`
state it either dispatches no frame-delimiting call and leaves `current_frame_number_` as it was,
or it dispatches calls that are not frame-delimiting followed by one frame-delimiting function or
method call, which is the last call of the pass, and `current_frame_number_` is one more.
`PreloadNextFrames(n)`, when it returns, leaves `current_frame_number_` as it was. And when `n`
frames of a well-formed trace are preloaded (from `Inactive` state with nothing left to replay)
and then replayed by `n` calls of `ProcessNextFrame`, `current_frame_number_` is unchanged after
the preload and `n` more after the replay. -/
theorem frame_number_advance (env : Environment) (p : PreloadFileProcessor) :
    (∃ r, ProcessBlocks env p = some r ∧
      (p.status_ = PreloadStatus.kRecord →
        r.1.current_frame_number_ = p.current_frame_number_) ∧
      (p.status_ ≠ PreloadStatus.kRecord →
        ∃ new, r.1.calls_ = p.calls_ ++ new ∧
          PassOutcome env p.current_frame_number_ r.1.current_frame_number_ new)) ∧
    (∀ n preloaded, PreloadNextFrames env p n = some preloaded →
      preloaded.current_frame_number_ = p.current_frame_number_) ∧
    (∀ (frames : List (List Block)) (rest : List Byte),
      p.status_ = PreloadStatus.kInactive →
      p.preload_buffer_.replay_offset_ = p.preload_buffer_.container_.length →
      FileAt p (traceBytes (framesBlocks frames) ++ rest) →
      (∀ f ∈ frames, IsFrame env p.annotation_handler_ f) →
      ∀ preloaded, PreloadNextFrames env p frames.length = some preloaded →
        preloaded.current_frame_number_ = p.current_frame_number_ ∧
        ∃ replayed, ProcessFrames env frames.length preloaded = some replayed ∧
          replayed.current_frame_number_ = p.current_frame_number_ + frames.length) := by
  refine ⟨?_, ?_, ?_⟩
  · obtain ⟨r, hr⟩ := ProcessBlocks_terminates env p
    refine ⟨r, hr, ?_, ?_⟩
    · intro hs
      exact (ProcessBlocksLoop_record env _ p r hs hr).2.1
    · intro hs
      exact (ProcessBlocksLoop_outcome env _ p r hs hr).2
  · intro n preloaded hp
    exact (PreloadNextFrames_silent env p preloaded n hp).1
  · intro frames rest hs hbuf hfile hframes preloaded hp
    obtain ⟨replayed, hr, _, hfr⟩ :=
      preloaded_frames env p frames rest hs hbuf hfile hframes preloaded hp
    exact ⟨(PreloadNextFrames_silent env p preloaded _ hp).1, replayed, hr, hfr⟩

/-- Witness of C8: preloading the two frames of the sample trace leaves the frame number 1, and
replaying them makes it 3. -/
theorem frame_number_advance_witness :
    ∃ preloaded replayed,
      PreloadNextFrames sampleEnvironment sampleProcessor 2 = some preloaded ∧
      preloaded.current_frame_number_ = 1 ∧
      ProcessFrames sampleEnvironment 2 preloaded = some replayed ∧
      replayed.current_frame_number_ = 1 + 2 := by
  obtain ⟨preloaded, hp⟩ := sample_preload_returns
  obtain ⟨hfr, replayed, hr, hfr2⟩ :=
    (frame_number_advance sampleEnvironment sampleProcessor).2.2 sampleFrames [] rfl rfl
      sampleFrames_file (sampleFrames_frames false) preloaded hp
  exact ⟨preloaded, replayed, hp, hfr, hr, hfr2⟩

end decode
end gfxrecon
namespace gfxrecon
namespace decode

open PreloadFileProcessor

/-! ## The header read of the block loop -/

theorem CountBlock_error_state (p : PreloadFileProcessor) :
    (CountBlock p).error_state_ = p.error_state_ := by
  unfold CountBlock
  split_ifs <;> rfl

/-- A pass whose first header read fails ends there. -/
theorem ProcessBlocks_header_failure (env : Environment) (p : PreloadFileProcessor)
    (hfail : (p.ReadBytes format.sizeofBlockHeader).2.2 = false) :
    ProcessBlocks env p =
      some (CountBlock
        (if (p.ReadBytes format.sizeofBlockHeader).1.file_eof_ = false then
          { (p.ReadBytes format.sizeofBlockHeader).1 with
            error_state_ := Error.kErrorReadingBlockHeader }
         else (p.ReadBytes format.sizeofBlockHeader).1), false) := by
  have hbody : ProcessBlocksBody env p =
      (if (p.ReadBytes format.sizeofBlockHeader).1.file_eof_ = false then
          { (p.ReadBytes format.sizeofBlockHeader).1 with
            error_state_ := Error.kErrorReadingBlockHeader }
         else (p.ReadBytes format.sizeofBlockHeader).1, false, false) := by
    rw [ProcessBlocksBody_eq, hfail]
    simp only [Bool.false_eq_true, if_false]
    split_ifs <;> rfl
  unfold ProcessBlocks
  rw [ProcessBlocksLoop_succ, hbody]
  simp only [Bool.false_eq_true, if_false]

/-- The claim of C11 fails for a partial header: the file of `partialHeaderProcessor` ends after
five bytes of a header, the pass ends, and no error is recorded. -/
theorem header_read_failure_counterexample :
    fileBytes partialHeaderProcessor format.sizeofBlockHeader = [4, 0, 0, 0, 6] ∧
    ∃ r, ProcessBlocks sampleEnvironment partialHeaderProcessor = some (r, false) ∧
      r.error_state_ ≠ Error.kErrorReadingBlockHeader :=
  ⟨by decide, _, rfl, by decide⟩

/-- C11, amended: the header read of `ProcessBlocks`. Outside `Replay` state, when fewer bytes
than a block header are left in the file (none, or part of a header), the pass ends with result
`false`, `error_state_` is left as it was and nothing is dispatched. In `Replay` state, when
fewer bytes than a block header are left in the preload buffer, the pass ends with result
`false`, and `error_state_` becomes `kErrorReadingBlockHeader` exactly when the end-of-file
indicator of the file is clear. -/
theorem header_read_failure (env : Environment) (p : PreloadFileProcessor) :
    (p.status_ ≠ PreloadStatus.kReplay →
      p.file_data_.length - p.file_pos_ < format.sizeofBlockHeader →
      ∃ r, ProcessBlocks env p = some (r, false) ∧ r.error_state_ = p.error_state_ ∧
        r.calls_ = p.calls_) ∧
    (p.status_ = PreloadStatus.kReplay →
      p.preload_buffer_.container_.length - p.preload_buffer_.replay_offset_ <
        format.sizeofBlockHeader →
      ∃ r, ProcessBlocks env p = some (r, false) ∧
        r.error_state_ =
          (if p.file_eof_ = true then p.error_state_ else Error.kErrorReadingBlockHeader) ∧
        r.calls_ = p.calls_) := by
  constructor
  · intro hs hlen
    have hfb : (fileBytes p format.sizeofBlockHeader).length < format.sizeofBlockHeader := by
      simp only [fileBytes, List.length_take, List.length_drop]
      omega
    have hread := ReadBytes_file p format.sizeofBlockHeader hs
    have hfail : (p.ReadBytes format.sizeofBlockHeader).2.2 = false := by
      rw [hread]
      simp only [decide_eq_false_iff_not]
      omega
    have heof : (p.ReadBytes format.sizeofBlockHeader).1.file_eof_ = true := by
      rw [hread]
      simp only [Bool.or_eq_true, decide_eq_true_eq]
      exact Or.inr hfb
    refine ⟨_, ProcessBlocks_header_failure env p hfail, ?_, ?_⟩
    · rw [CountBlock_error_state, heof]
      simp only [Bool.true_eq_false, if_false]
      rw [hread]
    · rw [CountBlock_calls, heof]
      simp only [Bool.true_eq_false, if_false]
      rw [hread]
  · intro hs hlen
    have hbb : (bufferBytes p format.sizeofBlockHeader).length < format.sizeofBlockHeader := by
      simp only [bufferBytes, List.length_take, List.length_drop]
      omega
    have hread := ReadBytes_replay p format.sizeofBlockHeader hs
    have hfail : (p.ReadBytes format.sizeofBlockHeader).2.2 = false := by
      rw [hread]
      simp only [decide_eq_false_iff_not]
      omega
    have heof : (p.ReadBytes format.sizeofBlockHeader).1.file_eof_ = p.file_eof_ := by
      rw [hread]
    have herr : (p.ReadBytes format.sizeofBlockHeader).1.error_state_ = p.error_state_ := by
      rw [hread]
    have hcalls : (p.ReadBytes format.sizeofBlockHeader).1.calls_ = p.calls_ := by
      rw [hread]
    refine ⟨_, ProcessBlocks_header_failure env p hfail, ?_, ?_⟩
    · rw [CountBlock_error_state, heof]
      cases p.file_eof_
      · simp
      · simpa using herr
    · rw [CountBlock_calls, heof]
      cases p.file_eof_
      · simpa using hcalls
      · simpa using hcalls

/-- Witness of C11: the file of `partialHeaderProcessor`, and the sample processor in `Replay`
state with an empty preload buffer. -/
theorem header_read_failure_witness :
    (∃ r, ProcessBlocks sampleEnvironment partialHeaderProcessor = some (r, false) ∧
      r.error_state_ = Error.kErrorNone ∧ r.calls_ = []) ∧
    (∃ r, ProcessBlocks sampleEnvironment
        { sampleProcessor with status_ := PreloadStatus.kReplay } = some (r, false) ∧
      r.error_state_ = Error.kErrorReadingBlockHeader ∧ r.calls_ = []) :=
  ⟨(header_read_failure sampleEnvironment partialHeaderProcessor).1 (by decide) (by decide),
    (header_read_failure sampleEnvironment
      { sampleProcessor with status_ := PreloadStatus.kReplay }).2 rfl (by decide)⟩

/-! ## The type dispatch of the block loop -/

theorem RemoveCompressedBlockBit_add (t : Nat) :
    format.RemoveCompressedBlockBit (t + 2 ^ 31) = format.RemoveCompressedBlockBit t := by
  simp [format.RemoveCompressedBlockBit]

/-- The claim of C12 fails for state markers: type 2 is the state marker type, and a block of
type 2 is dispatched to `ProcessStateMarker`, while the same block with the compression bit set
in its type is skipped (nothing is dispatched). The same holds for annotation blocks (type 5). -/
theorem masked_dispatch_counterexample :
    format.RemoveCompressedBlockBit (2 + 2 ^ 31) = format.RemoveCompressedBlockBit 2 ∧
    (ProcessBlocksBody sampleEnvironment (sampleBlockProcessor 2)).1.calls_ =
      [DecoderCall.state_marker (sampleBlock 2).header 1 [7]] ∧
    (ProcessBlocksBody sampleEnvironment (sampleBlockProcessor (2 + 2 ^ 31))).1.calls_ = [] ∧
    (ProcessBlocksBody sampleEnvironment (sampleBlockProcessor 5)).1.calls_ =
      [DecoderCall.annotation_block (sampleBlock 5).header 1 [7]] ∧
    (ProcessBlocksBody sampleEnvironment (sampleBlockProcessor (5 + 2 ^ 31))).1.calls_ = [] := by
  refine ⟨by decide, ?_, ?_, ?_, ?_⟩ <;> decide

/-- C12, amended: the type dispatch of `ProcessBlocks`. After a header read that succeeds, a turn
of the loop takes the branch `blockKind` selects from the header type. For two header types with
the same masked value, one of which masks to the function call, method call or metadata type,
the branch is the same. State marker and annotation blocks are recognised by their unmasked
type: when these two type constants have the compression bit clear, a type with the compression
bit set that does not mask to the function call, method call or metadata type is skipped. -/
theorem masked_dispatch (env : Environment) (handler : Bool) (t u : Nat)
    (hmask : format.RemoveCompressedBlockBit t = format.RemoveCompressedBlockBit u) :
    (∀ p : PreloadFileProcessor, (p.ReadBytes format.sizeofBlockHeader).2.2 = true →
      ProcessBlocksBody env p =
        ProcessBlockOfKind env (p.ReadBytes format.sizeofBlockHeader).1
          (format.BlockHeader.ofBytes (p.ReadBytes format.sizeofBlockHeader).2.1)
          (blockKind env (p.ReadBytes format.sizeofBlockHeader).1.annotation_handler_
            (format.BlockHeader.ofBytes (p.ReadBytes format.sizeofBlockHeader).2.1).type)) ∧
    ((format.RemoveCompressedBlockBit t = env.kFunctionCallBlock ∨
        format.RemoveCompressedBlockBit t = env.kMethodCallBlock ∨
        format.RemoveCompressedBlockBit t = env.kMetaDataBlock) →
      blockKind env handler t = blockKind env handler u) ∧
    (¬ (format.RemoveCompressedBlockBit t = env.kFunctionCallBlock ∨
        format.RemoveCompressedBlockBit t = env.kMethodCallBlock ∨
        format.RemoveCompressedBlockBit t = env.kMetaDataBlock) →
      env.kStateMarkerBlock < 2 ^ 31 → env.kAnnotation < 2 ^ 31 → 2 ^ 31 ≤ t →
      blockKind env handler t = BlockKind.skipped) := by
  refine ⟨fun p hp => ProcessBlocksBody_kind env p hp, ?_, ?_⟩
  · intro hkind
    unfold blockKind
    rw [← hmask]
    rcases hkind with h | h | h
    · simp only [h, if_true]
    · by_cases h1 : format.RemoveCompressedBlockBit t = env.kFunctionCallBlock
      · simp only [h1, if_true]
      · simp only [h1, if_false, h, if_true]
    · by_cases h1 : format.RemoveCompressedBlockBit t = env.kFunctionCallBlock
      · simp only [h1, if_true]
      · by_cases h2 : format.RemoveCompressedBlockBit t = env.kMethodCallBlock
        · simp only [h1, if_false, h2, if_true]
        · simp only [h1, if_false, h2, h, if_true]
  · intro hkind hstate hannot ht
    have h1 : ¬ format.RemoveCompressedBlockBit t = env.kFunctionCallBlock :=
      fun h => hkind (Or.inl h)
    have h2 : ¬ format.RemoveCompressedBlockBit t = env.kMethodCallBlock :=
      fun h => hkind (Or.inr (Or.inl h))
    have h3 : ¬ format.RemoveCompressedBlockBit t = env.kMetaDataBlock :=
      fun h => hkind (Or.inr (Or.inr h))
    have h4 : ¬ t = env.kStateMarkerBlock := by omega
    have h5 : ¬ t = env.kAnnotation := by omega
    unfold blockKind
    simp only [h1, h2, h3, h4, h5, if_false]

/-- Witness of C12: a compressed function call block (type 4 with the compression bit) takes the
branch of type 4, and a state marker type with the compression bit is skipped. -/
theorem masked_dispatch_witness :
    blockKind sampleEnvironment true (4 + 2 ^ 31) = blockKind sampleEnvironment true 4 ∧
    blockKind sampleEnvironment true (2 + 2 ^ 31) = BlockKind.skipped :=
  ⟨(masked_dispatch sampleEnvironment true (4 + 2 ^ 31) 4 (by decide)).2.1 (Or.inl (by decide)),
    (masked_dispatch sampleEnvironment true (2 + 2 ^ 31) 2 (by decide)).2.2 (by decide)
      (by decide) (by decide) (by decide)⟩

/-! ## The reserve loop of `PreloadNextFrames` -/

theorem Reserve_failure (env : Environment) (b : PreloadBuffer) (n : Nat)
    (h : (b.Reserve env n).2 = false) : b.Reserve env n = (b, false) := by
  unfold PreloadBuffer.Reserve at h ⊢
  simp only at h ⊢
  split_ifs at h ⊢ with h1 h2
  rfl

theorem ReserveChunk_succ (env : Environment) (fuel : Nat) (b : PreloadBuffer) (n : Nat) :
    ReserveChunk env (fuel + 1) b n =
      if n > 1 then
        if (b.Reserve env n).2 = true then some ((b.Reserve env n).1, n)
        else ReserveChunk env fuel (b.Reserve env n).1 (retryChunkSize n)
      else some (b, n) := by
  rw [ReserveChunk]
  split_ifs with h1 h2
  · rcases hr : b.Reserve env n with ⟨b1, ok⟩
    rw [hr] at h2
    simp only at h2
    subst h2
    rfl
  · rcases hr : b.Reserve env n with ⟨b1, ok⟩
    rw [hr] at h2
    simp only [Bool.not_eq_true] at h2
    subst h2
    rfl
  · rfl

theorem retryChunkSize_le (n : Nat) : retryChunkSize n ≤ n := by
  unfold retryChunkSize
  omega

theorem retryChunkSize_pos (n : Nat) (h : 1 ≤ n) : 1 ≤ retryChunkSize n := by
  unfold retryChunkSize
  omega

theorem retryChunkSize_iterate (k c : Nat) :
    retryChunkSize^[k] c ≤ c ∧ (1 ≤ c → 1 ≤ retryChunkSize^[k] c) := by
  induction k with
  | zero => exact ⟨Nat.le_refl _, fun h => h⟩
  | succ k ih =>
    rw [Function.iterate_succ_apply']
    exact ⟨Nat.le_trans (retryChunkSize_le _) ih.1, fun h => retryChunkSize_pos _ (ih.2 h)⟩

/-- The reserve loop after `k` failed attempts. -/
theorem ReserveChunk_failures (env : Environment) (b : PreloadBuffer) (k : Nat) :
    ∀ (fuel c : Nat),
      (∀ i < k, 1 < retryChunkSize^[i] c ∧
        (b.Reserve env (retryChunkSize^[i] c)).2 = false) →
      ReserveChunk env (fuel + k) b c = ReserveChunk env fuel b (retryChunkSize^[k] c) := by
  induction k with
  | zero => intro fuel c _; rfl
  | succ k ih =>
    intro fuel c h
    obtain ⟨h1, h2⟩ := h 0 (Nat.succ_pos _)
    simp only [Function.iterate_zero, id_eq] at h1 h2
    have hstep : ReserveChunk env (fuel + k + 1) b c =
        ReserveChunk env (fuel + k) b (retryChunkSize c) := by
      rw [ReserveChunk_succ, if_pos h1, Reserve_failure env b c h2]
      simp only [Bool.false_eq_true, if_false]
    rw [← Nat.add_assoc, hstep, Function.iterate_succ_apply]
    apply ih
    intro i hi
    have := h (i + 1) (Nat.succ_lt_succ hi)
    rwa [Function.iterate_succ_apply] at this

/-- The claim of C13 fails at the first retry: with an allocator that refuses one mebibyte, the
first request of a fresh processor is 1048576 bytes, it fails, and the request that follows and
succeeds is 943719 bytes (nine tenths), not the half, 524288. -/
theorem reserve_retry_counterexample :
    sampleProcessor.GetNextBufferChunkSize = 1048576 ∧
    (sampleProcessor.preload_buffer_.Reserve smallMemoryEnvironment 1048576).2 = false ∧
    ReserveChunk smallMemoryEnvironment 2 sampleProcessor.preload_buffer_ 1048576 =
      some ({ capacity_ := 943719 }, 943719) ∧
    943719 ≠ 1048576 / 2 := by
  refine ⟨by decide, by decide, by decide, by decide⟩

/-- C13, amended: the reserve loop of `PreloadNextFrames`. A request that fails while it is
above 1 byte is followed by the request less its tenth (`n - n / 10`), not by its half: after
`k` consecutive failures of an initial request `c` the loop goes on with the request
`retryChunkSize^[k] c`, which is at most `c` and at least 1 when `c` is; and when that request
is at most 1 or its `Reserve` succeeds, the loop ends with it. -/
theorem reserve_retry (env : Environment) (b : PreloadBuffer) (k fuel c : Nat)
    (hfail : ∀ i < k, 1 < retryChunkSize^[i] c ∧
      (b.Reserve env (retryChunkSize^[i] c)).2 = false) :
    ReserveChunk env (fuel + k) b c = ReserveChunk env fuel b (retryChunkSize^[k] c) ∧
    (∀ n, retryChunkSize n = n - n / 10) ∧
    retryChunkSize^[k] c ≤ c ∧ (1 ≤ c → 1 ≤ retryChunkSize^[k] c) ∧
    (retryChunkSize^[k] c ≤ 1 ∨ (b.Reserve env (retryChunkSize^[k] c)).2 = true →
      ∃ b1, ReserveChunk env (fuel + 1 + k) b c = some (b1, retryChunkSize^[k] c)) := by
  refine ⟨ReserveChunk_failures env b k fuel c hfail, fun _ => rfl,
    (retryChunkSize_iterate k c).1, (retryChunkSize_iterate k c).2, ?_⟩
  intro hend
  rw [ReserveChunk_failures env b k (fuel + 1) c hfail, ReserveChunk_succ]
  by_cases h1 : retryChunkSize^[k] c > 1
  · rcases hend with h | h
    · omega
    · rw [if_pos h1, if_pos h]
      exact ⟨_, rfl⟩
  · rw [if_neg h1]
    exact ⟨_, rfl⟩

/-- Witness of C13: one failure of a request of one mebibyte. -/
theorem reserve_retry_witness :
    ∃ b1, ReserveChunk smallMemoryEnvironment 2 sampleProcessor.preload_buffer_ 1048576 =
      some (b1, 1048576 - 1048576 / 10) :=
  (reserve_retry smallMemoryEnvironment sampleProcessor.preload_buffer_ 1 0 1048576
    (fun i hi => by
      have h0 : i = 0 := by omega
      subst h0
      exact ⟨by decide, by decide⟩)).2.2.2.2 (Or.inr (by decide))

/-! ## The preload buffer -/

/-- C14: `PreloadBuffer::Read(dst, n)` with read cursor `o` and write size `s`, `o ≤ s`. The
bytes copied to `dst` are `r = min n (s - o)` in number, they are the bytes of the buffer at
positions `o ..< o + r`, in order; the read cursor becomes `o + r`; the stored bytes (so the
write size too) and the capacity are unchanged. The function returns the number of bytes
copied. -/
theorem PreloadBuffer_Read_copies (b : PreloadBuffer) (n : Nat)
    (h : b.replay_offset_ ≤ b.container_.length) :
    (b.Read n).2.length = min n (b.container_.length - b.replay_offset_) ∧
    (∀ i, i < min n (b.container_.length - b.replay_offset_) →
      (b.Read n).2[i]? = b.container_[b.replay_offset_ + i]?) ∧
    (b.Read n).1.replay_offset_ =
      b.replay_offset_ + min n (b.container_.length - b.replay_offset_) ∧
    (b.Read n).1.container_ = b.container_ ∧ (b.Read n).1.capacity_ = b.capacity_ := by
  have hlen : ((b.container_.drop b.replay_offset_).take n).length =
      min n (b.container_.length - b.replay_offset_) := by
    simp only [List.length_take, List.length_drop]
  rw [PreloadBuffer_Read_eq]
  refine ⟨hlen, ?_, ?_, rfl, rfl⟩
  · intro i hi
    show ((b.container_.drop b.replay_offset_).take n)[i]? = _
    rw [List.getElem?_take_of_lt (by omega), List.getElem?_drop]
  · show b.replay_offset_ + ((b.container_.drop b.replay_offset_).take n).length = _
    rw [hlen]

/-- Witness of C14: reading 2 and then 9 bytes from a buffer with 5 bytes, 2 of them replayed. -/
theorem PreloadBuffer_Read_copies_witness :
    (sampleBuffer.Read 2).2.length = 2 ∧ (sampleBuffer.Read 9).2.length = 3 ∧
    (sampleBuffer.Read 9).1.replay_offset_ = 5 ∧
    (sampleBuffer.Read 9).1.container_ = sampleBuffer.container_ :=
  ⟨(PreloadBuffer_Read_copies sampleBuffer 2 (by decide)).1,
    (PreloadBuffer_Read_copies sampleBuffer 9 (by decide)).1,
    (PreloadBuffer_Read_copies sampleBuffer 9 (by decide)).2.2.1,
    (PreloadBuffer_Read_copies sampleBuffer 9 (by decide)).2.2.2.1⟩

end decode
end gfxrecon
namespace gfxrecon
namespace decode

open Dx12ReplayConsumerBase

/-! ## Descriptor heap begin addresses -/

theorem heapInfoOf_store (c : Dx12ReplayConsumerBase) (id : HandleId) (info info1 : DxObjectInfo)
    (heap_info : D3D12DescriptorHeapInfo) (hfind : c.object_info_table_.find id = some info)
    (hid : info1.capture_id = id) (hextra : info1.extra_info = some (ExtraInfo.heap heap_info))
    (c1 : Dx12ReplayConsumerBase)
    (htable : c1.object_info_table_ = c.object_info_table_.store info1) :
    c1.heapInfoOf id = some heap_info := by
  unfold heapInfoOf
  rw [htable, Dx12ObjectInfoTable.find_store_at _ info1 info id hid hfind]
  simp [hextra, ExtraInfo.asHeap]

/-- The first call of `OverrideGetCPUDescriptorHandleForHeapStart` on a heap. -/
theorem OverrideGetCPUDescriptorHandleForHeapStart_first (c : Dx12ReplayConsumerBase)
    (id : HandleId) (info : DxObjectInfo) (heap_info : D3D12DescriptorHeapInfo)
    (original_result replay_result : Nat)
    (hfind : c.object_info_table_.find id = some info) (hobj : info.object ≠ 0)
    (hextra : info.extra_info = some (ExtraInfo.heap heap_info))
    (htype : info.extra_info_type = DxObjectInfoType.kID3D12DescriptorHeapInfo)
    (hfirst : heap_info.capture_cpu_addr_begin = 0) :
    ∃ c1, c.OverrideGetCPUDescriptorHandleForHeapStart id original_result replay_result =
        some (c1, replay_result) ∧
      c1.object_info_table_.find id = some
        { info with
          extra_info := some (ExtraInfo.heap
            { heap_info with
              capture_cpu_addr_begin := original_result
              replay_cpu_addr_begin := replay_result }) } ∧
      c1.descriptor_cpu_addresses_ = Map.assign c.descriptor_cpu_addresses_ original_result id ∧
      c1.descriptor_gpu_addresses_ = c.descriptor_gpu_addresses_ ∧
      c1.increment_tables_ = c.increment_tables_ := by
  have hid := Dx12ObjectInfoTable.find_capture_id _ _ _ hfind
  refine ⟨{ c with
      object_info_table_ := c.object_info_table_.store
        { info with
          extra_info := some (ExtraInfo.heap
            { heap_info with
              capture_cpu_addr_begin := original_result
              replay_cpu_addr_begin := replay_result }) }
      descriptor_cpu_addresses_ :=
        Map.assign c.descriptor_cpu_addresses_ original_result info.capture_id },
    ?_, ?_, ?_, rfl, rfl⟩
  · unfold OverrideGetCPUDescriptorHandleForHeapStart
    simp only [hfind, hobj, if_false, hextra, htype, if_true, ExtraInfo.asHeap, hfirst]
  · exact Dx12ObjectInfoTable.find_store_at _ _ info id hid hfind
  · show Map.assign c.descriptor_cpu_addresses_ original_result info.capture_id = _
    rw [hid]

/-- A later call of `OverrideGetCPUDescriptorHandleForHeapStart` on a heap. -/
theorem OverrideGetCPUDescriptorHandleForHeapStart_later (c : Dx12ReplayConsumerBase)
    (id : HandleId) (info : DxObjectInfo) (heap_info : D3D12DescriptorHeapInfo)
    (original_result replay_result : Nat)
    (hfind : c.object_info_table_.find id = some info) (hobj : info.object ≠ 0)
    (hextra : info.extra_info = some (ExtraInfo.heap heap_info))
    (htype : info.extra_info_type = DxObjectInfoType.kID3D12DescriptorHeapInfo)
    (hlater : heap_info.capture_cpu_addr_begin ≠ 0) :
    c.OverrideGetCPUDescriptorHandleForHeapStart id original_result replay_result =
      some (c, replay_result) := by
  unfold OverrideGetCPUDescriptorHandleForHeapStart
  simp only [hfind, hobj, if_false, hextra, htype, if_true, ExtraInfo.asHeap, hlater]

/-- The first call of `OverrideGetGPUDescriptorHandleForHeapStart` on a heap. -/
theorem OverrideGetGPUDescriptorHandleForHeapStart_first (c : Dx12ReplayConsumerBase)
    (id : HandleId) (info : DxObjectInfo) (heap_info : D3D12DescriptorHeapInfo)
    (original_result replay_result : Nat)
    (hfind : c.object_info_table_.find id = some info) (hobj : info.object ≠ 0)
    (hextra : info.extra_info = some (ExtraInfo.heap heap_info))
    (htype : info.extra_info_type = DxObjectInfoType.kID3D12DescriptorHeapInfo)
    (hfirst : heap_info.capture_gpu_addr_begin = 0) :
    ∃ c1, c.OverrideGetGPUDescriptorHandleForHeapStart id original_result replay_result =
        some (c1, replay_result) ∧
      c1.object_info_table_.find id = some
        { info with
          extra_info := some (ExtraInfo.heap
            { heap_info with
              capture_gpu_addr_begin := original_result
              replay_gpu_addr_begin := replay_result }) } ∧
      c1.descriptor_gpu_addresses_ = Map.assign c.descriptor_gpu_addresses_ original_result id ∧
      c1.descriptor_cpu_addresses_ = c.descriptor_cpu_addresses_ ∧
      c1.increment_tables_ = c.increment_tables_ := by
  have hid := Dx12ObjectInfoTable.find_capture_id _ _ _ hfind
  refine ⟨{ c with
      object_info_table_ := c.object_info_table_.store
        { info with
          extra_info := some (ExtraInfo.heap
            { heap_info with
              capture_gpu_addr_begin := original_result
              replay_gpu_addr_begin := replay_result }) }
      descriptor_gpu_addresses_ :=
        Map.assign c.descriptor_gpu_addresses_ original_result info.capture_id },
    ?_, ?_, ?_, rfl, rfl⟩
  · unfold OverrideGetGPUDescriptorHandleForHeapStart
    simp only [hfind, hobj, if_false, hextra, htype, if_true, ExtraInfo.asHeap, hfirst]
  · exact Dx12ObjectInfoTable.find_store_at _ _ info id hid hfind
  · show Map.assign c.descriptor_gpu_addresses_ original_result info.capture_id = _
    rw [hid]

/-- A later call of `OverrideGetGPUDescriptorHandleForHeapStart` on a heap. -/
theorem OverrideGetGPUDescriptorHandleForHeapStart_later (c : Dx12ReplayConsumerBase)
    (id : HandleId) (info : DxObjectInfo) (heap_info : D3D12DescriptorHeapInfo)
    (original_result replay_result : Nat)
    (hfind : c.object_info_table_.find id = some info) (hobj : info.object ≠ 0)
    (hextra : info.extra_info = some (ExtraInfo.heap heap_info))
    (htype : info.extra_info_type = DxObjectInfoType.kID3D12DescriptorHeapInfo)
    (hlater : heap_info.capture_gpu_addr_begin ≠ 0) :
    c.OverrideGetGPUDescriptorHandleForHeapStart id original_result replay_result =
      some (c, replay_result) := by
  unfold OverrideGetGPUDescriptorHandleForHeapStart
  simp only [hfind, hobj, if_false, hextra, htype, if_true, ExtraInfo.asHeap, hlater]

theorem heapInfoOf_find (c : Dx12ReplayConsumerBase) (id : HandleId) (info : DxObjectInfo)
    (heap_info : D3D12DescriptorHeapInfo) (hfind : c.object_info_table_.find id = some info)
    (hextra : info.extra_info = some (ExtraInfo.heap heap_info)) :
    c.heapInfoOf id = some heap_info := by
  unfold heapInfoOf
  rw [hfind]
  simp [hextra, ExtraInfo.asHeap]

/-- C15 (invariant I4) at heaps whose captured begin address is zero: a later call is not
idempotent there. Two heaps that are not shader visible report the GPU begin address 0: after a
first call of `OverrideGetGPUDescriptorHandleForHeapStart` on heap 8 and a first call on heap 9,
a later call on heap 8 with the same values initialises the heap again and changes
`descriptor_gpu_addresses_` (key 0 goes back to heap 8). And after a first call of
`OverrideGetCPUDescriptorHandleForHeapStart` on heap 8 with the captured address 0, a later call
with the captured address 8192 changes the begin addresses of the heap and
`descriptor_cpu_addresses_`. -/
theorem descriptor_begin_counterexample :
    (∃ c1 c2 c3,
      twoHeaps.OverrideGetGPUDescriptorHandleForHeapStart 8 0 0 = some (c1, 0) ∧
      c1.OverrideGetGPUDescriptorHandleForHeapStart 9 0 0 = some (c2, 0) ∧
      c2.OverrideGetGPUDescriptorHandleForHeapStart 8 0 0 = some (c3, 0) ∧
      c3.descriptor_gpu_addresses_ ≠ c2.descriptor_gpu_addresses_) ∧
    (∃ c1 c2,
      twoHeaps.OverrideGetCPUDescriptorHandleForHeapStart 8 0 36864 = some (c1, 36864) ∧
      c1.OverrideGetCPUDescriptorHandleForHeapStart 8 8192 36864 = some (c2, 36864) ∧
      c2.heapInfoOf 8 ≠ c1.heapInfoOf 8 ∧
      c2.descriptor_cpu_addresses_ ≠ c1.descriptor_cpu_addresses_) :=
  ⟨⟨_, _, _, rfl, rfl, rfl, by decide⟩, ⟨_, _, rfl, rfl, by decide, by decide⟩⟩

/-- Invariant I4 as far as the code keeps it: let `id` be a descriptor heap with a heap info. A
call of
`OverrideGetCPUDescriptorHandleForHeapStart` on it while its capture begin address is 0 records
the captured and the replay address it carries as the begin addresses of the heap and registers
the heap in `descriptor_cpu_addresses_` under the captured address, leaving
`descriptor_gpu_addresses_` as it was; and when that captured address is not 0, every call on the
heap after it, whatever values it carries, changes nothing. In general a call on a heap whose
capture begin address is not 0 changes nothing. The same holds for
`OverrideGetGPUDescriptorHandleForHeapStart` with the GPU addresses and
`descriptor_gpu_addresses_`. Every call returns the replay address. -/
theorem descriptor_begin_recorded_once (c : Dx12ReplayConsumerBase) (id : HandleId)
    (info : DxObjectInfo) (heap_info : D3D12DescriptorHeapInfo)
    (original_result replay_result : Nat)
    (hfind : c.object_info_table_.find id = some info) (hobj : info.object ≠ 0)
    (hextra : info.extra_info = some (ExtraInfo.heap heap_info))
    (htype : info.extra_info_type = DxObjectInfoType.kID3D12DescriptorHeapInfo) :
    (heap_info.capture_cpu_addr_begin = 0 →
      ∃ c1, c.OverrideGetCPUDescriptorHandleForHeapStart id original_result replay_result =
          some (c1, replay_result) ∧
        c1.heapInfoOf id = some
          { heap_info with
            capture_cpu_addr_begin := original_result
            replay_cpu_addr_begin := replay_result } ∧
        Map.find c1.descriptor_cpu_addresses_ original_result = some id ∧
        c1.descriptor_gpu_addresses_ = c.descriptor_gpu_addresses_ ∧
        (original_result ≠ 0 → ∀ later_original later_replay,
          c1.OverrideGetCPUDescriptorHandleForHeapStart id later_original later_replay =
            some (c1, later_replay))) ∧
    (heap_info.capture_cpu_addr_begin ≠ 0 →
      c.OverrideGetCPUDescriptorHandleForHeapStart id original_result replay_result =
        some (c, replay_result)) ∧
    (heap_info.capture_gpu_addr_begin = 0 →
      ∃ c1, c.OverrideGetGPUDescriptorHandleForHeapStart id original_result replay_result =
          some (c1, replay_result) ∧
        c1.heapInfoOf id = some
          { heap_info with
            capture_gpu_addr_begin := original_result
            replay_gpu_addr_begin := replay_result } ∧
        Map.find c1.descriptor_gpu_addresses_ original_result = some id ∧
        c1.descriptor_cpu_addresses_ = c.descriptor_cpu_addresses_ ∧
        (original_result ≠ 0 → ∀ later_original later_replay,
          c1.OverrideGetGPUDescriptorHandleForHeapStart id later_original later_replay =
            some (c1, later_replay))) ∧
    (heap_info.capture_gpu_addr_begin ≠ 0 →
      c.OverrideGetGPUDescriptorHandleForHeapStart id original_result replay_result =
        some (c, replay_result)) := by
  refine ⟨?_, ?_, ?_, ?_⟩
  · intro hfirst
    obtain ⟨c1, hcall, hfind1, hmap, hother, _⟩ :=
      OverrideGetCPUDescriptorHandleForHeapStart_first c id info heap_info original_result
        replay_result hfind hobj hextra htype hfirst
    refine ⟨c1, hcall, heapInfoOf_find c1 id _ _ hfind1 rfl, ?_, hother, ?_⟩
    · rw [hmap]
      exact Map.find_assign_self _ _ _
    · intro hne later_original later_replay
      exact OverrideGetCPUDescriptorHandleForHeapStart_later c1 id _ _ later_original
        later_replay hfind1 hobj rfl htype hne
  · intro hlater
    exact OverrideGetCPUDescriptorHandleForHeapStart_later c id info heap_info original_result
      replay_result hfind hobj hextra htype hlater
  · intro hfirst
    obtain ⟨c1, hcall, hfind1, hmap, hother, _⟩ :=
      OverrideGetGPUDescriptorHandleForHeapStart_first c id info heap_info original_result
        replay_result hfind hobj hextra htype hfirst
    refine ⟨c1, hcall, heapInfoOf_find c1 id _ _ hfind1 rfl, ?_, hother, ?_⟩
    · rw [hmap]
      exact Map.find_assign_self _ _ _
    · intro hne later_original later_replay
      exact OverrideGetGPUDescriptorHandleForHeapStart_later c1 id _ _ later_original
        later_replay hfind1 hobj rfl htype hne
  · intro hlater
    exact OverrideGetGPUDescriptorHandleForHeapStart_later c id info heap_info original_result
      replay_result hfind hobj hextra htype hlater

/-- An instance of `descriptor_begin_recorded_once`: the first call on heap 8 with the captured
address 4096 and the replay address 36864, and a later call with other values. -/
theorem descriptor_begin_recorded_once_witness :
    ∃ c1, twoHeaps.OverrideGetCPUDescriptorHandleForHeapStart 8 4096 36864 =
        some (c1, 36864) ∧
      Map.find c1.descriptor_cpu_addresses_ 4096 = some 8 ∧
      c1.OverrideGetCPUDescriptorHandleForHeapStart 8 8192 20480 = some (c1, 20480) := by
  obtain ⟨c1, h1, _, h3, _, h5⟩ :=
    (descriptor_begin_recorded_once twoHeaps 8 (sampleHeap 8)
      { descriptor_type := 0, descriptor_count := 16 } 4096 36864 rfl (by decide) rfl rfl).1 rfl
  exact ⟨c1, h1, h3, h5 (by decide) 8192 20480⟩

/-! ## Descriptor handles -/

theorem findLargestLE_mem {β : Type} (m : List (Nat × β)) (k : Nat) (e : Nat × β)
    (h : Map.findLargestLE m k = some e) : e ∈ m ∧ e.1 ≤ k := by
  induction m generalizing e with
  | nil => simp [Map.findLargestLE] at h
  | cons a m ih =>
    rw [Map.findLargestLE] at h
    rcases hrec : Map.findLargestLE m k with _ | best
    · rw [hrec] at h
      simp only at h
      split_ifs at h with ha
      cases h
      exact ⟨List.mem_cons_self _ _, ha⟩
    · rw [hrec] at h
      simp only at h
      obtain ⟨hm, hle⟩ := ih best hrec
      split_ifs at h with ha
      · cases h
        exact ⟨List.mem_cons_self _ _, ha.1⟩
      · cases h
        exact ⟨List.mem_cons_of_mem _ hm, hle⟩

/-- The lookup "largest key ≤ `k`" finds the entry of the key `b` when no key lies in between. -/
theorem findLargestLE_of_find {β : Type} (m : List (Nat × β)) (b k : Nat) (v : β)
    (hu : Map.uniqueKeys m) (hfind : Map.find m b = some v) (hb : b ≤ k)
    (hmax : ∀ e ∈ m, e.1 ≤ k → e.1 ≤ b) : Map.findLargestLE m k = some (b, v) := by
  induction m with
  | nil => simp [Map.find] at hfind
  | cons a m ih =>
    obtain ⟨k1, v1⟩ := a
    obtain ⟨hu1, hu2⟩ := hu
    rw [Map.findLargestLE]
    by_cases hk : k1 = b
    · subst hk
      simp only [Map.find, if_true] at hfind
      cases hfind
      rcases hrec : Map.findLargestLE m k with _ | best
      · simp only [hb, if_true]
      · simp only
        obtain ⟨hm, hle⟩ := findLargestLE_mem m k best hrec
        have h1 : best.1 ≤ k1 := hmax best (List.mem_cons_of_mem _ hm) hle
        have h2 : best.1 ≠ k1 := by
          intro heq
          have := Map.find_of_mem m best.1 best.2 hu2 hm
          rw [heq, hu1] at this
          cases this
        have h3 : best.1 < k1 := by omega
        simp only [hb, h3, and_self, if_true]
    · simp only [Map.find, hk, if_false] at hfind
      rw [ih hu2 hfind (fun e he => hmax e (List.mem_cons_of_mem _ he))]
      simp only
      have h1 : k1 ≤ k → k1 ≤ b := hmax (k1, v1) (List.mem_cons_self _ _)
      have h2 : ¬ (k1 ≤ k ∧ b < k1) := by
        intro h
        have := h1 h.1
        omega
      simp only [h2, if_false]

/-- The claim of C16 fails for a handle that lies in the ranges of two registered heaps, and for
a replay increment of zero. In `overlappingHeapsScenario` the heap 8 is registered with the
capture begin 4096, the replay begin 36864, 16 descriptors and the increments (32, 64), and the
heap 9 with the capture begin 4128 and the replay begin 98304. The handle 4160 lies in
`[4096, 4096 + 16 * 32)`, the lookup "largest key ≤ 4160" selects the heap 9, and the handle is
rewritten to `98304 + 1 * 64`, not to `36864 + 2 * 64`. In `zeroIncrementScenario` the increments
are (32, 0): the handle 4160 is rewritten to 36864, which is not below `36864 + 16 * 0`. -/
theorem descriptor_handle_counterexample :
    (overlappingHeapsScenario.map (fun c => c.descriptor_cpu_addresses_) =
        some [(4096, 8), (4128, 9)] ∧
      overlappingHeapsScenario.bind (fun c => c.heapInfoOf 8) =
        some { descriptor_type := 0, descriptor_count := 16
               capture_increments := some 0, replay_increments := some 1
               capture_cpu_addr_begin := 4096, replay_cpu_addr_begin := 36864 } ∧
      overlappingHeapsScenario.map (fun c => c.increment_tables_) =
        some [[(0, 32)], [(0, 64)]] ∧
      4096 ≤ 4160 ∧ 4160 < 4096 + 16 * 32 ∧
      overlappingHeapsScenario.map (fun c => c.MapCpuDescriptorHandle 4160) =
        some (98304 + 1 * 64) ∧
      98304 + 1 * 64 ≠ 36864 + ((4160 - 4096) / 32) * 64) ∧
    (zeroIncrementScenario.map (fun c => c.descriptor_cpu_addresses_) = some [(4096, 8)] ∧
      zeroIncrementScenario.bind (fun c => c.heapInfoOf 8) =
        some { descriptor_type := 0, descriptor_count := 16
               capture_increments := some 0, replay_increments := some 1
               capture_cpu_addr_begin := 4096, replay_cpu_addr_begin := 36864 } ∧
      zeroIncrementScenario.map (fun c => c.increment_tables_) = some [[(0, 32)], [(0, 0)]] ∧
      zeroIncrementScenario.map (fun c => c.MapCpuDescriptorHandle 4160) = some 36864 ∧
      ¬ 36864 < 36864 + 16 * 0) :=
  ⟨⟨by decide, by decide, by decide, by decide, by decide, by decide, by decide⟩,
    ⟨by decide, by decide, by decide, by decide, by decide⟩⟩

/-- C16, amended: a heap is registered in `descriptor_cpu_addresses_` under its capture begin `B`
(the way `OverrideGetCPUDescriptorHandleForHeapStart` registers it), its heap info holds the
replay begin `B'` and the descriptor count `c`, and its increment tables give `(i_c, i_r)` for
its type.
For a handle `h` in `[B, B + c * i_c)`, with `B` the key that the lookup "largest key ≤ `h`"
selects (no other registered begin address lies in `(B, h]`), `MapCpuDescriptorHandle` rewrites
`h` to `B' + ((h - B) / i_c) * i_r`; the descriptor index `(h - B) / i_c` is below `c`; the
result is at least `B'`, and for `i_r > 0` it is below `B' + c * i_r` and has the same
descriptor index. -/
theorem MapCpuDescriptorHandle_in_range (c : Dx12ReplayConsumerBase) (heap : HandleId)
    (heap_info : D3D12DescriptorHeapInfo) (B h i_c i_r : Nat)
    (hunique : Map.uniqueKeys c.descriptor_cpu_addresses_)
    (hregistered : Map.find c.descriptor_cpu_addresses_ B = some heap)
    (hinfo : c.heapInfoOf heap = some heap_info)
    (hcapture : incrementAt c.increment_tables_ heap_info.capture_increments
      heap_info.descriptor_type = some i_c)
    (hreplay : incrementAt c.increment_tables_ heap_info.replay_increments
      heap_info.descriptor_type = some i_r)
    (hlow : B ≤ h) (hhigh : h < B + heap_info.descriptor_count * i_c)
    (hlookup : ∀ e ∈ c.descriptor_cpu_addresses_, e.1 ≤ h → e.1 ≤ B) :
    c.MapCpuDescriptorHandle h =
      heap_info.replay_cpu_addr_begin + ((h - B) / i_c) * i_r ∧
    (h - B) / i_c < heap_info.descriptor_count ∧
    heap_info.replay_cpu_addr_begin ≤ c.MapCpuDescriptorHandle h ∧
    (0 < i_r →
      c.MapCpuDescriptorHandle h <
        heap_info.replay_cpu_addr_begin + heap_info.descriptor_count * i_r ∧
      (c.MapCpuDescriptorHandle h - heap_info.replay_cpu_addr_begin) / i_r =
        (h - B) / i_c) := by
  have hindex : (h - B) / i_c < heap_info.descriptor_count := by
    apply Nat.div_lt_of_lt_mul
    rw [Nat.mul_comm]
    omega
  have hmap : c.MapCpuDescriptorHandle h =
      heap_info.replay_cpu_addr_begin + ((h - B) / i_c) * i_r := by
    unfold MapCpuDescriptorHandle object_mapping.MapCpuDescriptorHandle
    rw [findLargestLE_of_find _ B h heap hunique hregistered hlow hlookup]
    simp only [hinfo, hcapture, hreplay, hindex, if_true]
  refine ⟨hmap, hindex, ?_, ?_⟩
  · rw [hmap]
    exact Nat.le_add_right _ _
  · intro hpos
    rw [hmap]
    constructor
    · have := Nat.mul_lt_mul_of_pos_right hindex hpos
      omega
    · rw [Nat.add_sub_cancel_left, Nat.mul_div_cancel _ hpos]

/-- Witness of C16: the scenario "handle lifetime" of the spec ends in `handleLifetimeState`,
where heap 8 is registered with capture begin 0x1000 and the capture increment is 32, and the
handle 0x1040 is rewritten to the replay begin plus twice the replay increment. -/
theorem MapCpuDescriptorHandle_in_range_witness :
    handleLifetimeScenario = some handleLifetimeState ∧
    handleLifetimeState.MapCpuDescriptorHandle 4160 = 36864 + 2 * 64 :=
  ⟨by decide,
    (MapCpuDescriptorHandle_in_range handleLifetimeState 8
      { descriptor_type := 0, descriptor_count := 16
        capture_increments := some 0, replay_increments := some 1
        capture_cpu_addr_begin := 4096, replay_cpu_addr_begin := 36864 }
      4096 4160 32 64 ⟨rfl, trivial⟩ rfl rfl rfl rfl (by decide) (by decide)
      (fun e he hle => by
        simp only [handleLifetimeState, List.mem_singleton] at he
        subst he
        exact Nat.le_refl _)).1⟩

/-! ## GPU virtual addresses -/

/-- An address in a recorded range, and in no other, is rewritten relative to that range. -/
theorem Dx12GpuVaMap.Map_in_range (m : Dx12GpuVaMap) (r : GpuVaRange) (a : Nat) (hr : r ∈ m)
    (hlow : r.capture_va ≤ a) (hhigh : a < r.capture_va + r.size)
    (hother : ∀ r2 ∈ m, r2.capture_va ≤ a → a < r2.capture_va + r2.size → r2 = r) :
    m.Map a = r.replay_va + (a - r.capture_va) := by
  unfold Dx12GpuVaMap.Map
  rcases hfound : List.find?
      (fun r => decide (r.capture_va ≤ a ∧ a < r.capture_va + r.size)) m with _ | r2
  · have := List.find?_eq_none.1 hfound r hr
    simp [hlow, hhigh] at this
  · have hp := List.find?_some hfound
    have hm := List.mem_of_find?_eq_some hfound
    simp only [decide_eq_true_eq] at hp
    rw [hfound, ← hother r2 hm hp.1 hp.2]

/-- An address in no recorded range passes through. -/
theorem Dx12GpuVaMap.Map_outside (m : Dx12GpuVaMap) (a : Nat)
    (hnone : ∀ r ∈ m, ¬ (r.capture_va ≤ a ∧ a < r.capture_va + r.size)) : m.Map a = a := by
  unfold Dx12GpuVaMap.Map
  rcases hfound : List.find?
      (fun r => decide (r.capture_va ≤ a ∧ a < r.capture_va + r.size)) m with _ | r2
  · rw [hfound]
  · have hp := List.find?_some hfound
    have hm := List.mem_of_find?_eq_some hfound
    simp only [decide_eq_true_eq] at hp
    exact absurd hp (hnone r2 hm)

/-- The first call of `OverrideGetGpuVirtualAddress` that carries two addresses other than zero
records the range of the resource. -/
theorem OverrideGetGpuVirtualAddress_first (c : Dx12ReplayConsumerBase) (id : HandleId)
    (info : DxObjectInfo) (resource_info : D3D12ResourceInfo)
    (original_result replay_result size : Nat)
    (hfind : c.object_info_table_.find id = some info) (hobj : info.object ≠ 0)
    (horiginal : original_result ≠ 0) (hreplay : replay_result ≠ 0)
    (hresource : resourceInfoOrNew info = some resource_info)
    (hfirst : resource_info.capture_address_ = 0) :
    ∃ c1, c.OverrideGetGpuVirtualAddress id original_result replay_result size =
        some (c1, replay_result) ∧
      c1.gpu_va_map_ = c.gpu_va_map_ ++
        [{ resource := info.object, capture_va := original_result
           replay_va := replay_result, size := size }] := by
  refine ⟨{ c with
      object_info_table_ := c.object_info_table_.store
        { info with
          extra_info_type := DxObjectInfoType.kID3D12ResourceInfo
          extra_info := some (ExtraInfo.resource
            { resource_info with
              capture_address_ := original_result
              replay_address_ := replay_result }) }
      gpu_va_map_ := c.gpu_va_map_.Add info.object original_result replay_result size },
    ?_, rfl⟩
  unfold OverrideGetGpuVirtualAddress
  simp only [hfind, hobj, if_false, horiginal, hreplay, ne_eq, not_false_eq_true, and_self,
    if_true, hresource, hfirst]

/-- The claim of C17 fails for an address that lies in the ranges of two recorded resources. In
`overlappingRangesScenario` the resource 1 (object 4096) is recorded with the capture address
65536, the replay address 327680 and the size 256, and the resource 2 (object 8192) with the
capture address 65600, the replay address 589824 and the size 256. The address 65600 lies in
both ranges; the claim asks for `327680 + (65600 - 65536)` by the first and for
`589824 + (65600 - 65600)` by the second, two different values; `MapGpuVirtualAddress` gives the
first. -/
theorem gpu_va_overlap_counterexample :
    overlappingRangesScenario.map (fun c => c.gpu_va_map_) =
      some [{ resource := 4096, capture_va := 65536, replay_va := 327680, size := 256 },
            { resource := 8192, capture_va := 65600, replay_va := 589824, size := 256 }] ∧
    65536 ≤ 65600 ∧ 65600 < 65536 + 256 ∧ 65600 ≤ 65600 ∧ 65600 < 65600 + 256 ∧
    327680 + (65600 - 65536) ≠ 589824 + (65600 - 65600) ∧
    overlappingRangesScenario.map (fun c => c.MapGpuVirtualAddress 65600) =
      some (327680 + (65600 - 65536)) ∧
    overlappingRangesScenario.map (fun c => c.MapGpuVirtualAddress 65600) ≠
      some (589824 + (65600 - 65600)) :=
  ⟨by decide, by decide, by decide, by decide, by decide, by decide, by decide, by decide⟩

/-- C17, amended: GPU virtual addresses. The first call of `OverrideGetGpuVirtualAddress` on a
resource that carries a capture address and a replay address other than zero records the range
`{capture_va, replay_va, size}` of the resource in `gpu_va_map_`. For a recorded range and an
address `a` in `[capture_va, capture_va + size)` that lies in no other recorded range,
`MapGpuVirtualAddress` rewrites `a` to `replay_va + (a - capture_va)`; an address contained in
no recorded range is left unchanged. -/
theorem gpu_va_remap (c : Dx12ReplayConsumerBase) (id : HandleId) (info : DxObjectInfo)
    (resource_info : D3D12ResourceInfo) (original_result replay_result size : Nat)
    (hfind : c.object_info_table_.find id = some info) (hobj : info.object ≠ 0)
    (horiginal : original_result ≠ 0) (hreplay : replay_result ≠ 0)
    (hresource : resourceInfoOrNew info = some resource_info)
    (hfirst : resource_info.capture_address_ = 0) :
    (∃ c1, c.OverrideGetGpuVirtualAddress id original_result replay_result size =
        some (c1, replay_result) ∧
      ({ resource := info.object, capture_va := original_result, replay_va := replay_result
         size := size } : GpuVaRange) ∈ c1.gpu_va_map_ ∧
      ∀ a, original_result ≤ a → a < original_result + size →
        (∀ r ∈ c.gpu_va_map_, ¬ (r.capture_va ≤ a ∧ a < r.capture_va + r.size)) →
        c1.MapGpuVirtualAddress a = replay_result + (a - original_result)) ∧
    (∀ (state : Dx12ReplayConsumerBase) (r : GpuVaRange) (a : Nat), r ∈ state.gpu_va_map_ →
      r.capture_va ≤ a → a < r.capture_va + r.size →
      (∀ r2 ∈ state.gpu_va_map_, r2.capture_va ≤ a → a < r2.capture_va + r2.size → r2 = r) →
      state.MapGpuVirtualAddress a = r.replay_va + (a - r.capture_va)) ∧
    (∀ (state : Dx12ReplayConsumerBase) (a : Nat),
      (∀ r ∈ state.gpu_va_map_, ¬ (r.capture_va ≤ a ∧ a < r.capture_va + r.size)) →
      state.MapGpuVirtualAddress a = a) := by
  refine ⟨?_, fun state r a hr hlow hhigh hother =>
      Dx12GpuVaMap.Map_in_range _ r a hr hlow hhigh hother,
    fun state a hnone => Dx12GpuVaMap.Map_outside _ a hnone⟩
  obtain ⟨c1, hcall, hmap⟩ := OverrideGetGpuVirtualAddress_first c id info resource_info
    original_result replay_result size hfind hobj horiginal hreplay hresource hfirst
  refine ⟨c1, hcall, by rw [hmap]; simp, ?_⟩
  intro a hlow hhigh hnone
  apply Dx12GpuVaMap.Map_in_range c1.gpu_va_map_
    { resource := info.object, capture_va := original_result, replay_va := replay_result
      size := size } a (by rw [hmap]; simp) hlow hhigh
  intro r2 hr2 h1 h2
  rw [hmap] at hr2
  rcases List.mem_append.1 hr2 with hold | hnew
  · exact absurd ⟨h1, h2⟩ (hnone r2 hold)
  · exact List.mem_singleton.1 hnew

/-- Witness of C17: the resource of `oneResource` with capture address 0x10000, replay address
0x50000 and size 256. -/
theorem gpu_va_remap_witness :
    ∃ c1, oneResource.OverrideGetGpuVirtualAddress 1 65536 327680 256 = some (c1, 327680) ∧
      c1.MapGpuVirtualAddress 65552 = 327680 + (65552 - 65536) ∧
      c1.MapGpuVirtualAddress 5 = 5 := by
  have h := gpu_va_remap oneResource 1 { capture_id := 1, object := 4096, ref_count := 1 } {}
    65536 327680 256 rfl (by decide) (by decide) (by decide) rfl rfl
  obtain ⟨c1, hcall, _, hin⟩ := h.1
  refine ⟨c1, hcall, hin 65552 (by decide) (by decide) (fun r hr => by cases hr), ?_⟩
  cases hcall
  decide

end decode
end gfxrecon
namespace gfxrecon
namespace decode

open Dx12ReplayConsumerBase

/-! ## Swapchain creation and windows -/

theorem WindowFactory.Create_null (f : WindowFactory) (x y : Int) (width height : Nat) :
    f.Create x y width height 0 = (f, 0) := by
  simp [WindowFactory.Create]

theorem WindowFactory.Create_window (f : WindowFactory) (x y : Int) (width height window : Nat)
    (h : window ≠ 0) :
    f.Create x y width height window =
      ({ f with
         created := f.created ++ [(window, { x := x, y := y, width := width, height := height })] },
        window) := by
  simp [WindowFactory.Create, h]

theorem finishSwapChain_null (c : Dx12ReplayConsumerBase) (replay_object_info : HandleId)
    (asserted : Bool) (swapchain : Option HandlePointerDecoder) (native_handle : Bool)
    (driver_result : HRESULT) :
    c.finishSwapChain replay_object_info asserted swapchain 0 native_handle driver_result =
      some { consumer := c, object_info := consumerData swapchain, result := E_FAIL
             driver_called := false } := by
  simp [finishSwapChain]

theorem finishSwapChain_no_handle (c : Dx12ReplayConsumerBase) (replay_object_info : HandleId)
    (asserted : Bool) (swapchain : Option HandlePointerDecoder) (window : Nat)
    (driver_result : HRESULT) (hw : window ≠ 0) :
    c.finishSwapChain replay_object_info asserted swapchain window false driver_result =
      some { consumer := { c with window_factory_ := c.window_factory_.Destroy window }
             object_info := consumerData swapchain, result := E_FAIL
             driver_called := false } := by
  simp [finishSwapChain, hw]

theorem finishSwapChain_driver_failure (c : Dx12ReplayConsumerBase)
    (replay_object_info : HandleId) (info : DxObjectInfo) (swapchain : HandlePointerDecoder)
    (window : Nat) (driver_result : HRESULT)
    (hfind : c.object_info_table_.find replay_object_info = some info)
    (hobj : info.object ≠ 0) (hw : window ≠ 0) (hfail : SUCCEEDED driver_result = false) :
    c.finishSwapChain replay_object_info true (some swapchain) window true driver_result =
      some { consumer := { c with window_factory_ := c.window_factory_.Destroy window }
             object_info := swapchain.consumer_data, result := driver_result
             driver_called := true } := by
  simp [finishSwapChain, hw, hfind, hobj, hfail]

theorem finishSwapChain_success (c : Dx12ReplayConsumerBase)
    (replay_object_info : HandleId) (info : DxObjectInfo) (swapchain : HandlePointerDecoder)
    (window : Nat) (driver_result : HRESULT)
    (hfind : c.object_info_table_.find replay_object_info = some info)
    (hobj : info.object ≠ 0) (hw : window ≠ 0) (hok : SUCCEEDED driver_result = true)
    (hnew : ∀ i, swapchain.consumer_data = some i → i.extra_info = none) :
    c.finishSwapChain replay_object_info true (some swapchain) window true driver_result =
      some { consumer := { c with active_windows_ := insertWindow c.active_windows_ window }
             object_info := swapchain.consumer_data.map fun i =>
               { i with
                 extra_info_type := DxObjectInfoType.kIDxgiSwapchainInfo
                 extra_info := some (ExtraInfo.swapchain { window := window }) }
             result := driver_result
             driver_called := true } := by
  rcases hdata : swapchain.consumer_data with _ | i
  · simp [finishSwapChain, hw, hfind, hobj, hok, SetSwapchainInfoWindow, hdata]
  · have := hnew i hdata
    simp [finishSwapChain, hw, hfind, hobj, hok, SetSwapchainInfoWindow, hdata, this]

theorem mem_insertWindow (windows : List Nat) (window : Nat) :
    window ∈ insertWindow windows window := by
  unfold insertWindow
  split_ifs with h
  · exact h
  · simp

/-- C18: in every swapchain creation override (`OverrideCreateSwapChain`,
`CreateSwapChainForHwnd` and the three overrides that call it), with a description decoder, when
the window factory returns no window: the override returns `E_FAIL`, the driver's creation
function is not called, and the consumer (its active windows, its object table, its window
factory) and the object info of the handle decoder are as they were. -/
theorem window_creation_failure (c : Dx12ReplayConsumerBase)
    (replay_object_info device_info hwnd_id window_info restrict_to_output_info : HandleId)
    (original_result driver_result : HRESULT)
    (desc : StructPointerDecoder DXGI_SWAP_CHAIN_DESC)
    (desc1 : StructPointerDecoder DXGI_SWAP_CHAIN_DESC1)
    (full_screen_desc : Option (StructPointerDecoder DXGI_SWAP_CHAIN_FULLSCREEN_DESC))
    (swapchain : Option HandlePointerDecoder) (native_handle : Bool) :
    c.OverrideCreateSwapChain replay_object_info original_result device_info (some desc)
        swapchain 0 native_handle driver_result =
      some { consumer := c, object_info := consumerData swapchain, result := E_FAIL
             driver_called := false } ∧
    c.CreateSwapChainForHwnd replay_object_info original_result device_info hwnd_id
        (some desc1) full_screen_desc restrict_to_output_info swapchain 0 native_handle
        driver_result =
      some { consumer := c, object_info := consumerData swapchain, result := E_FAIL
             driver_called := false } ∧
    c.OverrideCreateSwapChainForHwnd replay_object_info original_result device_info hwnd_id
        (some desc1) full_screen_desc restrict_to_output_info swapchain 0 native_handle
        driver_result =
      some { consumer := c, object_info := consumerData swapchain, result := E_FAIL
             driver_called := false } ∧
    c.OverrideCreateSwapChainForCoreWindow replay_object_info original_result device_info
        window_info (some desc1) restrict_to_output_info swapchain 0 native_handle
        driver_result =
      some { consumer := c, object_info := consumerData swapchain, result := E_FAIL
             driver_called := false } ∧
    c.OverrideCreateSwapChainForComposition replay_object_info original_result device_info
        (some desc1) restrict_to_output_info swapchain 0 native_handle driver_result =
      some { consumer := c, object_info := consumerData swapchain, result := E_FAIL
             driver_called := false } := by
  have hfor : ∀ full_screen hwnd,
      c.CreateSwapChainForHwnd replay_object_info original_result device_info hwnd
        (some desc1) full_screen restrict_to_output_info swapchain 0 native_handle
        driver_result =
      some { consumer := c, object_info := consumerData swapchain, result := E_FAIL
             driver_called := false } := by
    intro full_screen hwnd
    rcases desc1 with ⟨_ | desc_pointer⟩
    · exact finishSwapChain_null c _ _ _ _ _
    · simp only [CreateSwapChainForHwnd, WindowFactory.Create_null]
      exact finishSwapChain_null c _ _ _ _ _
  refine ⟨?_, hfor _ _, hfor _ _, hfor _ _, hfor _ _⟩
  rcases desc with ⟨_ | desc_pointer⟩
  · exact finishSwapChain_null c _ _ _ _ _
  · simp only [OverrideCreateSwapChain, WindowFactory.Create_null]
    exact finishSwapChain_null c _ _ _ _ _

/-- C19: `CreateSwapChainForHwnd` and `OverrideCreateSwapChain` on a live factory object, with
their decoders, when the window factory returns a window. The window is asked for at position
(0, 0) with the width and height of the captured description. When the native handle is obtained
and the driver call succeeds, the window is put into `active_windows_`, the object info of the
new swapchain gets an extra info of kind `kIDxgiSwapchainInfo` that holds this window, and the
driver's result is returned. When the driver call fails, or the native handle cannot be
obtained, the window is destroyed through the factory, `active_windows_` and the object info are
unchanged, and the driver's result, respectively `E_FAIL`, is returned. -/
theorem swapchain_creation (c : Dx12ReplayConsumerBase)
    (replay_object_info device_info hwnd_id restrict_to_output_info : HandleId)
    (original_result driver_result : HRESULT) (info : DxObjectInfo)
    (desc_pointer : DXGI_SWAP_CHAIN_DESC) (desc_pointer1 : DXGI_SWAP_CHAIN_DESC1)
    (full_screen_desc : StructPointerDecoder DXGI_SWAP_CHAIN_FULLSCREEN_DESC)
    (swapchain : HandlePointerDecoder) (window : Nat)
    (hfind : c.object_info_table_.find replay_object_info = some info)
    (hobj : info.object ≠ 0) (hw : window ≠ 0)
    (hnew : ∀ i, swapchain.consumer_data = some i → i.extra_info = none) :
    (SUCCEEDED driver_result = true →
      c.CreateSwapChainForHwnd replay_object_info original_result device_info hwnd_id
          (some { pointer := some desc_pointer1 }) (some full_screen_desc)
          restrict_to_output_info (some swapchain) window true driver_result =
        some { consumer :=
                 { c with
                   window_factory_ := { c.window_factory_ with
                     created := c.window_factory_.created ++
                       [(window, { x := 0, y := 0, width := desc_pointer1.Width
                                   height := desc_pointer1.Height })] }
                   active_windows_ := insertWindow c.active_windows_ window }
               object_info := swapchain.consumer_data.map fun i =>
                 { i with
                   extra_info_type := DxObjectInfoType.kIDxgiSwapchainInfo
                   extra_info := some (ExtraInfo.swapchain { window := window }) }
               result := driver_result
               driver_called := true } ∧
      c.OverrideCreateSwapChain replay_object_info original_result device_info
          (some { pointer := some desc_pointer }) (some swapchain) window true driver_result =
        some { consumer :=
                 { c with
                   window_factory_ := { c.window_factory_ with
                     created := c.window_factory_.created ++
                       [(window, { x := 0, y := 0, width := desc_pointer.BufferDesc.Width
                                   height := desc_pointer.BufferDesc.Height })] }
                   active_windows_ := insertWindow c.active_windows_ window }
               object_info := swapchain.consumer_data.map fun i =>
                 { i with
                   extra_info_type := DxObjectInfoType.kIDxgiSwapchainInfo
                   extra_info := some (ExtraInfo.swapchain { window := window }) }
               result := driver_result
               driver_called := true } ∧
      window ∈ insertWindow c.active_windows_ window) ∧
    (SUCCEEDED driver_result = false →
      c.CreateSwapChainForHwnd replay_object_info original_result device_info hwnd_id
          (some { pointer := some desc_pointer1 }) (some full_screen_desc)
          restrict_to_output_info (some swapchain) window true driver_result =
        some { consumer :=
                 { c with
                   window_factory_ :=
                     { created := c.window_factory_.created ++
                         [(window, { x := 0, y := 0, width := desc_pointer1.Width
                                     height := desc_pointer1.Height })]
                       destroyed := c.window_factory_.destroyed ++ [window] } }
               object_info := swapchain.consumer_data
               result := driver_result
               driver_called := true } ∧
      c.OverrideCreateSwapChain replay_object_info original_result device_info
          (some { pointer := some desc_pointer }) (some swapchain) window true driver_result =
        some { consumer :=
                 { c with
                   window_factory_ :=
                     { created := c.window_factory_.created ++
                         [(window, { x := 0, y := 0, width := desc_pointer.BufferDesc.Width
                                     height := desc_pointer.BufferDesc.Height })]
                       destroyed := c.window_factory_.destroyed ++ [window] } }
               object_info := swapchain.consumer_data
               result := driver_result
               driver_called := true }) ∧
    (∀ (full_screen : Option (StructPointerDecoder DXGI_SWAP_CHAIN_FULLSCREEN_DESC))
        (decoder : Option HandlePointerDecoder),
      c.CreateSwapChainForHwnd replay_object_info original_result device_info hwnd_id
          (some { pointer := some desc_pointer1 }) full_screen restrict_to_output_info decoder
          window false driver_result =
        some { consumer :=
                 { c with
                   window_factory_ :=
                     { created := c.window_factory_.created ++
                         [(window, { x := 0, y := 0, width := desc_pointer1.Width
                                     height := desc_pointer1.Height })]
                       destroyed := c.window_factory_.destroyed ++ [window] } }
               object_info := consumerData decoder
               result := E_FAIL
               driver_called := false } ∧
      c.OverrideCreateSwapChain replay_object_info original_result device_info
          (some { pointer := some desc_pointer }) decoder window false driver_result =
        some { consumer :=
                 { c with
                   window_factory_ :=
                     { created := c.window_factory_.created ++
                         [(window, { x := 0, y := 0, width := desc_pointer.BufferDesc.Width
                                     height := desc_pointer.BufferDesc.Height })]
                       destroyed := c.window_factory_.destroyed ++ [window] } }
               object_info := consumerData decoder
               result := E_FAIL
               driver_called := false }) := by
  refine ⟨fun hok => ⟨?_, ?_, mem_insertWindow _ _⟩, fun hfail => ⟨?_, ?_⟩,
    fun full_screen decoder => ⟨?_, ?_⟩⟩
  · simp only [CreateSwapChainForHwnd, WindowFactory.Create_window _ _ _ _ _ _ hw,
      Option.isSome_some]
    exact finishSwapChain_success _ replay_object_info info swapchain window driver_result
      (by exact hfind) hobj hw hok hnew
  · simp only [OverrideCreateSwapChain, WindowFactory.Create_window _ _ _ _ _ _ hw]
    exact finishSwapChain_success _ replay_object_info info swapchain window driver_result
      (by exact hfind) hobj hw hok hnew
  · simp only [CreateSwapChainForHwnd, WindowFactory.Create_window _ _ _ _ _ _ hw,
      Option.isSome_some]
    exact finishSwapChain_driver_failure _ replay_object_info info swapchain window
      driver_result (by exact hfind) hobj hw hfail
  · simp only [OverrideCreateSwapChain, WindowFactory.Create_window _ _ _ _ _ _ hw]
    exact finishSwapChain_driver_failure _ replay_object_info info swapchain window
      driver_result (by exact hfind) hobj hw hfail
  · simp only [CreateSwapChainForHwnd, WindowFactory.Create_window _ _ _ _ _ _ hw]
    exact finishSwapChain_no_handle _ _ _ _ window driver_result hw
  · simp only [OverrideCreateSwapChain, WindowFactory.Create_window _ _ _ _ _ _ hw]
    exact finishSwapChain_no_handle _ _ _ _ window driver_result hw

/-- Witness of C19: a swapchain of 800 by 600 created on the factory of `factoryConsumer` with
the window 77. -/
theorem swapchain_creation_witness :
    factoryConsumer.CreateSwapChainForHwnd 3 0 0 0
        (some { pointer := some { Width := 800, Height := 600 } }) (some { pointer := none })
        0 (some sampleSwapchainDecoder) 77 true 0 =
      some { consumer :=
               { factoryConsumer with
                 window_factory_ :=
                   { created := [(77, { x := 0, y := 0, width := 800, height := 600 })] }
                 active_windows_ := [77] }
             object_info := some
               { capture_id := 5, object := 20480, ref_count := 1
                 extra_info_type := DxObjectInfoType.kIDxgiSwapchainInfo
                 extra_info := some (ExtraInfo.swapchain { window := 77 }) }
             result := 0
             driver_called := true } :=
  ((swapchain_creation factoryConsumer 3 0 0 0 0 0
    { capture_id := 3, object := 12288, ref_count := 1 } {} { Width := 800, Height := 600 }
    { pointer := none } sampleSwapchainDecoder 77 rfl (by decide) (by decide)
    (fun i hi => by cases hi; rfl)).1 (by decide)).1

end decode
end gfxrecon
namespace gfxrecon
namespace decode

open Dx12ReplayConsumerBase

/-! ## The life of windows -/

theorem Dx12ObjectInfoTable.find_insert (t : Dx12ObjectInfoTable) (info : DxObjectInfo)
    (id : HandleId) :
    Dx12ObjectInfoTable.find (Dx12ObjectInfoTable.insert t info) id =
      if info.capture_id = id then some info else Dx12ObjectInfoTable.find t id := by
  cases h : Dx12ObjectInfoTable.find t info.capture_id with
  | none => exact Dx12ObjectInfoTable.find_insert_fresh t info id h
  | some old =>
    simp only [Dx12ObjectInfoTable.insert, h]
    exact Dx12ObjectInfoTable.find_store t info old info.capture_id id rfl h

theorem WindowFactory.foldl_Destroy (ws : List Nat) (f : WindowFactory) :
    ws.foldl WindowFactory.Destroy f = { f with destroyed := f.destroyed ++ ws } := by
  induction ws generalizing f with
  | nil => simp
  | cons w ws ih =>
    rw [List.foldl_cons, ih]
    simp [WindowFactory.Destroy]

/-- What `SetSwapchainInfoWindow` leaves when it is given a window. -/
theorem SetSwapchainInfoWindow_cases (c c1 : Dx12ReplayConsumerBase)
    (info left : Option DxObjectInfo) (window : Nat) (hw : window ≠ 0)
    (h : c.SetSwapchainInfoWindow info window = some (c1, left)) :
    c1 = { c with active_windows_ := insertWindow c.active_windows_ window } ∧
    (left = none ∨
      ∃ i, left = some i ∧
        i.extra_info = some (ExtraInfo.swapchain { window := window }) ∧
        i.extra_info_type = DxObjectInfoType.kIDxgiSwapchainInfo) := by
  unfold SetSwapchainInfoWindow at h
  rw [if_pos hw] at h
  cases info with
  | none =>
    simp only [Option.some.injEq, Prod.mk.injEq] at h
    exact ⟨h.1.symm, Or.inl h.2.symm⟩
  | some i =>
    simp only at h
    split_ifs at h with he
    simp only [Option.some.injEq, Prod.mk.injEq] at h
    exact ⟨h.1.symm, Or.inr ⟨_, h.2.symm, rfl, rfl⟩⟩

/-- The three ways `finishSwapChain` returns: without a window, with the window destroyed again,
or with the window active and held by the new swapchain info. -/
theorem finishSwapChain_cases (c : Dx12ReplayConsumerBase) (id : HandleId) (asserted : Bool)
    (swapchain : Option HandlePointerDecoder) (window : Nat) (native_handle : Bool)
    (driver_result : HRESULT) (r : CreateResult)
    (h : c.finishSwapChain id asserted swapchain window native_handle driver_result = some r) :
    (window = 0 ∧ r.consumer = c ∧ SUCCEEDED r.result = false) ∨
    (window ≠ 0 ∧ SUCCEEDED r.result = false ∧
      r.consumer = { c with window_factory_ := c.window_factory_.Destroy window }) ∨
    (window ≠ 0 ∧ SUCCEEDED r.result = true ∧
      r.consumer = { c with active_windows_ := insertWindow c.active_windows_ window } ∧
      (r.object_info = none ∨
        ∃ info, r.object_info = some info ∧
          info.extra_info = some (ExtraInfo.swapchain { window := window }) ∧
          info.extra_info_type = DxObjectInfoType.kIDxgiSwapchainInfo)) := by
  unfold finishSwapChain at h
  split_ifs at h with hw hn
  · split at h
    · rename_i info sc hfind
      split_ifs at h with hobj
      by_cases hok : SUCCEEDED driver_result = true
      · rw [if_pos hok] at h
        cases hset : c.SetSwapchainInfoWindow sc.consumer_data window with
        | none => simp [hset] at h
        | some p =>
          obtain ⟨c1, left⟩ := p
          rw [hset] at h
          simp only [Option.some.injEq] at h
          obtain ⟨hc1, hleft⟩ := SetSwapchainInfoWindow_cases c c1 _ left window hw hset
          subst h
          exact Or.inr (Or.inr ⟨hw, hok, hc1, hleft⟩)
      · rw [if_neg hok] at h
        simp only [Option.some.injEq] at h
        subst h
        exact Or.inr (Or.inl ⟨hw, by simpa using hok, rfl⟩)
    · cases h
  · simp only [Option.some.injEq] at h
    subst h
    exact Or.inr (Or.inl ⟨hw, rfl, rfl⟩)
  · simp only [Option.some.injEq] at h
    subst h
    exact Or.inl ⟨by simpa using hw, rfl, rfl⟩

/-- The invariant holds in the empty consumer. -/
theorem WindowInvariant.empty_consumer : WindowInvariant ({ } : Dx12ReplayConsumerBase) := by
  refine ⟨List.nodup_nil, List.nodup_nil, ?_, ?_, ?_, ?_, ?_⟩
  · intro w hw
    cases hw
  · intro w hw
    cases hw
  · intro w hw
    cases hw
  · intro id info hf
    simp [Dx12ObjectInfoTable.find] at hf
  · intro id1 id2 info1 info2 sw1 sw2 hf
    simp [Dx12ObjectInfoTable.find] at hf

/-- The invariant survives a change of the object table that brings no new extra info: every
record with extra info has a record of the same id, tag and extra info in the old table. -/
theorem WindowInvariant.of_table (c c1 : Dx12ReplayConsumerBase) (hinv : WindowInvariant c)
    (hwf : c1.window_factory_ = c.window_factory_)
    (hact : c1.active_windows_ = c.active_windows_)
    (htab : ∀ id info, c1.object_info_table_.find id = some info →
      info.extra_info = none ∨
        ∃ old, c.object_info_table_.find id = some old ∧ old.extra_info = info.extra_info ∧
          old.extra_info_type = info.extra_info_type) :
    WindowInvariant c1 := by
  refine ⟨?_, ?_, ?_, ?_, ?_, ?_, ?_⟩
  · rw [hwf]
    exact hinv.created_nodup
  · rw [hact]
    exact hinv.active_nodup
  · rw [hwf, hact]
    exact hinv.active_created
  · rw [hwf]
    exact hinv.destroyed_created
  · rw [hwf, hact]
    exact hinv.destroyed_count
  · intro id info hf
    rcases htab id info hf with hnone | ⟨old, hold, hextra, htype⟩
    · exact Or.inl hnone
    · rcases hinv.tagged id old hold with h0 | ⟨sw, hsw, htag, hmem⟩
      · exact Or.inl (by rw [← hextra]; exact h0)
      · exact Or.inr ⟨sw, by rw [← hextra]; exact hsw, by rw [← htype]; exact htag,
          by rw [hact]; exact hmem⟩
  · intro id1 id2 info1 info2 sw1 sw2 hf1 hf2 h1 h2 hsame
    rcases htab id1 info1 hf1 with hnone | ⟨old1, hold1, hextra1, _⟩
    · rw [hnone] at h1
      cases h1
    rcases htab id2 info2 hf2 with hnone | ⟨old2, hold2, hextra2, _⟩
    · rw [hnone] at h2
      cases h2
    exact hinv.distinct id1 id2 old1 old2 sw1 sw2 hold1 hold2 (by rw [hextra1]; exact h1)
      (by rw [hextra2]; exact h2) hsame

/-- The invariant survives a window that is created and destroyed again. -/
theorem WindowInvariant.failed_window (c c1 : Dx12ReplayConsumerBase) (w : Nat)
    (hinv : WindowInvariant c) (hw : w ∉ c.window_factory_.windows)
    (h1 : c1.window_factory_.windows = c.window_factory_.windows ++ [w])
    (h2 : c1.window_factory_.destroyed = c.window_factory_.destroyed ++ [w])
    (h3 : c1.active_windows_ = c.active_windows_)
    (h4 : c1.object_info_table_ = c.object_info_table_) : WindowInvariant c1 := by
  have hwa : w ∉ c.active_windows_ := fun h => hw (hinv.active_created w h)
  have hwd : w ∉ c.window_factory_.destroyed := fun h => hw (hinv.destroyed_created w h)
  refine ⟨?_, ?_, ?_, ?_, ?_, ?_, ?_⟩
  · rw [h1]
    exact List.Nodup.append hinv.created_nodup (List.nodup_singleton w)
      (by intro a ha hb; rw [List.mem_singleton] at hb; exact hw (hb ▸ ha))
  · rw [h3]
    exact hinv.active_nodup
  · intro x hx
    rw [h3] at hx
    rw [h1]
    exact List.mem_append_left _ (hinv.active_created x hx)
  · intro x hx
    rw [h2] at hx
    rw [h1]
    rcases List.mem_append.1 hx with hx | hx
    · exact List.mem_append_left _ (hinv.destroyed_created x hx)
    · exact List.mem_append_right _ hx
  · intro x hx
    rw [h1] at hx
    rw [h2, h3, List.count_append]
    rcases List.mem_append.1 hx with hx | hx
    · have hne : x ≠ w := fun e => hw (e ▸ hx)
      rw [hinv.destroyed_count x hx]
      simp [hne, Ne.symm hne]
    · have hxw : x = w := by simpa using hx
      subst hxw
      simp [List.count_eq_zero_of_not_mem hwd, hwa]
  · intro id info hf
    rw [h4] at hf
    rw [h3]
    exact hinv.tagged id info hf
  · intro id1 id2 info1 info2 sw1 sw2 hf1 hf2
    rw [h4] at hf1 hf2
    exact hinv.distinct id1 id2 info1 info2 sw1 sw2 hf1 hf2

/-- The invariant survives a new window that becomes active. -/
theorem WindowInvariant.new_window (c c1 : Dx12ReplayConsumerBase) (w : Nat)
    (hinv : WindowInvariant c) (hw : w ∉ c.window_factory_.windows)
    (h1 : c1.window_factory_.windows = c.window_factory_.windows ++ [w])
    (h2 : c1.window_factory_.destroyed = c.window_factory_.destroyed)
    (h3 : c1.active_windows_ = insertWindow c.active_windows_ w)
    (h4 : c1.object_info_table_ = c.object_info_table_) : WindowInvariant c1 := by
  have hwa : w ∉ c.active_windows_ := fun h => hw (hinv.active_created w h)
  have hwd : w ∉ c.window_factory_.destroyed := fun h => hw (hinv.destroyed_created w h)
  have h3a : c1.active_windows_ = c.active_windows_ ++ [w] := by
    rw [h3, insertWindow, if_neg hwa]
  refine ⟨?_, ?_, ?_, ?_, ?_, ?_, ?_⟩
  · rw [h1]
    exact List.Nodup.append hinv.created_nodup (List.nodup_singleton w)
      (by intro a ha hb; rw [List.mem_singleton] at hb; exact hw (hb ▸ ha))
  · rw [h3a]
    exact List.Nodup.append hinv.active_nodup (List.nodup_singleton w)
      (by intro a ha hb; rw [List.mem_singleton] at hb; exact hwa (hb ▸ ha))
  · intro x hx
    rw [h3a] at hx
    rw [h1]
    rcases List.mem_append.1 hx with hx | hx
    · exact List.mem_append_left _ (hinv.active_created x hx)
    · exact List.mem_append_right _ hx
  · intro x hx
    rw [h2] at hx
    rw [h1]
    exact List.mem_append_left _ (hinv.destroyed_created x hx)
  · intro x hx
    rw [h1] at hx
    rw [h2, h3a]
    rcases List.mem_append.1 hx with hx | hx
    · have hne : x ≠ w := fun e => hw (e ▸ hx)
      rw [hinv.destroyed_count x hx]
      simp [hne]
    · have hxw : x = w := by simpa using hx
      subst hxw
      simp [List.count_eq_zero_of_not_mem hwd]
  · intro id info hf
    rw [h4] at hf
    rcases hinv.tagged id info hf with h0 | ⟨sw, hsw, htag, hmem⟩
    · exact Or.inl h0
    · exact Or.inr ⟨sw, hsw, htag, by rw [h3a]; exact List.mem_append_left _ hmem⟩
  · intro id1 id2 info1 info2 sw1 sw2 hf1 hf2
    rw [h4] at hf1 hf2
    exact hinv.distinct id1 id2 info1 info2 sw1 sw2 hf1 hf2

/-- The invariant survives the insertion of a swapchain record that holds an active window no
other record holds. -/
theorem WindowInvariant.add_swapchain (c : Dx12ReplayConsumerBase) (info : DxObjectInfo)
    (sw : DxgiSwapchainInfo) (hinv : WindowInvariant c)
    (hextra : info.extra_info = some (ExtraInfo.swapchain sw))
    (htype : info.extra_info_type = DxObjectInfoType.kIDxgiSwapchainInfo)
    (hact : sw.window ∈ c.active_windows_)
    (hfresh : ∀ id i s, c.object_info_table_.find id = some i →
      i.extra_info = some (ExtraInfo.swapchain s) → s.window ≠ sw.window) :
    WindowInvariant (object_mapping.AddObject c (some info)) := by
  have hfind : ∀ id, (object_mapping.AddObject c (some info)).object_info_table_.find id =
      if info.capture_id = id then some info else c.object_info_table_.find id :=
    fun id => Dx12ObjectInfoTable.find_insert c.object_info_table_ info id
  refine ⟨hinv.created_nodup, hinv.active_nodup, hinv.active_created, hinv.destroyed_created,
    hinv.destroyed_count, ?_, ?_⟩
  · intro id i hf
    rw [hfind] at hf
    split_ifs at hf with hid
    · cases hf
      exact Or.inr ⟨sw, hextra, htype, hact⟩
    · exact hinv.tagged id i hf
  · intro id1 id2 info1 info2 sw1 sw2 hf1 hf2 h1 h2 hsame
    rw [hfind] at hf1 hf2
    split_ifs at hf1 with hid1 <;> split_ifs at hf2 with hid2
    · rw [← hid1, ← hid2]
    · cases hf1
      rw [hextra] at h1
      cases h1
      exact absurd hsame.symm (hfresh id2 info2 sw2 hf2 h2)
    · cases hf2
      rw [hextra] at h2
      cases h2
      exact absurd hsame (hfresh id1 info1 sw1 hf1 h1)
    · exact hinv.distinct id1 id2 info1 info2 sw1 sw2 hf1 hf2 h1 h2 hsame

/-- The invariant survives the removal of a swapchain record together with the destruction of
its window. -/
theorem WindowInvariant.destroy_window (c c1 : Dx12ReplayConsumerBase) (id : HandleId)
    (info : DxObjectInfo) (sw : DxgiSwapchainInfo) (hinv : WindowInvariant c)
    (hfind : c.object_info_table_.find id = some info)
    (hextra : info.extra_info = some (ExtraInfo.swapchain sw))
    (h1 : c1.window_factory_.windows = c.window_factory_.windows)
    (h2 : c1.window_factory_.destroyed = c.window_factory_.destroyed ++ [sw.window])
    (h3 : c1.active_windows_ = c.active_windows_.filter (fun w => decide (w ≠ sw.window)))
    (h4 : c1.object_info_table_ = c.object_info_table_.erase id) : WindowInvariant c1 := by
  have hheld : sw.window ∈ c.active_windows_ := by
    rcases hinv.tagged id info hfind with h0 | ⟨sw1, hsw1, _, hmem⟩
    · rw [h0] at hextra
      cases hextra
    · rw [hsw1] at hextra
      cases hextra
      exact hmem
  have hmem : ∀ x, x ∈ c1.active_windows_ ↔ x ∈ c.active_windows_ ∧ x ≠ sw.window := by
    intro x
    rw [h3]
    simp [List.mem_filter]
  have htab : ∀ id2 info2, c1.object_info_table_.find id2 = some info2 →
      id ≠ id2 ∧ c.object_info_table_.find id2 = some info2 := by
    intro id2 info2 hf
    rw [h4, Dx12ObjectInfoTable.find_erase] at hf
    split_ifs at hf with hid
    exact ⟨hid, hf⟩
  refine ⟨?_, ?_, ?_, ?_, ?_, ?_, ?_⟩
  · rw [h1]
    exact hinv.created_nodup
  · rw [h3]
    exact hinv.active_nodup.filter _
  · intro x hx
    rw [h1]
    exact hinv.active_created x ((hmem x).1 hx).1
  · intro x hx
    rw [h2] at hx
    rw [h1]
    rcases List.mem_append.1 hx with hx | hx
    · exact hinv.destroyed_created x hx
    · rw [List.mem_singleton] at hx
      rw [hx]
      exact hinv.active_created _ hheld
  · intro x hx
    rw [h1] at hx
    rw [h2, List.count_append, hinv.destroyed_count x hx]
    by_cases hxw : x = sw.window
    · subst hxw
      have hnot : ¬ sw.window ∈ c1.active_windows_ := fun h => ((hmem _).1 h).2 rfl
      simp [hheld, hnot]
    · by_cases hxa : x ∈ c.active_windows_
      · have hin : x ∈ c1.active_windows_ := (hmem x).2 ⟨hxa, hxw⟩
        simp [hxa, hin, hxw, Ne.symm hxw]
      · have hnot : ¬ x ∈ c1.active_windows_ := fun h => hxa ((hmem x).1 h).1
        simp [hxa, hnot, hxw, Ne.symm hxw]
  · intro id2 info2 hf
    obtain ⟨hne, hold⟩ := htab id2 info2 hf
    rcases hinv.tagged id2 info2 hold with h0 | ⟨sw2, hsw2, htag, hin⟩
    · exact Or.inl h0
    · refine Or.inr ⟨sw2, hsw2, htag, (hmem _).2 ⟨hin, fun hsame => hne ?_⟩⟩
      exact (hinv.distinct id2 id info2 info sw2 sw hold hfind hsw2 hextra hsame).symm
  · intro id1 id2 info1 info2 sw1 sw2 hf1 hf2
    exact hinv.distinct id1 id2 info1 info2 sw1 sw2 (htab id1 info1 hf1).2 (htab id2 info2 hf2).2

/-- In a state of the invariant `RemoveObject` returns on a record that has the id, the tag and
the extra info of a record of the table, and the invariant holds afterwards. When the record is a
swapchain info its window is destroyed through the factory and is no longer active. -/
theorem WindowInvariant.remove_record (c : Dx12ReplayConsumerBase) (id : HandleId)
    (info record : DxObjectInfo) (hinv : WindowInvariant c)
    (hfind : c.object_info_table_.find id = some info) (hid : record.capture_id = id)
    (hextra : record.extra_info = info.extra_info)
    (htype : record.extra_info_type = info.extra_info_type) :
    ∃ c1 left, c.RemoveObject (some record) = some (c1, left) ∧ WindowInvariant c1 ∧
      c1.window_factory_.created = c.window_factory_.created ∧
      (∀ sw, info.extra_info = some (ExtraInfo.swapchain sw) →
        sw.window ∈ c.active_windows_ ∧ sw.window ∉ c1.active_windows_ ∧
        c1.window_factory_.destroyed = c.window_factory_.destroyed ++ [sw.window]) := by
  rcases hinv.tagged id info hfind with h0 | ⟨sw, hsw, htag, hmem⟩
  · refine ⟨object_mapping.RemoveObject record.capture_id c, some record, ?_, ?_, rfl, ?_⟩
    · simp only [RemoveObject, hextra, h0]
    · refine WindowInvariant.of_table c _ hinv rfl rfl ?_
      intro id2 info2 hf
      have hf2 : Dx12ObjectInfoTable.find
          (Dx12ObjectInfoTable.erase c.object_info_table_ record.capture_id) id2 =
          some info2 := hf
      rw [Dx12ObjectInfoTable.find_erase] at hf2
      split_ifs at hf2 with hne
      exact Or.inr ⟨info2, hf2, rfl, rfl⟩
    · intro sw hsw
      rw [h0] at hsw
      cases hsw
  · refine ⟨{ c with
        window_factory_ := c.window_factory_.Destroy sw.window
        active_windows_ := c.active_windows_.filter (fun w => decide (w ≠ sw.window))
        object_info_table_ := c.object_info_table_.erase record.capture_id },
      some { record with extra_info_type := DxObjectInfoType.kUnused, extra_info := none },
      ?_, ?_, rfl, ?_⟩
    · simp [RemoveObject, hextra, hsw, DestroyExtraInfo, htype, htag, ExtraInfo.asSwapchain,
        object_mapping.RemoveObject]
    · exact WindowInvariant.destroy_window c _ id info sw hinv hfind hsw rfl rfl rfl
        (by rw [hid])
    · intro sw1 hsw1
      rw [hsw] at hsw1
      cases hsw1
      exact ⟨hmem, by simp, rfl⟩

theorem afterCreation_failed (r : CreateResult) (hfail : SUCCEEDED r.result = false) :
    afterCreation r = r.consumer := by
  simp [afterCreation, hfail, object_mapping.AddObject]

/-- Without a window `finishSwapChain` leaves the consumer as it is. -/
theorem WindowInvariant.finish_null (c : Dx12ReplayConsumerBase) (id : HandleId)
    (asserted : Bool) (swapchain : Option HandlePointerDecoder) (native_handle : Bool)
    (driver_result : HRESULT) (r : CreateResult) (hinv : WindowInvariant c)
    (h : c.finishSwapChain id asserted swapchain 0 native_handle driver_result = some r) :
    WindowInvariant (afterCreation r) := by
  rcases finishSwapChain_cases _ _ _ _ _ _ _ _ h with ⟨_, hc, hfail⟩ | ⟨hne, _⟩ | ⟨hne, _⟩
  · rw [afterCreation_failed r hfail, hc]
    exact hinv
  · exact absurd rfl hne
  · exact absurd rfl hne

/-- The invariant holds after `finishSwapChain` on a consumer whose factory has just been asked
for the window, and the insertion of the new object info. -/
theorem WindowInvariant.finish (c : Dx12ReplayConsumerBase) (id : HandleId) (asserted : Bool)
    (swapchain : Option HandlePointerDecoder) (x y : Int) (width height window : Nat)
    (native_handle : Bool) (driver_result : HRESULT) (r : CreateResult)
    (hinv : WindowInvariant c) (hfresh : window ∉ c.window_factory_.windows)
    (h : finishSwapChain
        { c with window_factory_ := (c.window_factory_.Create x y width height window).1 } id
        asserted swapchain (c.window_factory_.Create x y width height window).2 native_handle
        driver_result = some r) :
    WindowInvariant (afterCreation r) := by
  by_cases hw : window = 0
  · subst hw
    rw [WindowFactory.Create_null] at h
    exact WindowInvariant.finish_null c id asserted swapchain native_handle driver_result r hinv h
  · rw [WindowFactory.Create_window _ _ _ _ _ _ hw] at h
    rcases finishSwapChain_cases _ _ _ _ _ _ _ _ h with
      ⟨h0, _⟩ | ⟨_, hfail, hc⟩ | ⟨_, hok, hc, hinfo⟩
    · exact absurd h0 hw
    · rw [afterCreation_failed r hfail, hc]
      exact WindowInvariant.failed_window c _ window hinv hfresh
        (by simp [WindowFactory.windows, WindowFactory.Destroy])
        (by simp [WindowFactory.Destroy]) rfl rfl
    · have hnew : WindowInvariant r.consumer := by
        rw [hc]
        exact WindowInvariant.new_window c _ window hinv hfresh
          (by simp [WindowFactory.windows]) rfl rfl rfl
      have hrc : afterCreation r = object_mapping.AddObject r.consumer r.object_info := by
        simp [afterCreation, hok]
      rw [hrc]
      rcases hinfo with hnone | ⟨info, hsome, hextra, htype⟩
      · rw [hnone]
        exact hnew
      · rw [hsome]
        refine WindowInvariant.add_swapchain r.consumer info { window := window } hnew hextra
          htype ?_ ?_
        · rw [hc]
          exact mem_insertWindow _ _
        · intro id2 i s hf hs hsame
          rw [hc] at hf
          rcases hinv.tagged id2 i hf with h0 | ⟨s1, hs1, _, hmem⟩
          · rw [h0] at hs
            cases hs
          · rw [hs1] at hs
            cases hs
            exact hfresh (by
              have hin := hinv.active_created _ hmem
              rw [hsame] at hin
              exact hin)

/-- Every reachable state satisfies the invariant of the window lifecycle. -/
theorem WindowReachable.invariant (c : Dx12ReplayConsumerBase) (h : WindowReachable c) :
    WindowInvariant c := by
  induction h with
  | init => exact WindowInvariant.empty_consumer
  | object c info _ hextra ih =>
    refine WindowInvariant.of_table c _ ih rfl rfl ?_
    intro id i hf
    have hf1 : Dx12ObjectInfoTable.find (Dx12ObjectInfoTable.insert c.object_info_table_ info)
        id = some i := hf
    rw [Dx12ObjectInfoTable.find_insert] at hf1
    split_ifs at hf1 with hid
    · cases hf1
      exact Or.inl hextra
    · exact Or.inr ⟨i, hf1, rfl, rfl⟩
  | for_hwnd c replay_object_info device_info hwnd_id restrict_to_output_info original_result
      driver_result desc full_screen_desc swapchain window native_handle r _ hfresh hcall ih =>
    rcases desc with _ | ⟨_ | desc_pointer⟩
    · cases hcall
    · exact WindowInvariant.finish_null c replay_object_info full_screen_desc.isSome swapchain
        native_handle driver_result r ih hcall
    · exact WindowInvariant.finish c replay_object_info full_screen_desc.isSome swapchain
        kDefaultWindowPositionX kDefaultWindowPositionY desc_pointer.Width desc_pointer.Height
        window native_handle driver_result r ih hfresh hcall
  | create c replay_object_info device_info original_result driver_result desc swapchain window
      native_handle r _ hfresh hcall ih =>
    rcases desc with _ | ⟨_ | desc_pointer⟩
    · cases hcall
    · exact WindowInvariant.finish_null c replay_object_info true swapchain native_handle
        driver_result r ih hcall
    · exact WindowInvariant.finish c replay_object_info true swapchain
        kDefaultWindowPositionX kDefaultWindowPositionY desc_pointer.BufferDesc.Width
        desc_pointer.BufferDesc.Height window native_handle driver_result r ih hfresh hcall
  | remove c c1 id info left _ hfind hrem ih =>
    obtain ⟨c2, left2, hrem2, hinv2, _⟩ := WindowInvariant.remove_record c id info info ih hfind
      (Dx12ObjectInfoTable.find_capture_id _ _ _ hfind) rfl rfl
    rw [hrem2] at hrem
    cases hrem
    exact hinv2
  | release c id original driver_result res _ hrel ih =>
    obtain ⟨info, hfind, hstore | ⟨left, hrem⟩⟩ := OverrideRelease_cases c id original
      driver_result res hrel
    · rw [hstore]
      refine WindowInvariant.of_table c _ ih rfl rfl ?_
      intro id2 i hf
      have hf1 : Dx12ObjectInfoTable.find (Dx12ObjectInfoTable.store c.object_info_table_
          { info with ref_count := info.ref_count - 1 }) id2 = some i := hf
      rw [Dx12ObjectInfoTable.find_store c.object_info_table_
        { info with ref_count := info.ref_count - 1 } info id id2
        (Dx12ObjectInfoTable.find_capture_id c.object_info_table_ id info hfind) hfind] at hf1
      split_ifs at hf1 with hid
      · cases hf1
        subst hid
        exact Or.inr ⟨info, hfind, rfl, rfl⟩
      · exact Or.inr ⟨i, hf1, rfl, rfl⟩
    · obtain ⟨c2, left2, hrem2, hinv2, _⟩ := WindowInvariant.remove_record c id info
        { info with ref_count := info.ref_count - 1 } ih hfind
        (Dx12ObjectInfoTable.find_capture_id c.object_info_table_ id info hfind) rfl rfl
      rw [hrem2] at hrem
      cases hrem
      exact hinv2

/-- The consumer `swapchainConsumer` is reached by the creation of the factory 3 and of the
swapchain 5 on it. -/
theorem swapchainConsumer_reachable : WindowReachable swapchainConsumer :=
  WindowReachable.for_hwnd factoryConsumer 3 0 0 0 0 0
    (some { pointer := some { Width := 800, Height := 600 } }) (some { pointer := none })
    (some sampleSwapchainDecoder) 77 true
    { consumer :=
        { factoryConsumer with
          window_factory_ :=
            { created := [(77, { x := 0, y := 0, width := 800, height := 600 })] }
          active_windows_ := [77] }
      object_info := some
        { capture_id := 5, object := 20480, ref_count := 1
          extra_info_type := DxObjectInfoType.kIDxgiSwapchainInfo
          extra_info := some (ExtraInfo.swapchain { window := 77 }) }
      result := 0
      driver_called := true }
    (WindowReachable.object { } { capture_id := 3, object := 12288, ref_count := 1 }
      WindowReachable.init rfl)
    (by decide) (by decide)

/-- C20: window lifecycle. In every state reached from the empty consumer by object creations,
swapchain creations (where the factory hands out a window it has not handed out before, or none),
`RemoveObject` on live objects and `OverrideRelease`: no window has been created twice, only
created windows have been destroyed, and a created window has been destroyed through the factory
not at all while it is in `active_windows_` and exactly once otherwise (at the removal of the
swapchain that held it or on a failed creation path); `RemoveObject` on a live swapchain record
returns, destroys the window the record holds once more and takes it out of `active_windows_`;
and after `DestroyActiveWindows` the active set is empty, the created windows are the same and
every created window has been destroyed exactly once. -/
theorem window_lifecycle (c : Dx12ReplayConsumerBase) (h : WindowReachable c) :
    c.window_factory_.windows.Nodup ∧
    (∀ w, w ∉ c.window_factory_.windows → c.window_factory_.destroyed.count w = 0) ∧
    (∀ w ∈ c.window_factory_.windows,
      c.window_factory_.destroyed.count w = if w ∈ c.active_windows_ then 0 else 1) ∧
    (∀ id info sw, c.object_info_table_.find id = some info →
      info.extra_info = some (ExtraInfo.swapchain sw) →
      ∃ c1 left, c.RemoveObject (some info) = some (c1, left) ∧ WindowReachable c1 ∧
        c1.window_factory_.created = c.window_factory_.created ∧
        sw.window ∈ c.active_windows_ ∧ sw.window ∉ c1.active_windows_ ∧
        c1.window_factory_.destroyed = c.window_factory_.destroyed ++ [sw.window]) ∧
    c.DestroyActiveWindows.active_windows_ = [] ∧
    c.DestroyActiveWindows.window_factory_.created = c.window_factory_.created ∧
    (∀ w, c.DestroyActiveWindows.window_factory_.destroyed.count w =
      if w ∈ c.window_factory_.windows then 1 else 0) := by
  have hinv := WindowReachable.invariant c h
  have hzero : ∀ w, w ∉ c.window_factory_.windows → c.window_factory_.destroyed.count w = 0 :=
    fun w hw => List.count_eq_zero_of_not_mem (fun hd => hw (hinv.destroyed_created w hd))
  have hdestroyed : c.DestroyActiveWindows.window_factory_ =
      { c.window_factory_ with destroyed := c.window_factory_.destroyed ++ c.active_windows_ } :=
    WindowFactory.foldl_Destroy c.active_windows_ c.window_factory_
  refine ⟨hinv.created_nodup, hzero, hinv.destroyed_count, ?_, rfl, ?_, ?_⟩
  · intro id info sw hfind hextra
    obtain ⟨c1, left, hrem, _, hcreated, hsw⟩ := WindowInvariant.remove_record c id info info hinv hfind
      (Dx12ObjectInfoTable.find_capture_id c.object_info_table_ id info hfind) rfl rfl
    obtain ⟨hmem, hnot, hdes⟩ := hsw sw hextra
    exact ⟨c1, left, hrem, WindowReachable.remove c c1 id info left h hfind hrem, hcreated, hmem,
      hnot, hdes⟩
  · rw [hdestroyed]
  · intro w
    rw [hdestroyed]
    simp only [List.count_append]
    by_cases hw : w ∈ c.window_factory_.windows
    · rw [hinv.destroyed_count w hw, if_pos hw]
      by_cases ha : w ∈ c.active_windows_
      · rw [if_pos ha, List.count_eq_one_of_mem hinv.active_nodup ha]
      · rw [if_neg ha, List.count_eq_zero_of_not_mem ha]
    · rw [hzero w hw, if_neg hw,
        List.count_eq_zero_of_not_mem (fun ha => hw (hinv.active_created w ha))]

/-- Witness of C20: the consumer with the swapchain 5 that holds the window 77. Teardown leaves
no active window and has destroyed the window 77 once. -/
theorem window_lifecycle_witness :
    swapchainConsumer.DestroyActiveWindows.active_windows_ = [] ∧
    swapchainConsumer.DestroyActiveWindows.window_factory_.destroyed.count 77 = 1 :=
  ⟨(window_lifecycle swapchainConsumer swapchainConsumer_reachable).2.2.2.2.1,
    (window_lifecycle swapchainConsumer swapchainConsumer_reachable).2.2.2.2.2.2 77⟩

end decode
end gfxrecon
namespace gfxrecon

open decode

/-! ## The annotation editor -/

theorem FileTransformer_WriteBlock_unlimited (t : FileTransformer) (block : FileBlock)
    (h : t.output_room_ = none) :
    t.WriteBlock block = ({ t with output_ := t.output_ ++ [block] }, true) := by
  simp [FileTransformer.WriteBlock, h]

/-- A write leaves the output as it is or appends the block; it succeeds exactly when it appends
the block; the input is as before. -/
theorem FileTransformer_WriteBlock_cases (t : FileTransformer) (block : FileBlock) :
    ((t.WriteBlock block).2 = false ∧ (t.WriteBlock block).1 = t) ∨
    ((t.WriteBlock block).2 = true ∧ (t.WriteBlock block).1.output_ = t.output_ ++ [block] ∧
      (t.WriteBlock block).1.input_ = t.input_ ∧
      (t.WriteBlock block).1.input_error_ = t.input_error_ ∧
      (t.output_room_ = none → (t.WriteBlock block).1.output_room_ = none)) := by
  unfold FileTransformer.WriteBlock
  rcases hr : t.output_room_ with _ | _ | room
  · exact Or.inr ⟨rfl, rfl, rfl, rfl, fun _ => rfl⟩
  · exact Or.inl ⟨rfl, rfl⟩
  · exact Or.inr ⟨rfl, rfl, rfl, rfl, fun h => by cases h⟩

/-- What `AnnotationEditor::ProcessAnnotation` does with a block whose label is registered: the
test is on the data of the block, not on the registered data. -/
theorem AnnotationEditor_ProcessAnnotation_registered (e : AnnotationEditor)
    (block_header : format.BlockHeader) (annotation_type type : format.AnnotationType)
    (label data new_data : String)
    (hfind : AnnotationEditor.find e.annotations_to_set_ label = some (type, new_data)) :
    e.ProcessAnnotation block_header annotation_type label data =
      if data ≠ "" then
        ({ (e.baseProcessAnnotation block_header annotation_type label new_data).1 with
           annotations_to_set_ :=
             AnnotationEditor.erase
               (e.baseProcessAnnotation block_header annotation_type label new_data).1.annotations_to_set_
               label },
         (e.baseProcessAnnotation block_header annotation_type label new_data).2)
      else
        ({ e with annotations_to_set_ := AnnotationEditor.erase e.annotations_to_set_ label },
          true) := by
  unfold AnnotationEditor.ProcessAnnotation
  rw [hfind]
  split_ifs <;> rfl

/-- C21: the replace rule at an annotation block without data. The editor is to set the data of
the label `"app"` to `"demo"`; the input holds one annotation block, label `"app"`, with empty
data. `Process` succeeds and writes no block at all: the annotation is dropped and the registered
entry is gone, so the data `"demo"` appears nowhere in the output. -/
theorem replace_rule_empty_block :
    AnnotationEditor.find replaceEditor.annotations_to_set_ "app" =
      some (format.AnnotationType.kText, "demo") ∧
    replaceEditor.input_ =
      [FileBlock.annotation { type := 5, size := 15 } format.AnnotationType.kText "app" ""] ∧
    (AnnotationEditor.Process 5 replaceEditor).2 = true ∧
    (AnnotationEditor.Process 5 replaceEditor).1.output_ = [] ∧
    (AnnotationEditor.Process 5 replaceEditor).1.annotations_to_set_ = [] := by
  decide

/-- C22: the delete rule at an annotation block with data. The editor is to delete the
annotation `"app"` (registered with empty data); the input holds one annotation block, label
`"app"`, data `"demo"`. `Process` succeeds and the output holds an annotation block `"app"` with
empty data: the block is written, not deleted. -/
theorem delete_rule_written_block :
    AnnotationEditor.find deleteEditor.annotations_to_set_ "app" =
      some (format.AnnotationType.kText, "") ∧
    deleteEditor.input_ =
      [FileBlock.annotation { type := 5, size := 19 } format.AnnotationType.kText "app" "demo"] ∧
    (AnnotationEditor.Process 5 deleteEditor).2 = true ∧
    (AnnotationEditor.Process 5 deleteEditor).1.output_ =
      [FileBlock.annotation { type := 5, size := 19 } format.AnnotationType.kText "app" ""] ∧
    (AnnotationEditor.Process 5 deleteEditor).1.annotations_to_set_ = [] := by
  decide

theorem AnnotationEditor_erase_absent (m : List (String × format.AnnotationType × String))
    (label : String) (h : AnnotationEditor.find m label = none) :
    AnnotationEditor.erase m label = m := by
  induction m with
  | nil => rfl
  | cons entry m ih =>
    obtain ⟨key, value⟩ := entry
    unfold AnnotationEditor.find at h
    split_ifs at h with hk
    have ih1 := ih h
    unfold AnnotationEditor.erase at ih1 ⊢
    rw [List.filter_cons_of_pos (by simpa using hk), ih1]

/-- The base call writes the block or fails; the map, the input and an unlimited output stay as
they are. -/
theorem AnnotationEditor_base_cases (e : AnnotationEditor) (block_header : format.BlockHeader)
    (annotation_type : format.AnnotationType) (label data : String) :
    (e.baseProcessAnnotation block_header annotation_type label data).1.annotations_to_set_ =
      e.annotations_to_set_ ∧
    (e.baseProcessAnnotation block_header annotation_type label data).1.input_ = e.input_ ∧
    (e.baseProcessAnnotation block_header annotation_type label data).1.input_error_ =
      e.input_error_ ∧
    (((e.baseProcessAnnotation block_header annotation_type label data).2 = false ∧
        (e.baseProcessAnnotation block_header annotation_type label data).1 = e) ∨
      ((e.baseProcessAnnotation block_header annotation_type label data).2 = true ∧
        (e.baseProcessAnnotation block_header annotation_type label data).1.output_ =
          e.output_ ++ [FileBlock.annotation block_header annotation_type label data])) ∧
    (e.output_room_ = none →
      (e.baseProcessAnnotation block_header annotation_type label data).2 = true ∧
      (e.baseProcessAnnotation block_header annotation_type label data).1.output_room_ =
        none) := by
  have hw := FileTransformer_WriteBlock_cases e.toFileTransformer
    (FileBlock.annotation block_header annotation_type label data)
  simp only [AnnotationEditor.baseProcessAnnotation, FileTransformer.ProcessAnnotation]
  refine ⟨trivial, ?_, ?_, ?_, ?_⟩
  · rcases hw with ⟨_, h1⟩ | ⟨_, _, h1, _⟩
    · rw [h1]
    · exact h1
  · rcases hw with ⟨_, h1⟩ | ⟨_, _, _, h1, _⟩
    · rw [h1]
    · exact h1
  · rcases hw with ⟨h0, h1⟩ | ⟨h0, h1, _⟩
    · exact Or.inl ⟨h0, by rw [h1]⟩
    · exact Or.inr ⟨h0, h1⟩
  · intro hroom
    rw [FileTransformer_WriteBlock_unlimited _ _ hroom]
    exact ⟨rfl, hroom⟩

/-- Whatever the block, `AnnotationEditor::ProcessAnnotation` leaves no entry for its label, and
the other entries as they are. -/
theorem AnnotationEditor_ProcessAnnotation_map (e : AnnotationEditor)
    (block_header : format.BlockHeader) (annotation_type : format.AnnotationType)
    (label data : String) :
    (e.ProcessAnnotation block_header annotation_type label data).1.annotations_to_set_ =
      AnnotationEditor.erase e.annotations_to_set_ label ∧
    (e.ProcessAnnotation block_header annotation_type label data).1.input_ = e.input_ ∧
    (e.ProcessAnnotation block_header annotation_type label data).1.input_error_ =
      e.input_error_ ∧
    (e.output_room_ = none →
      (e.ProcessAnnotation block_header annotation_type label data).2 = true ∧
      (e.ProcessAnnotation block_header annotation_type label data).1.output_room_ = none) := by
  cases hfind : AnnotationEditor.find e.annotations_to_set_ label with
  | none =>
    have hb := AnnotationEditor_base_cases e block_header annotation_type label data
    have heq : e.ProcessAnnotation block_header annotation_type label data =
        e.baseProcessAnnotation block_header annotation_type label data := by
      unfold AnnotationEditor.ProcessAnnotation
      rw [hfind]
    rw [heq, hb.1, AnnotationEditor_erase_absent _ _ hfind]
    exact ⟨rfl, hb.2.1, hb.2.2.1, hb.2.2.2.2⟩
  | some modification =>
    obtain ⟨type, new_data⟩ := modification
    rw [AnnotationEditor_ProcessAnnotation_registered e block_header annotation_type type label
      data new_data hfind]
    have hb := AnnotationEditor_base_cases e block_header annotation_type label new_data
    split_ifs with hd
    · exact ⟨by rw [hb.1], hb.2.1, hb.2.2.1, hb.2.2.2.2⟩
    · exact ⟨rfl, rfl, rfl, fun h => ⟨rfl, h⟩⟩

theorem AnnotationEditor_copyBlock_cases (e : AnnotationEditor) (block : FileBlock) :
    (e.copyBlock block).1.annotations_to_set_ = e.annotations_to_set_ ∧
    (e.copyBlock block).1.input_ = e.input_ ∧
    (e.copyBlock block).1.input_error_ = e.input_error_ ∧
    (e.output_room_ = none →
      (e.copyBlock block).2 = true ∧ (e.copyBlock block).1.output_room_ = none) := by
  have hw := FileTransformer_WriteBlock_cases e.toFileTransformer block
  simp only [AnnotationEditor.copyBlock]
  refine ⟨trivial, ?_, ?_, ?_⟩
  · rcases hw with ⟨_, h1⟩ | ⟨_, _, h1, _⟩
    · rw [h1]
    · exact h1
  · rcases hw with ⟨_, h1⟩ | ⟨_, _, _, h1, _⟩
    · rw [h1]
    · exact h1
  · intro hroom
    rw [FileTransformer_WriteBlock_unlimited _ _ hroom]
    exact ⟨rfl, hroom⟩

/-- The pass of an `AnnotationEditor` over blocks: the input stays as it is, an unlimited output
makes every step succeed, and after a pass that succeeds the entries left in
`annotations_to_set_` are those whose label is on none of the annotation blocks. -/
theorem AnnotationEditor_Pass_map (blocks : List FileBlock) :
    ∀ e : AnnotationEditor,
      (FileTransformer.Pass AnnotationEditor.ProcessAnnotation AnnotationEditor.copyBlock blocks
        e).1.input_ = e.input_ ∧
      (FileTransformer.Pass AnnotationEditor.ProcessAnnotation AnnotationEditor.copyBlock blocks
        e).1.input_error_ = e.input_error_ ∧
      (e.output_room_ = none →
        (FileTransformer.Pass AnnotationEditor.ProcessAnnotation AnnotationEditor.copyBlock
          blocks e).2 = true ∧
        (FileTransformer.Pass AnnotationEditor.ProcessAnnotation AnnotationEditor.copyBlock
          blocks e).1.output_room_ = none) ∧
      ((FileTransformer.Pass AnnotationEditor.ProcessAnnotation AnnotationEditor.copyBlock
          blocks e).2 = true →
        (FileTransformer.Pass AnnotationEditor.ProcessAnnotation AnnotationEditor.copyBlock
          blocks e).1.annotations_to_set_ =
          e.annotations_to_set_.filter
            (fun entry => decide (entry.1 ∉ annotationLabels blocks))) := by
  induction blocks with
  | nil =>
    intro e
    refine ⟨rfl, rfl, fun h => ⟨rfl, h⟩, fun _ => ?_⟩
    simp [FileTransformer.Pass, annotationLabels]
  | cons block blocks ih =>
    intro e
    cases block with
    | annotation block_header annotation_type label data =>
      obtain ⟨hm, hi, hie, hroom⟩ := AnnotationEditor_ProcessAnnotation_map e block_header
        annotation_type label data
      rcases hp : e.ProcessAnnotation block_header annotation_type label data with ⟨e1, ok⟩
      rw [hp] at hm hi hie hroom
      cases ok
      · simp only [FileTransformer.Pass, hp]
        refine ⟨hi, hie, fun h => ?_, fun h => ?_⟩
        · exact absurd (hroom h).1 (by simp)
        · cases h
      · simp only [FileTransformer.Pass, hp]
        obtain ⟨h1, h2, h3, h4⟩ := ih e1
        refine ⟨h1.trans hi, h2.trans hie, fun h => h3 (hroom h).2, fun h => ?_⟩
        rw [h4 h]
        have hm1 : e1.annotations_to_set_ = AnnotationEditor.erase e.annotations_to_set_ label :=
          hm
        rw [hm1, AnnotationEditor.erase, List.filter_filter]
        congr 1
        funext entry
        simp [annotationLabels, Bool.and_comm]
    | other type payload =>
      obtain ⟨hm, hi, hie, hroom⟩ := AnnotationEditor_copyBlock_cases e
        (FileBlock.other type payload)
      rcases hp : e.copyBlock (FileBlock.other type payload) with ⟨e1, ok⟩
      rw [hp] at hm hi hie hroom
      cases ok
      · simp only [FileTransformer.Pass, hp]
        refine ⟨hi, hie, fun h => ?_, fun h => ?_⟩
        · exact absurd (hroom h).1 (by simp)
        · cases h
      · simp only [FileTransformer.Pass, hp]
        obtain ⟨h1, h2, h3, h4⟩ := ih e1
        refine ⟨h1.trans hi, h2.trans hie, fun h => h3 (hroom h).2, fun h => ?_⟩
        rw [h4 h]
        have hm1 : e1.annotations_to_set_ = e.annotations_to_set_ := hm
        rw [hm1]
        simp [annotationLabels]

theorem AnnotationEditor_appendAnnotations_failed (k : Nat)
    (m : List (String × format.AnnotationType × String)) (e : AnnotationEditor) :
    AnnotationEditor.appendAnnotations k m (e, false) = (e, false) := by
  induction m with
  | nil => rfl
  | cons entry m ih => simpa [AnnotationEditor.appendAnnotations] using ih

/-- The loop that appends: it writes the annotations of the entries in order until a write
fails; when it ends in success it has written one annotation for every entry. -/
theorem AnnotationEditor_appendAnnotations_output (k : Nat)
    (m : List (String × format.AnnotationType × String)) :
    ∀ e : AnnotationEditor,
      ((AnnotationEditor.appendAnnotations k m (e, true)).2 = true →
        (AnnotationEditor.appendAnnotations k m (e, true)).1.output_ =
          e.output_ ++ m.map (writtenBlock k)) ∧
      (e.output_room_ = none → (AnnotationEditor.appendAnnotations k m (e, true)).2 = true) ∧
      (∃ n, n ≤ m.length ∧
        (AnnotationEditor.appendAnnotations k m (e, true)).1.output_ =
          e.output_ ++ (m.take n).map (writtenBlock k)) := by
  induction m with
  | nil =>
    intro e
    exact ⟨fun _ => by simp [AnnotationEditor.appendAnnotations], fun _ => rfl,
      0, Nat.le_refl _, by simp [AnnotationEditor.appendAnnotations]⟩
  | cons entry m ih =>
    intro e
    obtain ⟨_, _, _, hcases, hroom⟩ := AnnotationEditor_base_cases e
      { type := k
        size := (format.GetAnnotationBlockBaseSize + entry.1.length + entry.2.2.length) % 2 ^ 64 }
      entry.2.1 entry.1 entry.2.2
    have hstep : AnnotationEditor.appendAnnotations k (entry :: m) (e, true) =
        AnnotationEditor.appendAnnotations k m
          (e.baseProcessAnnotation
            { type := k
              size :=
                (format.GetAnnotationBlockBaseSize + entry.1.length + entry.2.2.length) %
                  2 ^ 64 }
            entry.2.1 entry.1 entry.2.2) := by
      simp [AnnotationEditor.appendAnnotations, AnnotationEditor.WriteAnnotation]
    rw [hstep]
    rcases hw : e.baseProcessAnnotation
        { type := k
          size := (format.GetAnnotationBlockBaseSize + entry.1.length + entry.2.2.length) % 2 ^ 64 }
        entry.2.1 entry.1 entry.2.2 with ⟨e1, ok⟩
    rw [hw] at hcases hroom
    cases ok
    · rw [AnnotationEditor_appendAnnotations_failed]
      rcases hcases with ⟨_, he1⟩ | ⟨h0, _⟩
      · refine ⟨fun h => (by cases h), fun h => absurd (hroom h).1 (by simp), 0,
          Nat.zero_le _, ?_⟩
        have he : e1 = e := he1
        simp [he]
      · cases h0
    · rcases hcases with ⟨h0, _⟩ | ⟨_, hout⟩
      · cases h0
      · obtain ⟨h1, h2, n, hn, h3⟩ := ih e1
        have hout1 : e1.output_ = e.output_ ++ [writtenBlock k entry] := hout
        refine ⟨fun h => ?_, fun h => h2 (hroom h).2, n + 1, Nat.succ_le_succ hn, ?_⟩
        · rw [h1 h, hout1]
          simp
        · rw [h3, hout1]
          simp

theorem AnnotationEditor_Process_eq (k : Nat) (e : AnnotationEditor) :
    AnnotationEditor.Process k e =
      if e.transformerProcess.2 = true then
        AnnotationEditor.appendAnnotations k e.transformerProcess.1.annotations_to_set_
          (e.transformerProcess.1, true)
      else (e.transformerProcess.1, false) := by
  unfold AnnotationEditor.Process
  rcases e.transformerProcess with ⟨e1, ok⟩
  cases ok <;> rfl

theorem AnnotationEditor_transformerProcess_eq (e : AnnotationEditor) :
    e.transformerProcess =
      ((FileTransformer.Pass AnnotationEditor.ProcessAnnotation AnnotationEditor.copyBlock
          e.input_ e).1,
        (FileTransformer.Pass AnnotationEditor.ProcessAnnotation AnnotationEditor.copyBlock
          e.input_ e).2 && !e.input_error_) := rfl

/-- C23: the annotations appended by `AnnotationEditor::Process`. When the pass
(`FileTransformer::Process`) fails, `Process` returns what the pass left and appends nothing.
When the pass succeeds, the entries left in `annotations_to_set_` are exactly the registered
entries whose label is on no annotation block of the input; `Process` appends annotations of
these entries only, in the order of the map, each with the registered type, label and data, and
when it returns success it has appended one for every such entry. With an output that accepts
every write and an input that ends without an error, `Process` returns success. -/
theorem append_unencountered (k : Nat) (e : AnnotationEditor) :
    (e.transformerProcess.2 = false → AnnotationEditor.Process k e = e.transformerProcess) ∧
    (e.transformerProcess.2 = true →
      e.transformerProcess.1.annotations_to_set_ =
        e.annotations_to_set_.filter
          (fun entry => decide (entry.1 ∉ annotationLabels e.input_)) ∧
      ((AnnotationEditor.Process k e).2 = true →
        (AnnotationEditor.Process k e).1.output_ =
          e.transformerProcess.1.output_ ++
            (e.annotations_to_set_.filter
              (fun entry => decide (entry.1 ∉ annotationLabels e.input_))).map
              (writtenBlock k)) ∧
      (∃ n, (AnnotationEditor.Process k e).1.output_ =
          e.transformerProcess.1.output_ ++
            ((e.annotations_to_set_.filter
              (fun entry => decide (entry.1 ∉ annotationLabels e.input_))).take n).map
              (writtenBlock k))) ∧
    (e.output_room_ = none → e.input_error_ = false →
      e.transformerProcess.2 = true ∧ (AnnotationEditor.Process k e).2 = true) := by
  obtain ⟨_, _, hroom, hmap⟩ := AnnotationEditor_Pass_map e.input_ e
  refine ⟨fun hfail => ?_, fun hok => ?_, fun hnone herr => ?_⟩
  · rw [AnnotationEditor_Process_eq, hfail]
    simp only [Bool.false_eq_true, if_false]
    rw [← hfail]
  · have hpass : (FileTransformer.Pass AnnotationEditor.ProcessAnnotation
        AnnotationEditor.copyBlock e.input_ e).2 = true := by
      rw [AnnotationEditor_transformerProcess_eq] at hok
      simp only [Bool.and_eq_true] at hok
      exact hok.1
    have hleft : e.transformerProcess.1.annotations_to_set_ =
        e.annotations_to_set_.filter
          (fun entry => decide (entry.1 ∉ annotationLabels e.input_)) := hmap hpass
    obtain ⟨h1, _, n, _, h3⟩ := AnnotationEditor_appendAnnotations_output k
      e.transformerProcess.1.annotations_to_set_ e.transformerProcess.1
    rw [AnnotationEditor_Process_eq, if_pos hok]
    rw [hleft] at h1 h3 ⊢
    exact ⟨rfl, h1, n, h3⟩
  · have hok : e.transformerProcess.2 = true := by
      rw [AnnotationEditor_transformerProcess_eq]
      simp [(hroom hnone).1, herr]
    refine ⟨hok, ?_⟩
    rw [AnnotationEditor_Process_eq, if_pos hok]
    exact (AnnotationEditor_appendAnnotations_output k _ e.transformerProcess.1).2.1
      (hroom hnone).2

/-- Witness of C23: the editor `appendEditor` meets `"app"` in the input and does not meet
`"note"`; it appends the annotation `"note"` with the data `"hello"`, and nothing for `"app"`. -/
theorem append_unencountered_witness :
    (AnnotationEditor.Process 5 appendEditor).1.output_ =
      appendEditor.transformerProcess.1.output_ ++
        [FileBlock.annotation { type := 5, size := 21 } format.AnnotationType.kText "note"
          "hello"] :=
  ((append_unencountered 5 appendEditor).2.1 (by decide)).2.1 (by decide)

/-! ## The replay options handler -/

/-- The handler after a sequence of annotations: the data of the last one labelled
`"replay-options"`, and what it retained before when there is none. -/
theorem deliver_retains (annotations : List Annotation) :
    ∀ (block_index : Nat) (h : ReplayOptionsAnnotationHandler),
      (deliver annotations block_index h).GetReplayOptions =
        match (annotations.filter
            (fun a => decide (a.label = format.kAnnotationLabelReplayOptions))).getLast? with
        | some a => a.data
        | none => h.GetReplayOptions := by
  induction annotations with
  | nil =>
    intro block_index h
    rfl
  | cons a rest ih =>
    intro block_index h
    rw [deliver, ih]
    by_cases hl : a.label = format.kAnnotationLabelReplayOptions
    · rw [List.filter_cons_of_pos (by simpa using hl)]
      rcases hf : rest.filter
          (fun a => decide (a.label = format.kAnnotationLabelReplayOptions)) with _ | ⟨b, l⟩
      · rw [hf]
        simp [ReplayOptionsAnnotationHandler.ProcessAnnotation,
          ReplayOptionsAnnotationHandler.GetReplayOptions, hl]
      · rw [hf, List.getLast?_cons_cons]
        cases hg : (b :: l).getLast? with
        | none => simp at hg
        | some x => rfl
    · rw [List.filter_cons_of_neg (by simpa using hl)]
      simp [ReplayOptionsAnnotationHandler.ProcessAnnotation, hl]

/-- C26: the value retained by `ReplayOptionsAnnotationHandler`. After any sequence of
annotations delivered to `ProcessAnnotation` of a new handler, `GetReplayOptions` returns the
data of the last annotation of the sequence whose label is `"replay-options"`, and the empty
string when there is none; on a handler that has retained a value already, the value stays when
there is none. An annotation with another label leaves the handler as it is, and one with the
label `"replay-options"` makes its data the retained value, whatever the block index and the
annotation type. -/
theorem retained_replay_options (annotations : List Annotation) (block_index : Nat)
    (h : ReplayOptionsAnnotationHandler) :
    (deliver annotations block_index { }).GetReplayOptions = lastReplayOptions annotations ∧
    (deliver annotations block_index h).GetReplayOptions =
      (match (annotations.filter
          (fun a => decide (a.label = format.kAnnotationLabelReplayOptions))).getLast? with
       | some a => a.data
       | none => h.GetReplayOptions) ∧
    (∀ (type : format.AnnotationType) (label data : String),
      label ≠ format.kAnnotationLabelReplayOptions →
      h.ProcessAnnotation block_index type label data = h) ∧
    (∀ (type : format.AnnotationType) (data : String),
      (h.ProcessAnnotation block_index type format.kAnnotationLabelReplayOptions
        data).GetReplayOptions = data) := by
  refine ⟨?_, deliver_retains annotations block_index h, ?_, ?_⟩
  · rw [deliver_retains, lastReplayOptions]
    rfl
  · intro type label data hl
    simp [ReplayOptionsAnnotationHandler.ProcessAnnotation, hl]
  · intro type data
    simp [ReplayOptionsAnnotationHandler.ProcessAnnotation,
      ReplayOptionsAnnotationHandler.GetReplayOptions]

/-- Witness of C26: a handler that has retained `"--foo"` keeps it when an annotation labelled
`"operation"` arrives. -/
theorem retained_replay_options_witness :
    ReplayOptionsAnnotationHandler.ProcessAnnotation { replay_options_ := "--foo" } 7
      format.AnnotationType.kText "operation" "--bar" = { replay_options_ := "--foo" } :=
  (retained_replay_options [] 7 { replay_options_ := "--foo" }).2.2.1
    format.AnnotationType.kText "operation" "--bar" (by decide)

/-! ## The replay options editor -/

/-- A write of the replay options editor to the output, through the base call or as the copy of
a block: it appends the block or fails; the input and the options stay as they are. -/
theorem ReplayOptionsEditor_write_cases (e : ReplayOptionsEditor) (block : FileBlock)
    (r : ReplayOptionsEditor × Bool)
    (hr : r = ({ e with toFileTransformer := (e.toFileTransformer.WriteBlock block).1 },
      (e.toFileTransformer.WriteBlock block).2)) :
    r.1.replay_options_ = e.replay_options_ ∧ r.1.input_ = e.input_ ∧
    r.1.input_error_ = e.input_error_ ∧
    ((r.2 = false ∧ r.1.output_ = e.output_) ∨
      (r.2 = true ∧ r.1.output_ = e.output_ ++ [block])) ∧
    (e.output_room_ = none →
      r = ({ e with output_ := e.output_ ++ [block] }, true) ∧ r.1.output_room_ = none) := by
  have hw := FileTransformer_WriteBlock_cases e.toFileTransformer block
  subst hr
  refine ⟨rfl, ?_, ?_, ?_, ?_⟩
  · rcases hw with ⟨_, h1⟩ | ⟨_, _, h1, _⟩
    · show (e.toFileTransformer.WriteBlock block).1.input_ = e.input_
      rw [h1]
    · exact h1
  · rcases hw with ⟨_, h1⟩ | ⟨_, _, _, h1, _⟩
    · show (e.toFileTransformer.WriteBlock block).1.input_error_ = e.input_error_
      rw [h1]
    · exact h1
  · rcases hw with ⟨h0, h1⟩ | ⟨h0, h1, _⟩
    · refine Or.inl ⟨h0, ?_⟩
      show (e.toFileTransformer.WriteBlock block).1.output_ = e.output_
      rw [h1]
    · exact Or.inr ⟨h0, h1⟩
  · intro hroom
    rw [FileTransformer_WriteBlock_unlimited _ _ hroom]
    exact ⟨rfl, hroom⟩

theorem ReplayOptionsEditor_base_eq (e : ReplayOptionsEditor)
    (block_header : format.BlockHeader) (annotation_type : format.AnnotationType)
    (label data : String) :
    e.baseProcessAnnotation block_header annotation_type label data =
      ({ e with
         toFileTransformer :=
           (e.toFileTransformer.WriteBlock
             (FileBlock.annotation block_header annotation_type label data)).1 },
        (e.toFileTransformer.WriteBlock
          (FileBlock.annotation block_header annotation_type label data)).2) := rfl

theorem ReplayOptionsEditor_copyBlock_eq (e : ReplayOptionsEditor) (block : FileBlock) :
    e.copyBlock block =
      ({ e with toFileTransformer := (e.toFileTransformer.WriteBlock block).1 },
        (e.toFileTransformer.WriteBlock block).2) := rfl

theorem ReplayOptionsEditor_WriteAnnotation_eq (k : Nat) (e : ReplayOptionsEditor)
    (annotation_type : format.AnnotationType) (label data : String) :
    ReplayOptionsEditor.WriteAnnotation k e annotation_type label data =
      ({ e with
         toFileTransformer :=
           (e.toFileTransformer.WriteBlock
             (writtenBlock k (label, annotation_type, data))).1 },
        (e.toFileTransformer.WriteBlock
          (writtenBlock k (label, annotation_type, data))).2) := rfl

theorem FileTransformer_Pass_annotation_block {σ : Type}
    (pa : σ → format.BlockHeader → format.AnnotationType → String → String → σ × Bool)
    (copy : σ → FileBlock → σ × Bool) (block_header : format.BlockHeader)
    (annotation_type : format.AnnotationType) (label data : String) (rest : List FileBlock)
    (s : σ) :
    FileTransformer.Pass pa copy
        (FileBlock.annotation block_header annotation_type label data :: rest) s =
      if (pa s block_header annotation_type label data).2 = true then
        FileTransformer.Pass pa copy rest (pa s block_header annotation_type label data).1
      else ((pa s block_header annotation_type label data).1, false) := by
  rcases hp : pa s block_header annotation_type label data with ⟨s1, ok⟩
  cases ok <;> simp [FileTransformer.Pass, hp]

theorem FileTransformer_Pass_other {σ : Type}
    (pa : σ → format.BlockHeader → format.AnnotationType → String → String → σ × Bool)
    (copy : σ → FileBlock → σ × Bool) (type : Nat) (payload : List Byte)
    (rest : List FileBlock) (s : σ) :
    FileTransformer.Pass pa copy (FileBlock.other type payload :: rest) s =
      if (copy s (FileBlock.other type payload)).2 = true then
        FileTransformer.Pass pa copy rest (copy s (FileBlock.other type payload)).1
      else ((copy s (FileBlock.other type payload)).1, false) := by
  rcases hp : copy s (FileBlock.other type payload) with ⟨s1, ok⟩
  cases ok <;> simp [FileTransformer.Pass, hp]

/-- The pass of a `ReplayOptionsEditor` over blocks: the input and the options stay as they are,
an unlimited output makes every step succeed, and a pass that succeeds has appended to the output
the blocks that are not annotations labelled `"replay-options"`, in their order. -/
theorem ReplayOptionsEditor_Pass_output (blocks : List FileBlock) :
    ∀ e : ReplayOptionsEditor,
      (FileTransformer.Pass ReplayOptionsEditor.ProcessAnnotation ReplayOptionsEditor.copyBlock
        blocks e).1.replay_options_ = e.replay_options_ ∧
      (FileTransformer.Pass ReplayOptionsEditor.ProcessAnnotation ReplayOptionsEditor.copyBlock
        blocks e).1.input_ = e.input_ ∧
      (FileTransformer.Pass ReplayOptionsEditor.ProcessAnnotation ReplayOptionsEditor.copyBlock
        blocks e).1.input_error_ = e.input_error_ ∧
      (e.output_room_ = none →
        (FileTransformer.Pass ReplayOptionsEditor.ProcessAnnotation
          ReplayOptionsEditor.copyBlock blocks e).2 = true) ∧
      ((FileTransformer.Pass ReplayOptionsEditor.ProcessAnnotation
          ReplayOptionsEditor.copyBlock blocks e).2 = true →
        (FileTransformer.Pass ReplayOptionsEditor.ProcessAnnotation
          ReplayOptionsEditor.copyBlock blocks e).1.output_ =
          e.output_ ++ withoutReplayOptions blocks) := by
  induction blocks with
  | nil =>
    intro e
    exact ⟨rfl, rfl, rfl, fun _ => rfl, fun _ => by simp [FileTransformer.Pass,
      withoutReplayOptions]⟩
  | cons block blocks ih =>
    intro e
    have hstep : ∀ (r : ReplayOptionsEditor × Bool) (written : FileBlock),
        r = ({ e with toFileTransformer := (e.toFileTransformer.WriteBlock written).1 },
          (e.toFileTransformer.WriteBlock written).2) →
        (if r.2 = true then FileTransformer.Pass ReplayOptionsEditor.ProcessAnnotation
            ReplayOptionsEditor.copyBlock blocks r.1
          else (r.1, false)).1.replay_options_ = e.replay_options_ ∧
        (if r.2 = true then FileTransformer.Pass ReplayOptionsEditor.ProcessAnnotation
            ReplayOptionsEditor.copyBlock blocks r.1
          else (r.1, false)).1.input_ = e.input_ ∧
        (if r.2 = true then FileTransformer.Pass ReplayOptionsEditor.ProcessAnnotation
            ReplayOptionsEditor.copyBlock blocks r.1
          else (r.1, false)).1.input_error_ = e.input_error_ ∧
        (e.output_room_ = none →
          (if r.2 = true then FileTransformer.Pass ReplayOptionsEditor.ProcessAnnotation
              ReplayOptionsEditor.copyBlock blocks r.1
            else (r.1, false)).2 = true) ∧
        ((if r.2 = true then FileTransformer.Pass ReplayOptionsEditor.ProcessAnnotation
              ReplayOptionsEditor.copyBlock blocks r.1
            else (r.1, false)).2 = true →
          (if r.2 = true then FileTransformer.Pass ReplayOptionsEditor.ProcessAnnotation
              ReplayOptionsEditor.copyBlock blocks r.1
            else (r.1, false)).1.output_ =
            e.output_ ++ ([written] ++ withoutReplayOptions blocks)) := by
      intro r written hr
      obtain ⟨ho, hi, hie, hcases, hroom⟩ := ReplayOptionsEditor_write_cases e written r hr
      obtain ⟨e1, ok⟩ := r
      cases ok
      · simp only [Bool.false_eq_true, if_false]
        refine ⟨ho, hi, hie, fun h => ?_, fun h => (by cases h)⟩
        have := (hroom h).1
        simp at this
      · simp only [if_true]
        obtain ⟨h1, h2, h3, h4, h5⟩ := ih e1
        rcases hcases with ⟨h0, _⟩ | ⟨_, hout⟩
        · cases h0
        · refine ⟨h1.trans ho, h2.trans hi, h3.trans hie, fun h => h4 (hroom h).2, fun h => ?_⟩
          have hout1 : e1.output_ = e.output_ ++ [written] := hout
          rw [h5 h, hout1, List.append_assoc]
    cases block with
    | annotation block_header annotation_type label data =>
      rw [FileTransformer_Pass_annotation_block]
      by_cases hl : label = format.kAnnotationLabelReplayOptions
      · have hpa : e.ProcessAnnotation block_header annotation_type label data = (e, true) := by
          simp [ReplayOptionsEditor.ProcessAnnotation, hl]
        have hw : withoutReplayOptions
            (FileBlock.annotation block_header annotation_type label data :: blocks) =
            withoutReplayOptions blocks := by
          simp [withoutReplayOptions, hl]
        rw [hpa, hw]
        simp only [if_true]
        exact ih e
      · have hpa : e.ProcessAnnotation block_header annotation_type label data =
            e.baseProcessAnnotation block_header annotation_type label data := by
          simp [ReplayOptionsEditor.ProcessAnnotation, hl]
        have hw : withoutReplayOptions
            (FileBlock.annotation block_header annotation_type label data :: blocks) =
            [FileBlock.annotation block_header annotation_type label data] ++
              withoutReplayOptions blocks := by
          simp [withoutReplayOptions, hl]
        rw [hpa, hw]
        exact hstep _ _ (ReplayOptionsEditor_base_eq e block_header annotation_type label data)
    | other type payload =>
      rw [FileTransformer_Pass_other]
      have hw : withoutReplayOptions (FileBlock.other type payload :: blocks) =
          [FileBlock.other type payload] ++ withoutReplayOptions blocks := by
        simp [withoutReplayOptions]
      rw [hw]
      exact hstep _ _ (ReplayOptionsEditor_copyBlock_eq e (FileBlock.other type payload))

/-- C25: `ReplayOptionsEditor::ProcessAnnotation`. An annotation whose label is not
`"replay-options"` goes to the base function with the same block header, type, label and data:
the block is appended to the output as it is, or the write fails and the output stays; with an
output that accepts every write it is appended. For an annotation labelled `"replay-options"`
nothing is written, the editor stays as it is and the result is success. Over a pass that
succeeds, the output has gained the blocks of the input that are not annotations labelled
`"replay-options"`, in their order. -/
theorem replay_options_suppressed (e : ReplayOptionsEditor) (block_header : format.BlockHeader)
    (annotation_type : format.AnnotationType) (label data : String) :
    (label ≠ format.kAnnotationLabelReplayOptions →
      e.ProcessAnnotation block_header annotation_type label data =
        e.baseProcessAnnotation block_header annotation_type label data ∧
      (((e.ProcessAnnotation block_header annotation_type label data).2 = false ∧
          (e.ProcessAnnotation block_header annotation_type label data).1.output_ =
            e.output_) ∨
        ((e.ProcessAnnotation block_header annotation_type label data).2 = true ∧
          (e.ProcessAnnotation block_header annotation_type label data).1.output_ =
            e.output_ ++ [FileBlock.annotation block_header annotation_type label data])) ∧
      (e.output_room_ = none →
        e.ProcessAnnotation block_header annotation_type label data =
          ({ e with
             output_ :=
               e.output_ ++ [FileBlock.annotation block_header annotation_type label data] },
            true))) ∧
    (label = format.kAnnotationLabelReplayOptions →
      e.ProcessAnnotation block_header annotation_type label data = (e, true)) ∧
    (∀ blocks : List FileBlock,
      (FileTransformer.Pass ReplayOptionsEditor.ProcessAnnotation ReplayOptionsEditor.copyBlock
        blocks e).2 = true →
      (FileTransformer.Pass ReplayOptionsEditor.ProcessAnnotation ReplayOptionsEditor.copyBlock
        blocks e).1.output_ = e.output_ ++ withoutReplayOptions blocks) := by
  refine ⟨fun hl => ?_, fun hl => ?_, fun blocks => (ReplayOptionsEditor_Pass_output blocks
    e).2.2.2.2⟩
  · have hpa : e.ProcessAnnotation block_header annotation_type label data =
        e.baseProcessAnnotation block_header annotation_type label data := by
      simp [ReplayOptionsEditor.ProcessAnnotation, hl]
    obtain ⟨_, _, _, hcases, hroom⟩ := ReplayOptionsEditor_write_cases e
      (FileBlock.annotation block_header annotation_type label data) _
      (ReplayOptionsEditor_base_eq e block_header annotation_type label data)
    rw [hpa]
    exact ⟨rfl, hcases, fun h => (hroom h).1⟩
  · simp [ReplayOptionsEditor.ProcessAnnotation, hl]

/-- Witness of C25: on the input of the scenario "annotation rewrite" the annotation
`"replay-options"` with the data `"--foo"` is suppressed. -/
theorem replay_options_suppressed_witness :
    ReplayOptionsEditor.ProcessAnnotation { input_ := rewriteInput } { type := 5, size := 31 }
      format.AnnotationType.kText "replay-options" "--foo" =
      ({ input_ := rewriteInput }, true) :=
  (replay_options_suppressed { input_ := rewriteInput } { type := 5, size := 31 }
    format.AnnotationType.kText "replay-options" "--foo").2.1 rfl

/-- The reader hands the annotations of the file to the handler; the handler does not look at
the block index. -/
theorem FileProcessor_ProcessAnnotation_deliver (blocks : List FileBlock) :
    ∀ (i j : Nat) (h : ReplayOptionsAnnotationHandler),
      FileProcessor.ProcessAnnotation blocks i h = deliver (fileAnnotations blocks) j h := by
  induction blocks with
  | nil =>
    intro i j h
    rfl
  | cons block blocks ih =>
    intro i j h
    cases block with
    | annotation block_header annotation_type label data =>
      rw [FileProcessor.ProcessAnnotation, fileAnnotations, deliver, ih (i + 1) (j + 1)]
      rfl
    | other type payload =>
      rw [FileProcessor.ProcessAnnotation, fileAnnotations, ih (i + 1) j]

theorem fileAnnotations_withoutReplayOptions (blocks : List FileBlock) :
    (fileAnnotations (withoutReplayOptions blocks)).filter
      (fun a => decide (a.label = format.kAnnotationLabelReplayOptions)) = [] := by
  induction blocks with
  | nil => rfl
  | cons block blocks ih =>
    cases block with
    | annotation block_header annotation_type label data =>
      by_cases hl : label = format.kAnnotationLabelReplayOptions
      · have hw : withoutReplayOptions
            (FileBlock.annotation block_header annotation_type label data :: blocks) =
            withoutReplayOptions blocks := by
          simp [withoutReplayOptions, hl]
        rw [hw]
        exact ih
      · have hw : withoutReplayOptions
            (FileBlock.annotation block_header annotation_type label data :: blocks) =
            FileBlock.annotation block_header annotation_type label data ::
              withoutReplayOptions blocks := by
          simp [withoutReplayOptions, hl]
        rw [hw, fileAnnotations, List.filter_cons_of_neg (by simpa using hl)]
        exact ih
    | other type payload =>
      have hw : withoutReplayOptions (FileBlock.other type payload :: blocks) =
          FileBlock.other type payload :: withoutReplayOptions blocks := by
        simp [withoutReplayOptions]
      rw [hw, fileAnnotations]
      exact ih

theorem replayOptionsBlocks_withoutReplayOptions (blocks : List FileBlock) :
    replayOptionsBlocks (withoutReplayOptions blocks) = [] := by
  unfold replayOptionsBlocks withoutReplayOptions
  rw [List.filter_filter, List.filter_eq_nil_iff]
  intro block _
  cases block <;> simp

theorem withoutReplayOptions_idem (blocks : List FileBlock) :
    withoutReplayOptions (withoutReplayOptions blocks) = withoutReplayOptions blocks := by
  unfold withoutReplayOptions
  rw [List.filter_filter]
  congr 1
  funext block
  cases block <;> simp

theorem ReplayOptionsEditor_transformerProcess_eq (e : ReplayOptionsEditor) :
    e.transformerProcess =
      ((FileTransformer.Pass ReplayOptionsEditor.ProcessAnnotation ReplayOptionsEditor.copyBlock
          e.input_ e).1,
        (FileTransformer.Pass ReplayOptionsEditor.ProcessAnnotation ReplayOptionsEditor.copyBlock
          e.input_ e).2 && !e.input_error_) := rfl

/-- The pass of a replay options editor as `Process` calls it: when it succeeds, the output has
gained the blocks of the input that are not annotations labelled `"replay-options"`. -/
theorem ReplayOptionsEditor_transformerProcess_output (e : ReplayOptionsEditor) :
    (e.transformerProcess.2 = true →
      e.transformerProcess.1.output_ = e.output_ ++ withoutReplayOptions e.input_) ∧
    (e.output_room_ = none → e.input_error_ = false → e.transformerProcess.2 = true) := by
  obtain ⟨_, _, _, hroom, hout⟩ := ReplayOptionsEditor_Pass_output e.input_ e
  rw [ReplayOptionsEditor_transformerProcess_eq]
  refine ⟨fun h => ?_, fun hnone herr => ?_⟩
  · simp only [Bool.and_eq_true] at h
    exact hout h.1
  · simp [hroom hnone, herr]

/-- What `ReplayOptionsEditor::Process` writes when it succeeds: the annotation of the options,
when there are options, then the blocks of the input that are not annotations labelled
`"replay-options"`. -/
theorem ReplayOptionsEditor_Process_output (k : Nat) (e : ReplayOptionsEditor) :
    ((ReplayOptionsEditor.Process k e).2 = true →
      (ReplayOptionsEditor.Process k e).1.output_ =
        e.output_ ++
          ((if e.replay_options_ ≠ "" then
              [writtenBlock k
                (format.kAnnotationLabelReplayOptions, format.AnnotationType.kText,
                  e.replay_options_)]
            else []) ++ withoutReplayOptions e.input_)) ∧
    (e.output_room_ = none → e.input_error_ = false →
      (ReplayOptionsEditor.Process k e).2 = true) := by
  by_cases hopt : e.replay_options_ = ""
  · have hp : ReplayOptionsEditor.Process k e =
        (e.transformerProcess.1, e.transformerProcess.2) := by
      unfold ReplayOptionsEditor.Process
      simp [hopt]
    obtain ⟨h1, h2⟩ := ReplayOptionsEditor_transformerProcess_output e
    rw [hp]
    refine ⟨fun h => ?_, h2⟩
    rw [h1 h]
    simp [hopt]
  · obtain ⟨_, hi, hie, hcases, hroom⟩ := ReplayOptionsEditor_write_cases e
      (writtenBlock k
        (format.kAnnotationLabelReplayOptions, format.AnnotationType.kText, e.replay_options_))
      _ (ReplayOptionsEditor_WriteAnnotation_eq k e format.AnnotationType.kText
        format.kAnnotationLabelReplayOptions e.replay_options_)
    have hp : ReplayOptionsEditor.Process k e =
        if (ReplayOptionsEditor.WriteAnnotation k e format.AnnotationType.kText
            format.kAnnotationLabelReplayOptions e.replay_options_).2 = true then
          ((ReplayOptionsEditor.WriteAnnotation k e format.AnnotationType.kText
              format.kAnnotationLabelReplayOptions e.replay_options_).1.transformerProcess.1,
            (ReplayOptionsEditor.WriteAnnotation k e format.AnnotationType.kText
              format.kAnnotationLabelReplayOptions e.replay_options_).1.transformerProcess.2)
        else
          ((ReplayOptionsEditor.WriteAnnotation k e format.AnnotationType.kText
              format.kAnnotationLabelReplayOptions e.replay_options_).1, false) := by
      unfold ReplayOptionsEditor.Process
      simp only [ne_eq, hopt, not_false_eq_true, if_true]
      rcases ReplayOptionsEditor.WriteAnnotation k e format.AnnotationType.kText
        format.kAnnotationLabelReplayOptions e.replay_options_ with ⟨e1, ok⟩
      cases ok <;> simp
    rw [hp]
    rcases hw : ReplayOptionsEditor.WriteAnnotation k e format.AnnotationType.kText
        format.kAnnotationLabelReplayOptions e.replay_options_ with ⟨e1, ok⟩
    rw [hw] at hi hie hcases hroom
    cases ok
    · simp only [Bool.false_eq_true, if_false]
      refine ⟨fun h => (by cases h), fun h _ => ?_⟩
      have := (hroom h).1
      simp at this
    · simp only [if_true]
      obtain ⟨h1, h2⟩ := ReplayOptionsEditor_transformerProcess_output e1
      rcases hcases with ⟨h0, _⟩ | ⟨_, hout⟩
      · cases h0
      · have hout1 : e1.output_ = e.output_ ++ [writtenBlock k
            (format.kAnnotationLabelReplayOptions, format.AnnotationType.kText,
              e.replay_options_)] := hout
        have hi1 : e1.input_ = e.input_ := hi
        have hie1 : e1.input_error_ = e.input_error_ := hie
        refine ⟨fun h => ?_, fun h herr => h2 (hroom h).2 (hie1.trans herr)⟩
        rw [h1 h, hout1, hi1]
        simp [hopt]

/-- C24: edit round trip. Let the editor have an empty output and any input. When `Process`
after `SetReplayOptions(options)` succeeds, the reader that hands the annotations of the output
to a new `ReplayOptionsAnnotationHandler` leaves `GetReplayOptions() = options`; the output is
the annotation `"replay-options"` with the data `options` (when `options` is not empty) followed
by the blocks of the input that are not annotations labelled `"replay-options"`, unchanged and in
their order, so that for non-empty `options` that annotation is the only one labelled
`"replay-options"`, and for empty `options` there is none. `Process` does succeed when the
output accepts every write and the input ends without an error. -/
theorem edit_round_trip (k : Nat) (e : ReplayOptionsEditor) (options : String)
    (hout : e.output_ = []) :
    ((ReplayOptionsEditor.Process k (e.SetReplayOptions options)).2 = true →
      (FileProcessor.ProcessAnnotation
        (ReplayOptionsEditor.Process k (e.SetReplayOptions options)).1.output_ 0
        { }).GetReplayOptions = options ∧
      (ReplayOptionsEditor.Process k (e.SetReplayOptions options)).1.output_ =
        (if options ≠ "" then
            [FileBlock.annotation
              { type := k
                size := (format.GetAnnotationBlockBaseSize +
                  format.kAnnotationLabelReplayOptions.length + options.length) % 2 ^ 64 }
              format.AnnotationType.kText format.kAnnotationLabelReplayOptions options]
          else []) ++ withoutReplayOptions e.input_ ∧
      replayOptionsBlocks (ReplayOptionsEditor.Process k (e.SetReplayOptions options)).1.output_ =
        (if options ≠ "" then
            [FileBlock.annotation
              { type := k
                size := (format.GetAnnotationBlockBaseSize +
                  format.kAnnotationLabelReplayOptions.length + options.length) % 2 ^ 64 }
              format.AnnotationType.kText format.kAnnotationLabelReplayOptions options]
          else [])) ∧
    (e.output_room_ = none → e.input_error_ = false →
      (ReplayOptionsEditor.Process k (e.SetReplayOptions options)).2 = true) := by
  obtain ⟨h1, h2⟩ := ReplayOptionsEditor_Process_output k (e.SetReplayOptions options)
  refine ⟨fun hok => ?_, fun hnone herr => h2 hnone herr⟩
  have houtput : (ReplayOptionsEditor.Process k (e.SetReplayOptions options)).1.output_ =
      (if options ≠ "" then
          [FileBlock.annotation
            { type := k
              size := (format.GetAnnotationBlockBaseSize +
                format.kAnnotationLabelReplayOptions.length + options.length) % 2 ^ 64 }
            format.AnnotationType.kText format.kAnnotationLabelReplayOptions options]
        else []) ++ withoutReplayOptions e.input_ := by
    rw [h1 hok]
    show e.output_ ++ _ = _
    rw [hout, List.nil_append]
    rfl
  refine ⟨?_, houtput, ?_⟩
  · rw [houtput, FileProcessor_ProcessAnnotation_deliver _ 0 0, deliver_retains]
    by_cases hopt : options = ""
    · simp only [ne_eq, hopt, not_true_eq_false, if_false, List.nil_append]
      rw [fileAnnotations_withoutReplayOptions]
      rfl
    · simp only [ne_eq, hopt, not_false_eq_true, if_true, List.singleton_append, fileAnnotations]
      rw [List.filter_cons_of_pos (by simp), fileAnnotations_withoutReplayOptions]
      rfl
  · rw [houtput]
    by_cases hopt : options = ""
    · simp only [ne_eq, hopt, not_true_eq_false, if_false, List.nil_append]
      exact replayOptionsBlocks_withoutReplayOptions _
    · simp only [ne_eq, hopt, not_false_eq_true, if_true, List.singleton_append]
      have hrest := replayOptionsBlocks_withoutReplayOptions e.input_
      unfold replayOptionsBlocks at hrest ⊢
      rw [List.filter_cons_of_pos (by simp), hrest]

/-- Witness of C24: the scenario "annotation rewrite" of the spec. The input holds the
annotation `"replay-options"` with the data `"--foo"`; after the edit with `"--bar --baz"` the
reader finds `"--bar --baz"`. -/
theorem edit_round_trip_witness :
    (FileProcessor.ProcessAnnotation
      (ReplayOptionsEditor.Process 5
        (ReplayOptionsEditor.SetReplayOptions { input_ := rewriteInput } "--bar --baz")).1.output_
      0 { }).GetReplayOptions = "--bar --baz" :=
  ((edit_round_trip 5 { input_ := rewriteInput } "--bar --baz" rfl).1 (by decide)).1

/-! ## Tokens of the replay options -/

theorem whitespaceTokens_nil : whitespaceTokens [] = [] := by
  simp [whitespaceTokens, List.splitOnP_nil]

theorem whitespaceTokens_space (c : Char) (s : List Char) (hc : isspace c = true) :
    whitespaceTokens (c :: s) = whitespaceTokens s := by
  simp [whitespaceTokens, List.splitOnP_cons, hc]

theorem whitespaceTokens_dropWhile (s : List Char) :
    whitespaceTokens (s.dropWhile isspace) = whitespaceTokens s := by
  induction s with
  | nil => rfl
  | cons c s ih =>
    by_cases hc : isspace c = true
    · rw [List.dropWhile_cons_of_pos hc, ih, whitespaceTokens_space c s hc]
    · rw [List.dropWhile_cons_of_neg hc]

/-- A word followed by nothing or by whitespace is the first token. -/
theorem whitespaceTokens_word (w r : List Char) (hw : w ≠ [])
    (hfree : ∀ x ∈ w, isspace x = false)
    (hr : r = [] ∨ ∃ sp rest, r = sp :: rest ∧ isspace sp = true) :
    whitespaceTokens (w ++ r) = w :: whitespaceTokens r := by
  have hfree1 : ∀ x ∈ w, ¬ (isspace x = true) := fun x hx => by simp [hfree x hx]
  have hne : (!w.isEmpty) = true := by
    cases w with
    | nil => exact absurd rfl hw
    | cons a w => rfl
  rcases hr with hr | ⟨sp, rest, hr, hsp⟩
  · subst hr
    rw [List.append_nil, whitespaceTokens_nil, whitespaceTokens,
      List.splitOnP_eq_single isspace w hfree1]
    simp [hne]
  · subst hr
    rw [whitespaceTokens_space sp rest hsp, whitespaceTokens,
      List.splitOnP_first isspace w hfree1 sp hsp rest]
    simp only [List.filter_cons, hne, if_true]
    rfl

theorem filter_dropWhile_space (s : List Char) :
    (s.dropWhile isspace).filter (fun c => !isspace c) = s.filter (fun c => !isspace c) := by
  induction s with
  | nil => rfl
  | cons c s ih =>
    by_cases hc : isspace c = true
    · rw [List.dropWhile_cons_of_pos hc, ih, List.filter_cons_of_neg (by simp [hc])]
    · rw [List.dropWhile_cons_of_neg hc]

/-- The extraction loop gives the whitespace tokens, which are not empty and hold no whitespace,
and whose concatenation is the stream without its whitespace. -/
theorem istreamTokens_whitespaceTokens (fuel : Nat) :
    ∀ stream : List Char, stream.length < fuel →
      istreamTokens fuel stream = some (whitespaceTokens stream) ∧
      (∀ t ∈ whitespaceTokens stream, t ≠ [] ∧ ∀ c ∈ t, isspace c = false) ∧
      (whitespaceTokens stream).flatten = stream.filter (fun c => !isspace c) := by
  induction fuel with
  | zero =>
    intro stream h
    exact absurd h (Nat.not_lt_zero _)
  | succ fuel ih =>
    intro stream hlen
    rw [← whitespaceTokens_dropWhile stream, ← filter_dropWhile_space stream]
    have hsuffix : (stream.dropWhile isspace).length ≤ stream.length :=
      (List.dropWhile_sublist isspace).length_le
    rcases hs : stream.dropWhile isspace with _ | ⟨c, rest⟩
    · refine ⟨?_, ?_, ?_⟩
      · simp [istreamTokens, extractToken, hs, whitespaceTokens_nil]
      · rw [whitespaceTokens_nil]
        intro t ht
        cases ht
      · rw [whitespaceTokens_nil]
        rfl
    · have hc : isspace c = false := by
        have := List.head_dropWhile_not isspace stream (by rw [hs]; simp)
        simpa [hs] using this
      have hsplit : (c :: rest).takeWhile (fun x => !isspace x) ++
          (c :: rest).dropWhile (fun x => !isspace x) = c :: rest :=
        List.takeWhile_append_dropWhile _ _
      have hwne : (c :: rest).takeWhile (fun x => !isspace x) ≠ [] := by
        rw [List.takeWhile_cons_of_pos (by simp [hc])]
        simp
      have hfree : ∀ x ∈ (c :: rest).takeWhile (fun x => !isspace x), isspace x = false := by
        intro x hx
        have := List.mem_takeWhile_imp hx
        simpa using this
      have hr : (c :: rest).dropWhile (fun x => !isspace x) = [] ∨
          ∃ sp tail, (c :: rest).dropWhile (fun x => !isspace x) = sp :: tail ∧
            isspace sp = true := by
        rcases hd : (c :: rest).dropWhile (fun x => !isspace x) with _ | ⟨sp, tail⟩
        · exact Or.inl rfl
        · refine Or.inr ⟨sp, tail, rfl, ?_⟩
          have := List.head_dropWhile_not (fun x => !isspace x) (c :: rest) (by rw [hd]; simp)
          simpa [hd] using this
      have hlen_r : ((c :: rest).dropWhile (fun x => !isspace x)).length < fuel := by
        have h1 : ((c :: rest).takeWhile (fun x => !isspace x)).length +
            ((c :: rest).dropWhile (fun x => !isspace x)).length = (c :: rest).length := by
          rw [← List.length_append, hsplit]
        have h2 : 0 < ((c :: rest).takeWhile (fun x => !isspace x)).length :=
          List.length_pos.2 hwne
        rw [hs] at hsuffix
        omega
      obtain ⟨ih1, ih2, ih3⟩ := ih _ hlen_r
      have htok := whitespaceTokens_word _ _ hwne hfree hr
      rw [hsplit] at htok
      refine ⟨?_, ?_, ?_⟩
      · simp [istreamTokens, extractToken, hs, ih1, htok]
      · rw [htok]
        intro t ht
        rcases List.mem_cons.1 ht with ht | ht
        · rw [ht]
          exact ⟨hwne, hfree⟩
        · exact ih2 t ht
      · rw [htok, List.flatten_cons, ih3]
        conv_rhs => rw [← hsplit, List.filter_append]
        congr 1
        symm
        rw [List.filter_eq_self]
        intro x hx
        simp [hfree x hx]

theorem whitespaceTokens_blank (s : List Char) (h : ∀ c ∈ s, isspace c = true) :
    whitespaceTokens s = [] := by
  rw [← whitespaceTokens_dropWhile s, List.dropWhile_eq_nil_iff.2 h, whitespaceTokens_nil]

/-- C27: `GetTraceReplayOptions` returns the whitespace tokens of the string the handler has
retained from the annotations of the file (the data of the last annotation labelled
`"replay-options"`, or the empty string): the range of the stream iterator ends, and it is the
list, in order, of the maximal non-empty whitespace-free substrings of that string. No token is
empty or holds a whitespace character, the concatenation of the tokens is the string without its
whitespace characters, and a string that is empty or all whitespace gives the empty list. -/
theorem trace_replay_options (file : List FileBlock) :
    GetTraceReplayOptions file =
      some ((whitespaceTokens
        (FileProcessor.ProcessAnnotation file 0 { }).GetReplayOptions.data).map String.mk) ∧
    (FileProcessor.ProcessAnnotation file 0 { }).GetReplayOptions =
      lastReplayOptions (fileAnnotations file) ∧
    (∀ t ∈ whitespaceTokens (FileProcessor.ProcessAnnotation file 0 { }).GetReplayOptions.data,
      t ≠ [] ∧ ∀ c ∈ t, isspace c = false) ∧
    (whitespaceTokens (FileProcessor.ProcessAnnotation file 0 { }).GetReplayOptions.data).flatten =
      (FileProcessor.ProcessAnnotation file 0 { }).GetReplayOptions.data.filter
        (fun c => !isspace c) ∧
    ((∀ c ∈ (FileProcessor.ProcessAnnotation file 0 { }).GetReplayOptions.data,
        isspace c = true) →
      GetTraceReplayOptions file = some []) := by
  obtain ⟨h1, h2, h3⟩ := istreamTokens_whitespaceTokens
    ((FileProcessor.ProcessAnnotation file 0 { }).GetReplayOptions.data.length + 1)
    (FileProcessor.ProcessAnnotation file 0 { }).GetReplayOptions.data (Nat.lt_succ_self _)
  have hget : GetTraceReplayOptions file =
      some ((whitespaceTokens
        (FileProcessor.ProcessAnnotation file 0 { }).GetReplayOptions.data).map String.mk) := by
    unfold GetTraceReplayOptions
    simp only [h1, Option.map_some']
  refine ⟨hget, ?_, h2, h3, fun hall => ?_⟩
  · rw [FileProcessor_ProcessAnnotation_deliver file 0 0, deliver_retains, lastReplayOptions]
    rfl
  · rw [hget, whitespaceTokens_blank _ hall]
    rfl

/-- Witness of C27: a file whose annotation `"replay-options"` holds `"--bar --baz"` gives the
two tokens `"--bar"` and `"--baz"`; one whose annotation holds three spaces gives no token. -/
theorem trace_replay_options_witness :
    GetTraceReplayOptions
      [FileBlock.annotation { type := 5, size := 37 } format.AnnotationType.kText
        "replay-options" "--bar --baz"] = some ["--bar", "--baz"] ∧
    GetTraceReplayOptions
      [FileBlock.annotation { type := 5, size := 29 } format.AnnotationType.kText
        "replay-options" "   "] = some [] :=
  ⟨(trace_replay_options
      [FileBlock.annotation { type := 5, size := 37 } format.AnnotationType.kText
        "replay-options" "--bar --baz"]).1.trans (by decide),
    (trace_replay_options
      [FileBlock.annotation { type := 5, size := 29 } format.AnnotationType.kText
        "replay-options" "   "]).2.2.2.2 (by decide)⟩

end gfxrecon
namespace gfxrecon
namespace decode

open PreloadFileProcessor

/-! ## Blocks in `Record` state, the block index and the chunk size -/

/-- One turn of the loop in `Record` state on a block that is not skipped and whose bytes are at
the file read position: the bytes of the block are appended to the preload buffer. A call block
has to hold its 4-byte id. -/
theorem ProcessBlocksBody_record_block (env : Environment) (p : PreloadFileProcessor)
    (b : Block) (rest : List Byte) (hs : p.status_ = PreloadStatus.kRecord)
    (hf : FileAt p (b.bytes ++ rest)) (htype : b.type < 2 ^ 32)
    (hsize : b.payload.length < 2 ^ 64)
    (hskip : b.isSkipped env p.annotation_handler_ = false)
    (hcall : ∀ is_method, blockKind env p.annotation_handler_ b.type = BlockKind.call is_method →
      4 ≤ b.payload.length) :
    ∃ p1, ProcessBlocksBody env p = (p1, true, b.endsFrame env p.annotation_handler_) ∧
      p1.status_ = PreloadStatus.kRecord ∧ p1.file_data_ = p.file_data_ ∧
      p1.file_pos_ = p.file_pos_ + b.bytes.length ∧
      p1.annotation_handler_ = p.annotation_handler_ ∧ p1.calls_ = p.calls_ ∧
      p1.current_frame_number_ = p.current_frame_number_ ∧
      p1.preload_buffer_.container_ = p.preload_buffer_.container_ ++ b.bytes ∧
      p1.preload_buffer_.replay_offset_ = p.preload_buffer_.replay_offset_ := by
  have hnr : p.status_ ≠ PreloadStatus.kReplay := by rw [hs]; decide
  obtain ⟨hread, hf1⟩ := ReadBlockHeader_fileAt p b _ hnr hf
  have hlen := Block.bytes_length b
  rw [ProcessBlocksBody_kind env p (by rw [hread]), hread]
  simp only
  rw [BlockHeader_ofBytes_toBytes b.header htype hsize]
  have hh : (advanceFile p format.sizeofBlockHeader).annotation_handler_ =
      p.annotation_handler_ := rfl
  have ht : b.header.type = b.type := rfl
  have hs1 : (advanceFile p format.sizeofBlockHeader).status_ = PreloadStatus.kRecord := hs
  rw [hh, ht]
  cases hk : blockKind env p.annotation_handler_ b.type with
  | call is_method =>
    have h4 : 4 ≤ b.payload.length := hcall is_method hk
    have hf2 : FileAt (advanceFile p format.sizeofBlockHeader)
        (b.payload.take 4 ++ (b.data ++ rest)) := by
      rw [← List.append_assoc, ← Block.payload_split]
      exact hf1
    have hnr1 : (advanceFile p format.sizeofBlockHeader).status_ ≠ PreloadStatus.kReplay := hnr
    have hid := ReadBytes_fileAt _ _ _ hnr1 hf2
    rw [Block.id_length b h4] at hid
    have hf3 := FileAt_advanceFile _ _ _ hf2
    rw [Block.id_length b h4] at hf3
    have hs2 : (advanceFile (advanceFile p format.sizeofBlockHeader) 4).status_ =
        PreloadStatus.kRecord := hs
    obtain ⟨p1, hrec, r1, r2, r3, r4, r5, r6, r7, r8, _⟩ :=
      RecordBlock_fileAt env _ b.header (b.payload.take 4) b.data _ hs2 hf3
    have hsplit : b.payload.length = 4 + b.data.length := by
      simp only [Block.data, List.length_drop]
      omega
    simp only [ProcessBlockOfKind]
    rw [ProcessCallBlock_eq, hid]
    simp only [if_true, hs2, dataSize_header b h4 hsize, hrec, Block.endsFrame, hk, Block.id]
    refine ⟨p1, rfl, r1, r2, ?_, r4, r5, r6, ?_, r8⟩
    · rw [r3]
      simp only [advanceFile]
      omega
    · rw [r7, Block.bytes, ← Block.payload_split]
      rfl
  | data dispatch =>
    obtain ⟨p1, hrec, r1, r2, r3, r4, r5, r6, r7, r8, _⟩ :=
      RecordBlock_fileAt env _ b.header [] b.payload _ hs1 hf1
    have hsz : b.header.size = b.payload.length := rfl
    simp only [ProcessBlockOfKind]
    rw [ProcessDataBlock_eq]
    simp only [hs1, if_true, hsz, hrec, Block.endsFrame, hk]
    refine ⟨p1, rfl, r1, r2, ?_, r4, r5, r6, ?_, r8⟩
    · rw [r3]
      simp only [advanceFile]
      omega
    · rw [r7, Block.bytes]
      rfl
  | skipped =>
    simp [Block.isSkipped, hk] at hskip

theorem CountBlock_record (p : PreloadFileProcessor) (hs : p.status_ = PreloadStatus.kRecord) :
    CountBlock p = p := by
  unfold CountBlock
  simp [hs]

/-- C28: a block in `Record` state. Let the processor be in `Record` state with the bytes of a
block `b` next in the file (type below 2^32, size below 2^64). When `b` is a function call or
method call block with `header.size >= 4`, the turn of the loop succeeds and appends to the
preload buffer the header, the four bytes of the API-call id and the `header.size - 4` parameter
bytes, which are the bytes of the block in the file, `sizeof(header) + header.size` of them; the
file position is behind the block, and the pass ends right there when the call id is a frame
delimiter and goes on with the next block when it is not. When `b` is a meta-data block, a state
marker block or an annotation block with a handler set, the turn succeeds and appends the header
and the `header.size` payload bytes, and the pass goes on. -/
theorem record_appends_block (env : Environment) (p : PreloadFileProcessor) (b : Block)
    (rest : List Byte) (hs : p.status_ = PreloadStatus.kRecord)
    (hf : FileAt p (b.bytes ++ rest)) (htype : b.type < 2 ^ 32)
    (hsize : b.payload.length < 2 ^ 64) :
    (∀ is_method, blockKind env p.annotation_handler_ b.type = BlockKind.call is_method →
      4 ≤ b.header.size →
      ∃ p1, ProcessBlocksBody env p = (p1, true, env.IsFrameDelimiter b.id) ∧
        p1.preload_buffer_.container_ =
          p.preload_buffer_.container_ ++ (b.header.toBytes ++ (b.payload.take 4 ++ b.data)) ∧
        b.header.toBytes ++ (b.payload.take 4 ++ b.data) = b.bytes ∧
        b.bytes.length = format.sizeofBlockHeader + b.header.size ∧
        (b.payload.take 4).length = 4 ∧ decodeLE (b.payload.take 4) = b.id ∧
        b.data.length = b.header.size - 4 ∧
        p1.status_ = PreloadStatus.kRecord ∧ FileAt p1 rest ∧
        (∀ fuel, ProcessBlocksLoop env (fuel + 1) p =
          if env.IsFrameDelimiter b.id = true then some (p1, true)
          else ProcessBlocksLoop env fuel p1)) ∧
    (∀ dispatch, blockKind env p.annotation_handler_ b.type = BlockKind.data dispatch →
      ∃ p1, ProcessBlocksBody env p = (p1, true, false) ∧
        p1.preload_buffer_.container_ =
          p.preload_buffer_.container_ ++ (b.header.toBytes ++ b.payload) ∧
        b.header.toBytes ++ b.payload = b.bytes ∧
        b.bytes.length = format.sizeofBlockHeader + b.header.size ∧
        p1.status_ = PreloadStatus.kRecord ∧ FileAt p1 rest ∧
        (∀ fuel, ProcessBlocksLoop env (fuel + 1) p = ProcessBlocksLoop env fuel p1)) := by
  have hbytes : b.bytes.length = format.sizeofBlockHeader + b.header.size := Block.bytes_length b
  refine ⟨fun is_method hk h4 => ?_, fun dispatch hk => ?_⟩
  · have h4p : 4 ≤ b.payload.length := h4
    have hskip : b.isSkipped env p.annotation_handler_ = false := by simp [Block.isSkipped, hk]
    obtain ⟨p1, hb, h1, h2, h3, _, _, _, h7, _⟩ := ProcessBlocksBody_record_block env p b rest
      hs hf htype hsize hskip (fun _ _ => h4p)
    have hends : b.endsFrame env p.annotation_handler_ = env.IsFrameDelimiter b.id := by
      simp [Block.endsFrame, hk]
    rw [hends] at hb
    have hsplit : b.header.toBytes ++ (b.payload.take 4 ++ b.data) = b.bytes := by
      rw [Block.bytes, ← Block.payload_split]
    refine ⟨p1, hb, by rw [h7, hsplit], hsplit, hbytes, Block.id_length b h4p, rfl, ?_, h1,
      hf.advance h2 h3, fun fuel => ?_⟩
    · simp only [Block.data, List.length_drop, Block.header]
    · rw [ProcessBlocksLoop_succ, hb]
      simp only
      by_cases hd : env.IsFrameDelimiter b.id = true
      · simp [hd]
      · simp [hd, CountBlock_record p1 h1]
  · have hskip : b.isSkipped env p.annotation_handler_ = false := by simp [Block.isSkipped, hk]
    obtain ⟨p1, hb, h1, h2, h3, _, _, _, h7, _⟩ := ProcessBlocksBody_record_block env p b rest
      hs hf htype hsize hskip (fun m hm => by rw [hk] at hm; cases hm)
    have hends : b.endsFrame env p.annotation_handler_ = false := by
      simp [Block.endsFrame, hk]
    rw [hends] at hb
    refine ⟨p1, hb, h7, rfl, hbytes, h1, hf.advance h2 h3, fun fuel => ?_⟩
    rw [ProcessBlocksLoop_succ, hb]
    simp [CountBlock_record p1 h1]

/-- Witness of C28: the first block of the sample trace, the function call 1 with two parameter
bytes, in `Record` state: its 18 bytes are appended to the empty preload buffer. -/
theorem record_appends_block_witness :
    ∃ p1, ProcessBlocksBody sampleEnvironment recordingProcessor = (p1, true, false) ∧
      p1.preload_buffer_.container_ =
        [4, 0, 0, 0, 6, 0, 0, 0, 0, 0, 0, 0, 1, 0, 0, 0, 7, 8] := by
  obtain ⟨p1, hb, hc, _⟩ := (record_appends_block sampleEnvironment recordingProcessor
    { type := 4, payload := [1, 0, 0, 0, 7, 8] } (sampleTrace.drop 18) rfl
    (by unfold FileAt; decide) (by decide) (by decide)).1 false rfl (by decide)
  exact ⟨p1, hb, hc⟩

/-- C29: the block index after a preload, at the sample trace, whose first frame holds a block
of the unrecognized type 9. Direct replay of the two frames counts the four blocks:
`block_index_` is 4. `PreloadNextFrames(2)` leaves `block_index_` at 0, and the replay of the
preloaded frames leaves it at 3: the unrecognized block was skipped in `Record` state without
being put into the buffer, so it is counted neither when it is read nor when the buffer is
replayed. -/
theorem block_index_after_preload :
    (ProcessFrames sampleEnvironment 2 sampleProcessor).map (fun p => p.block_index_) = some 4 ∧
    (PreloadNextFrames sampleEnvironment sampleProcessor 2).map (fun p => p.block_index_) =
      some 0 ∧
    ((PreloadNextFrames sampleEnvironment sampleProcessor 2).bind
      (ProcessFrames sampleEnvironment 2)).map (fun p => p.block_index_) = some 3 := by
  decide

/-- C30: `GetNextBufferChunkSize`. The divisor `max(current_frame_number_ +
preload_frame_number_, 1)` is never zero. With `average = max(bytes_read_ / divisor, 2^20)` the
result is `average` when the capacity left in the buffer is smaller than `average`, and 0
otherwise; so it is 0 or at least 2^20. The sum and the difference are those of 64-bit unsigned
arithmetic; when the sum of the frame numbers is below 2^64 and the size of the buffer is at most
its capacity (itself below 2^64), as for every `std::vector`, they are the plain sum and
difference. -/
theorem next_chunk_size (p : PreloadFileProcessor) :
    0 < max ((p.current_frame_number_ + p.preload_frame_number_) % 2 ^ 64) 1 ∧
    p.GetNextBufferChunkSize =
      (if (p.preload_buffer_.Capacity + 2 ^ 64 - p.preload_buffer_.Size) % 2 ^ 64 <
          max (p.bytes_read_ /
            max ((p.current_frame_number_ + p.preload_frame_number_) % 2 ^ 64) 1) (2 ^ 20) then
        max (p.bytes_read_ /
          max ((p.current_frame_number_ + p.preload_frame_number_) % 2 ^ 64) 1) (2 ^ 20)
      else 0) ∧
    (p.GetNextBufferChunkSize = 0 ∨ 2 ^ 20 ≤ p.GetNextBufferChunkSize) ∧
    (p.current_frame_number_ + p.preload_frame_number_ < 2 ^ 64 →
      p.preload_buffer_.Size ≤ p.preload_buffer_.Capacity →
      p.preload_buffer_.Capacity < 2 ^ 64 →
      p.GetNextBufferChunkSize =
        if p.preload_buffer_.Capacity - p.preload_buffer_.Size <
            max (2 ^ 20)
              (p.bytes_read_ / max (p.current_frame_number_ + p.preload_frame_number_) 1) then
          max (2 ^ 20)
            (p.bytes_read_ / max (p.current_frame_number_ + p.preload_frame_number_) 1)
        else 0) := by
  have heq : p.GetNextBufferChunkSize =
      (if (p.preload_buffer_.Capacity + 2 ^ 64 - p.preload_buffer_.Size) % 2 ^ 64 <
          max (p.bytes_read_ /
            max ((p.current_frame_number_ + p.preload_frame_number_) % 2 ^ 64) 1) (2 ^ 20) then
        max (p.bytes_read_ /
          max ((p.current_frame_number_ + p.preload_frame_number_) % 2 ^ 64) 1) (2 ^ 20)
      else 0) := rfl
  refine ⟨?_, heq, ?_, fun hsum hle hcap => ?_⟩
  · exact Nat.lt_of_lt_of_le Nat.one_pos (Nat.le_max_right _ _)
  · rw [heq]
    split_ifs
    · exact Or.inr (Nat.le_max_right _ _)
    · exact Or.inl rfl
  · rw [heq, Nat.mod_eq_of_lt hsum, Nat.max_comm (2 ^ 20)]
    have hdiff : (p.preload_buffer_.Capacity + 2 ^ 64 - p.preload_buffer_.Size) % 2 ^ 64 =
        p.preload_buffer_.Capacity - p.preload_buffer_.Size := by
      have h1 : p.preload_buffer_.Capacity + 2 ^ 64 - p.preload_buffer_.Size =
          (p.preload_buffer_.Capacity - p.preload_buffer_.Size) + 2 ^ 64 := by omega
      rw [h1, Nat.add_mod_right, Nat.mod_eq_of_lt (by omega)]
    rw [hdiff]

/-- Witness of C30: at the start of the sample trace the buffer is empty and nothing has been
read; the chunk size is one megabyte. -/
theorem next_chunk_size_witness : sampleProcessor.GetNextBufferChunkSize = 1048576 :=
  ((next_chunk_size sampleProcessor).2.2.2 (by decide) (by decide) (by decide)).trans
    (by decide)

end decode
end gfxrecon
namespace gfxrecon
namespace decode

open Dx12ReplayConsumerBase

/-! ## GPU virtual addresses: recorded once -/

/-- A write of the record that the table holds already leaves the table as it is. -/
theorem Dx12ObjectInfoTable.store_find (t : Dx12ObjectInfoTable) (info : DxObjectInfo)
    (id : HandleId) (h : t.find id = some info) : t.store info = t := by
  induction t with
  | nil => rfl
  | cons a t ih =>
    by_cases h1 : a.capture_id = id
    · simp only [Dx12ObjectInfoTable.find, h1, if_true, Option.some.injEq] at h
      subst h
      simp [Dx12ObjectInfoTable.store]
    · simp only [Dx12ObjectInfoTable.find, h1, if_false] at h
      have hid := Dx12ObjectInfoTable.find_capture_id t id info h
      have h2 : ¬ a.capture_id = info.capture_id := by rw [hid]; exact h1
      simp only [Dx12ObjectInfoTable.store, h2, if_false, ih h]

/-- A resource info with a recorded capture address is the extra info of its object. -/
theorem resourceInfoOrNew_recorded (info : DxObjectInfo) (resource_info : D3D12ResourceInfo)
    (h : resourceInfoOrNew info = some resource_info)
    (hrec : resource_info.capture_address_ ≠ 0) :
    { info with
      extra_info_type := DxObjectInfoType.kID3D12ResourceInfo
      extra_info := some (ExtraInfo.resource resource_info) } = info := by
  unfold resourceInfoOrNew at h
  cases hx : info.extra_info with
  | none =>
    rw [hx] at h
    simp only [Option.some.injEq] at h
    subst h
    exact absurd rfl hrec
  | some extra =>
    rw [hx] at h
    simp only at h
    by_cases ht : info.extra_info_type = DxObjectInfoType.kID3D12ResourceInfo
    · rw [if_pos ht] at h
      cases extra with
      | resource r =>
        simp only [ExtraInfo.asResource, Option.some.injEq] at h
        subst h
        cases info
        simp only at hx ht
        subst hx ht
        rfl
      | heap _ => cases h
      | device _ => cases h
      | swapchain _ => cases h
    · rw [if_neg ht] at h
      cases h

/-- A call of `OverrideGetGpuVirtualAddress` in which an address is zero changes nothing. -/
theorem OverrideGetGpuVirtualAddress_zero (c : Dx12ReplayConsumerBase) (id : HandleId)
    (info : DxObjectInfo) (original_result replay_result size : Nat)
    (hfind : c.object_info_table_.find id = some info) (hobj : info.object ≠ 0)
    (hzero : original_result = 0 ∨ replay_result = 0) :
    c.OverrideGetGpuVirtualAddress id original_result replay_result size =
      some (c, replay_result) := by
  have hn : ¬ (original_result ≠ 0 ∧ replay_result ≠ 0) := by
    rintro ⟨h1, h2⟩
    rcases hzero with h | h
    · exact h1 h
    · exact h2 h
  unfold OverrideGetGpuVirtualAddress
  simp only [hfind, hobj, if_false, hn]

/-- A call of `OverrideGetGpuVirtualAddress` on an object whose capture address is recorded
changes nothing. -/
theorem OverrideGetGpuVirtualAddress_later (c : Dx12ReplayConsumerBase) (id : HandleId)
    (info : DxObjectInfo) (resource_info : D3D12ResourceInfo)
    (original_result replay_result size : Nat)
    (hfind : c.object_info_table_.find id = some info) (hobj : info.object ≠ 0)
    (hresource : resourceInfoOrNew info = some resource_info)
    (hrec : resource_info.capture_address_ ≠ 0) :
    c.OverrideGetGpuVirtualAddress id original_result replay_result size =
      some (c, replay_result) := by
  by_cases hboth : original_result ≠ 0 ∧ replay_result ≠ 0
  · unfold OverrideGetGpuVirtualAddress
    simp only [hfind, hobj, if_false, hboth, ne_eq, not_false_eq_true, and_self, if_true,
      hresource, hrec]
    rw [resourceInfoOrNew_recorded info resource_info hresource hrec,
      Dx12ObjectInfoTable.store_find _ info id hfind]
  · apply OverrideGetGpuVirtualAddress_zero c id info _ _ _ hfind hobj
    by_contra hc
    exact hboth ⟨fun h => hc (Or.inl h), fun h => hc (Or.inr h)⟩

/-- The call of `OverrideGetGpuVirtualAddress` that records the addresses. -/
theorem OverrideGetGpuVirtualAddress_records (c : Dx12ReplayConsumerBase) (id : HandleId)
    (info : DxObjectInfo) (resource_info : D3D12ResourceInfo)
    (original_result replay_result size : Nat)
    (hfind : c.object_info_table_.find id = some info) (hobj : info.object ≠ 0)
    (horiginal : original_result ≠ 0) (hreplay : replay_result ≠ 0)
    (hresource : resourceInfoOrNew info = some resource_info)
    (hfirst : resource_info.capture_address_ = 0) :
    c.OverrideGetGpuVirtualAddress id original_result replay_result size =
      some (withGpuVirtualAddress c info resource_info original_result replay_result size,
        replay_result) := by
  unfold OverrideGetGpuVirtualAddress withGpuVirtualAddress
  simp only [hfind, hobj, if_false, horiginal, hreplay, ne_eq, not_false_eq_true, and_self,
    if_true, hresource, hfirst]

/-- After the recording call the object has a resource info with the capture address. -/
theorem withGpuVirtualAddress_find (c : Dx12ReplayConsumerBase) (id : HandleId)
    (info : DxObjectInfo) (resource_info : D3D12ResourceInfo)
    (original_result replay_result size : Nat)
    (hfind : c.object_info_table_.find id = some info) :
    ∃ info1 resource_info1,
      (withGpuVirtualAddress c info resource_info original_result replay_result
        size).object_info_table_.find id = some info1 ∧
      info1.object = info.object ∧
      resourceInfoOrNew info1 = some resource_info1 ∧
      resource_info1.capture_address_ = original_result ∧
      resource_info1.replay_address_ = replay_result := by
  refine ⟨{ info with
      extra_info_type := DxObjectInfoType.kID3D12ResourceInfo
      extra_info := some (ExtraInfo.resource
        { resource_info with
          capture_address_ := original_result
          replay_address_ := replay_result }) },
    { resource_info with
      capture_address_ := original_result
      replay_address_ := replay_result },
    Dx12ObjectInfoTable.find_store_at _ _ info id
      (Dx12ObjectInfoTable.find_capture_id _ id info hfind) hfind, rfl, ?_, rfl, rfl⟩
  simp [resourceInfoOrNew, ExtraInfo.asResource]

/-- Calls on an object whose capture address is recorded change nothing and return the replay
addresses. -/
theorem getGpuVirtualAddresses_later (id : HandleId) (calls : List (Nat × Nat × Nat)) :
    ∀ (c : Dx12ReplayConsumerBase) (info : DxObjectInfo) (resource_info : D3D12ResourceInfo),
      c.object_info_table_.find id = some info → info.object ≠ 0 →
      resourceInfoOrNew info = some resource_info → resource_info.capture_address_ ≠ 0 →
      getGpuVirtualAddresses id calls c = some (c, calls.map (fun call => call.2.1)) := by
  induction calls with
  | nil => intro c info resource_info _ _ _ _; rfl
  | cons call calls ih =>
    intro c info resource_info hfind hobj hresource hrec
    obtain ⟨o, r, s⟩ := call
    simp only [getGpuVirtualAddresses,
      OverrideGetGpuVirtualAddress_later c id info resource_info o r s hfind hobj hresource hrec,
      ih c info resource_info hfind hobj hresource hrec, Option.map_some', List.map_cons]

/-- Calls on an object whose capture address is not recorded yet: the first call with two
addresses other than zero records them, and nothing else changes the consumer. -/
theorem getGpuVirtualAddresses_first (id : HandleId) (c : Dx12ReplayConsumerBase)
    (info : DxObjectInfo) (resource_info : D3D12ResourceInfo)
    (hfind : c.object_info_table_.find id = some info) (hobj : info.object ≠ 0)
    (hresource : resourceInfoOrNew info = some resource_info)
    (hfirst : resource_info.capture_address_ = 0) (calls : List (Nat × Nat × Nat)) :
    getGpuVirtualAddresses id calls c =
      some (match calls.find? (fun call => decide (call.1 ≠ 0 ∧ call.2.1 ≠ 0)) with
            | none => c
            | some call => withGpuVirtualAddress c info resource_info call.1 call.2.1 call.2.2,
        calls.map (fun call => call.2.1)) := by
  induction calls with
  | nil => rfl
  | cons call calls ih =>
    obtain ⟨o, r, s⟩ := call
    by_cases hboth : o ≠ 0 ∧ r ≠ 0
    · obtain ⟨info1, resource_info1, hfind1, hobj1, hresource1, hcap1, _⟩ :=
        withGpuVirtualAddress_find c id info resource_info o r s hfind
      have hlater := getGpuVirtualAddresses_later id calls _ info1 resource_info1 hfind1
        (by rw [hobj1]; exact hobj) hresource1 (by rw [hcap1]; exact hboth.1)
      simp only [getGpuVirtualAddresses,
        OverrideGetGpuVirtualAddress_records c id info resource_info o r s hfind hobj hboth.1
          hboth.2 hresource hfirst, hlater, Option.map_some', List.map_cons, List.find?_cons,
        hboth, ne_eq, not_false_eq_true, and_self, decide_True]
    · have hzero : o = 0 ∨ r = 0 := by
        by_contra hc
        exact hboth ⟨fun h => hc (Or.inl h), fun h => hc (Or.inr h)⟩
      simp only [getGpuVirtualAddresses,
        OverrideGetGpuVirtualAddress_zero c id info o r s hfind hobj hzero, ih,
        Option.map_some', List.map_cons, List.find?_cons, hboth, decide_False]

/-- C31: `OverrideGetGpuVirtualAddress` on a live object (`info`, the record of `id`). The
override returns the replay-time address. A call in which the captured or the replay address is
zero leaves the consumer as it is. The call in which both are not zero and the resource info of
the object (the one it has, or a new one) has no capture address yet sets `capture_address_` and
`replay_address_` and adds the resource with its size to `gpu_va_map_`. A call on an object whose
capture address is recorded leaves the consumer as it is. So over any sequence of calls on an
object without recorded address, the consumer at the end is the one that the first call with two
addresses other than zero leaves, or the one at the start when there is no such call, and the
values returned are the replay-time addresses. -/
theorem gpu_address_recorded_once (c : Dx12ReplayConsumerBase) (id : HandleId)
    (info : DxObjectInfo) (hfind : c.object_info_table_.find id = some info)
    (hobj : info.object ≠ 0) :
    (∀ original_result replay_result size, original_result = 0 ∨ replay_result = 0 →
      c.OverrideGetGpuVirtualAddress id original_result replay_result size =
        some (c, replay_result)) ∧
    (∀ resource_info original_result replay_result size,
      resourceInfoOrNew info = some resource_info → resource_info.capture_address_ = 0 →
      original_result ≠ 0 → replay_result ≠ 0 →
      c.OverrideGetGpuVirtualAddress id original_result replay_result size =
        some (withGpuVirtualAddress c info resource_info original_result replay_result size,
          replay_result) ∧
      ∃ info1 resource_info1,
        (withGpuVirtualAddress c info resource_info original_result replay_result
          size).object_info_table_.find id = some info1 ∧
        info1.object = info.object ∧
        resourceInfoOrNew info1 = some resource_info1 ∧
        resource_info1.capture_address_ = original_result ∧
        resource_info1.replay_address_ = replay_result) ∧
    (∀ resource_info original_result replay_result size,
      resourceInfoOrNew info = some resource_info → resource_info.capture_address_ ≠ 0 →
      c.OverrideGetGpuVirtualAddress id original_result replay_result size =
        some (c, replay_result)) ∧
    (∀ resource_info calls,
      resourceInfoOrNew info = some resource_info → resource_info.capture_address_ = 0 →
      getGpuVirtualAddresses id calls c =
        some (match calls.find? (fun call => decide (call.1 ≠ 0 ∧ call.2.1 ≠ 0)) with
              | none => c
              | some call =>
                withGpuVirtualAddress c info resource_info call.1 call.2.1 call.2.2,
          calls.map (fun call => call.2.1))) := by
  refine ⟨?_, ?_, ?_, ?_⟩
  · intro o r s hzero
    exact OverrideGetGpuVirtualAddress_zero c id info o r s hfind hobj hzero
  · intro resource_info o r s hresource hfirst ho hr
    exact ⟨OverrideGetGpuVirtualAddress_records c id info resource_info o r s hfind hobj ho hr
      hresource hfirst, withGpuVirtualAddress_find c id info resource_info o r s hfind⟩
  · intro resource_info o r s hresource hrec
    exact OverrideGetGpuVirtualAddress_later c id info resource_info o r s hfind hobj hresource
      hrec
  · intro resource_info calls hresource hfirst
    exact getGpuVirtualAddresses_first id c info resource_info hfind hobj hresource hfirst calls

/-- Witness of C31: four calls on the resource of `oneResource`: one without captured address,
one that records 0x10000 and 0x50000, one with other addresses, one without replay address. The
consumer at the end is the one the second call leaves. -/
theorem gpu_address_recorded_once_witness :
    getGpuVirtualAddresses 1 [(0, 5, 16), (65536, 327680, 256), (4096, 8192, 16), (4096, 0, 16)]
        oneResource =
      some ({ object_info_table_ :=
                [{ capture_id := 1, object := 4096, ref_count := 1
                   extra_info_type := DxObjectInfoType.kID3D12ResourceInfo
                   extra_info := some (ExtraInfo.resource
                     { capture_address_ := 65536, replay_address_ := 327680 }) }]
              gpu_va_map_ :=
                [{ resource := 4096, capture_va := 65536, replay_va := 327680, size := 256 }] },
        [5, 327680, 8192, 0]) :=
  (gpu_address_recorded_once oneResource 1 { capture_id := 1, object := 4096, ref_count := 1 }
    rfl (by decide)).2.2.2 {} _ rfl rfl

/-! ## Swapchains for core windows and compositions -/

/-- Once the window has its native handle, `CreateSwapChainForHwnd` without a full-screen
description stops at its assertion. -/
theorem finishSwapChain_not_asserted (c : Dx12ReplayConsumerBase) (replay_object_info : HandleId)
    (swapchain : Option HandlePointerDecoder) (window : Nat) (driver_result : HRESULT) :
    finishSwapChain c replay_object_info false swapchain (window + 1) true driver_result =
      none := by
  unfold finishSwapChain
  rw [if_pos (Nat.succ_ne_zero window), if_pos rfl]
  cases c.object_info_table_.find replay_object_info <;> cases swapchain <;> rfl

/-- C32: `OverrideCreateSwapChainForCoreWindow` and `OverrideCreateSwapChainForComposition` call
`CreateSwapChainForHwnd` with `nullptr` for `full_screen_desc`. Whatever the consumer and the
other arguments, with a description that is not null, a window that the factory has created
(`window + 1` is not the null pointer) and its native handle obtained, the override stops at the
assertion `full_screen_desc != nullptr` of `CreateSwapChainForHwnd` (the result `none`): the
driver is not reached with the assertion holding. On the same consumer and arguments
`OverrideCreateSwapChainForHwnd`, which hands on a full-screen description, reaches the driver and
registers the window. -/
theorem core_window_full_screen_desc (c : Dx12ReplayConsumerBase)
    (replay_object_info device_info window_info restrict_to_output_info : HandleId)
    (original_result driver_result : HRESULT) (desc_pointer : DXGI_SWAP_CHAIN_DESC1)
    (swapchain : Option HandlePointerDecoder) (window : Nat) :
    c.OverrideCreateSwapChainForCoreWindow replay_object_info original_result device_info
      window_info (some { pointer := some desc_pointer }) restrict_to_output_info swapchain
      (window + 1) true driver_result = none ∧
    c.OverrideCreateSwapChainForComposition replay_object_info original_result device_info
      (some { pointer := some desc_pointer }) restrict_to_output_info swapchain
      (window + 1) true driver_result = none ∧
    factoryConsumer.OverrideCreateSwapChainForCoreWindow 3 0 0 0
      (some { pointer := some { Width := 800, Height := 600 } }) 0 (some sampleSwapchainDecoder)
      77 true 0 = none ∧
    factoryConsumer.OverrideCreateSwapChainForHwnd 3 0 0 0
      (some { pointer := some { Width := 800, Height := 600 } }) (some { pointer := some { } }) 0
      (some sampleSwapchainDecoder) 77 true 0 =
      some { consumer :=
               { factoryConsumer with
                 window_factory_ :=
                   { created := [(77, { x := 0, y := 0, width := 800, height := 600 })] }
                 active_windows_ := [77] }
             object_info := some
               { capture_id := 5, object := 20480, ref_count := 1
                 extra_info_type := DxObjectInfoType.kIDxgiSwapchainInfo
                 extra_info := some (ExtraInfo.swapchain { window := 77 }) }
             result := 0
             driver_called := true } := by
  refine ⟨?_, ?_, ?_, by decide⟩
  · unfold OverrideCreateSwapChainForCoreWindow CreateSwapChainForHwnd WindowFactory.Create
    simp only [Option.isSome_none]
    exact finishSwapChain_not_asserted _ _ _ _ _
  · unfold OverrideCreateSwapChainForComposition CreateSwapChainForHwnd WindowFactory.Create
    simp only [Option.isSome_none]
    exact finishSwapChain_not_asserted _ _ _ _ _
  · decide

/-! ## `Map` and `Unmap` without effect -/

/-- C37: `OverrideResourceMap` and `OverrideResourceUnmap` on a live object (`info`, the record
of `id`) when there is nothing to record. When the driver's `Map` fails, or the decoder holds no
captured id, or there is no output pointer, or the host pointer that the driver returns is null,
`OverrideResourceMap` leaves the consumer as it is (`mapped_memory_`, the extra info of the
resource and its subresource table with it) and returns the driver's result. When the object has
no extra info, or its resource info has no entry for the subresource, `OverrideResourceUnmap`
leaves the consumer as it is and makes the driver's `Unmap` call on the object, with the
subresource and the written range. -/
theorem map_unmap_without_effect (c : Dx12ReplayConsumerBase) (id : HandleId)
    (info : DxObjectInfo) (hfind : c.object_info_table_.find id = some info)
    (hobj : info.object ≠ 0) :
    (∀ (original_result result : HRESULT) (subresource host_pointer : Nat)
        (read_range : StructPointerDecoder D3D12_RANGE) (data : PointerDecoder),
      SUCCEEDED result = false ∨ data.pointer = none ∨ data.has_output_pointer = false ∨
        host_pointer = 0 →
      c.OverrideResourceMap id original_result subresource (some read_range) (some data) result
        host_pointer = some (c, result)) ∧
    (∀ (subresource : Nat) (written_range : StructPointerDecoder D3D12_RANGE),
      (info.extra_info = none ∨
        ∃ resource_info, info.extra_info = some (ExtraInfo.resource resource_info) ∧
          info.extra_info_type = DxObjectInfoType.kID3D12ResourceInfo ∧
          Map.find resource_info.mapped_memory_info subresource = none) →
      c.OverrideResourceUnmap id subresource (some written_range) = some c ∧
      c.unmapDriverCall id subresource (some written_range) =
        some { object := info.object, subresource := subresource
               written_range := written_range.pointer }) := by
  constructor
  · intro original_result result subresource host_pointer read_range data h
    unfold OverrideResourceMap
    simp only [hfind, hobj, if_false]
    cases hp : data.pointer with
    | none => rfl
    | some m =>
      simp only
      have hn : ¬ (SUCCEEDED result = true ∧ data.has_output_pointer = true ∧
          host_pointer ≠ 0) := by
        rintro ⟨h1, h2, h3⟩
        rcases h with h | h | h | h
        · rw [h] at h1
          cases h1
        · rw [hp] at h
          cases h
        · rw [h] at h2
          cases h2
        · exact h3 h
      rw [if_neg hn]
  · intro subresource written_range h
    have hcall : c.OverrideResourceUnmap id subresource (some written_range) = some c := by
      unfold OverrideResourceUnmap
      simp only [hfind, hobj, if_false]
      rcases h with h | ⟨resource_info, hx, ht, hnone⟩
      · rw [h]
      · rw [hx]
        simp only [ht, if_true, ExtraInfo.asResource, hnone]
    refine ⟨hcall, ?_⟩
    unfold unmapDriverCall
    rw [hcall, hfind]

/-- Witness of C37: on the consumer `mappedOnce` a `Map` that the driver fails and an `Unmap` of
subresource 5, which has no entry. -/
theorem map_unmap_without_effect_witness :
    mappedOnce.OverrideResourceMap 1 0 0 (some { }) (some { pointer := some 43 }) E_FAIL 8192 =
      some (mappedOnce, E_FAIL) ∧
    mappedOnce.OverrideResourceUnmap 1 5 (some { }) = some mappedOnce ∧
    mappedOnce.unmapDriverCall 1 5 (some { }) =
      some { object := 4096, subresource := 5, written_range := none } :=
  have h := map_unmap_without_effect mappedOnce 1
    { capture_id := 1, object := 4096, ref_count := 1
      extra_info_type := DxObjectInfoType.kID3D12ResourceInfo
      extra_info := some (ExtraInfo.resource
        { mapped_memory_info := [(0, { count := 1, memory_id := 42 })] }) } rfl (by decide)
  ⟨h.1 0 E_FAIL 0 8192 { } { pointer := some 43 } (Or.inl (by decide)),
    h.2 5 { } (Or.inr ⟨_, rfl, rfl, rfl⟩)⟩

/-! ## The descriptor maps -/

/-- The property survives a change of the object table that keeps the typed heap infos with
their key. -/
theorem HeapKeyed.same_heaps {keys : Nat → Prop} {t t1 : Dx12ObjectInfoTable}
    {key : D3D12DescriptorHeapInfo → Nat} {m : List (Nat × HandleId)}
    (hinv : HeapKeyed keys t key m)
    (htab : ∀ heap info heap_info, t.find heap = some info →
      info.extra_info = some (ExtraInfo.heap heap_info) →
      info.extra_info_type = DxObjectInfoType.kID3D12DescriptorHeapInfo →
      ∃ info1 heap_info1, t1.find heap = some info1 ∧
        info1.extra_info = some (ExtraInfo.heap heap_info1) ∧
        info1.extra_info_type = DxObjectInfoType.kID3D12DescriptorHeapInfo ∧
        key heap_info1 = key heap_info) :
    HeapKeyed keys t1 key m := by
  intro k heap hk hf
  obtain ⟨info, heap_info, hfind, hx, ht, hkey⟩ := hinv k heap hk hf
  obtain ⟨info1, heap_info1, hfind1, hx1, ht1, hkey1⟩ := htab heap info heap_info hfind hx ht
  exact ⟨info1, heap_info1, hfind1, hx1, ht1, by rw [hkey1, hkey]⟩

/-- The property survives the insertion of a record under a capture id that is not in use. -/
theorem HeapKeyed.insert_fresh {keys : Nat → Prop} {t : Dx12ObjectInfoTable}
    {key : D3D12DescriptorHeapInfo → Nat} {m : List (Nat × HandleId)}
    (hinv : HeapKeyed keys t key m) (info : DxObjectInfo)
    (hfresh : t.find info.capture_id = none) : HeapKeyed keys (t.insert info) key m := by
  apply hinv.same_heaps
  intro heap i heap_info hfind hx ht
  refine ⟨i, heap_info, ?_, hx, ht, rfl⟩
  rw [Dx12ObjectInfoTable.find_insert_fresh t info heap hfresh]
  have hne : ¬ info.capture_id = heap := by
    intro h
    rw [h, hfind] at hfresh
    cases hfresh
  rw [if_neg hne, hfind]

/-- The property survives a write to the record of `id` that keeps a typed heap info with its
key. -/
theorem HeapKeyed.store_record {keys : Nat → Prop} {t : Dx12ObjectInfoTable}
    {key : D3D12DescriptorHeapInfo → Nat} {m : List (Nat × HandleId)}
    (hinv : HeapKeyed keys t key m) (id : HandleId)
    (info info1 : DxObjectInfo) (hfind : t.find id = some info) (hid : info1.capture_id = id)
    (hkeep : ∀ heap_info, info.extra_info = some (ExtraInfo.heap heap_info) →
      info.extra_info_type = DxObjectInfoType.kID3D12DescriptorHeapInfo →
      ∃ heap_info1, info1.extra_info = some (ExtraInfo.heap heap_info1) ∧
        info1.extra_info_type = DxObjectInfoType.kID3D12DescriptorHeapInfo ∧
        key heap_info1 = key heap_info) :
    HeapKeyed keys (t.store info1) key m := by
  apply hinv.same_heaps
  intro heap i heap_info hf hx ht
  rw [Dx12ObjectInfoTable.find_store t info1 info id heap hid hfind]
  by_cases h : id = heap
  · subst h
    rw [hfind] at hf
    cases hf
    obtain ⟨heap_info1, hx1, ht1, hkey1⟩ := hkeep heap_info hx ht
    exact ⟨info1, heap_info1, by rw [if_pos rfl], hx1, ht1, hkey1⟩
  · exact ⟨i, heap_info, by rw [if_neg h, hf], hx, ht, rfl⟩

/-- The property survives the removal of an entry of the map. -/
theorem HeapKeyed.erase_key {keys : Nat → Prop} {t : Dx12ObjectInfoTable}
    {key : D3D12DescriptorHeapInfo → Nat} {m : List (Nat × HandleId)}
    (hinv : HeapKeyed keys t key m) (k0 : Nat) :
    HeapKeyed keys t key (Map.erase m k0) := by
  intro k heap hk hf
  by_cases h : k0 = k
  · subst h
    rw [Map.find_erase_self] at hf
    cases hf
  · rw [Map.find_erase_ne m k0 k h] at hf
    exact hinv k heap hk hf

/-- The property survives the removal of a record that holds no typed heap info. -/
theorem HeapKeyed.erase_other {keys : Nat → Prop} {t : Dx12ObjectInfoTable}
    {key : D3D12DescriptorHeapInfo → Nat} {m : List (Nat × HandleId)}
    (hinv : HeapKeyed keys t key m) (id : HandleId) (info : DxObjectInfo)
    (hfind : t.find id = some info)
    (hother : ¬ (info.extra_info_type = DxObjectInfoType.kID3D12DescriptorHeapInfo ∧
      ∃ heap_info, info.extra_info = some (ExtraInfo.heap heap_info))) :
    HeapKeyed keys (t.erase id) key m := by
  apply hinv.same_heaps
  intro heap i heap_info hf hx ht
  have hne : id ≠ heap := by
    intro h
    subst h
    rw [hfind] at hf
    cases hf
    exact hother ⟨ht, heap_info, hx⟩
  exact ⟨i, heap_info, by rw [Dx12ObjectInfoTable.table_find_erase_ne t id heap hne, hf], hx, ht,
    rfl⟩

/-- The property survives the removal of a heap together with the entry under its key. -/
theorem HeapKeyed.erase_heap {keys : Nat → Prop} {t : Dx12ObjectInfoTable}
    {key : D3D12DescriptorHeapInfo → Nat} {m : List (Nat × HandleId)}
    (hinv : HeapKeyed keys t key m) (id : HandleId) (info : DxObjectInfo)
    (heap_info : D3D12DescriptorHeapInfo) (hfind : t.find id = some info)
    (hx : info.extra_info = some (ExtraInfo.heap heap_info)) :
    HeapKeyed keys (t.erase id) key (Map.erase m (key heap_info)) := by
  intro k heap hk hf
  by_cases h : key heap_info = k
  · rw [h, Map.find_erase_self] at hf
    cases hf
  · rw [Map.find_erase_ne m _ k h] at hf
    obtain ⟨i, heap_info1, hfind1, hx1, ht1, hkey1⟩ := hinv k heap hk hf
    have hne : id ≠ heap := by
      intro hid
      subst hid
      rw [hfind] at hfind1
      cases hfind1
      rw [hx] at hx1
      cases hx1
      exact h hkey1
    exact ⟨i, heap_info1, by rw [Dx12ObjectInfoTable.table_find_erase_ne t id heap hne, hfind1],
      hx1, ht1, hkey1⟩

/-- The property survives the call that records the begin address of a heap whose begin address
was zero and registers the heap under that address, when the key 0 is not among the keys or the
heap is not under the key 0 unless the new address is zero too. -/
theorem HeapKeyed.register {keys : Nat → Prop} {t : Dx12ObjectInfoTable}
    {key : D3D12DescriptorHeapInfo → Nat} {m : List (Nat × HandleId)}
    (hinv : HeapKeyed keys t key m) (id : HandleId)
    (info : DxObjectInfo) (heap_info heap_info1 : D3D12DescriptorHeapInfo)
    (hfind : t.find id = some info)
    (hx : info.extra_info = some (ExtraInfo.heap heap_info))
    (ht : info.extra_info_type = DxObjectInfoType.kID3D12DescriptorHeapInfo)
    (hzero : key heap_info = 0)
    (hreg : keys 0 → Map.find m 0 = some id → key heap_info1 = 0) :
    HeapKeyed keys (t.store { info with extra_info := some (ExtraInfo.heap heap_info1) }) key
      (Map.assign m (key heap_info1) info.capture_id) := by
  have hid := Dx12ObjectInfoTable.find_capture_id t id info hfind
  have hst := fun heap => Dx12ObjectInfoTable.find_store t
    { info with extra_info := some (ExtraInfo.heap heap_info1) } info id heap hid hfind
  intro k heap hk hf
  by_cases h : key heap_info1 = k
  · rw [h, Map.find_assign_self] at hf
    cases hf
    refine ⟨{ info with extra_info := some (ExtraInfo.heap heap_info1) }, heap_info1, ?_, rfl,
      ht, h⟩
    rw [hst, if_pos hid.symm]
  · rw [Map.find_assign_ne m _ k _ h] at hf
    obtain ⟨i, heap_info2, hfind2, hx2, ht2, hkey2⟩ := hinv k heap hk hf
    have hne : id ≠ heap := by
      intro hh
      subst hh
      rw [hfind] at hfind2
      cases hfind2
      rw [hx] at hx2
      cases hx2
      have hk0 : k = 0 := by rw [← hkey2, hzero]
      subst hk0
      exact h (hreg hk hf)
    refine ⟨i, heap_info2, ?_, hx2, ht2, hkey2⟩
    rw [hst, if_neg hne, hfind2]

/-- Every way `OverrideGetCPUDescriptorHandleForHeapStart` returns: it changes nothing, or the
object has a typed heap info whose CPU begin address is zero, the addresses are recorded and the
heap is registered under the captured address. -/
theorem OverrideGetCPUDescriptorHandleForHeapStart_cases (c c1 : Dx12ReplayConsumerBase)
    (id : HandleId) (original_result replay_result returned : Nat)
    (h : c.OverrideGetCPUDescriptorHandleForHeapStart id original_result replay_result =
      some (c1, returned)) :
    returned = replay_result ∧
    (c1 = c ∨
      ∃ info heap_info, c.object_info_table_.find id = some info ∧
        info.extra_info = some (ExtraInfo.heap heap_info) ∧
        info.extra_info_type = DxObjectInfoType.kID3D12DescriptorHeapInfo ∧
        heap_info.capture_cpu_addr_begin = 0 ∧
        c1 = { c with
               object_info_table_ := c.object_info_table_.store
                 { info with
                   extra_info := some (ExtraInfo.heap
                     { heap_info with
                       capture_cpu_addr_begin := original_result
                       replay_cpu_addr_begin := replay_result }) }
               descriptor_cpu_addresses_ :=
                 Map.assign c.descriptor_cpu_addresses_ original_result info.capture_id }) := by
  unfold OverrideGetCPUDescriptorHandleForHeapStart at h
  cases hfind : c.object_info_table_.find id with
  | none => rw [hfind] at h; cases h
  | some info =>
    rw [hfind] at h
    simp only at h
    by_cases hobj : info.object = 0
    · rw [if_pos hobj] at h
      cases h
    · rw [if_neg hobj] at h
      cases hx : info.extra_info with
      | none =>
        rw [hx] at h
        cases h
        exact ⟨rfl, Or.inl rfl⟩
      | some extra =>
        rw [hx] at h
        simp only at h
        by_cases ht : info.extra_info_type = DxObjectInfoType.kID3D12DescriptorHeapInfo
        · rw [if_pos ht] at h
          cases extra with
          | heap heap_info =>
            simp only [ExtraInfo.asHeap] at h
            by_cases hz : heap_info.capture_cpu_addr_begin = 0
            · rw [if_pos hz] at h
              cases h
              exact ⟨rfl, Or.inr ⟨info, heap_info, rfl, hx, ht, hz, rfl⟩⟩
            · rw [if_neg hz] at h
              cases h
              exact ⟨rfl, Or.inl rfl⟩
          | resource _ => cases h
          | device _ => cases h
          | swapchain _ => cases h
        · rw [if_neg ht] at h
          cases h
          exact ⟨rfl, Or.inl rfl⟩

/-- Every way `OverrideGetGPUDescriptorHandleForHeapStart` returns. -/
theorem OverrideGetGPUDescriptorHandleForHeapStart_cases (c c1 : Dx12ReplayConsumerBase)
    (id : HandleId) (original_result replay_result returned : Nat)
    (h : c.OverrideGetGPUDescriptorHandleForHeapStart id original_result replay_result =
      some (c1, returned)) :
    returned = replay_result ∧
    (c1 = c ∨
      ∃ info heap_info, c.object_info_table_.find id = some info ∧
        info.extra_info = some (ExtraInfo.heap heap_info) ∧
        info.extra_info_type = DxObjectInfoType.kID3D12DescriptorHeapInfo ∧
        heap_info.capture_gpu_addr_begin = 0 ∧
        c1 = { c with
               object_info_table_ := c.object_info_table_.store
                 { info with
                   extra_info := some (ExtraInfo.heap
                     { heap_info with
                       capture_gpu_addr_begin := original_result
                       replay_gpu_addr_begin := replay_result }) }
               descriptor_gpu_addresses_ :=
                 Map.assign c.descriptor_gpu_addresses_ original_result info.capture_id }) := by
  unfold OverrideGetGPUDescriptorHandleForHeapStart at h
  cases hfind : c.object_info_table_.find id with
  | none => rw [hfind] at h; cases h
  | some info =>
    rw [hfind] at h
    simp only at h
    by_cases hobj : info.object = 0
    · rw [if_pos hobj] at h
      cases h
    · rw [if_neg hobj] at h
      cases hx : info.extra_info with
      | none =>
        rw [hx] at h
        cases h
        exact ⟨rfl, Or.inl rfl⟩
      | some extra =>
        rw [hx] at h
        simp only at h
        by_cases ht : info.extra_info_type = DxObjectInfoType.kID3D12DescriptorHeapInfo
        · rw [if_pos ht] at h
          cases extra with
          | heap heap_info =>
            simp only [ExtraInfo.asHeap] at h
            by_cases hz : heap_info.capture_gpu_addr_begin = 0
            · rw [if_pos hz] at h
              cases h
              exact ⟨rfl, Or.inr ⟨info, heap_info, rfl, hx, ht, hz, rfl⟩⟩
            · rw [if_neg hz] at h
              cases h
              exact ⟨rfl, Or.inl rfl⟩
          | resource _ => cases h
          | device _ => cases h
          | swapchain _ => cases h
        · rw [if_neg ht] at h
          cases h
          exact ⟨rfl, Or.inl rfl⟩

/-- Every way `RemoveObject` returns on a record: the record leaves the table; for a typed heap
info the entries under its two begin addresses leave the descriptor maps, and for any other
record the descriptor maps stay as they are. -/
theorem RemoveObject_descriptor_cases (c c1 : Dx12ReplayConsumerBase) (info : DxObjectInfo)
    (left : Option DxObjectInfo) (h : c.RemoveObject (some info) = some (c1, left)) :
    c1.object_info_table_ = c.object_info_table_.erase info.capture_id ∧
    ((∃ heap_info, info.extra_info = some (ExtraInfo.heap heap_info) ∧
        info.extra_info_type = DxObjectInfoType.kID3D12DescriptorHeapInfo ∧
        c1.descriptor_cpu_addresses_ =
          Map.erase c.descriptor_cpu_addresses_ heap_info.capture_cpu_addr_begin ∧
        c1.descriptor_gpu_addresses_ =
          Map.erase c.descriptor_gpu_addresses_ heap_info.capture_gpu_addr_begin) ∨
      (¬ (info.extra_info_type = DxObjectInfoType.kID3D12DescriptorHeapInfo ∧
          ∃ heap_info, info.extra_info = some (ExtraInfo.heap heap_info)) ∧
        c1.descriptor_cpu_addresses_ = c.descriptor_cpu_addresses_ ∧
        c1.descriptor_gpu_addresses_ = c.descriptor_gpu_addresses_)) := by
  cases hx : info.extra_info with
  | none =>
    simp only [RemoveObject, hx] at h
    cases h
    refine ⟨rfl, Or.inr ⟨?_, rfl, rfl⟩⟩
    rintro ⟨_, _, hh⟩
    cases hh
  | some extra =>
    simp only [RemoveObject, hx] at h
    cases hd : DestroyExtraInfo c info extra with
    | none => rw [hd] at h; cases h
    | some c2 =>
      rw [hd] at h
      cases h
      refine ⟨by
        show c2.object_info_table_.erase info.capture_id = _
        rw [DestroyExtraInfo_table c c2 info extra hd], ?_⟩
      show (∃ heap_info, some extra = some (ExtraInfo.heap heap_info) ∧ _ ∧
          c2.descriptor_cpu_addresses_ = _ ∧ c2.descriptor_gpu_addresses_ = _) ∨
        (¬ (_ ∧ ∃ heap_info, some extra = some (ExtraInfo.heap heap_info)) ∧
          c2.descriptor_cpu_addresses_ = _ ∧ c2.descriptor_gpu_addresses_ = _)
      unfold DestroyExtraInfo at hd
      split_ifs at hd with h1 h2 h3 h4
      · right
        refine ⟨fun hh => absurd (h1.symm.trans hh.1) (by decide), ?_⟩
        cases extra <;> simp [ExtraInfo.asResource] at hd
        rw [← hd]
        split_ifs <;> exact ⟨rfl, rfl⟩
      · left
        cases extra <;> simp [ExtraInfo.asHeap] at hd
        rename_i heap_info
        rw [← hd]
        exact ⟨heap_info, rfl, h2, rfl, rfl⟩
      · right
        refine ⟨fun hh => h2 hh.1, ?_⟩
        cases extra <;> simp [ExtraInfo.asDevice] at hd
        rw [← hd]
        exact ⟨rfl, rfl⟩
      · right
        refine ⟨fun hh => h2 hh.1, ?_⟩
        cases extra <;> simp [ExtraInfo.asSwapchain] at hd
        rw [← hd]
        exact ⟨rfl, rfl⟩
      · right
        cases hd
        exact ⟨fun hh => h2 hh.1, rfl, rfl⟩

/-- Every way `OverrideCreateDescriptorHeap` returns: the consumer is as before, and the record
of the heap, if there is one, has the capture id of the pending record of the decoder. -/
theorem OverrideCreateDescriptorHeap_cases (c : Dx12ReplayConsumerBase)
    (replay_object_info : HandleId) (original_result driver_result : HRESULT)
    (desc : Option (StructPointerDecoder D3D12_DESCRIPTOR_HEAP_DESC))
    (heap : Option HandlePointerDecoder) (r : CreateResult)
    (h : c.OverrideCreateDescriptorHeap replay_object_info original_result desc heap
      driver_result = some r) :
    r.consumer = c ∧ r.result = driver_result ∧
    (r.object_info = none ∨
      ∃ pending info1, consumerData heap = some pending ∧ r.object_info = some info1 ∧
        info1.capture_id = pending.capture_id) := by
  unfold OverrideCreateDescriptorHeap at h
  cases hfind : c.object_info_table_.find replay_object_info with
  | none => simp [hfind] at h
  | some info =>
    cases desc with
    | none => simp [hfind] at h
    | some desc =>
      cases heap with
      | none => simp [hfind] at h
      | some heap =>
        simp only [hfind] at h
        by_cases hobj : info.object = 0
        · rw [if_pos hobj] at h
          cases h
        · rw [if_neg hobj] at h
          have hplain : ∀ r1 : CreateResult,
              r1 = { consumer := c, object_info := heap.consumer_data, result := driver_result
                     driver_called := true } →
              r1.consumer = c ∧ r1.result = driver_result ∧
              (r1.object_info = none ∨
                ∃ pending info1, consumerData (some heap) = some pending ∧
                  r1.object_info = some info1 ∧ info1.capture_id = pending.capture_id) := by
            intro r1 hr1
            subst hr1
            refine ⟨rfl, rfl, ?_⟩
            cases hp : heap.consumer_data with
            | none => exact Or.inl rfl
            | some pending => exact Or.inr ⟨pending, pending, hp, rfl, rfl⟩
          cases hd : desc.pointer with
          | none =>
            rw [hd] at h
            cases h
            exact hplain _ rfl
          | some desc_pointer =>
            rw [hd] at h
            simp only at h
            by_cases hs : SUCCEEDED driver_result = true
            · rw [if_pos hs] at h
              cases hn : newHeapInfo info desc_pointer with
              | none => simp [hn] at h
              | some heap_info =>
                cases hp : heap.consumer_data with
                | none => simp [hn, hp] at h
                | some pending =>
                  simp only [hn, hp, Option.some.injEq] at h
                  subst h
                  exact ⟨rfl, rfl, Or.inr ⟨pending, _, hp, rfl, rfl⟩⟩
            · rw [if_neg hs] at h
              cases h
              exact hplain _ rfl

/-- Every way `OverrideAddRef` returns: the reference count of the record goes up. -/
theorem OverrideAddRef_cases (c c1 : Dx12ReplayConsumerBase) (id : HandleId)
    (original_result driver_result returned : Nat)
    (h : c.OverrideAddRef id original_result driver_result = some (c1, returned)) :
    ∃ info, c.object_info_table_.find id = some info ∧
      c1 = { c with
             object_info_table_ :=
               c.object_info_table_.store { info with ref_count := info.ref_count + 1 } } := by
  unfold OverrideAddRef at h
  cases hfind : c.object_info_table_.find id with
  | none => rw [hfind] at h; cases h
  | some info =>
    rw [hfind] at h
    simp only at h
    by_cases hobj : info.object = 0
    · rw [if_pos hobj] at h
      cases h
    · rw [if_neg hobj] at h
      cases h
      exact ⟨info, rfl, rfl⟩

/-- The property of the two descriptor maps survives `RemoveObject` on a record that has the
capture id and the extra info of the record of the table. -/
theorem HeapKeyed.remove_object {keys : Nat → Prop} (c c1 : Dx12ReplayConsumerBase)
    (id : HandleId) (info record : DxObjectInfo) (left : Option DxObjectInfo)
    (hcpu : HeapKeyed keys c.object_info_table_
      (fun heap_info => heap_info.capture_cpu_addr_begin) c.descriptor_cpu_addresses_)
    (hgpu : HeapKeyed keys c.object_info_table_
      (fun heap_info => heap_info.capture_gpu_addr_begin) c.descriptor_gpu_addresses_)
    (hfind : c.object_info_table_.find id = some info) (hid : record.capture_id = id)
    (hx : record.extra_info = info.extra_info)
    (ht : record.extra_info_type = info.extra_info_type)
    (h : c.RemoveObject (some record) = some (c1, left)) :
    HeapKeyed keys c1.object_info_table_ (fun heap_info => heap_info.capture_cpu_addr_begin)
      c1.descriptor_cpu_addresses_ ∧
    HeapKeyed keys c1.object_info_table_ (fun heap_info => heap_info.capture_gpu_addr_begin)
      c1.descriptor_gpu_addresses_ := by
  obtain ⟨htab, ⟨heap_info, hheap, _, h1, h2⟩ | ⟨hother, h1, h2⟩⟩ :=
    RemoveObject_descriptor_cases c c1 record left h
  · rw [htab, h1, h2, hid]
    rw [hx] at hheap
    exact ⟨hcpu.erase_heap id info heap_info hfind hheap,
      hgpu.erase_heap id info heap_info hfind hheap⟩
  · rw [htab, h1, h2, hid]
    rw [hx, ht] at hother
    exact ⟨hcpu.erase_other id info hfind hother, hgpu.erase_other id info hfind hother⟩

/-- In every reachable state the entries of the two descriptor maps whose key is not zero are
keyed by the begin address of the heap info they point to, a heap info of the object table. -/
theorem DescriptorReachable.keyed (c : Dx12ReplayConsumerBase) (h : DescriptorReachable c) :
    HeapKeyed (fun k => k ≠ 0) c.object_info_table_
      (fun heap_info => heap_info.capture_cpu_addr_begin) c.descriptor_cpu_addresses_ ∧
    HeapKeyed (fun k => k ≠ 0) c.object_info_table_
      (fun heap_info => heap_info.capture_gpu_addr_begin) c.descriptor_gpu_addresses_ := by
  induction h with
  | init =>
    constructor <;> intro k heap _ hf <;> cases hf
  | object c info _ hfresh ih =>
    exact ⟨ih.1.insert_fresh info hfresh, ih.2.insert_fresh info hfresh⟩
  | create_heap c replay_object_info original_result driver_result desc heap r _ hfresh hcall
      ih =>
    obtain ⟨hc, _, hnone | ⟨pending, info1, hp, hinfo, hid⟩⟩ :=
      OverrideCreateDescriptorHeap_cases c replay_object_info original_result driver_result desc
        heap r hcall
    · unfold afterCreation
      rw [hnone, hc]
      simp only [ite_self]
      exact ih
    · unfold afterCreation
      rw [hinfo, hc]
      by_cases hs : SUCCEEDED r.result = true
      · rw [if_pos hs]
        have hf := hfresh pending hp
        rw [← hid] at hf
        exact ⟨ih.1.insert_fresh info1 hf, ih.2.insert_fresh info1 hf⟩
      · rw [if_neg hs]
        exact ih
  | cpu_start c c1 id original_result replay_result returned _ hcall ih =>
    obtain ⟨_, hsame | ⟨info, heap_info, hfind, hx, ht, hz, hc1⟩⟩ :=
      OverrideGetCPUDescriptorHandleForHeapStart_cases c c1 id original_result replay_result
        returned hcall
    · rw [hsame]
      exact ih
    · rw [hc1]
      refine ⟨ih.1.register id info heap_info
        { heap_info with
          capture_cpu_addr_begin := original_result
          replay_cpu_addr_begin := replay_result } hfind hx ht hz
        (fun h0 => absurd rfl h0), ?_⟩
      refine ih.2.store_record id info _ hfind
        (Dx12ObjectInfoTable.find_capture_id _ id info hfind) ?_
      intro heap_info2 hx2 _
      rw [hx] at hx2
      cases hx2
      exact ⟨_, rfl, ht, rfl⟩
  | gpu_start c c1 id original_result replay_result returned _ hcall ih =>
    obtain ⟨_, hsame | ⟨info, heap_info, hfind, hx, ht, hz, hc1⟩⟩ :=
      OverrideGetGPUDescriptorHandleForHeapStart_cases c c1 id original_result replay_result
        returned hcall
    · rw [hsame]
      exact ih
    · rw [hc1]
      refine ⟨?_, ih.2.register id info heap_info
        { heap_info with
          capture_gpu_addr_begin := original_result
          replay_gpu_addr_begin := replay_result } hfind hx ht hz
        (fun h0 => absurd rfl h0)⟩
      refine ih.1.store_record id info _ hfind
        (Dx12ObjectInfoTable.find_capture_id _ id info hfind) ?_
      intro heap_info2 hx2 _
      rw [hx] at hx2
      cases hx2
      exact ⟨_, rfl, ht, rfl⟩
  | add_ref c c1 id original_result driver_result returned _ hcall ih =>
    obtain ⟨info, hfind, hc1⟩ := OverrideAddRef_cases c c1 id original_result driver_result
      returned hcall
    rw [hc1]
    have hid := Dx12ObjectInfoTable.find_capture_id _ id info hfind
    exact ⟨ih.1.store_record id info _ hfind hid (fun heap_info hx ht => ⟨heap_info, hx, ht, rfl⟩),
      ih.2.store_record id info _ hfind hid (fun heap_info hx ht => ⟨heap_info, hx, ht, rfl⟩)⟩
  | release c id original driver_result res _ hrel ih =>
    obtain ⟨info, hfind, hstore | ⟨left, hrem⟩⟩ := OverrideRelease_cases c id original
      driver_result res hrel
    · rw [hstore]
      have hid := Dx12ObjectInfoTable.find_capture_id _ id info hfind
      exact ⟨ih.1.store_record id info _ hfind hid
          (fun heap_info hx ht => ⟨heap_info, hx, ht, rfl⟩),
        ih.2.store_record id info _ hfind hid
          (fun heap_info hx ht => ⟨heap_info, hx, ht, rfl⟩)⟩
    · exact HeapKeyed.remove_object c res.consumer id info
        { info with ref_count := info.ref_count - 1 } left ih.1 ih.2 hfind
        (Dx12ObjectInfoTable.find_capture_id _ id info hfind) rfl rfl hrem
  | remove c c1 id info left _ hfind hrem ih =>
    exact HeapKeyed.remove_object c c1 id info info left ih.1 ih.2 hfind
      (Dx12ObjectInfoTable.find_capture_id _ id info hfind) rfl rfl hrem

/-- In every state reached by consistent calls all the entries of the two descriptor maps, those
of key zero too, are keyed by the begin address of the heap info they point to, a heap info of
the object table. -/
theorem DescriptorConsistent.keyed_all (c : Dx12ReplayConsumerBase)
    (h : DescriptorConsistent c) :
    HeapKeyed (fun _ => True) c.object_info_table_
      (fun heap_info => heap_info.capture_cpu_addr_begin) c.descriptor_cpu_addresses_ ∧
    HeapKeyed (fun _ => True) c.object_info_table_
      (fun heap_info => heap_info.capture_gpu_addr_begin) c.descriptor_gpu_addresses_ := by
  induction h with
  | init =>
    constructor <;> intro k heap _ hf <;> cases hf
  | object c info _ hfresh ih =>
    exact ⟨ih.1.insert_fresh info hfresh, ih.2.insert_fresh info hfresh⟩
  | create_heap c replay_object_info original_result driver_result desc heap r _ hfresh hcall
      ih =>
    obtain ⟨hc, _, hnone | ⟨pending, info1, hp, hinfo, hid⟩⟩ :=
      OverrideCreateDescriptorHeap_cases c replay_object_info original_result driver_result desc
        heap r hcall
    · unfold afterCreation
      rw [hnone, hc]
      simp only [ite_self]
      exact ih
    · unfold afterCreation
      rw [hinfo, hc]
      by_cases hs : SUCCEEDED r.result = true
      · rw [if_pos hs]
        have hf := hfresh pending hp
        rw [← hid] at hf
        exact ⟨ih.1.insert_fresh info1 hf, ih.2.insert_fresh info1 hf⟩
      · rw [if_neg hs]
        exact ih
  | cpu_start c c1 id original_result replay_result returned _ hzero hcall ih =>
    obtain ⟨_, hsame | ⟨info, heap_info, hfind, hx, ht, hz, hc1⟩⟩ :=
      OverrideGetCPUDescriptorHandleForHeapStart_cases c c1 id original_result replay_result
        returned hcall
    · rw [hsame]
      exact ih
    · rw [hc1]
      refine ⟨ih.1.register id info heap_info
        { heap_info with
          capture_cpu_addr_begin := original_result
          replay_cpu_addr_begin := replay_result } hfind hx ht hz
        (fun _ h0 => hzero h0), ?_⟩
      refine ih.2.store_record id info _ hfind
        (Dx12ObjectInfoTable.find_capture_id _ id info hfind) ?_
      intro heap_info2 hx2 _
      rw [hx] at hx2
      cases hx2
      exact ⟨_, rfl, ht, rfl⟩
  | gpu_start c c1 id original_result replay_result returned _ hzero hcall ih =>
    obtain ⟨_, hsame | ⟨info, heap_info, hfind, hx, ht, hz, hc1⟩⟩ :=
      OverrideGetGPUDescriptorHandleForHeapStart_cases c c1 id original_result replay_result
        returned hcall
    · rw [hsame]
      exact ih
    · rw [hc1]
      refine ⟨?_, ih.2.register id info heap_info
        { heap_info with
          capture_gpu_addr_begin := original_result
          replay_gpu_addr_begin := replay_result } hfind hx ht hz
        (fun _ h0 => hzero h0)⟩
      refine ih.1.store_record id info _ hfind
        (Dx12ObjectInfoTable.find_capture_id _ id info hfind) ?_
      intro heap_info2 hx2 _
      rw [hx] at hx2
      cases hx2
      exact ⟨_, rfl, ht, rfl⟩
  | add_ref c c1 id original_result driver_result returned _ hcall ih =>
    obtain ⟨info, hfind, hc1⟩ := OverrideAddRef_cases c c1 id original_result driver_result
      returned hcall
    rw [hc1]
    have hid := Dx12ObjectInfoTable.find_capture_id _ id info hfind
    exact ⟨ih.1.store_record id info _ hfind hid (fun heap_info hx ht => ⟨heap_info, hx, ht, rfl⟩),
      ih.2.store_record id info _ hfind hid (fun heap_info hx ht => ⟨heap_info, hx, ht, rfl⟩)⟩
  | release c id original driver_result res _ hrel ih =>
    obtain ⟨info, hfind, hstore | ⟨left, hrem⟩⟩ := OverrideRelease_cases c id original
      driver_result res hrel
    · rw [hstore]
      have hid := Dx12ObjectInfoTable.find_capture_id _ id info hfind
      exact ⟨ih.1.store_record id info _ hfind hid
          (fun heap_info hx ht => ⟨heap_info, hx, ht, rfl⟩),
        ih.2.store_record id info _ hfind hid
          (fun heap_info hx ht => ⟨heap_info, hx, ht, rfl⟩)⟩
    · exact HeapKeyed.remove_object c res.consumer id info
        { info with ref_count := info.ref_count - 1 } left ih.1 ih.2 hfind
        (Dx12ObjectInfoTable.find_capture_id _ id info hfind) rfl rfl hrem
  | remove c c1 id info left _ hfind hrem ih =>
    exact HeapKeyed.remove_object c c1 id info info left ih.1 ih.2 hfind
      (Dx12ObjectInfoTable.find_capture_id _ id info hfind) rfl rfl hrem

/-- A state reached by consistent calls is a reachable state. -/
theorem DescriptorConsistent.to_reachable (c : Dx12ReplayConsumerBase)
    (h : DescriptorConsistent c) : DescriptorReachable c := by
  induction h with
  | init => exact DescriptorReachable.init
  | object c info _ hfresh ih => exact DescriptorReachable.object c info ih hfresh
  | create_heap c replay_object_info original_result driver_result desc heap r _ hfresh hcall
      ih =>
    exact DescriptorReachable.create_heap c replay_object_info original_result driver_result
      desc heap r ih hfresh hcall
  | cpu_start c c1 id original_result replay_result returned _ _ hcall ih =>
    exact DescriptorReachable.cpu_start c c1 id original_result replay_result returned ih hcall
  | gpu_start c c1 id original_result replay_result returned _ _ hcall ih =>
    exact DescriptorReachable.gpu_start c c1 id original_result replay_result returned ih hcall
  | add_ref c c1 id original_result driver_result returned _ hcall ih =>
    exact DescriptorReachable.add_ref c c1 id original_result driver_result returned ih hcall
  | release c id original driver_result res _ hrel ih =>
    exact DescriptorReachable.release c id original driver_result res ih hrel
  | remove c c1 id info left _ hfind hrem ih =>
    exact DescriptorReachable.remove c c1 id info left ih hfind hrem

/-- The consumer `heapConsumer` is reached by the creation of the device 7 and of the heap 8 on
it. -/
theorem heapConsumer_reachable : DescriptorReachable heapConsumer :=
  DescriptorReachable.create_heap deviceConsumer 7 0 0
    (some { pointer := some { Type_ := 0, NumDescriptors := 16 } })
    (some { consumer_data := some { capture_id := 8, object := 32768, ref_count := 1 } })
    { consumer := deviceConsumer
      object_info := some
        { capture_id := 8, object := 32768, ref_count := 1
          extra_info_type := DxObjectInfoType.kID3D12DescriptorHeapInfo
          extra_info := some (ExtraInfo.heap { descriptor_type := 0, descriptor_count := 16 }) }
      result := 0
      driver_called := true }
    (DescriptorReachable.object { } { capture_id := 7, object := 28672, ref_count := 1 }
      DescriptorReachable.init rfl)
    (fun info h => by
      simp only [consumerData, Option.bind, Option.some.injEq] at h
      subst h
      rfl)
    (by decide)

/-- The consumer `heapStartConsumer` is reached from `heapConsumer` by the first call for the CPU
start of the heap 8. -/
theorem heapStartConsumer_reachable : DescriptorReachable heapStartConsumer :=
  DescriptorReachable.cpu_start heapConsumer heapStartConsumer 8 4096 36864 36864
    heapConsumer_reachable (by decide)

/-- The consumer `heapConsumer` is reached by consistent calls. -/
theorem heapConsumer_consistent : DescriptorConsistent heapConsumer :=
  DescriptorConsistent.create_heap deviceConsumer 7 0 0
    (some { pointer := some { Type_ := 0, NumDescriptors := 16 } })
    (some { consumer_data := some { capture_id := 8, object := 32768, ref_count := 1 } })
    { consumer := deviceConsumer
      object_info := some
        { capture_id := 8, object := 32768, ref_count := 1
          extra_info_type := DxObjectInfoType.kID3D12DescriptorHeapInfo
          extra_info := some (ExtraInfo.heap { descriptor_type := 0, descriptor_count := 16 }) }
      result := 0
      driver_called := true }
    (DescriptorConsistent.object { } { capture_id := 7, object := 28672, ref_count := 1 }
      DescriptorConsistent.init rfl)
    (fun info h => by
      simp only [consumerData, Option.bind, Option.some.injEq] at h
      subst h
      rfl)
    (by decide)

/-- The consumer `zeroKeyedHeapConsumer` is reached from `heapConsumer` by the first call for the
GPU start of the heap 8, with the captured address 0. -/
theorem zeroKeyedHeapConsumer_consistent : DescriptorConsistent zeroKeyedHeapConsumer :=
  DescriptorConsistent.gpu_start heapConsumer zeroKeyedHeapConsumer 8 0 100 100
    heapConsumer_consistent (fun _ => rfl) (by decide)

/-- The descriptor maps as far as the code keeps them in step with the object table. In every
consumer state reached from the empty consumer by
object creations and `OverrideCreateDescriptorHeap` (under capture ids that are not in use),
`OverrideGetCPUDescriptorHandleForHeapStart`, `OverrideGetGPUDescriptorHandleForHeapStart`,
`OverrideAddRef`, `OverrideRelease` and `RemoveObject` on live objects, every entry of
`descriptor_cpu_addresses_` (respectively `descriptor_gpu_addresses_`) whose key is not zero
points to a heap that is in the object table with a heap info under the tag
`kID3D12DescriptorHeapInfo`, and the key is the `capture_cpu_addr_begin` (respectively
`capture_gpu_addr_begin`) of that heap info. The same holds of every entry, those of key zero
too, when the state is reached by calls in which a heap that a map has under the address 0 gets
the captured address 0 again in every call for its start in that map. -/
theorem descriptor_maps_keyed (c : Dx12ReplayConsumerBase) (h : DescriptorReachable c) :
    (∀ k heap, k ≠ 0 → Map.find c.descriptor_cpu_addresses_ k = some heap →
      ∃ info heap_info, c.object_info_table_.find heap = some info ∧
        info.extra_info = some (ExtraInfo.heap heap_info) ∧
        info.extra_info_type = DxObjectInfoType.kID3D12DescriptorHeapInfo ∧
        heap_info.capture_cpu_addr_begin = k) ∧
    (∀ k heap, k ≠ 0 → Map.find c.descriptor_gpu_addresses_ k = some heap →
      ∃ info heap_info, c.object_info_table_.find heap = some info ∧
        info.extra_info = some (ExtraInfo.heap heap_info) ∧
        info.extra_info_type = DxObjectInfoType.kID3D12DescriptorHeapInfo ∧
        heap_info.capture_gpu_addr_begin = k) ∧
    (DescriptorConsistent c →
      (∀ k heap, Map.find c.descriptor_cpu_addresses_ k = some heap →
        ∃ info heap_info, c.object_info_table_.find heap = some info ∧
          info.extra_info = some (ExtraInfo.heap heap_info) ∧
          info.extra_info_type = DxObjectInfoType.kID3D12DescriptorHeapInfo ∧
          heap_info.capture_cpu_addr_begin = k) ∧
      (∀ k heap, Map.find c.descriptor_gpu_addresses_ k = some heap →
        ∃ info heap_info, c.object_info_table_.find heap = some info ∧
          info.extra_info = some (ExtraInfo.heap heap_info) ∧
          info.extra_info_type = DxObjectInfoType.kID3D12DescriptorHeapInfo ∧
          heap_info.capture_gpu_addr_begin = k)) :=
  ⟨(DescriptorReachable.keyed c h).1, (DescriptorReachable.keyed c h).2, fun hc =>
    ⟨fun k heap hf => (DescriptorConsistent.keyed_all c hc).1 k heap trivial hf,
      fun k heap hf => (DescriptorConsistent.keyed_all c hc).2 k heap trivial hf⟩⟩

/-- An instance of `descriptor_maps_keyed`: in the consumer `heapStartConsumer` the entry of key
4096 of
`descriptor_cpu_addresses_` points to the heap 8, whose heap info has the begin address 4096; in
the consumer `zeroKeyedHeapConsumer`, reached by consistent calls, the entry of key 0 of
`descriptor_gpu_addresses_` points to the heap 8, whose heap info has the begin address 0. -/
theorem descriptor_maps_keyed_witness :
    (∃ info heap_info, heapStartConsumer.object_info_table_.find 8 = some info ∧
      info.extra_info = some (ExtraInfo.heap heap_info) ∧
      info.extra_info_type = DxObjectInfoType.kID3D12DescriptorHeapInfo ∧
      heap_info.capture_cpu_addr_begin = 4096) ∧
    (∃ info heap_info, zeroKeyedHeapConsumer.object_info_table_.find 8 = some info ∧
      info.extra_info = some (ExtraInfo.heap heap_info) ∧
      info.extra_info_type = DxObjectInfoType.kID3D12DescriptorHeapInfo ∧
      heap_info.capture_gpu_addr_begin = 0) :=
  ⟨(descriptor_maps_keyed heapStartConsumer heapStartConsumer_reachable).1 4096 8 (by decide)
      rfl,
    ((descriptor_maps_keyed zeroKeyedHeapConsumer
      (DescriptorConsistent.to_reachable _ zeroKeyedHeapConsumer_consistent)).2.2
      zeroKeyedHeapConsumer_consistent).2 0 8 rfl⟩

end decode
end gfxrecon
namespace gfxrecon
namespace decode

open PreloadFileProcessor

/-! ## The reserve loop when every allocation fails -/

/-- With an allocator that refuses every request, a buffer without spare capacity and a request
of two bytes or more, the reserve loop does not end: no bound on its turns is enough. -/
theorem ReserveChunk_refused (env : Environment) (hrefuse : ∀ n, env.reserve_ok n = false)
    (b : PreloadBuffer) (hcap : b.capacity_ ≤ b.container_.length) :
    ∀ (fuel n : Nat), 2 ≤ n → b.container_.length + n < 2 ^ 64 →
      ReserveChunk env fuel b n = none := by
  intro fuel
  induction fuel with
  | zero => intro n _ _; rfl
  | succ fuel ih =>
    intro n hn hlt
    have hfail : b.Reserve env n = (b, false) := by
      unfold PreloadBuffer.Reserve
      simp only [Nat.mod_eq_of_lt hlt, hrefuse]
      rw [if_neg (by omega)]
      simp
    rw [ReserveChunk_succ, if_pos (by omega), hfail]
    simp only [Bool.false_eq_true, if_false]
    apply ih
    · unfold retryChunkSize
      omega
    · have := retryChunkSize_le n
      omega

/-- With an allocator that refuses every request and a buffer without spare capacity, the
statements before `ProcessNextFrame()` do not end once a chunk is asked for. -/
theorem ReserveNextChunk_refused (env : Environment) (hrefuse : ∀ n, env.reserve_ok n = false)
    (p : PreloadFileProcessor)
    (hcap : p.preload_buffer_.capacity_ ≤ p.preload_buffer_.container_.length)
    (hchunk : 2 ≤ p.GetNextBufferChunkSize)
    (hlt : p.preload_buffer_.container_.length + p.GetNextBufferChunkSize < 2 ^ 64) :
    ReserveNextChunk env p = none := by
  unfold ReserveNextChunk
  simp only
  rw [if_pos (by omega), ReserveChunk_refused env hrefuse p.preload_buffer_ hcap _ _ hchunk hlt]
  rfl

/-- The function `PreloadNextFrames` does not get past a reserve loop that does not end. -/
theorem PreloadNextFrames_stuck (env : Environment) (p : PreloadFileProcessor)
    (count total : Nat) (hcount : 0 < count)
    (hsize : GetRequiredByteSizeForFrames env p count = some total)
    (hnext : ReserveNextChunk env
      { p with
        preload_buffer_ := (p.preload_buffer_.Reserve env total).1
        status_ := PreloadStatus.kRecord
        preload_frame_number_ := 0 } = none) :
    PreloadNextFrames env p count = none := by
  rw [PreloadNextFrames_eq, hsize]
  simp only
  rw [PreloadFrames_succ, if_pos hcount, hnext]

set_option maxRecDepth 100000 in
/-- A request of 1048576 bytes that fails 116 times has come down to 9 bytes. -/
theorem retryChunkSize_mebibyte : retryChunkSize^[116] 1048576 = 9 := by decide

/-- C33: the reserve loop of `PreloadNextFrames` with an allocator that refuses every request.
The first request of a fresh processor is 1048576 bytes; after 116 failed attempts the request is
9 bytes, and `9 - 9 / 10` is 9 again: the request does not decrease any more and never reaches 1.
Whatever bound is put on the number of turns, the loop has not ended within it (the result
`none`), from the request 1048576 and from the request 9; and `PreloadNextFrames(1)` does not
get past the loop. -/
theorem reserve_retry_never_ends (fuel : Nat) :
    sampleProcessor.GetNextBufferChunkSize = 1048576 ∧
    retryChunkSize^[116] 1048576 = 9 ∧ retryChunkSize 9 = 9 ∧
    (sampleProcessor.preload_buffer_.Reserve refusingEnvironment 9).2 = false ∧
    ReserveChunk refusingEnvironment fuel sampleProcessor.preload_buffer_ 1048576 = none ∧
    ReserveChunk refusingEnvironment fuel sampleProcessor.preload_buffer_ 9 = none ∧
    PreloadNextFrames refusingEnvironment sampleProcessor 1 = none := by
  have hstuck := ReserveChunk_refused refusingEnvironment (fun _ => rfl)
    sampleProcessor.preload_buffer_ (Nat.le_refl _)
  refine ⟨by decide, retryChunkSize_mebibyte, by decide, by decide,
    hstuck fuel _ (by decide) (by decide), hstuck fuel _ (by decide) (by decide), ?_⟩
  exact PreloadNextFrames_stuck refusingEnvironment sampleProcessor 1 49 (by decide) (by decide)
    (ReserveNextChunk_refused refusingEnvironment (fun _ => rfl) _ (by decide) (by decide)
      (by decide))

/-! ## The loop of `GetRequiredByteSizeForFrames` at the end of the file -/

/-- A call of `ProcessNextFrame` in direct mode at the end of the file: it fails, and the file
position, the frame number and the number of bytes read stay as they are. -/
theorem ProcessNextFrame_exhausted (env : Environment) (p : PreloadFileProcessor)
    (hs : p.status_ = PreloadStatus.kInactive) (hpos : p.file_data_.length ≤ p.file_pos_) :
    ∃ p1, ProcessNextFrame env p = some (p1, false) ∧
      p1.status_ = PreloadStatus.kInactive ∧ p1.file_data_ = p.file_data_ ∧
      p1.file_pos_ = p.file_pos_ ∧ p1.current_frame_number_ = p.current_frame_number_ ∧
      p1.bytes_read_ = p.bytes_read_ := by
  have hs2 : p.status_ ≠ PreloadStatus.kReplay := by rw [hs]; decide
  have hbytes : fileBytes p format.sizeofBlockHeader = [] := by
    unfold fileBytes
    rw [List.drop_eq_nil_of_le hpos]
    rfl
  have hread := ReadBytes_file p format.sizeofBlockHeader hs2
  rw [hbytes] at hread
  have hfail : (p.ReadBytes format.sizeofBlockHeader).2.2 = false := by
    rw [hread]
    rfl
  refine ⟨_, ProcessBlocks_header_failure env p hfail, ?_⟩
  rw [hread]
  simp only [List.length_nil, Nat.add_zero]
  unfold CountBlock
  split_ifs <;> simp_all

/-- In direct mode at the end of the file, with a frame number below the target, the loop of
`GetRequiredByteSizeForFrames` does not end: no bound on its turns is enough. -/
theorem AdvanceToFrame_exhausted (env : Environment) (target : Nat) :
    ∀ (fuel : Nat) (file_processor : PreloadFileProcessor),
      file_processor.status_ = PreloadStatus.kInactive →
      file_processor.file_data_.length ≤ file_processor.file_pos_ →
      file_processor.current_frame_number_ < target →
      AdvanceToFrame env target fuel file_processor = none := by
  intro fuel
  induction fuel with
  | zero => intro fp _ _ _; rfl
  | succ fuel ih =>
    intro fp hs hpos hlt
    obtain ⟨p1, hp, hs1, hfile1, hpos1, hframe1, _⟩ := ProcessNextFrame_exhausted env fp hs hpos
    simp only [AdvanceToFrame, if_pos hlt, hp]
    exact ih p1 hs1 (by rw [hfile1, hpos1]; exact hpos) (by rw [hframe1]; exact hlt)

/-- When the file ends after frames that do not bring the frame number to the target, the loop of
`GetRequiredByteSizeForFrames` does not end. -/
theorem AdvanceToFrame_short_file (env : Environment) (target : Nat) :
    ∀ (frames : List (List Block)) (file_processor : PreloadFileProcessor) (fuel : Nat),
      DirectAt env false [] file_processor (framesBlocks frames) →
      (∀ f ∈ frames, Delimited env false f) →
      file_processor.current_frame_number_ + frames.length < target →
      AdvanceToFrame env target fuel file_processor = none := by
  intro frames
  induction frames with
  | nil =>
    intro fp fuel hat _ htarget
    have hfile : fp.file_data_.drop fp.file_pos_ = [] := hat.file
    exact AdvanceToFrame_exhausted env target fuel fp hat.status
      (List.drop_eq_nil_iff.1 hfile) (by simpa using htarget)
  | cons f frames ih =>
    intro fp fuel hat hall htarget
    cases fuel with
    | zero => rfl
    | succ fuel =>
      have hlt : fp.current_frame_number_ < target := by
        simp only [List.length_cons] at htarget
        omega
      have hf := hall f (List.mem_cons_self _ _)
      obtain ⟨fp1, hp, hat1, hr1⟩ := ProcessNextFrame_pass env false _ _
        (ProcessBlocksBody_directAt env false []) (fun _ _ h => h.direct_at_counted)
        (fun _ _ _ h => h.direct_counted) (fun _ _ _ _ _ h1 h2 => h1.direct_append h2)
        fp f (framesBlocks frames) hat hf
      have hfr : fp1.current_frame_number_ = fp.current_frame_number_ + 1 := by
        rw [hr1.frame, hat.same_handler, frameCount_delimited hf]
      simp only [AdvanceToFrame, if_pos hlt, hp]
      exact ih fp1 fuel hat1 (fun g hg => hall g (List.mem_cons_of_mem _ hg))
        (by simp only [List.length_cons] at htarget; omega)

/-- C34: `GetRequiredByteSizeForFrames` on the sample trace, which holds two frames. Asked for
three frames from the start, the auxiliary processor reaches the end of the file with the frame
number 3, below the target 4; every further `ProcessNextFrame()` fails without a change of the
frame number, so the loop has not ended within any bound on its turns (`none`), and neither
`GetRequiredByteSizeForFrames(3)` nor `PreloadNextFrames(3)` returns. And on the trace of three
frames, after two frames were preloaded and replayed `bytes_read_` is 117 while the file has 82
bytes: `GetRequiredByteSizeForFrames(1)` returns `82 - 117` in 64-bit unsigned arithmetic, that
is `2 ^ 64 - 35`. -/
theorem required_size_loop_at_end_of_file (fuel : Nat) :
    AdvanceToFrame sampleEnvironment (sampleProcessor.current_frame_number_ + 3) fuel
      (Initialize sampleProcessor.file_data_) = none ∧
    GetRequiredByteSizeForFrames sampleEnvironment sampleProcessor 3 = none ∧
    PreloadNextFrames sampleEnvironment sampleProcessor 3 = none ∧
    ((PreloadNextFrames sampleEnvironment threeFrameProcessor 2).bind
      (ProcessFrames sampleEnvironment 2)).map (fun p => p.bytes_read_) = some 117 ∧
    threeFrameTrace.length = 82 ∧
    ((PreloadNextFrames sampleEnvironment threeFrameProcessor 2).bind
      (ProcessFrames sampleEnvironment 2)).bind
        (fun p => GetRequiredByteSizeForFrames sampleEnvironment p 1) = some (2 ^ 64 - 35) := by
  have hloop : ∀ k, AdvanceToFrame sampleEnvironment (sampleProcessor.current_frame_number_ + 3)
      k (Initialize sampleProcessor.file_data_) = none := fun k =>
    AdvanceToFrame_short_file sampleEnvironment _ sampleFrames _ k
      (DirectAt.of_frames rfl sampleFrames_file (sampleFrames_frames false))
      (fun f hf => (sampleFrames_frames false f hf).delimited) (by decide)
  have hsize : GetRequiredByteSizeForFrames sampleEnvironment sampleProcessor 3 = none := by
    unfold GetRequiredByteSizeForFrames
    rw [hloop]
  refine ⟨hloop fuel, hsize, ?_, by decide, by decide, by decide⟩
  rw [PreloadNextFrames_eq, hsize]

/-! ## The count of bytes read -/

theorem Accounted.accounted_refl (p : PreloadFileProcessor) : Accounted p p :=
  ⟨rfl, Nat.le_refl _, Nat.le_refl _, fun h => h, fun h => ⟨h, rfl⟩⟩

theorem Accounted.accounted_then {p p1 p2 : PreloadFileProcessor} (h1 : Accounted p p1)
    (h2 : Accounted p1 p2) : Accounted p p2 := by
  refine ⟨?_, Nat.le_trans h1.file h2.file, Nat.le_trans h1.offset h2.offset,
    fun h => h2.bounded (h1.bounded h), ?_⟩
  · have := h1.bytes
    have := h2.bytes
    omega
  · intro hs
    obtain ⟨hs1, hc1⟩ := h1.steady hs
    obtain ⟨hs2, hc2⟩ := h2.steady hs1
    exact ⟨hs2, hc2.trans hc1⟩

/-- A step that leaves the counts, the read cursor, the content of the buffer and the state as
they are. -/
theorem Accounted.of_fields {p p1 : PreloadFileProcessor}
    (hb : p1.bytes_read_ = p.bytes_read_) (hf : p1.file_pos_ = p.file_pos_)
    (ho : p1.preload_buffer_.replay_offset_ = p.preload_buffer_.replay_offset_)
    (hc : p1.preload_buffer_.container_ = p.preload_buffer_.container_)
    (hs : p1.status_ = p.status_) : Accounted p p1 :=
  ⟨by rw [hb, hf, ho], by rw [hf], by rw [ho], fun h => by rw [ho, hc]; exact h,
    fun h => ⟨by rw [hs]; exact h, hc⟩⟩

/-- A new preload buffer with the same read cursor and at least as much content, the same
content outside `Record` state. -/
theorem Accounted.with_buffer (p : PreloadFileProcessor) (b : PreloadBuffer)
    (ho : b.replay_offset_ = p.preload_buffer_.replay_offset_)
    (hl : p.preload_buffer_.container_.length ≤ b.container_.length)
    (hc : p.status_ ≠ PreloadStatus.kRecord → b.container_ = p.preload_buffer_.container_) :
    Accounted p { p with preload_buffer_ := b } :=
  ⟨by show _ + _ + _ = _ + _ + b.replay_offset_; rw [ho], Nat.le_refl _,
    by show _ ≤ b.replay_offset_; rw [ho],
    fun h => by
      show b.replay_offset_ ≤ b.container_.length
      rw [ho]
      exact Nat.le_trans h hl,
    fun h => ⟨h, hc h⟩⟩

theorem ReadBytes_accounted (p : PreloadFileProcessor) (n : Nat) :
    Accounted p (p.ReadBytes n).1 := by
  by_cases hs : p.status_ = PreloadStatus.kReplay
  · rw [ReadBytes_replay p n hs]
    have hlen : (bufferBytes p n).length ≤
        p.preload_buffer_.container_.length - p.preload_buffer_.replay_offset_ := by
      simp only [bufferBytes, List.length_take, List.length_drop]
      omega
    refine ⟨?_, Nat.le_refl _, Nat.le_add_right _ _, ?_, ?_⟩
    · show p.bytes_read_ + (bufferBytes p n).length + p.file_pos_ +
        p.preload_buffer_.replay_offset_ = p.bytes_read_ + p.file_pos_ +
        (p.preload_buffer_.replay_offset_ + (bufferBytes p n).length)
      omega
    · intro h
      show p.preload_buffer_.replay_offset_ + (bufferBytes p n).length ≤
        p.preload_buffer_.container_.length
      omega
    · intro _
      refine ⟨?_, rfl⟩
      show (if _ then PreloadStatus.kInactive else PreloadStatus.kReplay) ≠ PreloadStatus.kRecord
      split_ifs <;> decide
  · rw [ReadBytes_file p n hs]
    refine ⟨?_, Nat.le_add_right _ _, Nat.le_refl _, fun h => h, fun h => ⟨h, rfl⟩⟩
    show p.bytes_read_ + (fileBytes p n).length + p.file_pos_ +
      p.preload_buffer_.replay_offset_ = p.bytes_read_ + (p.file_pos_ + (fileBytes p n).length) +
      p.preload_buffer_.replay_offset_
    omega

theorem ReadBytes_record (p : PreloadFileProcessor) (n : Nat)
    (hs : p.status_ = PreloadStatus.kRecord) :
    (p.ReadBytes n).1.status_ = PreloadStatus.kRecord ∧
      (p.ReadBytes n).1.preload_buffer_ = p.preload_buffer_ := by
  rw [ReadBytes_file p n (by rw [hs]; decide)]
  exact ⟨hs, rfl⟩

theorem SkipBytes_accounted (p : PreloadFileProcessor) (n : Nat) :
    Accounted p (p.SkipBytes n).1 := by
  refine ⟨?_, Nat.le_add_right _ _, Nat.le_refl _, fun h => h, fun h => ⟨h, rfl⟩⟩
  show p.bytes_read_ + n + p.file_pos_ + p.preload_buffer_.replay_offset_ =
    p.bytes_read_ + (p.file_pos_ + n) + p.preload_buffer_.replay_offset_
  omega

theorem HandleBlockReadError_accounted (p : PreloadFileProcessor) (e : Error) :
    Accounted p (p.HandleBlockReadError e) := by
  unfold HandleBlockReadError
  split_ifs
  · exact Accounted.accounted_refl p
  · exact Accounted.of_fields rfl rfl rfl rfl rfl

theorem PreloadBuffer_Add_fields (b : PreloadBuffer) (bytes : List Byte) :
    (b.Add bytes).replay_offset_ = b.replay_offset_ ∧
      b.container_.length ≤ (b.Add bytes).container_.length := by
  unfold PreloadBuffer.Add
  refine ⟨rfl, ?_⟩
  simp only [List.length_append]
  exact Nat.le_add_right _ _

theorem RecordBlock_accounted (env : Environment) (p : PreloadFileProcessor)
    (block_header : format.BlockHeader) (id_bytes : List Byte) (parameters_size : Nat)
    (hs : p.status_ = PreloadStatus.kRecord) :
    Accounted p (RecordBlock env p block_header id_bytes parameters_size).1 := by
  have hrec : ∀ q : PreloadFileProcessor, q.status_ = PreloadStatus.kRecord →
      ¬ q.status_ ≠ PreloadStatus.kRecord := fun q hq hn => hn hq
  obtain ⟨hc0, ho0⟩ := Reserve_container env p.preload_buffer_
    (format.sizeofBlockHeader + block_header.size)
  obtain ⟨ho1, hl1⟩ := PreloadBuffer_Add_fields
    (p.preload_buffer_.Reserve env (format.sizeofBlockHeader + block_header.size)).1
    block_header.toBytes
  obtain ⟨ho2, hl2⟩ := PreloadBuffer_Add_fields
    ((p.preload_buffer_.Reserve env (format.sizeofBlockHeader + block_header.size)).1.Add
      block_header.toBytes) id_bytes
  have h1 := Accounted.with_buffer p
    (((p.preload_buffer_.Reserve env (format.sizeofBlockHeader + block_header.size)).1.Add
      block_header.toBytes).Add id_bytes) (by rw [ho2, ho1, ho0])
    (by rw [hc0] at hl1; exact Nat.le_trans hl1 hl2) (fun h => absurd h (hrec p hs))
  have h2 := ReadBytes_accounted { p with preload_buffer_ :=
    (((p.preload_buffer_.Reserve env (format.sizeofBlockHeader + block_header.size)).1.Add
      block_header.toBytes).Add id_bytes) } parameters_size
  have hs2 := (ReadBytes_record { p with preload_buffer_ :=
    (((p.preload_buffer_.Reserve env (format.sizeofBlockHeader + block_header.size)).1.Add
      block_header.toBytes).Add id_bytes) } parameters_size hs).1
  obtain ⟨ho3, hl3⟩ := PreloadBuffer_Add_fields
    (ReadBytes { p with preload_buffer_ :=
      (((p.preload_buffer_.Reserve env (format.sizeofBlockHeader + block_header.size)).1.Add
        block_header.toBytes).Add id_bytes) } parameters_size).1.preload_buffer_
    ((ReadBytes { p with preload_buffer_ :=
        (((p.preload_buffer_.Reserve env (format.sizeofBlockHeader + block_header.size)).1.Add
          block_header.toBytes).Add id_bytes) } parameters_size).2.1 ++
      List.replicate (parameters_size - (ReadBytes { p with preload_buffer_ :=
        (((p.preload_buffer_.Reserve env (format.sizeofBlockHeader + block_header.size)).1.Add
          block_header.toBytes).Add id_bytes) } parameters_size).2.1.length) 0)
  have h3 := Accounted.with_buffer _ _ ho3 hl3 (fun h => absurd h (hrec _ hs2))
  have h123 := (h1.accounted_then h2).accounted_then h3
  unfold RecordBlock
  simp only
  split_ifs
  · exact h123
  · exact h123.accounted_then (HandleBlockReadError_accounted _ _)

theorem DispatchBlock_accounted
    (call : format.BlockHeader → Nat → List Byte → DecoderCall) (p : PreloadFileProcessor)
    (block_header : format.BlockHeader) (id : Nat) :
    Accounted p (DispatchBlock call p block_header id).1 := by
  have h1 := ReadBytes_accounted p (dataSize block_header)
  have h2 : Accounted (p.ReadBytes (dataSize block_header)).1
      { (p.ReadBytes (dataSize block_header)).1 with
        calls_ := (p.ReadBytes (dataSize block_header)).1.calls_ ++
          [call block_header id (p.ReadBytes (dataSize block_header)).2.1] } :=
    Accounted.of_fields rfl rfl rfl rfl rfl
  rw [DispatchBlock_eq]
  split_ifs
  · exact h1.accounted_then h2
  · exact (h1.accounted_then h2).accounted_then (HandleBlockReadError_accounted _ _)

theorem callDispatch_accounted (is_method : Bool) (p : PreloadFileProcessor)
    (block_header : format.BlockHeader) (id : Nat) :
    Accounted p (callDispatch is_method p block_header id).1 := by
  unfold callDispatch
  split_ifs
  · exact DispatchBlock_accounted _ p block_header id
  · exact DispatchBlock_accounted _ p block_header id

theorem ProcessCallBlock_accounted (env : Environment) (p : PreloadFileProcessor)
    (block_header : format.BlockHeader) (is_method : Bool) :
    Accounted p (ProcessCallBlock env p block_header is_method).1 := by
  have h0 := ReadBytes_accounted p 4
  rw [ProcessCallBlock_eq]
  split_ifs with hsucc hrec hdel
  · exact h0.accounted_then (RecordBlock_accounted env _ block_header _ _ hrec)
  · exact (h0.accounted_then (callDispatch_accounted is_method _ block_header _)).accounted_then
      (Accounted.of_fields rfl rfl rfl rfl rfl)
  · exact h0.accounted_then (callDispatch_accounted is_method _ block_header _)
  · exact h0.accounted_then (HandleBlockReadError_accounted _ _)

theorem ProcessDataBlock_accounted (env : Environment) (p : PreloadFileProcessor)
    (block_header : format.BlockHeader)
    (call : format.BlockHeader → Nat → List Byte → DecoderCall) :
    Accounted p (ProcessDataBlock env p block_header (DispatchBlock call)).1 := by
  rw [ProcessDataBlock_eq]
  split_ifs with hrec hsucc
  · exact RecordBlock_accounted env p block_header [] _ hrec
  · exact (ReadBytes_accounted p 4).accounted_then (DispatchBlock_accounted call _ block_header _)
  · exact (ReadBytes_accounted p 4).accounted_then (HandleBlockReadError_accounted _ _)

/-- One turn of the loop of `ProcessBlocks`, whatever the input. -/
theorem ProcessBlocksBody_accounted (env : Environment) (p : PreloadFileProcessor) :
    Accounted p (ProcessBlocksBody env p).1 := by
  have h0 := ReadBytes_accounted p format.sizeofBlockHeader
  rw [ProcessBlocksBody_eq]
  split_ifs
  · exact h0.accounted_then (ProcessCallBlock_accounted env _ _ false)
  · exact h0.accounted_then (ProcessCallBlock_accounted env _ _ true)
  · exact h0.accounted_then (ProcessDataBlock_accounted env _ _ DecoderCall.meta_data)
  · exact h0.accounted_then (ProcessDataBlock_accounted env _ _ DecoderCall.state_marker)
  · exact h0.accounted_then (ProcessDataBlock_accounted env _ _ DecoderCall.annotation_block)
  · exact h0.accounted_then (SkipBytes_accounted _ _)
  · exact h0.accounted_then (SkipBytes_accounted _ _)
  · exact h0.accounted_then (Accounted.of_fields rfl rfl rfl rfl rfl)
  · exact h0

theorem CountBlock_accounted (p : PreloadFileProcessor) : Accounted p (CountBlock p) := by
  unfold CountBlock
  split_ifs
  · exact Accounted.of_fields rfl rfl rfl rfl rfl
  · exact Accounted.accounted_refl p

theorem ProcessBlocksLoop_accounted (env : Environment) (fuel : Nat) :
    ∀ (p : PreloadFileProcessor) (r : PreloadFileProcessor × Bool),
      ProcessBlocksLoop env fuel p = some r → Accounted p r.1 := by
  induction fuel with
  | zero => intro p r h; simp [ProcessBlocksLoop] at h
  | succ fuel ih =>
    intro p r h
    have hb := ProcessBlocksBody_accounted env p
    rw [ProcessBlocksLoop_succ] at h
    split_ifs at h with h1 h2
    · cases h
      exact hb
    · exact (hb.accounted_then (CountBlock_accounted _)).accounted_then (ih _ r h)
    · cases h
      exact hb.accounted_then (CountBlock_accounted _)

/-- A call of `ProcessNextFrame`, whatever the state and the input. -/
theorem ProcessNextFrame_accounted (env : Environment) (p : PreloadFileProcessor)
    (r : PreloadFileProcessor × Bool) (h : ProcessNextFrame env p = some r) :
    Accounted p r.1 :=
  ProcessBlocksLoop_accounted env _ p r h

theorem ProcessFrames_accounted (env : Environment) (count : Nat) :
    ∀ (p r : PreloadFileProcessor), ProcessFrames env count p = some r → Accounted p r := by
  induction count with
  | zero =>
    intro p r h
    cases h
    exact Accounted.accounted_refl p
  | succ count ih =>
    intro p r h
    rcases hp : ProcessNextFrame env p with _ | ⟨p1, ok⟩
    · simp [ProcessFrames, hp] at h
    · simp only [ProcessFrames, hp] at h
      exact (ProcessNextFrame_accounted env p _ hp).accounted_then (ih p1 r h)

theorem PreloadFrames_accounted (env : Environment) (count fuel : Nat) :
    ∀ (p r : PreloadFileProcessor), PreloadFrames env count fuel p = some r →
      Accounted p r := by
  induction fuel with
  | zero => intro p r h; simp [PreloadFrames] at h
  | succ fuel ih =>
    intro p r h
    rw [PreloadFrames_succ] at h
    split_ifs at h with hlt
    · rcases hn : ReserveNextChunk env p with _ | buffer1
      · simp [hn] at h
      · obtain ⟨hc, ho⟩ := ReserveNextChunk_container env p buffer1 hn
        rcases hp : ProcessNextFrame env { p with preload_buffer_ := buffer1 } with _ | ⟨p1, ok⟩
        · simp [hn, hp] at h
        · simp only [hn, hp] at h
          have h1 := Accounted.with_buffer p buffer1 ho (by rw [hc]) (fun _ => hc)
          have h2 := ProcessNextFrame_accounted env _ _ hp
          have h3 : Accounted p1
              { p1 with preload_frame_number_ := p1.preload_frame_number_ + 1 } :=
            Accounted.of_fields rfl rfl rfl rfl rfl
          exact ((h1.accounted_then h2).accounted_then h3).accounted_then (ih _ r h)
    · cases h
      exact Accounted.accounted_refl p

/-- The function `PreloadNextFrames`, whatever the input: `bytes_read_` grows by what the file
read position and the read cursor of the buffer advance together. -/
theorem PreloadNextFrames_accounted (env : Environment) (p r : PreloadFileProcessor)
    (count : Nat) (h : PreloadNextFrames env p count = some r) :
    r.bytes_read_ + p.file_pos_ + p.preload_buffer_.replay_offset_ =
      p.bytes_read_ + r.file_pos_ + r.preload_buffer_.replay_offset_ ∧
    p.file_pos_ ≤ r.file_pos_ ∧
    p.preload_buffer_.replay_offset_ ≤ r.preload_buffer_.replay_offset_ := by
  rw [PreloadNextFrames_eq] at h
  rcases ht : GetRequiredByteSizeForFrames env p count with _ | total
  · rw [ht] at h
    cases h
  · rw [ht] at h
    simp only at h
    obtain ⟨_, ho⟩ := Reserve_container env p.preload_buffer_ total
    rcases hp : PreloadFrames env count (count + 1)
        { p with
          preload_buffer_ := (p.preload_buffer_.Reserve env total).1
          status_ := PreloadStatus.kRecord
          preload_frame_number_ := 0 } with _ | p2
    · rw [hp] at h
      cases h
    · rw [hp] at h
      cases h
      have hacc := PreloadFrames_accounted env count (count + 1) _ p2 hp
      have hb : p2.bytes_read_ + p.file_pos_ +
          (p.preload_buffer_.Reserve env total).1.replay_offset_ =
          p.bytes_read_ + p2.file_pos_ + p2.preload_buffer_.replay_offset_ := hacc.bytes
      have hf : p.file_pos_ ≤ p2.file_pos_ := hacc.file
      have hoff : (p.preload_buffer_.Reserve env total).1.replay_offset_ ≤
          p2.preload_buffer_.replay_offset_ := hacc.offset
      rw [ho] at hb hoff
      exact ⟨hb, hf, hoff⟩

/-- On frames of a well-formed trace `PreloadNextFrames` moves the file read position behind the
frames, appends the blocks that are not skipped to the preload buffer and leaves the read cursor
of the buffer where it was. -/
theorem PreloadNextFrames_run (env : Environment) (handler : Bool) (rest : List Byte)
    (frames : List (List Block)) (p r : PreloadFileProcessor)
    (hat : DirectAt env handler rest p (framesBlocks frames))
    (hall : ∀ f ∈ frames, Delimited env handler f)
    (h : PreloadNextFrames env p frames.length = some r) :
    r.file_pos_ = p.file_pos_ + (traceBytes (framesBlocks frames)).length ∧
    r.preload_buffer_.container_ = p.preload_buffer_.container_ ++
      traceBytes (bufferedBlocks env handler (framesBlocks frames)) ∧
    r.preload_buffer_.replay_offset_ = p.preload_buffer_.replay_offset_ ∧
    r.status_ = PreloadStatus.kReplay := by
  rw [PreloadNextFrames_eq] at h
  rcases ht : GetRequiredByteSizeForFrames env p frames.length with _ | total
  · rw [ht] at h
    cases h
  · rw [ht] at h
    simp only at h
    obtain ⟨hc, ho⟩ := Reserve_container env p.preload_buffer_ total
    rcases hp : PreloadFrames env frames.length (frames.length + 1)
        { p with
          preload_buffer_ := (p.preload_buffer_.Reserve env total).1
          status_ := PreloadStatus.kRecord
          preload_frame_number_ := 0 } with _ | p2
    · rw [hp] at h
      cases h
    · rw [hp] at h
      cases h
      have hat0 : RecordAt env handler rest 0
          { p with
            preload_buffer_ := (p.preload_buffer_.Reserve env total).1
            status_ := PreloadStatus.kRecord
            preload_frame_number_ := 0 } (framesBlocks frames ++ []) :=
        ⟨rfl, rfl, hat.same_handler, by rw [List.append_nil]; exact hat.file,
          by rw [List.append_nil]; exact hat.wf⟩
      obtain ⟨_, hrun⟩ := (PreloadFrames_record env handler rest frames.length frames 0 _ []
        (frames.length + 1) hat0 hall (Nat.zero_add _) (Nat.lt_succ_self _)).1 p2 hp
      refine ⟨hrun.pos, ?_, ?_, rfl⟩
      · show p2.preload_buffer_.container_ = _
        rw [hrun.container]
        show (p.preload_buffer_.Reserve env total).1.container_ ++
          traceBytes (bufferedBlocks env p.annotation_handler_ (framesBlocks frames)) = _
        rw [hc, hat.same_handler]
      · show p2.preload_buffer_.replay_offset_ = _
        rw [hrun.replay_offset]
        exact ho

/-- The replay of preloaded frames of a well-formed trace empties the preload buffer and counts
the bytes of the buffer. -/
theorem preloaded_frames_bytes (env : Environment) (p : PreloadFileProcessor)
    (frames : List (List Block)) (rest : List Byte)
    (hs : p.status_ = PreloadStatus.kInactive)
    (hbuf : p.preload_buffer_.replay_offset_ = p.preload_buffer_.container_.length)
    (hfile : FileAt p (traceBytes (framesBlocks frames) ++ rest))
    (hframes : ∀ f ∈ frames, IsFrame env p.annotation_handler_ f)
    (preloaded : PreloadFileProcessor)
    (h : PreloadNextFrames env p frames.length = some preloaded) :
    preloaded.bytes_read_ = p.bytes_read_ + (traceBytes (framesBlocks frames)).length ∧
    preloaded.preload_buffer_.container_ = p.preload_buffer_.container_ ++
      traceBytes (bufferedBlocks env p.annotation_handler_ (framesBlocks frames)) ∧
    ∃ replayed, ProcessFrames env frames.length preloaded = some replayed ∧
      replayed.preload_buffer_.ReplayFinished = true ∧
      replayed.preload_buffer_.replay_offset_ = preloaded.preload_buffer_.replay_offset_ +
        (traceBytes (bufferedBlocks env p.annotation_handler_ (framesBlocks frames))).length ∧
      replayed.file_pos_ = preloaded.file_pos_ ∧
      replayed.bytes_read_ = preloaded.bytes_read_ +
        (traceBytes (bufferedBlocks env p.annotation_handler_ (framesBlocks frames))).length := by
  have hat := DirectAt.of_frames hs hfile hframes
  have hdel : ∀ f ∈ frames, Delimited env p.annotation_handler_ f :=
    fun f hf => (hframes f hf).delimited
  obtain ⟨hpos, hcont, hoff, hstatus⟩ := PreloadNextFrames_run env p.annotation_handler_ rest
    frames p preloaded hat hdel h
  obtain ⟨hbytes, _, _⟩ := PreloadNextFrames_accounted env p preloaded _ h
  have hb1 : preloaded.bytes_read_ =
      p.bytes_read_ + (traceBytes (framesBlocks frames)).length := by
    rw [hpos, hoff] at hbytes
    omega
  refine ⟨hb1, hcont, ?_⟩
  have hreplay : ∀ replayed, ProcessFrames env frames.length preloaded = some replayed →
      replayed.file_pos_ = preloaded.file_pos_ →
      replayed.preload_buffer_.container_.length ≤ replayed.preload_buffer_.replay_offset_ →
      replayed.preload_buffer_.ReplayFinished = true ∧
      replayed.preload_buffer_.replay_offset_ = preloaded.preload_buffer_.replay_offset_ +
        (traceBytes (bufferedBlocks env p.annotation_handler_ (framesBlocks frames))).length ∧
      replayed.file_pos_ = preloaded.file_pos_ ∧
      replayed.bytes_read_ = preloaded.bytes_read_ +
        (traceBytes (bufferedBlocks env p.annotation_handler_ (framesBlocks frames))).length := by
    intro replayed hr hsame hdrained
    have hacc := ProcessFrames_accounted env _ preloaded replayed hr
    have hle := hacc.bounded (by rw [hoff, hbuf, hcont, List.length_append]; omega)
    obtain ⟨_, hc2⟩ := hacc.steady (by rw [hstatus]; decide)
    have hlen : replayed.preload_buffer_.container_.length =
        p.preload_buffer_.container_.length +
          (traceBytes (bufferedBlocks env p.annotation_handler_
            (framesBlocks frames))).length := by
      rw [hc2, hcont, List.length_append]
    have hoff2 : replayed.preload_buffer_.replay_offset_ =
        preloaded.preload_buffer_.replay_offset_ +
          (traceBytes (bufferedBlocks env p.annotation_handler_
            (framesBlocks frames))).length := by
      rw [hoff, hbuf]
      omega
    refine ⟨by simp only [PreloadBuffer.ReplayFinished, decide_eq_true_eq]; exact hdrained,
      hoff2, hsame, ?_⟩
    have := hacc.bytes
    rw [hsame, hoff2] at this
    omega
  by_cases hne : frames = []
  · subst hne
    refine ⟨preloaded, rfl, hreplay preloaded rfl rfl ?_⟩
    rw [hcont, hoff, hbuf]
    simp [framesBlocks, bufferedBlocks, traceBytes]
  · obtain ⟨hrep, _, _⟩ := PreloadNextFrames_records env p.annotation_handler_ rest frames p
      preloaded hat hdel hne hbuf h
    rw [bufferedBlocks_framesBlocks] at hrep
    have hdel2 : ∀ f ∈ frames.map (bufferedBlocks env p.annotation_handler_),
        Delimited env p.annotation_handler_ f := by
      intro f hf
      obtain ⟨g, hg, rfl⟩ := List.mem_map.1 hf
      exact (hdel g hg).buffered
    obtain ⟨replayed, hr, hat2, hrun⟩ := ProcessFrames_replay env p.annotation_handler_
      (frames.map (bufferedBlocks env p.annotation_handler_)) preloaded []
      (by rw [List.append_nil]; exact hrep) hdel2
    rw [List.length_map] at hr
    have hdrop : replayed.preload_buffer_.container_.drop
        replayed.preload_buffer_.replay_offset_ = [] := hat2.replaying.buffer
    exact ⟨replayed, hr, hreplay replayed hr hrun.pos (List.drop_eq_nil_iff.1 hdrop)⟩

/-- The direct replay of frames of a well-formed trace counts the bytes of the frames. -/
theorem direct_frames_bytes (env : Environment) (p : PreloadFileProcessor)
    (frames : List (List Block)) (rest : List Byte)
    (hs : p.status_ = PreloadStatus.kInactive)
    (hfile : FileAt p (traceBytes (framesBlocks frames) ++ rest))
    (hframes : ∀ f ∈ frames, IsFrame env p.annotation_handler_ f) :
    ∃ direct, ProcessFrames env frames.length p = some direct ∧
      direct.bytes_read_ = p.bytes_read_ + (traceBytes (framesBlocks frames)).length := by
  have hat := DirectAt.of_frames hs hfile hframes
  have hdel : ∀ f ∈ frames, Delimited env p.annotation_handler_ f :=
    fun f hf => (hframes f hf).delimited
  obtain ⟨direct, hd, _, hrun⟩ := ProcessFrames_direct env p.annotation_handler_ rest frames p []
    (by rw [List.append_nil]; exact hat) hdel
  refine ⟨direct, hd, ?_⟩
  have := (ProcessFrames_accounted env _ p direct hd).bytes
  rw [hrun.pos, hrun.buffer] at this
  omega

/-- C35: the count `bytes_read_` over a preload and its replay. Let the processor be in
`Inactive` state with nothing left to replay in its preload buffer, its file read position at `n`
frames of a well-formed trace. Direct replay of the `n` frames (`n` calls of `ProcessNextFrame`)
makes `bytes_read_` grow by the number of bytes of the frames. When `PreloadNextFrames(n)`
returns, `bytes_read_` has grown by the same number, the bytes read from the file in `Record`
state, and the buffer has gained the blocks that are not skipped; the `n` calls of
`ProcessNextFrame` after it return, leave the buffer drained, and make `bytes_read_` grow again
by the number of bytes read back from the buffer: `bytes_read_` ends above the value of the
direct replay by exactly the number of bytes that were buffered. Whatever the input, over
`PreloadNextFrames` and any number of calls of `ProcessNextFrame` after it `bytes_read_` grows by
what the file read position and the read cursor of the buffer advance together. And
`PreloadNextFrames(n)` does return when no allocation fails and the file holds well-formed frames
up to the last one asked for. -/
theorem bytes_read_counts_twice (env : Environment) (p : PreloadFileProcessor)
    (frames : List (List Block)) (rest : List Byte)
    (hs : p.status_ = PreloadStatus.kInactive)
    (hbuf : p.preload_buffer_.replay_offset_ = p.preload_buffer_.container_.length)
    (hfile : FileAt p (traceBytes (framesBlocks frames) ++ rest))
    (hframes : ∀ f ∈ frames, IsFrame env p.annotation_handler_ f) :
    (∃ direct, ProcessFrames env frames.length p = some direct ∧
      direct.bytes_read_ = p.bytes_read_ + (traceBytes (framesBlocks frames)).length ∧
      ∀ preloaded, PreloadNextFrames env p frames.length = some preloaded →
        preloaded.bytes_read_ = p.bytes_read_ + (traceBytes (framesBlocks frames)).length ∧
        preloaded.preload_buffer_.container_ = p.preload_buffer_.container_ ++
          traceBytes (bufferedBlocks env p.annotation_handler_ (framesBlocks frames)) ∧
        ∃ replayed, ProcessFrames env frames.length preloaded = some replayed ∧
          replayed.preload_buffer_.ReplayFinished = true ∧
          replayed.bytes_read_ = preloaded.bytes_read_ +
            (traceBytes (bufferedBlocks env p.annotation_handler_
              (framesBlocks frames))).length ∧
          replayed.bytes_read_ = direct.bytes_read_ +
            (traceBytes (bufferedBlocks env p.annotation_handler_
              (framesBlocks frames))).length) ∧
    (∀ (n k : Nat) (preloaded replayed : PreloadFileProcessor),
      PreloadNextFrames env p n = some preloaded →
      ProcessFrames env k preloaded = some replayed →
      p.file_pos_ ≤ replayed.file_pos_ ∧
      p.preload_buffer_.replay_offset_ ≤ replayed.preload_buffer_.replay_offset_ ∧
      replayed.bytes_read_ + p.file_pos_ + p.preload_buffer_.replay_offset_ =
        p.bytes_read_ + replayed.file_pos_ + replayed.preload_buffer_.replay_offset_) ∧
    ((∀ n, env.reserve_ok n = true) →
      (∃ all rest0, p.file_data_ = traceBytes (framesBlocks all) ++ rest0 ∧
        (∀ f ∈ all, IsFrame env false f) ∧
        p.current_frame_number_ + frames.length ≤ kFirstFrame + all.length) →
      ∃ preloaded, PreloadNextFrames env p frames.length = some preloaded) := by
  obtain ⟨direct, hd, hdb⟩ := direct_frames_bytes env p frames rest hs hfile hframes
  refine ⟨⟨direct, hd, hdb, ?_⟩, ?_, ?_⟩
  · intro preloaded hp
    obtain ⟨hb1, hcont, replayed, hr, hfin, _, _, hb2⟩ :=
      preloaded_frames_bytes env p frames rest hs hbuf hfile hframes preloaded hp
    exact ⟨hb1, hcont, replayed, hr, hfin, hb2, by rw [hb2, hb1, hdb]⟩
  · intro n k preloaded replayed hp hr
    obtain ⟨h1, h2, h3⟩ := PreloadNextFrames_accounted env p preloaded n hp
    have hacc := ProcessFrames_accounted env k preloaded replayed hr
    refine ⟨Nat.le_trans h2 hacc.file, Nat.le_trans h3 hacc.offset, ?_⟩
    have := hacc.bytes
    omega
  · rintro hok ⟨all, rest0, hall_file, hall, hcount⟩
    exact PreloadNextFrames_returns env p.annotation_handler_ rest frames p
      (DirectAt.of_frames hs hfile hframes) (fun f hf => (hframes f hf).delimited) hok
      (GetRequiredByteSizeForFrames_returns env p frames.length all rest0 hall_file hall hcount)

/-- Witness of C35: the two frames of the sample trace, 66 bytes of which 51 are buffered (the
block of type 9, 15 bytes, is skipped): direct replay leaves `bytes_read_` at 66, the preload at
66, and the replay of the preloaded frames at 117. -/
theorem bytes_read_counts_twice_witness :
    ∃ direct preloaded replayed,
      ProcessFrames sampleEnvironment 2 sampleProcessor = some direct ∧
      PreloadNextFrames sampleEnvironment sampleProcessor 2 = some preloaded ∧
      ProcessFrames sampleEnvironment 2 preloaded = some replayed ∧
      direct.bytes_read_ = 66 ∧ preloaded.bytes_read_ = 66 ∧ replayed.bytes_read_ = 66 + 51 := by
  obtain ⟨⟨direct, hd, hdb, hall⟩, _, hret⟩ := bytes_read_counts_twice sampleEnvironment
    sampleProcessor sampleFrames [] rfl rfl sampleFrames_file (sampleFrames_frames false)
  obtain ⟨preloaded, hp⟩ := hret (fun _ => rfl)
    ⟨sampleFrames, [], by decide, sampleFrames_frames false, by decide⟩
  obtain ⟨hpb, _, replayed, hr, _, _, hrb⟩ := hall preloaded hp
  have h66 : (traceBytes (framesBlocks sampleFrames)).length = 66 := by decide
  have h51 : (traceBytes (bufferedBlocks sampleEnvironment sampleProcessor.annotation_handler_
      (framesBlocks sampleFrames))).length = 51 := by decide
  rw [h66] at hdb hpb
  rw [h51, hdb] at hrb
  exact ⟨direct, preloaded, replayed, hd, hp, hr, hdb, hpb, hrb⟩

end decode
end gfxrecon
namespace gfxrecon

open decode

/-! ## Registered annotations and the replay options editor -/

theorem ReplayOptionsEditor_ProcessAnnotation_registrations (e : ReplayOptionsEditor)
    (m : List (String × format.AnnotationType × String)) (block_header : format.BlockHeader)
    (annotation_type : format.AnnotationType) (label data : String) :
    ReplayOptionsEditor.ProcessAnnotation { e with annotations_to_set_ := m } block_header
        annotation_type label data =
      ({ (e.ProcessAnnotation block_header annotation_type label data).1 with
          annotations_to_set_ := m },
        (e.ProcessAnnotation block_header annotation_type label data).2) := by
  unfold ReplayOptionsEditor.ProcessAnnotation
  split_ifs
  · rfl
  · rfl

theorem ReplayOptionsEditor_copyBlock_registrations (e : ReplayOptionsEditor)
    (m : List (String × format.AnnotationType × String)) (block : FileBlock) :
    ReplayOptionsEditor.copyBlock { e with annotations_to_set_ := m } block =
      ({ (e.copyBlock block).1 with annotations_to_set_ := m }, (e.copyBlock block).2) := rfl

theorem ReplayOptionsEditor_WriteAnnotation_registrations (k : Nat) (e : ReplayOptionsEditor)
    (m : List (String × format.AnnotationType × String))
    (annotation_type : format.AnnotationType) (label data : String) :
    ReplayOptionsEditor.WriteAnnotation k { e with annotations_to_set_ := m } annotation_type
        label data =
      ({ (ReplayOptionsEditor.WriteAnnotation k e annotation_type label data).1 with
          annotations_to_set_ := m },
        (ReplayOptionsEditor.WriteAnnotation k e annotation_type label data).2) := rfl

/-- The pass of a `ReplayOptionsEditor` over blocks does the same whatever the map of registered
annotations is, and leaves the map as it is. -/
theorem ReplayOptionsEditor_Pass_registrations
    (m : List (String × format.AnnotationType × String)) (blocks : List FileBlock) :
    ∀ e : ReplayOptionsEditor,
      FileTransformer.Pass ReplayOptionsEditor.ProcessAnnotation ReplayOptionsEditor.copyBlock
          blocks { e with annotations_to_set_ := m } =
        ({ (FileTransformer.Pass ReplayOptionsEditor.ProcessAnnotation
              ReplayOptionsEditor.copyBlock blocks e).1 with annotations_to_set_ := m },
          (FileTransformer.Pass ReplayOptionsEditor.ProcessAnnotation
            ReplayOptionsEditor.copyBlock blocks e).2) := by
  induction blocks with
  | nil => intro e; rfl
  | cons block blocks ih =>
    intro e
    cases block with
    | annotation block_header annotation_type label data =>
      rw [FileTransformer_Pass_annotation_block, FileTransformer_Pass_annotation_block,
        ReplayOptionsEditor_ProcessAnnotation_registrations]
      split_ifs with h
      · exact ih _
      · rfl
    | other type payload =>
      rw [FileTransformer_Pass_other, FileTransformer_Pass_other,
        ReplayOptionsEditor_copyBlock_registrations]
      split_ifs with h
      · exact ih _
      · rfl

theorem ReplayOptionsEditor_transformerProcess_registrations (e : ReplayOptionsEditor)
    (m : List (String × format.AnnotationType × String)) :
    ReplayOptionsEditor.transformerProcess { e with annotations_to_set_ := m } =
      ({ e.transformerProcess.1 with annotations_to_set_ := m }, e.transformerProcess.2) := by
  rw [ReplayOptionsEditor_transformerProcess_eq, ReplayOptionsEditor_transformerProcess_eq]
  have h := ReplayOptionsEditor_Pass_registrations m e.input_ e
  have hin : ({ e with annotations_to_set_ := m } : ReplayOptionsEditor).input_ = e.input_ := rfl
  have herr : ({ e with annotations_to_set_ := m } : ReplayOptionsEditor).input_error_ =
      e.input_error_ := rfl
  rw [hin, herr, h]

/-- The member function `ReplayOptionsEditor::Process` does the same whatever the map of
registered annotations is, and leaves the map as it is. -/
theorem ReplayOptionsEditor_Process_registrations (k : Nat) (e : ReplayOptionsEditor)
    (m : List (String × format.AnnotationType × String)) :
    ReplayOptionsEditor.Process k { e with annotations_to_set_ := m } =
      ({ (ReplayOptionsEditor.Process k e).1 with annotations_to_set_ := m },
        (ReplayOptionsEditor.Process k e).2) := by
  unfold ReplayOptionsEditor.Process
  have hopt : ({ e with annotations_to_set_ := m } : ReplayOptionsEditor).replay_options_ =
      e.replay_options_ := rfl
  rw [hopt]
  by_cases ho : e.replay_options_ ≠ ""
  · rw [if_pos ho, if_pos ho, ReplayOptionsEditor_WriteAnnotation_registrations]
    rcases hw : ReplayOptionsEditor.WriteAnnotation k e format.AnnotationType.kText
      format.kAnnotationLabelReplayOptions e.replay_options_ with ⟨e1, ok⟩
    cases ok
    · rfl
    · simp only [if_true]
      rw [ReplayOptionsEditor_transformerProcess_registrations]
  · rw [if_neg ho, if_neg ho]
    simp only [if_true]
    rw [ReplayOptionsEditor_transformerProcess_registrations]

/-- Calls of `SetAnnotation` on a replay options editor change the map of registered annotations
and nothing else. -/
theorem ReplayOptionsEditor_setAnnotations_eq
    (registrations : List (format.AnnotationType × String × String)) :
    ∀ e : ReplayOptionsEditor,
      ReplayOptionsEditor.setAnnotations registrations e =
        { e with
          annotations_to_set_ :=
            (ReplayOptionsEditor.setAnnotations registrations e).annotations_to_set_ } := by
  induction registrations with
  | nil => intro e; rfl
  | cons registration rest ih =>
    intro e
    have h := ih (ReplayOptionsEditor.SetAnnotation e registration.1 registration.2.1
      registration.2.2)
    unfold ReplayOptionsEditor.setAnnotations
    rw [h]
    rfl

/-- C39: annotations registered through `SetAnnotation` have no effect on the output of a
`ReplayOptionsEditor`. For every editor (every input, every options string, every state of the
output) and every list of calls of `SetAnnotation` before it, `ReplayOptionsEditor::Process`
returns the same value and leaves the same output, the same room in the output and the same
input as without these calls, and it leaves every registration in the map: none is used for a
replacement, none is erased, none is appended. On the input of the scenario "annotation
rewrite" with the options `"--bar"`, a registration for the label `"replay-options"` and one
for the label `"note"` change nothing in the output. -/
theorem registrations_without_effect (k : Nat) (e : ReplayOptionsEditor)
    (registrations : List (format.AnnotationType × String × String)) :
    (ReplayOptionsEditor.Process k (ReplayOptionsEditor.setAnnotations registrations e)).2 =
      (ReplayOptionsEditor.Process k e).2 ∧
    (ReplayOptionsEditor.Process k
        (ReplayOptionsEditor.setAnnotations registrations e)).1.toFileTransformer =
      (ReplayOptionsEditor.Process k e).1.toFileTransformer ∧
    (ReplayOptionsEditor.Process k
        (ReplayOptionsEditor.setAnnotations registrations e)).1.output_ =
      (ReplayOptionsEditor.Process k e).1.output_ ∧
    (ReplayOptionsEditor.Process k
        (ReplayOptionsEditor.setAnnotations registrations e)).1.annotations_to_set_ =
      (ReplayOptionsEditor.setAnnotations registrations e).annotations_to_set_ ∧
    (ReplayOptionsEditor.Process 5
        (ReplayOptionsEditor.setAnnotations
          [(format.AnnotationType.kText, "replay-options", "--baz"),
           (format.AnnotationType.kText, "note", "hello")] optionsEditor)).1.output_ =
      [FileBlock.annotation { type := 5, size := 31 } format.AnnotationType.kText
         "replay-options" "--bar",
       FileBlock.other 4 [1, 0, 0, 0, 7],
       FileBlock.other 6 [0, 16, 0, 0]] ∧
    (ReplayOptionsEditor.Process 5 optionsEditor).1.output_ =
      [FileBlock.annotation { type := 5, size := 31 } format.AnnotationType.kText
         "replay-options" "--bar",
       FileBlock.other 4 [1, 0, 0, 0, 7],
       FileBlock.other 6 [0, 16, 0, 0]] := by
  have h := ReplayOptionsEditor_Process_registrations k e
    (ReplayOptionsEditor.setAnnotations registrations e).annotations_to_set_
  rw [← ReplayOptionsEditor_setAnnotations_eq registrations e] at h
  rw [h]
  exact ⟨rfl, rfl, rfl, rfl, by decide, by decide⟩

/-! ## Several annotations with a registered label -/

theorem AnnotationEditor_find_erase (m : List (String × format.AnnotationType × String))
    (erased label : String) :
    AnnotationEditor.find (AnnotationEditor.erase m erased) label =
      if erased = label then none else AnnotationEditor.find m label := by
  induction m with
  | nil =>
    simp [AnnotationEditor.erase, AnnotationEditor.find]
  | cons entry m ih =>
    obtain ⟨key, value⟩ := entry
    unfold AnnotationEditor.erase at ih ⊢
    by_cases hk : key = erased
    · rw [List.filter_cons_of_neg (by simpa using hk), ih]
      subst hk
      split_ifs with h
      · rfl
      · simp [AnnotationEditor.find, h]
    · rw [List.filter_cons_of_pos (by simpa using hk)]
      simp only [AnnotationEditor.find]
      rw [ih]
      by_cases h1 : key = label
      · have h2 : ¬ erased = label := fun h => hk (h1.trans h.symm)
        rw [if_pos h1, if_pos h1, if_neg h2]
      · rw [if_neg h1, if_neg h1]

theorem labelledBlocks_append (label : String) (xs ys : List FileBlock) :
    labelledBlocks label (xs ++ ys) = labelledBlocks label xs ++ labelledBlocks label ys := by
  simp [labelledBlocks]

theorem labelledBlocks_other_label (label : String) (block_header : format.BlockHeader)
    (annotation_type : format.AnnotationType) (block_label data : String)
    (h : block_label ≠ label) :
    labelledBlocks label [FileBlock.annotation block_header annotation_type block_label data] =
      [] := by
  simp [labelledBlocks, h]

theorem labelledBlocks_same_label (label : String) (block_header : format.BlockHeader)
    (annotation_type : format.AnnotationType) (data : String) :
    labelledBlocks label [FileBlock.annotation block_header annotation_type label data] =
      [FileBlock.annotation block_header annotation_type label data] := by
  simp [labelledBlocks]

/-- What a successful call of `AnnotationEditor::ProcessAnnotation` writes: with a registration
for the label, the block with the registered data when the block has data and nothing when it
has none; without a registration, the block as it is. -/
theorem AnnotationEditor_ProcessAnnotation_output (e : AnnotationEditor)
    (block_header : format.BlockHeader) (annotation_type : format.AnnotationType)
    (label data : String)
    (hs : (e.ProcessAnnotation block_header annotation_type label data).2 = true) :
    (e.ProcessAnnotation block_header annotation_type label data).1.output_ =
      e.output_ ++
        (match AnnotationEditor.find e.annotations_to_set_ label with
         | some modification =>
           if data ≠ "" then
             [FileBlock.annotation block_header annotation_type label modification.2]
           else []
         | none => [FileBlock.annotation block_header annotation_type label data]) := by
  cases hfind : AnnotationEditor.find e.annotations_to_set_ label with
  | none =>
    have heq : e.ProcessAnnotation block_header annotation_type label data =
        e.baseProcessAnnotation block_header annotation_type label data := by
      unfold AnnotationEditor.ProcessAnnotation
      rw [hfind]
    rw [heq] at hs ⊢
    obtain ⟨_, _, _, hc, _⟩ := AnnotationEditor_base_cases e block_header annotation_type label
      data
    rcases hc with ⟨h0, _⟩ | ⟨_, h1⟩
    · rw [h0] at hs
      cases hs
    · exact h1
  | some modification =>
    obtain ⟨type, new_data⟩ := modification
    rw [AnnotationEditor_ProcessAnnotation_registered e block_header annotation_type type label
      data new_data hfind] at hs ⊢
    obtain ⟨_, _, _, hc, _⟩ := AnnotationEditor_base_cases e block_header annotation_type label
      new_data
    by_cases hd : data ≠ ""
    · rw [if_pos hd] at hs ⊢
      simp only [if_pos hd]
      rcases hc with ⟨h0, _⟩ | ⟨_, h1⟩
      · have hs1 : (e.baseProcessAnnotation block_header annotation_type label new_data).2 =
            true := hs
        rw [h0] at hs1
        cases hs1
      · exact h1
    · rw [if_neg hd]
      simp [if_neg hd]

/-- What a successful copy of a block writes: the block. -/
theorem AnnotationEditor_copyBlock_output (e : AnnotationEditor) (block : FileBlock)
    (hs : (e.copyBlock block).2 = true) :
    (e.copyBlock block).1.output_ = e.output_ ++ [block] := by
  have hw := FileTransformer_WriteBlock_cases e.toFileTransformer block
  simp only [AnnotationEditor.copyBlock] at hs ⊢
  rcases hw with ⟨h0, _⟩ | ⟨_, h1, _⟩
  · rw [h0] at hs
    cases hs
  · exact h1

/-- The pass of an `AnnotationEditor` that has no registration for a label writes every
annotation block of that label as it is, and no other block with that label. -/
theorem AnnotationEditor_Pass_unregistered (label : String) (blocks : List FileBlock) :
    ∀ e : AnnotationEditor,
      AnnotationEditor.find e.annotations_to_set_ label = none →
      (FileTransformer.Pass AnnotationEditor.ProcessAnnotation AnnotationEditor.copyBlock blocks
        e).2 = true →
      labelledBlocks label
          (FileTransformer.Pass AnnotationEditor.ProcessAnnotation AnnotationEditor.copyBlock
            blocks e).1.output_ =
        labelledBlocks label e.output_ ++ labelledBlocks label blocks := by
  induction blocks with
  | nil =>
    intro e _ _
    simp [FileTransformer.Pass, labelledBlocks]
  | cons block blocks ih =>
    intro e hfind hs
    cases block with
    | annotation block_header annotation_type block_label data =>
      rw [FileTransformer_Pass_annotation_block] at hs ⊢
      by_cases hstep : (e.ProcessAnnotation block_header annotation_type block_label data).2 =
          true
      · rw [if_pos hstep] at hs ⊢
        have hout := AnnotationEditor_ProcessAnnotation_output e block_header annotation_type
          block_label data hstep
        have hmap := (AnnotationEditor_ProcessAnnotation_map e block_header annotation_type
          block_label data).1
        have hfind1 : AnnotationEditor.find
            (e.ProcessAnnotation block_header annotation_type block_label
              data).1.annotations_to_set_ label = none := by
          rw [hmap, AnnotationEditor_find_erase, hfind]
          simp
        rw [ih _ hfind1 hs, hout, labelledBlocks_append]
        by_cases hl : block_label = label
        · subst hl
          rw [hfind]
          simp [labelledBlocks]
        · have hgain : labelledBlocks label
              (match AnnotationEditor.find e.annotations_to_set_ block_label with
               | some modification =>
                 if data ≠ "" then
                   [FileBlock.annotation block_header annotation_type block_label
                     modification.2]
                 else []
               | none => [FileBlock.annotation block_header annotation_type block_label data]) =
              [] := by
            cases AnnotationEditor.find e.annotations_to_set_ block_label with
            | none => exact labelledBlocks_other_label _ _ _ _ _ hl
            | some modification =>
              by_cases hd : data ≠ ""
              · simp only [if_pos hd]
                exact labelledBlocks_other_label _ _ _ _ _ hl
              · simp only [if_neg hd]
                rfl
          rw [hgain]
          simp [labelledBlocks, hl]
      · rw [if_neg hstep] at hs
        cases hs
    | other type payload =>
      rw [FileTransformer_Pass_other] at hs ⊢
      by_cases hstep : (e.copyBlock (FileBlock.other type payload)).2 = true
      · rw [if_pos hstep] at hs ⊢
        have hout := AnnotationEditor_copyBlock_output e _ hstep
        have hmap := (AnnotationEditor_copyBlock_cases e (FileBlock.other type payload)).1
        have hfind1 : AnnotationEditor.find
            (e.copyBlock (FileBlock.other type payload)).1.annotations_to_set_ label = none := by
          rw [hmap, hfind]
        rw [ih _ hfind1 hs, hout, labelledBlocks_append]
        simp [labelledBlocks]
      · rw [if_neg hstep] at hs
        cases hs

/-- The pass of an `AnnotationEditor` that has a registration for a label, over blocks in which
the label occurs: the first annotation block of the label is written with the registered data,
or dropped when it has no data; every later one is written as it is. -/
theorem AnnotationEditor_Pass_registered (label : String) (type : format.AnnotationType)
    (new_data : String) (block_header : format.BlockHeader)
    (annotation_type : format.AnnotationType) (data : String) (rest : List FileBlock)
    (pre : List FileBlock) :
    ∀ e : AnnotationEditor,
      AnnotationEditor.find e.annotations_to_set_ label = some (type, new_data) →
      label ∉ annotationLabels pre →
      (FileTransformer.Pass AnnotationEditor.ProcessAnnotation AnnotationEditor.copyBlock
        (pre ++ FileBlock.annotation block_header annotation_type label data :: rest)
        e).2 = true →
      labelledBlocks label
          (FileTransformer.Pass AnnotationEditor.ProcessAnnotation AnnotationEditor.copyBlock
            (pre ++ FileBlock.annotation block_header annotation_type label data :: rest)
            e).1.output_ =
        labelledBlocks label e.output_ ++
          (if data ≠ "" then [FileBlock.annotation block_header annotation_type label new_data]
           else []) ++
          labelledBlocks label rest := by
  induction pre with
  | nil =>
    intro e hfind _ hs
    rw [List.nil_append, FileTransformer_Pass_annotation_block] at hs ⊢
    by_cases hstep : (e.ProcessAnnotation block_header annotation_type label data).2 = true
    · rw [if_pos hstep] at hs ⊢
      have hout := AnnotationEditor_ProcessAnnotation_output e block_header annotation_type
        label data hstep
      have hmap := (AnnotationEditor_ProcessAnnotation_map e block_header annotation_type
        label data).1
      have hfind1 : AnnotationEditor.find
          (e.ProcessAnnotation block_header annotation_type label data).1.annotations_to_set_
          label = none := by
        rw [hmap, AnnotationEditor_find_erase, if_pos rfl]
      rw [AnnotationEditor_Pass_unregistered label rest _ hfind1 hs, hout,
        labelledBlocks_append, hfind]
      by_cases hd : data ≠ ""
      · simp only [if_pos hd]
        rw [labelledBlocks_same_label]
      · simp only [if_neg hd]
        rfl
    · rw [if_neg hstep] at hs
      cases hs
  | cons block pre ih =>
    intro e hfind hpre hs
    cases block with
    | annotation block_header1 annotation_type1 block_label data1 =>
      have hl : block_label ≠ label := by
        intro h
        apply hpre
        simp [annotationLabels, h]
      have hpre1 : label ∉ annotationLabels pre := by
        intro h
        apply hpre
        simp [annotationLabels, h]
      rw [List.cons_append, FileTransformer_Pass_annotation_block] at hs ⊢
      by_cases hstep : (e.ProcessAnnotation block_header1 annotation_type1 block_label data1).2 =
          true
      · rw [if_pos hstep] at hs ⊢
        have hout := AnnotationEditor_ProcessAnnotation_output e block_header1 annotation_type1
          block_label data1 hstep
        have hmap := (AnnotationEditor_ProcessAnnotation_map e block_header1 annotation_type1
          block_label data1).1
        have hfind1 : AnnotationEditor.find
            (e.ProcessAnnotation block_header1 annotation_type1 block_label
              data1).1.annotations_to_set_ label = some (type, new_data) := by
          rw [hmap, AnnotationEditor_find_erase, if_neg hl, hfind]
        have hgain : labelledBlocks label
            (match AnnotationEditor.find e.annotations_to_set_ block_label with
             | some modification =>
               if data1 ≠ "" then
                 [FileBlock.annotation block_header1 annotation_type1 block_label
                   modification.2]
               else []
             | none =>
               [FileBlock.annotation block_header1 annotation_type1 block_label data1]) =
            [] := by
          cases AnnotationEditor.find e.annotations_to_set_ block_label with
          | none => exact labelledBlocks_other_label _ _ _ _ _ hl
          | some modification =>
            by_cases hd : data1 ≠ ""
            · simp only [if_pos hd]
              exact labelledBlocks_other_label _ _ _ _ _ hl
            · simp only [if_neg hd]
              rfl
        rw [ih _ hfind1 hpre1 hs, hout, labelledBlocks_append, hgain, List.append_nil]
      · rw [if_neg hstep] at hs
        cases hs
    | other type1 payload =>
      have hpre1 : label ∉ annotationLabels pre := by
        intro h
        apply hpre
        simpa [annotationLabels] using h
      rw [List.cons_append, FileTransformer_Pass_other] at hs ⊢
      by_cases hstep : (e.copyBlock (FileBlock.other type1 payload)).2 = true
      · rw [if_pos hstep] at hs ⊢
        have hout := AnnotationEditor_copyBlock_output e _ hstep
        have hmap := (AnnotationEditor_copyBlock_cases e (FileBlock.other type1 payload)).1
        have hfind1 : AnnotationEditor.find
            (e.copyBlock (FileBlock.other type1 payload)).1.annotations_to_set_ label =
              some (type, new_data) := by
          rw [hmap, hfind]
        rw [ih _ hfind1 hpre1 hs, hout, labelledBlocks_append]
        simp [labelledBlocks]
      · rw [if_neg hstep] at hs
        cases hs

theorem AnnotationEditor_appendAnnotations_map (k : Nat)
    (m : List (String × format.AnnotationType × String)) :
    ∀ r : AnnotationEditor × Bool,
      (AnnotationEditor.appendAnnotations k m r).1.annotations_to_set_ =
        r.1.annotations_to_set_ := by
  induction m with
  | nil => intro r; rfl
  | cons entry m ih =>
    intro r
    obtain ⟨e, ok⟩ := r
    cases ok
    · rw [AnnotationEditor_appendAnnotations_failed]
    · have hstep : AnnotationEditor.appendAnnotations k (entry :: m) (e, true) =
          AnnotationEditor.appendAnnotations k m
            (e.baseProcessAnnotation
              { type := k
                size :=
                  (format.GetAnnotationBlockBaseSize + entry.1.length + entry.2.2.length) %
                    2 ^ 64 }
              entry.2.1 entry.1 entry.2.2) := by
        simp [AnnotationEditor.appendAnnotations, AnnotationEditor.WriteAnnotation]
      rw [hstep, ih]
      exact (AnnotationEditor_base_cases e _ entry.2.1 entry.1 entry.2.2).1

theorem labelledBlocks_writtenBlock (k : Nat) (label : String)
    (m : List (String × format.AnnotationType × String)) (h : ∀ entry ∈ m, entry.1 ≠ label) :
    labelledBlocks label (m.map (writtenBlock k)) = [] := by
  induction m with
  | nil => rfl
  | cons entry m ih =>
    have h1 : entry.1 ≠ label := h entry (List.mem_cons_self _ _)
    have h2 := ih (fun x hx => h x (List.mem_cons_of_mem _ hx))
    unfold labelledBlocks at h2 ⊢
    rw [List.map_cons, List.filter_cons_of_neg (by simp [writtenBlock, h1])]
    exact h2

theorem annotationLabels_first (pre rest : List FileBlock) (block_header : format.BlockHeader)
    (annotation_type : format.AnnotationType) (label data : String) :
    label ∈ annotationLabels
      (pre ++ FileBlock.annotation block_header annotation_type label data :: rest) := by
  induction pre with
  | nil => simp [annotationLabels]
  | cons block pre ih =>
    cases block with
    | annotation _ _ _ _ => simp [annotationLabels, ih]
    | other _ _ => simpa [annotationLabels] using ih

/-- C38: `AnnotationEditor` edits only the first occurrence of a label. The editor has a
registration for `label`, with the data `new_data`, and the input is `pre`, then an annotation
block of `label`, then `rest`, where `pre` has no annotation block of `label`; `rest` may hold
any number of them. When `Process` returns success, the blocks of `label` in the output are,
after those that were in the output before: the first block with the data `new_data` in place
of its own when it has data, or nothing when it has none; then every annotation block of
`label` in `rest`, each as it is in the input. The blocks of `label` are the same after the pass
and after `Process`, so nothing is appended for `label`; and the registration of `label` is
gone after the pass and after `Process`. `Process` does return success when the output accepts
every write and the input ends without an error. -/
theorem first_occurrence_only (k : Nat) (e : AnnotationEditor) (label : String)
    (type : format.AnnotationType) (new_data : String) (pre rest : List FileBlock)
    (block_header : format.BlockHeader) (annotation_type : format.AnnotationType)
    (data : String)
    (hfind : AnnotationEditor.find e.annotations_to_set_ label = some (type, new_data))
    (hinput : e.input_ =
      pre ++ FileBlock.annotation block_header annotation_type label data :: rest)
    (hpre : label ∉ annotationLabels pre) :
    ((AnnotationEditor.Process k e).2 = true →
      labelledBlocks label (AnnotationEditor.Process k e).1.output_ =
        labelledBlocks label e.output_ ++
          (if data ≠ "" then [FileBlock.annotation block_header annotation_type label new_data]
           else []) ++
          labelledBlocks label rest ∧
      labelledBlocks label (AnnotationEditor.Process k e).1.output_ =
        labelledBlocks label e.transformerProcess.1.output_ ∧
      AnnotationEditor.find e.transformerProcess.1.annotations_to_set_ label = none ∧
      AnnotationEditor.find (AnnotationEditor.Process k e).1.annotations_to_set_ label = none) ∧
    (e.output_room_ = none → e.input_error_ = false →
      (AnnotationEditor.Process k e).2 = true) := by
  obtain ⟨_, _, hroom, hmap⟩ := AnnotationEditor_Pass_map e.input_ e
  refine ⟨fun hs => ?_, fun hnone herr => ?_⟩
  · have hok : e.transformerProcess.2 = true := by
      by_contra hfail
      rw [AnnotationEditor_Process_eq, if_neg hfail] at hs
      cases hs
    have hpass : (FileTransformer.Pass AnnotationEditor.ProcessAnnotation
        AnnotationEditor.copyBlock e.input_ e).2 = true := by
      rw [AnnotationEditor_transformerProcess_eq] at hok
      simp only [Bool.and_eq_true] at hok
      exact hok.1
    have hleft : e.transformerProcess.1.annotations_to_set_ =
        e.annotations_to_set_.filter
          (fun entry => decide (entry.1 ∉ annotationLabels e.input_)) := hmap hpass
    have hmem : label ∈ annotationLabels e.input_ := by
      rw [hinput]
      exact annotationLabels_first pre rest block_header annotation_type label data
    have hother : ∀ entry ∈ e.annotations_to_set_.filter
        (fun entry => decide (entry.1 ∉ annotationLabels e.input_)), entry.1 ≠ label := by
      intro entry hentry heq
      rw [List.mem_filter] at hentry
      have hnot : entry.1 ∉ annotationLabels e.input_ := by simpa using hentry.2
      exact hnot (heq ▸ hmem)
    have hgone : AnnotationEditor.find e.transformerProcess.1.annotations_to_set_ label =
        none := by
      rw [hleft]
      generalize e.annotations_to_set_.filter
        (fun entry => decide (entry.1 ∉ annotationLabels e.input_)) = m at hother
      induction m with
      | nil => rfl
      | cons entry m ih =>
        obtain ⟨key, value⟩ := entry
        have h1 : key ≠ label := hother (key, value) (List.mem_cons_self _ _)
        simp only [AnnotationEditor.find, if_neg h1]
        exact ih (fun x hx => hother x (List.mem_cons_of_mem _ hx))
    have hpassout : labelledBlocks label e.transformerProcess.1.output_ =
        labelledBlocks label e.output_ ++
          (if data ≠ "" then [FileBlock.annotation block_header annotation_type label new_data]
           else []) ++
          labelledBlocks label rest := by
      have hpass1 := hpass
      rw [hinput] at hpass1
      have h := AnnotationEditor_Pass_registered label type new_data block_header
        annotation_type data rest pre e hfind hpre hpass1
      rw [← hinput] at h
      exact h
    have hs1 := hs
    rw [AnnotationEditor_Process_eq, if_pos hok] at hs1
    have hout := (AnnotationEditor_appendAnnotations_output k
      e.transformerProcess.1.annotations_to_set_ e.transformerProcess.1).1 hs1
    have hfinal : labelledBlocks label (AnnotationEditor.Process k e).1.output_ =
        labelledBlocks label e.transformerProcess.1.output_ := by
      rw [AnnotationEditor_Process_eq, if_pos hok, hout, labelledBlocks_append, hleft,
        labelledBlocks_writtenBlock k label _ hother, List.append_nil]
    refine ⟨hfinal.trans hpassout, hfinal, hgone, ?_⟩
    rw [AnnotationEditor_Process_eq, if_pos hok, AnnotationEditor_appendAnnotations_map]
    exact hgone
  · have hok : e.transformerProcess.2 = true := by
      rw [AnnotationEditor_transformerProcess_eq]
      simp [(hroom hnone).1, herr]
    rw [AnnotationEditor_Process_eq, if_pos hok]
    exact (AnnotationEditor_appendAnnotations_output k _ e.transformerProcess.1).2.1
      (hroom hnone).2

/-- Witness of C38: the editor `repeatedEditor` is to set the data of `"app"` to `"demo"`; its
input has the annotations `"app"` with the data `"x"`, `"y"` and none. The output has `"demo"`
for the first, and the other two as they were; nothing is appended. -/
theorem first_occurrence_only_witness :
    (AnnotationEditor.Process 5 repeatedEditor).1.output_ =
      [FileBlock.other 4 [1, 0, 0, 0, 7],
       FileBlock.annotation { type := 5, size := 16 } format.AnnotationType.kText "app" "demo",
       FileBlock.annotation { type := 5, size := 17 } format.AnnotationType.kText "note" "n",
       FileBlock.annotation { type := 5, size := 16 } format.AnnotationType.kText "app" "y",
       FileBlock.annotation { type := 5, size := 15 } format.AnnotationType.kText "app" ""] ∧
    labelledBlocks "app" (AnnotationEditor.Process 5 repeatedEditor).1.output_ =
      labelledBlocks "app" repeatedEditor.output_ ++
        (if "x" ≠ "" then
          [FileBlock.annotation { type := 5, size := 16 } format.AnnotationType.kText "app"
            "demo"]
         else []) ++
        labelledBlocks "app"
          [FileBlock.annotation { type := 5, size := 17 } format.AnnotationType.kText "note" "n",
           FileBlock.annotation { type := 5, size := 16 } format.AnnotationType.kText "app" "y",
           FileBlock.annotation { type := 5, size := 15 } format.AnnotationType.kText "app"
             ""] :=
  ⟨by decide,
    ((first_occurrence_only 5 repeatedEditor "app" format.AnnotationType.kText "demo"
      [FileBlock.other 4 [1, 0, 0, 0, 7]]
      [FileBlock.annotation { type := 5, size := 17 } format.AnnotationType.kText "note" "n",
       FileBlock.annotation { type := 5, size := 16 } format.AnnotationType.kText "app" "y",
       FileBlock.annotation { type := 5, size := 15 } format.AnnotationType.kText "app" ""]
      { type := 5, size := 16 } format.AnnotationType.kText "x" (by decide) (by decide)
      (by decide)).1 (by decide)).1⟩

end gfxrecon
